import Mathlib

/-!
# Verification of the eth0 protocol library (src/eth0.c)

Shallow embedding of the checksum engine, the frame classifiers and the ARP / ICMP / UDP
responders of `src/eth0.c`, followed by theorems about them.

Modelling conventions

* The frame buffer designated by a `uint8_t packet[]` pointer is a function from byte offsets
  to byte values (`Mem`); a pointer into the buffer is its byte offset.  Struct overlays
  (`etherFrame`, `ipFrame`, `arpFrame`, `icmpFrame`, `udpFrame`) become fixed offsets:
  the Ethernet payload starts at offset 14, and the IP payload at `14 + (revSize & 0xF) * 4`.
* Machine integers are natural numbers; every place where the C code truncates
  (`uint32_t sum`, `uint16_t` parameters and locals) carries an explicit `%`.
* The host is little-endian: a `uint16_t` field at offset `a` is `m a + 256 * m (a + 1)`.
* The file-scope variables of `eth0.c` are the fields of `Globals`; functions that touch them
  take and return a `Globals` value.  The two functions of the checksum engine touch the
  accumulator `sum` only and are functions of its value; their callers store it back.
* `etherPutPacket` is modelled by the list of bytes it streams to the controller.
-/

namespace Eth0

/-! ## Data model -/

/-- Byte-addressed memory, indexed by byte offset from the start of the buffer. -/
abbrev Mem := Nat → Nat

/-- Every cell of the memory holds a `uint8_t` value. -/
def IsBytes (m : Mem) : Prop := ∀ i, m i < 256

/-- Memory whose first cells hold the given bytes and whose other cells hold zero. -/
def Mem.ofList (l : List Nat) : Mem := fun i => l.getD i 0

/-- The `n` bytes of memory starting at offset `start`. -/
def bytesAt (m : Mem) (start n : Nat) : List Nat :=
  (List.range n).map (fun i => m (start + i))

/-- Store of a `uint8_t` value at offset `a`. -/
def wr8 (m : Mem) (a v : Nat) : Mem := fun i => if i = a then v else m i

/-- Load of a `uint16_t` field at offset `a` on the little-endian host. -/
def rd16 (m : Mem) (a : Nat) : Nat := m a + 256 * m (a + 1)

/-- Store of a `uint16_t` value at offset `a` on the little-endian host: low byte first. -/
def wr16 (m : Mem) (a v : Nat) : Mem :=
  wr8 (wr8 m a (v % 256)) (a + 1) (v / 256 % 256)

/-- The file-scope variables of `eth0.c` (section "Globals", lines 155-176). -/
structure Globals where
  nextPacketLsb : Nat
  nextPacketMsb : Nat
  sequenceId : Nat
  sum : Nat
  macAddress : Nat → Nat
  ipAddress : Nat → Nat
  ipSubnetMask : Nat → Nat
  ipGwAddress : Nat → Nat
  ipDnsServer : Nat → Nat
  ipDhcpServer : Nat → Nat
  transaction_id : Nat
  siaddr : Nat → Nat
  yiaddr : Nat → Nat
  si_yi_clear : Bool
  lease_time : Nat
  port_num : Nat
  tcp_flags : Nat
  seq_num : Nat
  ack_num : Nat
  telnet_command : Nat → Nat
  command_pending : Bool

/-- The values the globals have at start-up (their C initialisers; zero where none is given). -/
def Globals.init : Globals where
  nextPacketLsb := 0
  nextPacketMsb := 0
  sequenceId := 1
  sum := 0
  macAddress := Mem.ofList [2, 3, 4, 5, 6, 7]
  ipAddress := Mem.ofList [0, 0, 0, 0]
  ipSubnetMask := Mem.ofList [255, 255, 255, 0]
  ipGwAddress := Mem.ofList [0, 0, 0, 0]
  ipDnsServer := Mem.ofList [0, 0, 0, 0]
  ipDhcpServer := Mem.ofList [0, 0, 0, 0]
  transaction_id := 0x10101010
  siaddr := Mem.ofList [0, 0, 0, 0]
  yiaddr := Mem.ofList [0, 0, 0, 0]
  si_yi_clear := true
  lease_time := 0
  port_num := 5
  tcp_flags := 0
  seq_num := 0
  ack_num := 0
  telnet_command := fun _ => 0
  command_pending := false

/-- Result of a handler that transmits: the globals and the buffer after the call, and the
bytes handed to the controller by `etherPutPacket`. -/
structure Sent where
  g : Globals
  packet : Mem
  frame : List Nat

/-! ## Transmission -/

/-- Model of `etherPutPacket(packet, size)`: the `size` bytes (a `uint16_t`) written to the
controller's transmit buffer after the control byte. -/
def etherPutPacket (packet : Mem) (size : Nat) : List Nat :=
  bytesAt packet 0 (size % 65536)

/-! ## Checksum engine -/

/-- The `for` loop of `etherSumWords`: `n` iterations remain, `pData` is the read pointer,
`phase` the byte phase and `sum` the 32-bit accumulator. -/
def etherSumWordsLoop (m : Mem) : Nat → Nat → Nat → Nat → Nat
  | 0, _, _, sum => sum
  | n + 1, pData, phase, sum =>
    let sum1 :=
      if phase ≠ 0 then (sum + (m pData <<< 8)) % 2 ^ 32
      else (sum + m pData) % 2 ^ 32
    etherSumWordsLoop m n (pData + 1) (1 - phase) sum1

/-- Model of `etherSumWords(data, sizeInBytes)`: adds the bytes of the range to the global
accumulator `sum`, low byte first.  `sum` is the only global the function touches: it takes
its value and returns its new value.  `sizeInBytes` is a `uint16_t` parameter. -/
def etherSumWords (sum : Nat) (m : Mem) (data sizeInBytes : Nat) : Nat :=
  etherSumWordsLoop m (sizeInBytes % 65536) data 0 sum

/-- The `while` loop of `getEtherChecksum`.  The first argument bounds the number of
iterations; the accumulator strictly decreases at each iteration, so its own value is
enough. -/
def foldCarries : Nat → Nat → Nat
  | 0, sum => sum
  | fuel + 1, sum =>
    if (sum >>> 16) > 0 then foldCarries fuel ((sum &&& 0xFFFF) + (sum >>> 16))
    else sum

/-- Model of `getEtherChecksum()`, as a function of the global accumulator `sum`: folds the
carries and returns the complement of the low 16 bits (`~result` is computed on `int` and
converted to `uint16_t`, that is `(-result - 1) mod 2^16`), together with the folded value
the call leaves in `sum`. -/
def getEtherChecksum (sum : Nat) : Nat × Nat :=
  let sum1 := foldCarries sum sum
  let result := sum1 &&& 0xFFFF
  ((65536 - 1 - result) % 65536, sum1)

/-- Model of `etherCalcIpChecksum(ip)`, `ip` being the offset of the IP header.  The size of
the second range is an `int` expression converted to `uint16_t`. -/
def etherCalcIpChecksum (g : Globals) (m : Mem) (ip : Nat) : Globals × Mem :=
  let sum0 := 0
  let sum1 := etherSumWords sum0 m ip 10
  let sum2 := etherSumWords sum1 m (ip + 12) (((m ip &&& 0xF) * 4 + 65536 - 12) % 65536)
  let r := getEtherChecksum sum2
  ({ g with sum := r.2 }, wr16 m (ip + 10) r.1)

/-- Model of `htons` (and of `ntohs`, which is defined as `htons`). -/
def htons (value : Nat) : Nat :=
  (((value % 65536) &&& 0xFF00) >>> 8) + (((value % 65536) &&& 0x00FF) <<< 8)

/-! ## Classification predicates -/

/-- Model of `etherIsIp(packet)`. -/
def etherIsIp (g : Globals) (packet : Mem) : Bool × Globals :=
  let ip := 14
  let ok := rd16 packet 12 == htons 0x0800
  if ok then
    let sum0 := 0
    let sum1 := etherSumWords sum0 packet ip ((packet ip &&& 0xF) * 4)
    let r := getEtherChecksum sum1
    (r.1 == 0, { g with sum := r.2 })
  else (ok, g)

/-- The loop `while (ok & (i < IP_ADD_LENGTH))` comparing four buffer bytes at `base` with an
address: `n` iterations remain at most. -/
def ipMatchLoop (packet : Mem) (addr : Nat → Nat) (base : Nat) : Nat → Nat → Bool → Bool
  | 0, _, ok => ok
  | n + 1, i, ok =>
    if ok then ipMatchLoop packet addr base n (i + 1) (packet (base + i) == addr i)
    else ok

/-- Model of `etherIsIpUnicast(packet)`. -/
def etherIsIpUnicast (g : Globals) (packet : Mem) : Bool :=
  ipMatchLoop packet g.ipAddress (14 + 16) 4 0 true

/-- Model of `etherIsPingRequest(packet)`. -/
def etherIsPingRequest (packet : Mem) : Bool :=
  let ip := 14
  let icmp := ip + (packet ip &&& 0xF) * 4
  (packet (ip + 9) == 0x01) && (packet icmp == 8)

/-- Model of `etherIsArpRequest(packet)`. -/
def etherIsArpRequest (g : Globals) (packet : Mem) : Bool :=
  let arp := 14
  let ok := rd16 packet 12 == htons 0x0806
  let ok1 := ipMatchLoop packet g.ipAddress (arp + 24) 4 0 ok
  if ok1 then rd16 packet (arp + 6) == htons 1 else ok1

/-- Model of `etherIsArpResponse(packet)`. -/
def etherIsArpResponse (g : Globals) (packet : Mem) : Bool :=
  let arp := 14
  let ok := rd16 packet 12 == htons 0x0806
  let ok1 := ipMatchLoop packet g.ipAddress (arp + 24) 4 0 ok
  if ok1 then rd16 packet (arp + 6) == htons 2 else ok1

/-- Model of `etherIsUdp(packet)`. -/
def etherIsUdp (g : Globals) (packet : Mem) : Bool × Globals :=
  let ip := 14
  let udp := ip + (packet ip &&& 0xF) * 4
  let ok := packet (ip + 9) == 0x11
  if ok then
    let sum0 := 0
    let sum1 := etherSumWords sum0 packet (ip + 12) 8
    let tmp16 := packet (ip + 9)
    let sum2 := (sum1 + ((tmp16 &&& 0xff) <<< 8)) % 2 ^ 32
    let sum3 := etherSumWords sum2 packet (udp + 4) 2
    let sum4 := etherSumWords sum3 packet udp (htons (rd16 packet (udp + 4)))
    let r := getEtherChecksum sum4
    (r.1 == 0, { g with sum := r.2 })
  else (ok, g)

/-! ## Responders -/

/-- The exchange loops `tmp = a[i]; a[i] = b[i]; b[i] = tmp;` of the responders, `a` and
`b` being offsets of two fields of the buffer: `n` iterations remain, `i` is the index. -/
def swapFields (a b : Nat) : Nat → Nat → Mem → Mem
  | 0, _, m => m
  | n + 1, i, m =>
    let tmp := m (a + i)
    let m1 := wr8 m (a + i) (m (b + i))
    let m2 := wr8 m1 (b + i) tmp
    swapFields a b n (i + 1) m2

/-- Model of `etherSendPingResponse(packet)`.  `icmp_size` is a `uint16_t`, so the
subtraction of 24 wraps modulo 2^16. -/
def etherSendPingResponse (g : Globals) (packet : Mem) : Sent :=
  let ip := 14
  let icmp := ip + (packet ip &&& 0xF) * 4
  let m1 := swapFields 0 6 6 0 packet
  let m2 := swapFields (ip + 16) (ip + 12) 4 0 m1
  let m3 := wr8 m2 icmp 0
  let sum0 := 0
  let sum1 := etherSumWords sum0 m3 icmp 2
  let icmp_size := htons (rd16 m3 (ip + 2))
  let icmp_size1 := (icmp_size + 65536 - 24) % 65536
  let sum2 := etherSumWords sum1 m3 (icmp + 4) icmp_size1
  let r := getEtherChecksum sum2
  let m4 := wr16 m3 (icmp + 2) r.1
  { g := { g with sum := r.2 }, packet := m4,
    frame := etherPutPacket m4 (14 + htons (rd16 m4 (ip + 2))) }

/-- The first loop of `etherSendArpResponse`, over the six hardware-address bytes. -/
def arpMacLoop (macAddress : Nat → Nat) : Nat → Nat → Mem → Mem
  | 0, _, m => m
  | n + 1, i, m =>
    let arp := 14
    let m1 := wr8 m (arp + 18 + i) (m (arp + 8 + i))
    let m2 := wr8 m1 i (m1 (6 + i))
    let m3 := wr8 m2 (arp + 8 + i) (macAddress i)
    let m4 := wr8 m3 (6 + i) (m3 (arp + 8 + i))
    arpMacLoop macAddress n (i + 1) m4

/-- Model of `etherSendArpResponse(packet)`. -/
def etherSendArpResponse (g : Globals) (packet : Mem) : Sent :=
  let arp := 14
  let m1 := wr16 packet (arp + 6) (htons 2)
  let m2 := arpMacLoop g.macAddress 6 0 m1
  let m3 := swapFields (arp + 24) (arp + 14) 4 0 m2
  { g := g, packet := m3, frame := etherPutPacket m3 42 }

/-- The copy loop `copyData[i] = udpData[i]` of `etherSendUdpResponse`; `udpData` is a
buffer of its own. -/
def copyLoop (udpData : Nat → Nat) (copyData : Nat) : Nat → Nat → Mem → Mem
  | 0, _, m => m
  | n + 1, i, m => copyLoop udpData copyData n (i + 1) (wr8 m (copyData + i) (udpData i))

/-- Model of `etherSendUdpResponse(packet, udpData, udpSize)`; `udpSize` is a `uint8_t`
parameter.  The `udp` pointer is computed once on entry, `ip->revSize` is read again at each
use. -/
def etherSendUdpResponse (g : Globals) (packet : Mem) (udpData : Nat → Nat) (udpSize : Nat) :
    Sent :=
  let udpSize := udpSize % 256
  let ip := 14
  let udp := ip + (packet ip &&& 0xF) * 4
  let m1 := swapFields 0 6 6 0 packet
  let m2 := swapFields (ip + 16) (ip + 12) 4 0 m1
  let m3 := wr16 m2 udp (rd16 m2 (udp + 2))
  let m4 := wr16 m3 (ip + 2) (htons ((m3 ip &&& 0xF) * 4 + 8 + udpSize))
  let sum0 := 0
  let sum1 := etherSumWords sum0 m4 ip 10
  let sum2 := etherSumWords sum1 m4 (ip + 12) (((m4 ip &&& 0xF) * 4 + 65536 - 12) % 65536)
  let r := getEtherChecksum sum2
  let m5 := wr16 m4 (ip + 10) r.1
  let m6 := wr16 m5 (udp + 4) (htons (8 + udpSize))
  let m7 := copyLoop udpData (udp + 8) udpSize 0 m6
  let sum3 := 0
  let sum4 := etherSumWords sum3 m7 (ip + 12) 8
  let tmp16 := m7 (ip + 9)
  let sum5 := (sum4 + ((tmp16 &&& 0xff) <<< 8)) % 2 ^ 32
  let sum6 := etherSumWords sum5 m7 (udp + 4) 2
  let sum7 := etherSumWords sum6 m7 udp 6
  let sum8 := etherSumWords sum7 m7 (udp + 8) udpSize
  let r2 := getEtherChecksum sum8
  let m8 := wr16 m7 (udp + 6) r2.1
  { g := { g with sum := r2.2 }, packet := m8,
    frame := etherPutPacket m8 (22 + (m8 ip &&& 0xF) * 4 + udpSize) }

/-- The loop `arp->destIp[i] = arp->sourceIp[i] = ip[i];` of
`etherSendGratuitousArpResponse`; `ip` is the array passed as argument. -/
def gratuitousIpLoop (ip : Nat → Nat) : Nat → Nat → Mem → Mem
  | 0, _, m => m
  | n + 1, i, m =>
    let arp := 14
    let m1 := wr8 m (arp + 14 + i) (ip i)
    let m2 := wr8 m1 (arp + 24 + i) (m1 (arp + 14 + i))
    gratuitousIpLoop ip n (i + 1) m2

/-- The loop `ether->destAddress[i] = arp->destAddress[i] = 0xFF;
ether->sourceAddress[i] = arp->sourceAddress[i] = macAddress[i];` of
`etherSendGratuitousArpResponse`. -/
def gratuitousMacLoop (macAddress : Nat → Nat) : Nat → Nat → Mem → Mem
  | 0, _, m => m
  | n + 1, i, m =>
    let arp := 14
    let m1 := wr8 m (arp + 18 + i) 0xFF
    let m2 := wr8 m1 (0 + i) (m1 (arp + 18 + i))
    let m3 := wr8 m2 (arp + 8 + i) (macAddress i)
    let m4 := wr8 m3 (6 + i) (m3 (arp + 8 + i))
    gratuitousMacLoop macAddress n (i + 1) m4

/-- Model of `etherSendGratuitousArpResponse(packet, ip)`; `ip` is an array of its own. -/
def etherSendGratuitousArpResponse (g : Globals) (packet : Mem) (ip : Nat → Nat) : Sent :=
  let arp := 14
  let m1 := wr16 packet 12 0x0608
  let m2 := wr16 m1 arp (htons 1)
  let m3 := wr16 m2 (arp + 2) (htons 0x0800)
  let m4 := wr8 m3 (arp + 4) 6
  let m5 := wr8 m4 (arp + 5) 4
  let m6 := wr16 m5 (arp + 6) (htons 2)
  let m7 := gratuitousIpLoop ip 4 0 m6
  let m8 := gratuitousMacLoop g.macAddress 6 0 m7
  { g := g, packet := m8, frame := etherPutPacket m8 42 }

/-- First loop of `etherSendArpRequest`: `ether->destAddress[i] = 0xFF;
ether->sourceAddress[i] = macAddress[i];`. -/
def arpRequestEtherLoop (macAddress : Nat → Nat) : Nat → Nat → Mem → Mem
  | 0, _, m => m
  | n + 1, i, m =>
    let m1 := wr8 m (0 + i) 0xFF
    let m2 := wr8 m1 (6 + i) (macAddress i)
    arpRequestEtherLoop macAddress n (i + 1) m2

/-- Second loop of `etherSendArpRequest`: `arp->sourceAddress[i] = macAddress[i];
arp->destAddress[i] = 0xFF;`. -/
def arpRequestMacLoop (macAddress : Nat → Nat) : Nat → Nat → Mem → Mem
  | 0, _, m => m
  | n + 1, i, m =>
    let arp := 14
    let m1 := wr8 m (arp + 8 + i) (macAddress i)
    let m2 := wr8 m1 (arp + 18 + i) 0xFF
    arpRequestMacLoop macAddress n (i + 1) m2

/-- Third loop of `etherSendArpRequest`: `arp->sourceIp[i] = ipAddress[i];
arp->destIp[i] = ip[i];`. -/
def arpRequestIpLoop (ipAddress ip : Nat → Nat) : Nat → Nat → Mem → Mem
  | 0, _, m => m
  | n + 1, i, m =>
    let arp := 14
    let m1 := wr8 m (arp + 14 + i) (ipAddress i)
    let m2 := wr8 m1 (arp + 24 + i) (ip i)
    arpRequestIpLoop ipAddress ip n (i + 1) m2

/-- Model of `etherSendArpRequest(packet, ip)`; `ip` is an array of its own. -/
def etherSendArpRequest (g : Globals) (packet : Mem) (ip : Nat → Nat) : Sent :=
  let arp := 14
  let m1 := arpRequestEtherLoop g.macAddress 6 0 packet
  let m2 := wr16 m1 12 0x0608
  let m3 := wr16 m2 arp (htons 1)
  let m4 := wr16 m3 (arp + 2) (htons 0x0800)
  let m5 := wr8 m4 (arp + 4) 6
  let m6 := wr8 m5 (arp + 5) 4
  let m7 := wr16 m6 (arp + 6) (htons 1)
  let m8 := arpRequestMacLoop g.macAddress 6 0 m7
  let m9 := arpRequestIpLoop g.ipAddress ip 4 0 m8
  { g := g, packet := m9, frame := etherPutPacket m9 42 }

/-! ## DHCP client -/

/-- Load of a `uint32_t` field at offset `a` on the little-endian host. -/
def rd32 (m : Mem) (a : Nat) : Nat :=
  m a + 256 * m (a + 1) + 65536 * m (a + 2) + 16777216 * m (a + 3)

/-- Store of a `uint32_t` value at offset `a` on the little-endian host: low byte first. -/
def wr32 (m : Mem) (a v : Nat) : Mem :=
  wr8 (wr8 (wr8 (wr8 m a (v % 256)) (a + 1) (v / 256 % 256)) (a + 2) (v / 65536 % 256))
    (a + 3) (v / 16777216 % 256)

/-- The constant array `broadcast_mac`. -/
def broadcast_mac : Nat → Nat := Mem.ofList [0xFF, 0xFF, 0xFF, 0xFF, 0xFF, 0xFF]

/-- The file-scope variable `ip_udp`; no function assigns it. -/
def ip_udp : Nat := 0x11

/-- The constant `IPv4_frame`. -/
def IPv4_frame : Nat := 0x0800

/-- The constant `ipHeaderLength`. -/
def ipHeaderLength : Nat := 20

/-- The constant `udpHeaderLength`. -/
def udpHeaderLength : Nat := 8

/-- The constant `dhcpSize`, `sizeof(dhcpFrame)`: the 240 bytes of the fixed DHCP fields, the
flexible `options` member not counted. -/
def dhcpSize : Nat := 240

/-- DHCP message types of `eth0.h`. -/
def DHCPDISCOVER : Nat := 1

/-- DHCP message type REQUEST. -/
def DHCPREQUEST : Nat := 3

/-- DHCP message type RELEASE. -/
def DHCPRELEASE : Nat := 7

/-- Option code `SN_MASK_CODE`. -/
def SN_MASK_CODE : Nat := 1

/-- Option code `GW_CODE`. -/
def GW_CODE : Nat := 3

/-- Option code `DNS_CODE`. -/
def DNS_CODE : Nat := 6

/-- Option code `REQ_IP_MSG`. -/
def REQ_IP_MSG : Nat := 50

/-- Option code `IP_LEASE_CODE`. -/
def IP_LEASE_CODE : Nat := 51

/-- Option code `DHCPMESSAGE`. -/
def DHCPMESSAGE : Nat := 53

/-- Option code `SERVERID`. -/
def SERVERID : Nat := 54

/-- Option code `PARAMETER_REQUEST`. -/
def PARAMETER_REQUEST : Nat := 55

/-- Option code `END`. -/
def END : Nat := 255

/-- First loop of `dhcpSendMessage`: `destAddress[i] = broadcast_mac[i];
sourceAddress[i] = macAddress[i];`. -/
def dhcpEtherLoop (macAddress : Nat → Nat) : Nat → Nat → Mem → Mem
  | 0, _, m => m
  | n + 1, i, m =>
    let m1 := wr8 m (0 + i) (broadcast_mac i)
    let m2 := wr8 m1 (6 + i) (macAddress i)
    dhcpEtherLoop macAddress n (i + 1) m2

/-- Second loop of `dhcpSendMessage`: `sourceIp[i] = ipAddress[i]; destIp[i] = ipAdd[i];`,
`ip` being the offset of the IP header. -/
def dhcpIpLoop (ipAddress ipAdd : Nat → Nat) (ip : Nat) : Nat → Nat → Mem → Mem
  | 0, _, m => m
  | n + 1, i, m =>
    let m1 := wr8 m (ip + 12 + i) (ipAddress i)
    let m2 := wr8 m1 (ip + 16 + i) (ipAdd i)
    dhcpIpLoop ipAddress ipAdd ip n (i + 1) m2

/-- The `chaddr` loop of `dhcpSendMessage`, `dhcp` being the offset of the DHCP header. -/
def dhcpChaddrLoop (macAddress : Nat → Nat) (dhcp : Nat) : Nat → Nat → Mem → Mem
  | 0, _, m => m
  | n + 1, i, m =>
    let m1 := if i < 6 then wr8 m (dhcp + 28 + i) (macAddress i) else wr8 m (dhcp + 28 + i) 0
    dhcpChaddrLoop macAddress dhcp n (i + 1) m1

/-- The loop of `dhcpSendMessage` that clears the 192-byte `data` field. -/
def dhcpDataLoop (dhcp : Nat) : Nat → Nat → Mem → Mem
  | 0, _, m => m
  | n + 1, i, m => dhcpDataLoop dhcp n (i + 1) (wr8 m (dhcp + 44 + i) 0)

/-- The loop of the `DHCPDISCOVER` case:
`ciaddr[i] = yiaddr[i] = siaddr[i] = giaddr[i] = 0`. -/
def dhcpDiscoverLoop (dhcp : Nat) : Nat → Nat → Mem → Mem
  | 0, _, m => m
  | n + 1, i, m =>
    let m1 := wr8 m (dhcp + 24 + i) 0
    let m2 := wr8 m1 (dhcp + 20 + i) 0
    let m3 := wr8 m2 (dhcp + 16 + i) 0
    let m4 := wr8 m3 (dhcp + 12 + i) 0
    dhcpDiscoverLoop dhcp n (i + 1) m4

/-- The loop of the `DHCPREQUEST` case.  The state is the pair of the globals `yiaddr` and
`siaddr` and the buffer: `ciaddr[i] = giaddr[i] = 0`, and while `si_yi_clear` holds the
globals take the `yiaddr` and `siaddr` fields of the buffer. -/
def dhcpRequestLoop (si_yi_clear : Bool) (dhcp : Nat) :
    Nat → Nat → (Nat → Nat) × (Nat → Nat) × Mem → (Nat → Nat) × (Nat → Nat) × Mem
  | 0, _, s => s
  | n + 1, i, (yiaddr, siaddr, m) =>
    let m1 := wr8 m (dhcp + 24 + i) 0
    let m2 := wr8 m1 (dhcp + 12 + i) 0
    let yiaddr1 := if si_yi_clear then wr8 yiaddr i (m2 (dhcp + 16 + i)) else yiaddr
    let siaddr1 := if si_yi_clear then wr8 siaddr i (m2 (dhcp + 20 + i)) else siaddr
    dhcpRequestLoop si_yi_clear dhcp n (i + 1) (yiaddr1, siaddr1, m2)

/-- The stores of the `DHCPDISCOVER` case after its loop; `o` is the offset of `options`. -/
def dhcpDiscoverStores (m : Mem) (dhcp type : Nat) : Mem :=
  let o := dhcp + 240
  let m1 := wr16 m (dhcp + 10) (htons 0x8000)
  let m2 := wr8 m1 (o + 0) DHCPMESSAGE
  let m3 := wr8 m2 (o + 1) 1
  let m4 := wr8 m3 (o + 2) type
  wr8 m4 (o + 3) END

/-- The stores of the `DHCPREQUEST` case after its loop. -/
def dhcpRequestStores (yiaddr siaddr : Nat → Nat) (m : Mem) (dhcp type : Nat) : Mem :=
  let o := dhcp + 240
  let m0 := wr8 m (o + 0) DHCPMESSAGE
  let m1 := wr8 m0 (o + 1) 1
  let m2 := wr8 m1 (o + 2) type
  let m3 := wr8 m2 (o + 3) REQ_IP_MSG
  let m4 := wr8 m3 (o + 4) 4
  let m5 := wr8 m4 (o + 5) (yiaddr 0)
  let m6 := wr8 m5 (o + 6) (yiaddr 1)
  let m7 := wr8 m6 (o + 7) (yiaddr 2)
  let m8 := wr8 m7 (o + 8) (yiaddr 3)
  let m9 := wr8 m8 (o + 9) SERVERID
  let m10 := wr8 m9 (o + 10) 4
  let m11 := wr8 m10 (o + 11) (siaddr 0)
  let m12 := wr8 m11 (o + 12) (siaddr 1)
  let m13 := wr8 m12 (o + 13) (siaddr 2)
  let m14 := wr8 m13 (o + 14) (siaddr 3)
  let m15 := wr8 m14 (o + 15) PARAMETER_REQUEST
  let m16 := wr8 m15 (o + 16) 3
  let m17 := wr8 m16 (o + 17) SN_MASK_CODE
  let m18 := wr8 m17 (o + 18) GW_CODE
  let m19 := wr8 m18 (o + 19) DNS_CODE
  let m20 := wr8 m19 (o + 20) END
  wr8 m20 (o + 21) END

/-- The stores of the `DHCPRELEASE` case. -/
def dhcpReleaseStores (m : Mem) (dhcp type : Nat) : Mem :=
  let o := dhcp + 240
  let m1 := wr8 m (o + 0) DHCPMESSAGE
  let m2 := wr8 m1 (o + 1) 1
  let m3 := wr8 m2 (o + 2) type
  wr8 m3 (o + 3) END

/-- The `switch (type)` of `dhcpSendMessage`: the globals `yiaddr`, `siaddr` and
`si_yi_clear`, the buffer and the local `lenOpts` after it.  The cases that only `break`
leave `lenOpts` uninitialised: `lenOptsInit` stands for the indeterminate value it then
has. -/
def dhcpSwitch (g : Globals) (m : Mem) (dhcp type lenOptsInit : Nat) :
    (Nat → Nat) × (Nat → Nat) × Bool × Mem × Nat :=
  if type = DHCPDISCOVER then
    let m1 := dhcpDiscoverLoop dhcp 4 0 m
    (g.yiaddr, g.siaddr, g.si_yi_clear, dhcpDiscoverStores m1 dhcp type, 4)
  else if type = DHCPREQUEST then
    let s := dhcpRequestLoop g.si_yi_clear dhcp 4 0 (g.yiaddr, g.siaddr, m)
    (s.1, s.2.1, false, dhcpRequestStores s.1 s.2.1 s.2.2 dhcp type, 22)
  else if type = DHCPRELEASE then
    (g.yiaddr, g.siaddr, g.si_yi_clear, dhcpReleaseStores m dhcp type, 4)
  else
    (g.yiaddr, g.siaddr, g.si_yi_clear, m, lenOptsInit % 256)

/-- Model of `dhcpSendMessage(packet, type, ipAdd)`.  `type` is a `uint8_t` parameter;
`lenOptsInit` is the indeterminate initial value of the local `lenOpts` (read only for the
types whose case leaves it unassigned). -/
def dhcpSendMessage (g : Globals) (packet : Mem) (type : Nat) (ipAdd : Nat → Nat)
    (lenOptsInit : Nat) : Sent :=
  let type := type % 256
  let initial_id := 0x7147
  let m1 := dhcpEtherLoop g.macAddress 6 0 packet
  let m2 := wr16 m1 12 (htons IPv4_frame)
  let ip := 14
  let m3 := wr8 m2 ip 0x45
  let m4 := wr8 m3 (ip + 1) 0x00
  let m5 := wr16 m4 (ip + 4) (htons initial_id)
  let m6 := wr16 m5 (ip + 6) 0x0000
  let m7 := wr8 m6 (ip + 8) 64
  let m8 := wr8 m7 (ip + 9) ip_udp
  let m9 := wr16 m8 (ip + 10) 0
  let m10 := dhcpIpLoop g.ipAddress ipAdd ip 4 0 m9
  let udp := ip + (m10 ip &&& 0xF) * 4
  let m11 := wr16 m10 udp (htons 68)
  let m12 := wr16 m11 (udp + 2) (htons 67)
  let m13 := wr16 m12 (udp + 6) 0
  let dhcp := udp + 8
  let m14 := wr8 m13 dhcp 1
  let m15 := wr8 m14 (dhcp + 1) 1
  let m16 := wr8 m15 (dhcp + 2) 6
  let m17 := wr8 m16 (dhcp + 3) 0
  let m18 := wr32 m17 (dhcp + 4) g.transaction_id
  let m19 := wr16 m18 (dhcp + 8) 0
  let m20 := wr16 m19 (dhcp + 10) 0
  let m21 := dhcpChaddrLoop g.macAddress dhcp 16 0 m20
  let m22 := dhcpDataLoop dhcp 192 0 m21
  let m23 := wr32 m22 (dhcp + 236) 0x63538263
  let sw := dhcpSwitch g m23 dhcp type lenOptsInit
  let m24 := sw.2.2.2.1
  let lenOpts := sw.2.2.2.2
  let g1 := { g with yiaddr := sw.1, siaddr := sw.2.1, si_yi_clear := sw.2.2.1 }
  let m25 := wr16 m24 (ip + 2) (htons (ipHeaderLength + udpHeaderLength + dhcpSize + lenOpts))
  let m26 := wr16 m25 (udp + 4) (htons (udpHeaderLength + dhcpSize + lenOpts))
  let c := etherCalcIpChecksum g1 m26 ip
  let m27 := c.2
  let sum0 := 0
  let sum1 := etherSumWords sum0 m27 (ip + 12) 8
  let tmp16 := m27 (ip + 9)
  let sum2 := (sum1 + ((tmp16 &&& 0xff) <<< 8)) % 2 ^ 32
  let sum3 := etherSumWords sum2 m27 (udp + 4) 2
  let sum4 := etherSumWords sum3 m27 udp 6
  let sum5 := etherSumWords sum4 m27 (udp + 8) (dhcpSize + lenOpts)
  let r := getEtherChecksum sum5
  let m28 := wr16 m27 (udp + 6) r.1
  { g := { c.1 with sum := r.2 }, packet := m28,
    frame := etherPutPacket m28 (14 + (m28 ip &&& 0xF) * 4 + 8 + dhcpSize + lenOpts) }

/-- Model of `matchesXid(packet)`. -/
def matchesXid (g : Globals) (packet : Mem) : Bool :=
  let ip := 14
  let udp := ip + (packet ip &&& 0xF) * 4
  let dhcp := udp + 8
  rd32 packet (dhcp + 4) == g.transaction_id

/-- Model of `etherIsDhcp(packet)`. -/
def etherIsDhcp (g : Globals) (packet : Mem) : Bool :=
  let ip := 14
  let udp := ip + (packet ip &&& 0xF) * 4
  let ok := (htons (rd16 packet udp) == 67) && (htons (rd16 packet (udp + 2)) == 68)
  ok && matchesXid g packet

/-- Model of `getDhcpMsgNumber(packet)`. -/
def getDhcpMsgNumber (packet : Mem) : Nat :=
  let ip := 14
  let udp := ip + (packet ip &&& 0xF) * 4
  let dhcp := udp + 8
  packet (dhcp + 240 + 2)

/-- Model of `etherSetIpAddress(ip0, ip1, ip2, ip3)`; the parameters are `uint8_t`. -/
def etherSetIpAddress (g : Globals) (ip0 ip1 ip2 ip3 : Nat) : Globals :=
  let a0 := wr8 g.ipAddress 0 (ip0 % 256)
  let a1 := wr8 a0 1 (ip1 % 256)
  let a2 := wr8 a1 2 (ip2 % 256)
  let a3 := wr8 a2 3 (ip3 % 256)
  { g with ipAddress := a3 }

/-- Model of `etherSetIpSubnetMask(mask0, mask1, mask2, mask3)`. -/
def etherSetIpSubnetMask (g : Globals) (mask0 mask1 mask2 mask3 : Nat) : Globals :=
  let a0 := wr8 g.ipSubnetMask 0 (mask0 % 256)
  let a1 := wr8 a0 1 (mask1 % 256)
  let a2 := wr8 a1 2 (mask2 % 256)
  let a3 := wr8 a2 3 (mask3 % 256)
  { g with ipSubnetMask := a3 }

/-- Model of `etherSetIpGatewayAddress(ip0, ip1, ip2, ip3)`. -/
def etherSetIpGatewayAddress (g : Globals) (ip0 ip1 ip2 ip3 : Nat) : Globals :=
  let a0 := wr8 g.ipGwAddress 0 (ip0 % 256)
  let a1 := wr8 a0 1 (ip1 % 256)
  let a2 := wr8 a1 2 (ip2 % 256)
  let a3 := wr8 a2 3 (ip3 % 256)
  { g with ipGwAddress := a3 }

/-- Model of `etherSetIpDnsServer(ip0, ip1, ip2, ip3)`. -/
def etherSetIpDnsServer (g : Globals) (ip0 ip1 ip2 ip3 : Nat) : Globals :=
  let a0 := wr8 g.ipDnsServer 0 (ip0 % 256)
  let a1 := wr8 a0 1 (ip1 % 256)
  let a2 := wr8 a1 2 (ip2 % 256)
  let a3 := wr8 a2 3 (ip3 % 256)
  { g with ipDnsServer := a3 }

/-- The state of the `for` loop of `dhcpStoreVars`: the index `i` (a `uint8_t`), the six
`*_accounted` locals, and the globals. -/
structure DhcpWalk where
  i : Nat
  msg_accounted : Bool
  si_accounted : Bool
  lease_accounted : Bool
  sn_accounted : Bool
  router_accounted : Bool
  dns_accounted : Bool
  g : Globals

/-- The index after `i += dhcp->options[i+1] + 1; ... continue;` and the `i++` of the `for`
statement that `continue` reaches: both are done on a `uint8_t`.  `o` is the offset of
`dhcp->options`. -/
def dhcpSkip (packet : Mem) (o i : Nat) : Nat :=
  ((i + (packet (o + (i + 1)) + 1)) % 256 + 1) % 256

/-- One iteration of the `for` loop of `dhcpStoreVars`, the `i++` included.  The value
assigned to `lease_time` is an `int` expression converted to `uint32_t`. -/
def dhcpStoreBody (packet : Mem) (o : Nat) (s : DhcpWalk) : DhcpWalk :=
  if packet (o + s.i) = DHCPMESSAGE ∧ s.msg_accounted = false then
    { s with i := dhcpSkip packet o s.i, msg_accounted := true }
  else if packet (o + s.i) = SERVERID ∧ s.si_accounted = false then
    { s with i := dhcpSkip packet o s.i, si_accounted := true }
  else if packet (o + s.i) = IP_LEASE_CODE ∧ s.lease_accounted = false then
    { s with
      g := { s.g with
        lease_time := (packet (o + (s.i + 2)) <<< 24 ||| packet (o + (s.i + 3)) <<< 16
          ||| packet (o + (s.i + 4)) <<< 8 ||| packet (o + (s.i + 5)) <<< 0) % 2 ^ 32 }
      i := dhcpSkip packet o s.i, lease_accounted := true }
  else if packet (o + s.i) = SN_MASK_CODE ∧ s.sn_accounted = false then
    { s with
      g := etherSetIpSubnetMask s.g (packet (o + (s.i + 2))) (packet (o + (s.i + 3)))
        (packet (o + (s.i + 4))) (packet (o + (s.i + 5)))
      i := dhcpSkip packet o s.i, sn_accounted := true }
  else if packet (o + s.i) = GW_CODE ∧ s.router_accounted = false then
    { s with
      g := etherSetIpGatewayAddress s.g (packet (o + (s.i + 2))) (packet (o + (s.i + 3)))
        (packet (o + (s.i + 4))) (packet (o + (s.i + 5)))
      i := dhcpSkip packet o s.i, router_accounted := true }
  else if packet (o + s.i) = DNS_CODE ∧ s.dns_accounted = false then
    { s with
      g := etherSetIpDnsServer s.g (packet (o + (s.i + 2))) (packet (o + (s.i + 3)))
        (packet (o + (s.i + 4))) (packet (o + (s.i + 5)))
      i := dhcpSkip packet o s.i, dns_accounted := true }
  else { s with i := (s.i + 1) % 256 }

/-- The `for (i = 0; i < length; i++)` loop of `dhcpStoreVars`.  The first argument bounds
the number of iterations; `none` stands for a loop that has not ended within the bound. -/
def dhcpStoreLoop (packet : Mem) (o length : Nat) : Nat → DhcpWalk → Option DhcpWalk
  | 0, _ => none
  | fuel + 1, s =>
    if s.i < length then dhcpStoreLoop packet o length fuel (dhcpStoreBody packet o s)
    else some s

/-- Model of `dhcpStoreVars(packet)`: the globals after the call.  `length` is the `int`
value `htons(ip->length) - 20 - 8 - 240` converted to `uint8_t`, that is reduced modulo 256
(512 is added before the subtractions to stay within the naturals).  The bound 1792 is
7 × 256: an iteration either advances `i` by one without wrapping or sets one of the six
flags. -/
def dhcpStoreVars (g : Globals) (packet : Mem) : Option Globals :=
  let ip := 14
  let udp := ip + (packet ip &&& 0xF) * 4
  let dhcp := udp + 8
  let g1 := etherSetIpAddress g (packet (dhcp + 16 + 0)) (packet (dhcp + 16 + 1))
    (packet (dhcp + 16 + 2)) (packet (dhcp + 16 + 3))
  let length :=
    (htons (rd16 packet (ip + 2)) + 512 - ipHeaderLength - udpHeaderLength - dhcpSize) % 256
  (dhcpStoreLoop packet (dhcp + 240) length 1792
    { i := 0, msg_accounted := false, si_accounted := false, lease_accounted := false,
      sn_accounted := false, router_accounted := false, dns_accounted := false, g := g1 }).map
    (fun s => s.g)

/-! ## TCP and telnet -/

/-- Model of `etherIsTcp(packet)`: it stores the destination port in `port_num` and the low
byte of the flags word in `tcp_flags` (a `uint8_t`). -/
def etherIsTcp (g : Globals) (packet : Mem) : Bool × Globals :=
  let ip := 14
  let tcp := ip + (packet ip &&& 0xF) * 4
  let port_num := htons (rd16 packet (tcp + 2))
  let tcp_flags := (htons (rd16 packet (tcp + 12)) &&& 0x00FF) % 256
  let g1 := { g with port_num := port_num, tcp_flags := tcp_flags }
  ((packet (ip + 9) == 0x06) && (port_num == 23), g1)

/-- Model of `htonl`: `htons(value >> 16) | (htons((uint16_t) value) << 16)` on a
`uint32_t`, the result converted to `uint32_t`. -/
def htonl (value : Nat) : Nat :=
  let v := value % 4294967296
  (htons (v >>> 16) ||| (htons (v % 65536) <<< 16)) % 4294967296

/-- Model of `will_wont(command)`; the parameter is a `uint8_t`. -/
def will_wont (command : Nat) : Bool :=
  (command % 256 == 0xfb) || (command % 256 == 0xfc)

/-- Result of `sendTcpMsg`: the globals and the buffer after the call, and the frames handed
to the controller by `etherPutPacket`, in order. -/
structure TcpSent where
  g : Globals
  packet : Mem
  frames : List (List Nat)

/-- First loop of `sendTcpMsg`: `destAddress[i] = sourceAddress[i];
sourceAddress[i] = macAddress[i];`. -/
def tcpEtherLoop (macAddress : Nat → Nat) : Nat → Nat → Mem → Mem
  | 0, _, m => m
  | n + 1, i, m =>
    let m1 := wr8 m (0 + i) (m (6 + i))
    let m2 := wr8 m1 (6 + i) (macAddress i)
    tcpEtherLoop macAddress n (i + 1) m2

/-- Second loop of `sendTcpMsg`: `destIp[i] = sourceIp[i]; sourceIp[i] = ipAddress[i];`. -/
def tcpIpLoop (ipAddress : Nat → Nat) (ip : Nat) : Nat → Nat → Mem → Mem
  | 0, _, m => m
  | n + 1, i, m =>
    let m1 := wr8 m (ip + 16 + i) (m (ip + 12 + i))
    let m2 := wr8 m1 (ip + 12 + i) (ipAddress i)
    tcpIpLoop ipAddress ip n (i + 1) m2

/-- The block that ends `sendTcpMsg` and that its `0x18` case contains twice more: IP total
length, IP header checksum, TCP checksum over the pseudo-header (addresses, protocol, and the
two bytes of the local `tmp_len` as they lie in memory), the first 18 bytes of the TCP header
and `lenOpts` bytes after the header, then transmission.  `lenOpts` is a `uint16_t`. -/
def tcpTransmit (g : Globals) (m : Mem) (ip tcp lenOpts : Nat) : Sent :=
  let tcpSize := 20
  let m1 := wr16 m (ip + 2) (htons (ipHeaderLength + tcpSize + lenOpts))
  let c := etherCalcIpChecksum g m1 ip
  let m2 := c.2
  let sum0 := 0
  let sum1 := etherSumWords sum0 m2 (ip + 12) 8
  let tmp16 := m2 (ip + 9)
  let sum2 := (sum1 + ((tmp16 &&& 0xff) <<< 8)) % 2 ^ 32
  let tmp_len := htons (lenOpts + tcpSize)
  let sum3 := etherSumWords sum2 (wr16 (fun _ => 0) 0 tmp_len) 0 2
  let sum4 := etherSumWords sum3 m2 tcp 18
  let sum5 := etherSumWords sum4 m2 (tcp + 20) lenOpts
  let r := getEtherChecksum sum5
  let m3 := wr16 m2 (tcp + 16) r.1
  { g := { c.1 with sum := r.2 }, packet := m3,
    frame := etherPutPacket m3 (14 + (m3 ip &&& 0xF) * 4 + tcpSize + lenOpts) }

/-- The inner `switch (tcp->optionsPaddingData[i + 2])` of the telnet scan: the buffer after
the store into the command byte at offset `c` (`&optionsPaddingData[i + 1]`), `opt` being
the option byte. -/
def telnetSwitch (m : Mem) (c opt : Nat) : Mem :=
  if opt = 0x03 then (if will_wont (m c) then wr8 m c 0xfe else wr8 m c 0xfc)
  else if opt = 0x05 then (if will_wont (m c) then wr8 m c 0xfe else wr8 m c 0xfc)
  else if opt = 0x18 then (if will_wont (m c) then wr8 m c 0xfe else wr8 m c 0xfc)
  else if opt = 0x1f then (if will_wont (m c) then wr8 m c 0xfe else wr8 m c 0xfc)
  else if opt = 0x20 then (if will_wont (m c) then wr8 m c 0xfe else wr8 m c 0xfc)
  else if opt = 0x21 then (if will_wont (m c) then wr8 m c 0xfe else wr8 m c 0xfc)
  else if opt = 0x22 then (if will_wont (m c) then wr8 m c 0xfd else wr8 m c 0xfb)
  else if opt = 0x25 then (if will_wont (m c) then wr8 m c 0xfe else wr8 m c 0xfc)
  else if opt = 0x27 then (if will_wont (m c) then wr8 m c 0xfe else wr8 m c 0xfc)
  else m

/-- State of the telnet scan of `sendTcpMsg`: the index `i` (a `uint8_t`), the buffer and
the global `telnet_command`. -/
structure TelnetScan where
  i : Nat
  packet : Mem
  telnet_command : Nat → Nat

/-- One iteration of the loop `while (i < data_length)` of the `0x18` case, `o` being the
offset of `tcp->optionsPaddingData`.  An IAC byte followed by 0xFA leaves the state as it
is.  The statement `telnet_command[i] = tcp->optionsPaddingData[i++]` reads and modifies `i`
without sequencing; the model follows the program as gcc compiles it, where the right
operand, increment included, is evaluated before the index of the left operand: the byte
read at the index `i` has before the increment is stored at the index `i` has after it.
`telnet_command` is a `char[80]`: a store at an index of 80 or more lies outside the array,
and the model, which records it in the function `telnet_command`, says nothing of what the
program overwrites there. -/
def telnetScanBody (o : Nat) (s : TelnetScan) : TelnetScan :=
  if s.packet (o + s.i) = 0xFF then
    if s.packet (o + (s.i + 1)) = 0xFA then s
    else
      { s with
        packet := telnetSwitch s.packet (o + (s.i + 1)) (s.packet (o + (s.i + 2)))
        i := (s.i + 3) % 256 }
  else
    { s with
      telnet_command := wr8 s.telnet_command ((s.i + 1) % 256) (s.packet (o + s.i))
      i := (s.i + 1) % 256 }

/-- The loop `while (i < data_length)` of the `0x18` case.  The first argument bounds the
number of iterations; `none` stands for a scan that has not ended within the bound. -/
def telnetScanLoop (o data_length : Nat) : Nat → TelnetScan → Option TelnetScan
  | 0, _ => none
  | fuel + 1, s =>
    if s.i < data_length then telnetScanLoop o data_length fuel (telnetScanBody o s)
    else some s

/-- The loop `for (i = 0; i < len; i++) tcp->optionsPaddingData[lenOpts++] = payload[i];`:
the state is the buffer and `lenOpts` (a `uint16_t`). -/
def tcpPayloadLoop (payload : List Nat) (o : Nat) : Nat → Nat → Mem × Nat → Mem × Nat
  | 0, _, s => s
  | n + 1, i, (m, lenOpts) =>
    tcpPayloadLoop payload o n (i + 1) (wr8 m (o + lenOpts) (payload.getD i 0),
      (lenOpts + 1) % 65536)

/-- The loop `while (str[++result] != '\0');` of `strlen` (`src/str.c`): `result` is a
`uint8_t`, incremented before each test, so the first byte tested is `str[1]` and the index
wraps from 255 to 0.  The first argument bounds the number of tests; `none` stands for a
loop that has not ended within the bound. -/
def strlenLoop (str : Nat → Nat) : Nat → Nat → Option Nat
  | 0, _ => none
  | fuel + 1, result =>
    let result1 := (result + 1) % 256
    if str result1 ≠ 0 then strlenLoop str fuel result1 else some result1

/-- Model of `strlen(str)` of `src/str.c`, `str` being the memory from the address passed on.
The loop tests the indices 1, 2, ..., 255, 0 and then the same indices again: after 256
tests without a zero byte it never ends, which is the result `none`. -/
def strlen (str : Nat → Nat) : Option Nat :=
  strlenLoop str 256 0

/-- The block `if (!payload_empty) { ... }` of `sendTcpMsg`: `len = strlen(payload)`, the
copy loop and `seq_num += lenOpts`, on the buffer, `seq_num` and `lenOpts` the `switch` has
left, `o` being the offset of `tcp->optionsPaddingData`.  The result is `none` when `strlen`
does not return. -/
def tcpPayload (payload : List Nat) (payload_empty : Bool) (o : Nat) (sw : Mem × Nat × Nat) :
    Option (Mem × Nat × Nat) :=
  if payload_empty then some sw
  else
    match strlen (fun i => payload.getD i 0) with
    | none => none
    | some len =>
      let q := tcpPayloadLoop payload o len 0 (sw.1, sw.2.2)
      some (q.1, (sw.2.1 + q.2) % 4294967296, q.2)

/-- The cases of `switch (flag)` of `sendTcpMsg` other than `0x18`: the buffer, the global
`seq_num` and the local `lenOpts` after it.  `lenOptsInit` stands for the indeterminate value
`lenOpts` has when no case assigns it. -/
def tcpSwitch (seq_num : Nat) (m : Mem) (tcp flag packet_seq data_length lenOptsInit : Nat) :
    Mem × Nat × Nat :=
  if flag = 0x01 then
    let m1 := wr32 m (tcp + 8) (htonl (packet_seq + 1))
    let m2 := wr32 m1 (tcp + 4) (htonl seq_num)
    let m3 := wr16 m2 (tcp + 12) (htons 0x5010)
    (m3, seq_num, 0)
  else if flag = 0x02 then
    let m1 := wr32 m (tcp + 8) (htonl 0)
    let m2 := wr32 m1 (tcp + 4) (htonl seq_num)
    let m3 := wr16 m2 (tcp + 12) (htons 0x5010)
    (m3, (seq_num + 1) % 4294967296, 0)
  else if flag = 0x10 then
    let m1 := wr32 m (tcp + 8) (htonl (packet_seq + data_length))
    let m2 := wr32 m1 (tcp + 4) (htonl seq_num)
    let m3 := wr16 m2 (tcp + 12) (htons 0x5010)
    (m3, seq_num, 0)
  else if flag = 0x12 then
    let m1 := wr32 m (tcp + 8) (htonl (packet_seq + 1))
    let m2 := wr32 m1 (tcp + 4) (htonl seq_num)
    let m3 := wr16 m2 (tcp + 12) (htons 0x6012)
    let m4 := wr8 m3 (tcp + 20 + 0) 2
    let m5 := wr8 m4 (tcp + 20 + 1) 4
    let m6 := wr8 m5 (tcp + 20 + 2) 0x05
    let m7 := wr8 m6 (tcp + 20 + 3) 0xb4
    (m7, (seq_num + 1) % 4294967296, 4)
  else
    (m, seq_num, lenOptsInit % 65536)

/-- The case `0x18` of `sendTcpMsg`, which returns from the function: a first frame without
data, the telnet scan, and a second frame of `data_length` data bytes.  The scan is bounded
by 196608 iterations (3 × 256 × 256). -/
def tcpPushAck (g : Globals) (m : Mem) (ip tcp packet_seq data_length : Nat) :
    Option TcpSent :=
  let m1 := wr32 m (tcp + 8) (htonl (packet_seq + data_length))
  let m2 := wr32 m1 (tcp + 4) (htonl g.seq_num)
  let m3 := wr16 m2 (tcp + 12) (htons 0x5010)
  let lenOpts := 0
  let t1 := tcpTransmit g m3 ip tcp lenOpts
  let m4 := wr16 t1.packet (ip + 10) 0
  let m5 := wr16 m4 (tcp + 12) (htons 0x5018)
  let m6 := wr16 m5 (tcp + 16) 0
  match telnetScanLoop (tcp + 20) data_length 196608
      { i := 0, packet := m6, telnet_command := t1.g.telnet_command } with
  | none => none
  | some s =>
    let telnet_command := wr8 s.telnet_command data_length 0
    let lenOpts1 := data_length
    let t2 := tcpTransmit { t1.g with telnet_command := telnet_command } s.packet ip tcp lenOpts1
    some { g := t2.g, packet := t2.packet, frames := [t1.frame, t2.frame] }

/-- Model of `sendTcpMsg(packet, flag, payload, payload_empty)`.  `flag` is a `uint8_t`;
`payload` is the memory the pointer passed designates, as the list of the bytes from that
address on (the bytes of the string, its terminating NUL and what follows it; `strlen` and
the copy loop read the indices 0 to 255 only, and an index beyond the list reads as 0);
`lenOptsInit` is the indeterminate initial value of the local `lenOpts`.  `data_length` is a
`uint16_t`: both subtractions wrap modulo 2^16.  The result is `none` when the telnet scan
of the `0x18` case does not end or `strlen` does not return. -/
def sendTcpMsg (g : Globals) (packet : Mem) (flag : Nat) (payload : List Nat)
    (payload_empty : Bool) (lenOptsInit : Nat) : Option TcpSent :=
  let flag := flag % 256
  let initial_id := 0x0
  let m1 := tcpEtherLoop g.macAddress 6 0 packet
  let m2 := wr16 m1 12 (htons IPv4_frame)
  let ip := 14
  let m3 := tcpIpLoop g.ipAddress ip 4 0 m2
  let data_length := (htons (rd16 m3 (ip + 2)) + 65536 - (m3 ip &&& 0xF) * 4) % 65536
  let m4 := wr8 m3 ip 0x45
  let m5 := wr8 m4 (ip + 1) 0x00
  let m6 := wr16 m5 (ip + 4) (htons initial_id)
  let m7 := wr16 m6 (ip + 6) 0x0000
  let m8 := wr8 m7 (ip + 8) 64
  let m9 := wr8 m8 (ip + 9) 0x06
  let m10 := wr16 m9 (ip + 10) 0
  let tcp := ip + (m10 ip &&& 0xF) * 4
  let data_length1 :=
    (data_length + 65536 - (htons (rd16 m10 (tcp + 12)) >>> 12) * 4) % 65536
  let m11 := wr16 m10 (tcp + 2) (rd16 m10 tcp)
  let m12 := wr16 m11 tcp (htons 23)
  let m13 := wr16 m12 (tcp + 14) (htons 0x05b4)
  let m14 := wr16 m13 (tcp + 18) (htons 0)
  let m15 := wr16 m14 (tcp + 16) 0
  let packet_seq := htonl (rd32 m15 (tcp + 4))
  if flag = 0x18 then tcpPushAck g m15 ip tcp packet_seq data_length1
  else
    let sw := tcpSwitch g.seq_num m15 tcp flag packet_seq data_length1 lenOptsInit
    match tcpPayload payload payload_empty (tcp + 20) sw with
    | none => none
    | some p =>
      let t := tcpTransmit { g with seq_num := p.2.1 } p.1 ip tcp p.2.2
      some { g := t.g, packet := t.packet, frames := [t.frame] }

/-- Model of `telnet_command_recv()`. -/
def telnet_command_recv (g : Globals) : Bool := g.command_pending

/-- Model of `clear_command_recv()`. -/
def clear_command_recv (g : Globals) : Globals := { g with command_pending := false }

/-- The loop `for (i = 0; i < IP_ADD_LENGTH; i++) temp_ip[i] = siaddr[i];` of `get_siaddr`:
`n` iterations remain, `i` is the index. -/
def getSiaddrLoop (siaddr : Nat → Nat) : Nat → Nat → (Nat → Nat) → (Nat → Nat)
  | 0, _, temp_ip => temp_ip
  | n + 1, i, temp_ip => getSiaddrLoop siaddr n (i + 1) (wr8 temp_ip i (siaddr i))

/-- Model of `get_siaddr(temp_ip)`: the array `temp_ip` after the call. -/
def get_siaddr (g : Globals) (temp_ip : Nat → Nat) : Nat → Nat :=
  getSiaddrLoop g.siaddr 4 0 temp_ip

/-! ## Packet processing of `main` -/

/-- Big-endian 16-bit words of a byte sequence; an odd trailing byte is the high byte of a
final word whose low byte is zero. -/
def beWords : List Nat → List Nat
  | [] => []
  | [a] => [a * 256]
  | a :: b :: rest => (a * 256 + b) :: beWords rest

/-- Ones-complement addition of two 16-bit words: the carry out of bit 15 is added back
into the low end (carry-around). -/
def onesAdd (a b : Nat) : Nat :=
  if a + b < 65536 then a + b else a + b - 65536 + 1

/-- RFC 1071 checksum of a byte sequence: the complement of the ones-complement sum of its
big-endian 16-bit words. -/
def rfc1071Checksum (bytes : List Nat) : Nat :=
  65535 - (beWords bytes).foldl onesAdd 0

/-- One carry fold of the finalisation: bits 16 and above are added to bits 0..15. -/
def foldStep (s : Nat) : Nat := s % 2 ^ 16 + s / 2 ^ 16

/-- Closed form of the fully folded accumulator. -/
def onesFold (s : Nat) : Nat := if s = 0 then 0 else (s - 1) % 65535 + 1

/-- The bytes the TCP checksum of a frame with a 20-byte IP header covers, as the
specification lists them: the pseudo-header (source IP, destination IP, zero, protocol 6,
TCP length in network byte order), then the TCP header and what follows it to the end of the
frame. -/
def tcpChecksumInput (frame : List Nat) : List Nat :=
  (frame.drop 26).take 8
    ++ [0, 6, (frame.length - 34) / 256, (frame.length - 34) % 256]
    ++ frame.drop 34

/-! ## Reference definitions (DHCP options) -/

/-- The options of a well-formed list as the specification describes them: message type
(code 53, one value byte), server identifier (54), lease time (51), subnet mask (1), router
(3) and DNS server (6), with four value bytes each. -/
inductive DhcpOption where
  | messageType (v : Nat)
  | serverId (a b c d : Nat)
  | leaseTime (a b c d : Nat)
  | subnetMask (a b c d : Nat)
  | router (a b c d : Nat)
  | dnsServer (a b c d : Nat)

/-- The code of an option. -/
def DhcpOption.code : DhcpOption → Nat
  | messageType _ => 53
  | serverId _ _ _ _ => 54
  | leaseTime _ _ _ _ => 51
  | subnetMask _ _ _ _ => 1
  | router _ _ _ _ => 3
  | dnsServer _ _ _ _ => 6

/-- The bytes of an option in the option region: code, length, value. -/
def DhcpOption.encode : DhcpOption → List Nat
  | messageType v => [53, 1, v]
  | serverId a b c d => [54, 4, a, b, c, d]
  | leaseTime a b c d => [51, 4, a, b, c, d]
  | subnetMask a b c d => [1, 4, a, b, c, d]
  | router a b c d => [3, 4, a, b, c, d]
  | dnsServer a b c d => [6, 4, a, b, c, d]

/-- The option region made of a list of options followed by END (255). -/
def encodeOptions : List DhcpOption → List Nat
  | [] => [255]
  | x :: xs => x.encode ++ encodeOptions xs

/-- The array `arr` with its first four entries replaced by `a`, `b`, `c`, `d`. -/
def set4 (arr : Nat → Nat) (a b c d : Nat) : Nat → Nat :=
  fun k => if k = 0 then a else if k = 1 then b else if k = 2 then c else if k = 3 then d
    else arr k

/-- The effect the specification gives to one option: 51 sets the lease time to the
big-endian value of its four bytes, 1 sets the subnet mask, 3 the gateway, 6 the DNS server;
53 and 54 store nothing. -/
def DhcpOption.apply : DhcpOption → Globals → Globals
  | messageType _, g => g
  | serverId _ _ _ _, g => g
  | leaseTime a b c d, g => { g with lease_time := a * 16777216 + b * 65536 + c * 256 + d }
  | subnetMask a b c d, g => { g with ipSubnetMask := set4 g.ipSubnetMask a b c d }
  | router a b c d, g => { g with ipGwAddress := set4 g.ipGwAddress a b c d }
  | dnsServer a b c d, g => { g with ipDnsServer := set4 g.ipDnsServer a b c d }

/-- The effect of a list of options, applied in order. -/
def applyOptions : List DhcpOption → Globals → Globals
  | [], g => g
  | x :: xs, g => applyOptions xs (x.apply g)

/-! ## Auxiliary definitions for the proofs -/

/-- Exact (unbounded) value added by the loop of `etherSumWords` over `n` bytes from offset
`p`; `hi` tells whether the first byte is weighted by 256. -/
def wsum (m : Mem) : Nat → Nat → Bool → Nat
  | 0, _, _ => 0
  | n + 1, p, hi => (if hi then m p * 256 else m p) + wsum m n (p + 1) (!hi)

/-- List form of `wsum`. -/
def lsum : List Nat → Bool → Nat
  | [], _ => 0
  | a :: l, hi => (if hi then a * 256 else a) + lsum l (!hi)

/-- Sum of the bytes that `lsum` weights by 256. -/
def hsum : List Nat → Bool → Nat
  | [], _ => 0
  | a :: l, hi => (if hi then a else 0) + hsum l (!hi)

/-- The buffer of `etherSendPingResponse` after the two exchange loops and the store of
the ICMP type, before the ICMP checksum is computed. -/
def pingSwapped (packet : Mem) : Mem :=
  wr8 (swapFields (14 + 16) (14 + 12) 4 0 (swapFields 0 6 6 0 packet))
    (14 + (packet 14 &&& 0xF) * 4) 0

/-- Closed form of the buffer of `dhcpSendMessage` when its `switch` is reached, over the
input buffer `packet`: the header fields stored for every message type, listed from the last
store to the first.  The offsets are those of a 20-byte IP header (the function stores
`revSize = 0x45` before it computes the UDP offset): Ethernet 0-13, IP 14-33, UDP 34-41,
DHCP 42-281.  The bytes 16-17, 38-39 and 54-69 and those from 282 on are not stored before
the `switch`. -/
def dhcpFixed (g : Globals) (packet : Mem) (ipAdd : Nat → Nat) : Mem := fun j =>
  if j = 281 then 99 else if j = 280 then 83 else if j = 279 then 130 else if j = 278 then 99
  else if 86 ≤ j ∧ j < 278 then 0
  else if 70 ≤ j ∧ j < 86 then (if j - 70 < 6 then g.macAddress (j - 70) else 0)
  else if j = 53 then 0 else if j = 52 then 0 else if j = 51 then 0 else if j = 50 then 0
  else if j = 49 then g.transaction_id / 16777216 % 256
  else if j = 48 then g.transaction_id / 65536 % 256
  else if j = 47 then g.transaction_id / 256 % 256
  else if j = 46 then g.transaction_id % 256
  else if j = 45 then 0 else if j = 44 then 6 else if j = 43 then 1 else if j = 42 then 1
  else if j = 41 then 0 else if j = 40 then 0
  else if j = 37 then 67 else if j = 36 then 0 else if j = 35 then 68 else if j = 34 then 0
  else if 26 ≤ j ∧ j < 30 then g.ipAddress (j - 26)
  else if 30 ≤ j ∧ j < 34 then ipAdd (j - 30)
  else if j = 25 then 0 else if j = 24 then 0
  else if j = 23 then 17 else if j = 22 then 64
  else if j = 21 then 0 else if j = 20 then 0
  else if j = 19 then 71 else if j = 18 then 113
  else if j = 15 then 0 else if j = 14 then 69
  else if j = 13 then 0 else if j = 12 then 8
  else if j < 6 then 255
  else if 6 ≤ j ∧ j < 12 then g.macAddress (j - 6)
  else packet j

/-- The value of the local `lenOpts` of `dhcpSendMessage` after its `switch`. -/
def dhcpLenOpts (type lenOptsInit : Nat) : Nat :=
  if type % 256 = DHCPDISCOVER then 4
  else if type % 256 = DHCPREQUEST then 22
  else if type % 256 = DHCPRELEASE then 4
  else lenOptsInit % 256

/-- The buffer of `dhcpSendMessage` when the IP header checksum is computed: the fixed
fields, the stores of the `switch`, and the two length fields. -/
def dhcpSized (g : Globals) (packet : Mem) (type : Nat) (ipAdd : Nat → Nat)
    (lenOptsInit : Nat) : Mem :=
  wr16 (wr16 (dhcpSwitch g (dhcpFixed g packet ipAdd) 42 (type % 256) lenOptsInit).2.2.2.1
    16 (htons (268 + dhcpLenOpts type lenOptsInit))) 38 (htons (248 + dhcpLenOpts type lenOptsInit))

/-- The `*_accounted` local of the loop of `dhcpStoreVars` that guards the option code `c`
(true for a code the loop does not test). -/
def DhcpWalk.accounted (s : DhcpWalk) (c : Nat) : Bool :=
  if c = 53 then s.msg_accounted else if c = 54 then s.si_accounted
  else if c = 51 then s.lease_accounted else if c = 1 then s.sn_accounted
  else if c = 3 then s.router_accounted else if c = 6 then s.dns_accounted else true

/-- Number of `*_accounted` locals that are still false. -/
def DhcpWalk.unset (s : DhcpWalk) : Nat :=
  (if s.msg_accounted then 0 else 1) + (if s.si_accounted then 0 else 1)
  + (if s.lease_accounted then 0 else 1) + (if s.sn_accounted then 0 else 1)
  + (if s.router_accounted then 0 else 1) + (if s.dns_accounted then 0 else 1)

/-- Variant of the loop of `dhcpStoreVars`: it decreases at each iteration. -/
def DhcpWalk.variant (s : DhcpWalk) (length : Nat) : Nat :=
  256 * s.unset + (length - s.i)

/-- Closed form of the buffer of `sendTcpMsg` when its `switch` is reached, over the input
buffer `packet`, listed from the last store to the first: Ethernet and IP addresses turned
round, the fixed IP header fields, and the TCP ports, window, checksum and urgent pointer
at the offsets of a 20-byte IP header (TCP header at 34). -/
def tcpFixed (g : Globals) (packet : Mem) : Mem := fun j =>
  if j = 51 then 0 else if j = 50 then 0 else if j = 53 then 0 else if j = 52 then 0
  else if j = 49 then 180 else if j = 48 then 5
  else if j = 35 then 23 else if j = 34 then 0
  else if j = 37 then rd16 packet 34 / 256 % 256 else if j = 36 then rd16 packet 34 % 256
  else if j = 25 then 0 else if j = 24 then 0
  else if j = 23 then 6 else if j = 22 then 64
  else if j = 21 then 0 else if j = 20 then 0
  else if j = 19 then 0 else if j = 18 then 0
  else if j = 15 then 0 else if j = 14 then 69
  else if 30 ≤ j ∧ j < 34 then packet (j - 4)
  else if 26 ≤ j ∧ j < 30 then g.ipAddress (j - 26)
  else if j = 13 then 0 else if j = 12 then 8
  else if j < 6 then packet (j + 6)
  else if 6 ≤ j ∧ j < 12 then g.macAddress (j - 6)
  else packet j

/-- The value `sendTcpMsg` computes in its local `data_length`, over the input buffer: IP
total length minus IHL × 4 minus data offset × 4, each subtraction modulo 2^16.  The data
offset is read at offset 46, that of a TCP header behind a 20-byte IP header. -/
def tcpDataLength (packet : Mem) : Nat :=
  ((htons (rd16 packet 16) + 65536 - (packet 14 &&& 0xF) * 4) % 65536 + 65536
    - (htons (rd16 packet 46) >>> 12) * 4) % 65536

/-- The four bytes of a 32-bit value in network byte order. -/
def be32Bytes (v : Nat) : List Nat :=
  [v / 16777216 % 256, v / 65536 % 256, v / 256 % 256, v % 256]

/-- The 32-bit value of the four bytes at offset `a`, read in network byte order. -/
def rdBe32 (m : Mem) (a : Nat) : Nat :=
  m a * 16777216 + m (a + 1) * 65536 + m (a + 2) * 256 + m (a + 3)

/-- The result of the `switch` of `sendTcpMsg` (flag other than `0x18`) over the input
buffer: buffer, `seq_num` and `lenOpts`. -/
def tcpSwitched (g : Globals) (packet : Mem) (flag l : Nat) : Mem × Nat × Nat :=
  tcpSwitch g.seq_num (tcpFixed g packet) 34 (flag % 256) (rdBe32 packet 38)
    (tcpDataLength packet) l

/-- The transmission that ends `sendTcpMsg` when no payload is passed (flag other than
`0x18`), over the input buffer. -/
def tcpLast (g : Globals) (packet : Mem) (flag l : Nat) : Sent :=
  tcpTransmit { g with seq_num := (tcpSwitched g packet flag l).2.1 }
    (tcpSwitched g packet flag l).1 14 34 (tcpSwitched g packet flag l).2.2

/-- The globals `g2` hold the same network configuration (hardware address, IP address,
subnet mask, gateway, DNS server, lease time) and the same DHCP client variables
(transaction id, `siaddr`, `yiaddr`, `si_yi_clear`) as `g1`. -/
def sameConfig (g1 g2 : Globals) : Prop :=
  g2.macAddress = g1.macAddress ∧ g2.ipAddress = g1.ipAddress
  ∧ g2.ipSubnetMask = g1.ipSubnetMask ∧ g2.ipGwAddress = g1.ipGwAddress
  ∧ g2.ipDnsServer = g1.ipDnsServer ∧ g2.lease_time = g1.lease_time
  ∧ g2.transaction_id = g1.transaction_id ∧ g2.siaddr = g1.siaddr ∧ g2.yiaddr = g1.yiaddr
  ∧ g2.si_yi_clear = g1.si_yi_clear

/-- The first frame of the `0x18` case of `sendTcpMsg` over the input buffer `packet`: the
acknowledgment of the received data, sent without payload. -/
def tcpPushFirst (g : Globals) (packet : Mem) : Sent :=
  tcpTransmit g
    (wr16 (wr32 (wr32 (tcpFixed g packet) 42 (htonl (rdBe32 packet 38 + tcpDataLength packet)))
      38 (htonl g.seq_num)) 46 (htons 0x5010)) 14 34 0

/-- The state in which the telnet scan of the `0x18` case starts: index 0, the buffer of the
first frame with the two checksum fields cleared and the flags PSH|ACK. -/
def telnetStart (g : Globals) (packet : Mem) : TelnetScan :=
  { i := 0
    packet := wr16 (wr16 (wr16 (tcpPushFirst g packet).packet 24 0) 46 (htons 0x5018)) 50 0
    telnet_command := (tcpPushFirst g packet).g.telnet_command }

/-- The states in which the loop of the telnet scan enters its body, in order, from the state
`s` on; the first argument bounds their number. -/
def telnetScanStates (o data_length : Nat) : Nat → TelnetScan → List TelnetScan
  | 0, _ => []
  | fuel + 1, s =>
    if s.i < data_length then s :: telnetScanStates o data_length fuel (telnetScanBody o s)
    else []

/-- The indices of the data region at which the telnet scan of `sendTcpMsg` enters its loop
body for the received buffer `packet`. -/
def telnetReached (g : Globals) (packet : Mem) : List Nat :=
  (telnetScanStates 54 (tcpDataLength packet) 196608 (telnetStart g packet)).map (fun s => s.i)

/-- The second frame of the `0x18` case, sent from the state `s` in which the scan ends. -/
def tcpPushSecond (g : Globals) (packet : Mem) (s : TelnetScan) : Sent :=
  tcpTransmit { (tcpPushFirst g packet).g with
      telnet_command := wr8 s.telnet_command (tcpDataLength packet) 0 }
    s.packet 14 34 (tcpDataLength packet)

/-- The network configuration held in the globals: hardware address, IP address, subnet
mask, gateway, DNS server and lease time. -/
def networkConfig (g : Globals) :
    (Nat → Nat) × (Nat → Nat) × (Nat → Nat) × (Nat → Nat) × (Nat → Nat) × Nat :=
  (g.macAddress, g.ipAddress, g.ipSubnetMask, g.ipGwAddress, g.ipDnsServer, g.lease_time)

/-- The control-flag byte of the last frame of a list of transmitted frames: the byte at
offset 47 (offset 13 of a TCP header behind the Ethernet header and a 20-byte IP header), if
there is a frame. -/
def lastFlagByte (frames : List (List Nat)) : Option Nat :=
  frames.getLast?.map (fun f => f.getD 47 0)

/-- The globals after a sequence of calls of `dhcpSendMessage`, each given by its buffer, its
message type, its destination address and the indeterminate initial value of `lenOpts`. -/
def dhcpSendAll (g : Globals) (calls : List (Mem × Nat × (Nat → Nat) × Nat)) : Globals :=
  calls.foldl (fun g1 c => (dhcpSendMessage g1 c.1 c.2.1 c.2.2.1 c.2.2.2).g) g

/-! ## Concrete inputs used by the witnesses -/

/-- A 20-byte IPv4 header (192.168.0.1 to 192.168.0.199, UDP) with a zero checksum field. -/
def exampleIpHeader : List Nat :=
  [0x45, 0, 0, 0x73, 0, 0, 0x40, 0, 0x40, 0x11, 0, 0, 0xc0, 0xa8, 0, 1, 0xc0, 0xa8, 0, 0xc7]

/-- An ICMP echo request of odd length (13 bytes): type 8, code 0, zero checksum field,
id 1, sequence number 1, five payload bytes. -/
def exampleIcmpEcho : List Nat :=
  [8, 0, 0, 0, 0, 1, 0, 1, 0x61, 0x62, 0x63, 0x64, 0x65]

/-- The configuration `main` installs: MAC 02:03:04:05:06:7b and IP 192.168.2.123. -/
def exampleGlobals : Globals :=
  { Globals.init with
    macAddress := Mem.ofList [2, 3, 4, 5, 6, 123]
    ipAddress := Mem.ofList [192, 168, 2, 123] }

/-- A 46-byte ICMP echo request from 192.168.2.1 (aa:bb:cc:dd:ee:01) to 192.168.2.123, with
a 20-byte IP header, four payload bytes, and valid IP and ICMP checksums. -/
def examplePing : List Nat :=
  [2, 3, 4, 5, 6, 123, 0xaa, 0xbb, 0xcc, 0xdd, 0xee, 1, 8, 0,
   0x45, 0, 0, 32, 0, 1, 0, 0, 64, 1, 245, 15, 192, 168, 2, 1, 192, 168, 2, 123,
   8, 0, 51, 55, 0, 1, 0, 1, 0x61, 0x62, 0x63, 0x64]

/-- A broadcast ARP request from 192.168.2.1 (aa:bb:cc:dd:ee:01) for 192.168.2.123. -/
def exampleArpRequest : List Nat :=
  [255, 255, 255, 255, 255, 255, 0xaa, 0xbb, 0xcc, 0xdd, 0xee, 1, 8, 6,
   0, 1, 8, 0, 6, 4, 0, 1, 0xaa, 0xbb, 0xcc, 0xdd, 0xee, 1, 192, 168, 2, 1,
   0, 0, 0, 0, 0, 0, 192, 168, 2, 123]

/-- Buffer content after the reception of a 50-byte ICMP echo request whose IP header
carries one option word (IHL = 6, total length 36, options NOP NOP NOP EOL), with valid IP
and ICMP checksums; the four bytes that follow the datagram in the buffer (frame padding or
the remains of an earlier frame) are not zero. -/
def examplePingOptions : List Nat :=
  [2, 3, 4, 5, 6, 123, 0xaa, 0xbb, 0xcc, 0xdd, 0xee, 1, 8, 0,
   0x46, 0, 0, 36, 0, 1, 0, 0, 64, 1, 242, 10, 192, 168, 2, 1, 192, 168, 2, 123, 1, 1, 1, 0,
   8, 0, 51, 55, 0, 1, 0, 1, 0x61, 0x62, 0x63, 0x64,
   0xde, 0xad, 0xbe, 0xef]

/-- A UDP datagram from 192.168.2.1 port 5000 to 192.168.2.123 port 1024 carrying the four
bytes "ping", with a 20-byte IP header (IP and UDP checksum fields left at zero). -/
def exampleUdpRequest : List Nat :=
  [2, 3, 4, 5, 6, 123, 0xaa, 0xbb, 0xcc, 0xdd, 0xee, 1, 8, 0,
   0x45, 0, 0, 32, 0, 1, 0, 0, 64, 17, 0, 0, 192, 168, 2, 1, 192, 168, 2, 123,
   0x13, 0x88, 0x04, 0x00, 0, 12, 0, 0, 0x70, 0x69, 0x6e, 0x67]

/-- A DHCP reply (OFFER) of 316 bytes from the server 192.168.2.1 for the transaction
0x10101010: 20-byte IP header with total length 302, UDP ports 67 to 68, yiaddr
192.168.2.50, siaddr 192.168.2.1, and a 34-byte option region holding message type 2,
server identifier 192.168.2.1, lease time 86400, subnet mask 255.255.255.0, router
192.168.2.1, DNS server 8.8.8.8 and END.  The two checksum fields are left at zero (the DHCP
functions do not read them). -/
def exampleOffer : List Nat :=
  [2, 3, 4, 5, 6, 123, 0xaa, 0xbb, 0xcc, 0xdd, 0xee, 1, 8, 0,
   0x45, 0, 1, 46, 0, 1, 0, 0, 64, 17, 0, 0, 192, 168, 2, 1, 255, 255, 255, 255,
   0, 67, 0, 68, 1, 26, 0, 0,
   2, 1, 6, 0, 0x10, 0x10, 0x10, 0x10, 0, 0, 0x80, 0,
   0, 0, 0, 0, 192, 168, 2, 50, 192, 168, 2, 1, 0, 0, 0, 0,
   2, 3, 4, 5, 6, 123, 0, 0, 0, 0, 0, 0, 0, 0, 0, 0]
  ++ List.replicate 192 0 ++
  [99, 130, 83, 99,
   53, 1, 2, 54, 4, 192, 168, 2, 1, 51, 4, 0, 1, 81, 128, 1, 4, 255, 255, 255, 0,
   3, 4, 192, 168, 2, 1, 6, 4, 8, 8, 8, 8, 255]

/-- A DHCP reply like `exampleOffer` whose option region is `options`: the first 282 bytes
of `exampleOffer` with the IP total length set to 268 + the length of `options`, followed by
`options`. -/
def exampleReply (options : List Nat) : List Nat :=
  ((exampleOffer.take 282).set 16 ((268 + options.length) / 256 % 256)).set 17
    ((268 + options.length) % 256) ++ options

/-- The options of `exampleOffer`. -/
def exampleOptions : List DhcpOption :=
  [DhcpOption.messageType 2, DhcpOption.serverId 192 168 2 1, DhcpOption.leaseTime 0 1 81 128,
    DhcpOption.subnetMask 255 255 255 0, DhcpOption.router 192 168 2 1,
    DhcpOption.dnsServer 8 8 8 8]

/-- A reply whose 12-byte option region holds the subnet-mask option twice:
1, 4, 255.255.254.0 then 1, 4, 255.0.0.0. -/
def exampleRepeatedMask : List Nat :=
  exampleReply [1, 4, 255, 255, 254, 0, 1, 4, 255, 0, 0, 0]

/-- A reply whose option region is one option of the unrecognised code 12 (host name) with
five value bytes 1, 4, 10, 11, 12, followed by END. -/
def exampleUnknownOption : List Nat :=
  exampleReply [12, 5, 1, 4, 10, 11, 12, 255]

/-- A SYN segment to port 23 from 192.168.2.1 (port 50000) with sequence number 0x01020304,
one MSS option (data offset 6) and IP total length 44. -/
def exampleSyn : List Nat :=
  [2, 3, 4, 5, 6, 123, 0xaa, 0xbb, 0xcc, 0xdd, 0xee, 1, 8, 0,
   0x45, 0, 0, 44, 0, 1, 0, 0, 64, 6, 0, 0, 192, 168, 2, 1, 192, 168, 2, 123,
   0xC3, 0x50, 0, 23, 1, 2, 3, 4, 0, 0, 0, 0, 0x60, 0x02, 0xff, 0xff, 0, 0, 0, 0,
   2, 4, 5, 0xb4]

/-- The segment `exampleSyn` with the IP total length 40 in place of 44: the total length is
less than the 20 + 24 bytes of the two headers. -/
def exampleShortSegment : List Nat := exampleSyn.set 17 40

/-- A PSH|ACK segment to port 23 with sequence number 0x01020304, data offset 5, IP total
length 44 and the four data bytes `h`, `i`, CR, LF. -/
def exampleData : List Nat :=
  [2, 3, 4, 5, 6, 123, 0xaa, 0xbb, 0xcc, 0xdd, 0xee, 1, 8, 0,
   0x45, 0, 0, 44, 0, 1, 0, 0, 64, 6, 0, 0, 192, 168, 2, 1, 192, 168, 2, 123,
   0xC3, 0x50, 0, 23, 1, 2, 3, 4, 0, 0, 0, 1, 0x50, 0x18, 0xff, 0xff, 0, 0, 0, 0,
   0x68, 0x69, 13, 10]

/-- A PSH|ACK segment to port 23 with data offset 5, IP total length 48 and eight data
bytes: IAC WILL suppress-go-ahead (0xFF, 0xFB, 0x03), IAC DO linemode (0xFF, 0xFD, 0x22), then
`h`, `i`. -/
def exampleNegotiation : List Nat :=
  [2, 3, 4, 5, 6, 123, 0xaa, 0xbb, 0xcc, 0xdd, 0xee, 1, 8, 0,
   0x45, 0, 0, 48, 0, 1, 0, 0, 64, 6, 0, 0, 192, 168, 2, 1, 192, 168, 2, 123,
   0xC3, 0x50, 0, 23, 1, 2, 3, 4, 0, 0, 0, 1, 0x50, 0x18, 0xff, 0xff, 0, 0, 0, 0,
   0xFF, 0xFB, 0x03, 0xFF, 0xFD, 0x22, 0x68, 0x69]

/-- A PSH|ACK segment to port 23 with data offset 5, IP total length 120 and 80 data bytes,
all the letter `a`. -/
def exampleLongData : List Nat :=
  [2, 3, 4, 5, 6, 123, 0xaa, 0xbb, 0xcc, 0xdd, 0xee, 1, 8, 0,
   0x45, 0, 0, 120, 0, 1, 0, 0, 64, 6, 0, 0, 192, 168, 2, 1, 192, 168, 2, 123,
   0xC3, 0x50, 0, 23, 1, 2, 3, 4, 0, 0, 0, 1, 0x50, 0x18, 0xff, 0xff, 0, 0, 0, 0]
  ++ List.replicate 80 0x61

/-- A PSH|ACK segment to port 23 with data offset 5, IP total length 49 and nine data bytes:
the window-size sub-negotiation IAC SB NAWS 0 80 0 24 IAC SE (0xFF, 0xFA, 0x1F, 0, 80, 0, 24,
0xFF, 0xF0). -/
def exampleSubnegotiation : List Nat :=
  [2, 3, 4, 5, 6, 123, 0xaa, 0xbb, 0xcc, 0xdd, 0xee, 1, 8, 0,
   0x45, 0, 0, 49, 0, 1, 0, 0, 64, 6, 0, 0, 192, 168, 2, 1, 192, 168, 2, 123,
   0xC3, 0x50, 0, 23, 1, 2, 3, 4, 0, 0, 0, 1, 0x50, 0x18, 0xff, 0xff, 0, 0, 0, 0,
   0xFF, 0xFA, 0x1F, 0, 80, 0, 24, 0xFF, 0xF0]

/-! # Theorems -/

/-! ## Bit operations as arithmetic -/


theorem and_ffff (s : Nat) : s &&& 0xFFFF = s % 65536 :=
  Nat.and_pow_two_sub_one_eq_mod s 16

theorem and_ff (s : Nat) : s &&& 0xff = s % 256 :=
  Nat.and_pow_two_sub_one_eq_mod s 8

theorem and_f (s : Nat) : s &&& 0xF = s % 16 :=
  Nat.and_pow_two_sub_one_eq_mod s 4

theorem shr16 (s : Nat) : s >>> 16 = s / 65536 := by
  rw [Nat.shiftRight_eq_div_pow]

theorem shl8 (s : Nat) : s <<< 8 = s * 256 := by
  rw [Nat.shiftLeft_eq]

theorem htons_eq (v : Nat) : htons v = v % 65536 / 256 + v % 256 * 256 := by
  unfold htons
  have h1 : ((v % 65536) &&& 0xFF00) >>> 8 = v % 65536 / 256 := by
    have h : ((v % 65536) &&& 0xFF00) >>> 8 = ((v % 65536) >>> 8) &&& 0xff := by
      apply Nat.eq_of_testBit_eq
      intro j
      have h8 : Nat.testBit 0xFF00 (8 + j) = Nat.testBit 0xff j := by
        have e : (0xFF00 : Nat) = 0xff <<< 8 := by decide
        rw [e, Nat.testBit_shiftLeft]
        simp
      simp only [Nat.testBit_shiftRight, Nat.testBit_and, h8]
    rw [h, and_ff, Nat.shiftRight_eq_div_pow]
    omega
  have h2 : ((v % 65536) &&& 0x00FF) <<< 8 = v % 256 * 256 := by
    rw [and_ff, shl8]
    omega
  rw [h1, h2]

theorem foldCarries_eq (fuel s : Nat) (h : s ≤ fuel) : foldCarries fuel s = onesFold s := by
  induction fuel generalizing s with
  | zero =>
    have : s = 0 := by omega
    subst this
    simp [foldCarries, onesFold]
  | succ f ih =>
    unfold foldCarries
    rw [shr16, and_ffff]
    by_cases hs : s / 65536 > 0
    · rw [if_pos hs, ih _ (by omega)]
      unfold onesFold
      have h1 : s % 65536 + s / 65536 ≠ 0 := by omega
      have h2 : s ≠ 0 := by omega
      rw [if_neg h1, if_neg h2]
      omega
    · rw [if_neg hs]
      unfold onesFold
      split <;> omega

theorem onesFold_lt (s : Nat) : onesFold s < 65536 := by
  unfold onesFold; split <;> omega

/-- The loop of `getEtherChecksum` ends on its own condition: the value it returns has no
bit above bit 15, so the iteration bound is never what stops it. -/
theorem foldCarries_exit (s : Nat) : ¬ ((foldCarries s s) >>> 16 > 0) := by
  rw [foldCarries_eq _ _ (Nat.le_refl _), shr16]
  have := onesFold_lt s
  omega

theorem getEtherChecksum_fst (s : Nat) : (getEtherChecksum s).1 = 65535 - onesFold s := by
  unfold getEtherChecksum
  simp only [and_ffff, foldCarries_eq _ _ (Nat.le_refl _)]
  have := onesFold_lt s
  omega

theorem onesFold_add_compl (s : Nat) : onesFold (s + (65535 - onesFold s)) = 65535 := by
  unfold onesFold
  split <;> split <;> omega


/-! ## The accumulator as an exact weighted sum -/

theorem loop_eq (m : Mem) (n p : Nat) (hi : Bool) (s : Nat) (hs : s < 4294967296) :
    etherSumWordsLoop m n p (if hi then 1 else 0) s = (s + wsum m n p hi) % 4294967296 := by
  induction n generalizing p hi s with
  | zero =>
    simp only [etherSumWordsLoop, wsum]
    omega
  | succ n ih =>
    cases hi
    · have h := ih (p + 1) true ((s + m p) % 4294967296) (by omega)
      simp only [if_true] at h
      simp only [etherSumWordsLoop, wsum, Nat.reducePow, Bool.false_eq_true, if_false,
        ne_eq, not_true_eq_false, Bool.not_false, Nat.sub_zero]
      rw [h]
      omega
    · have h := ih (p + 1) false ((s + m p * 256) % 4294967296) (by omega)
      simp only [Bool.false_eq_true, if_false] at h
      simp only [etherSumWordsLoop, wsum, Nat.reducePow, shl8, if_true, ne_eq,
        one_ne_zero, not_false_eq_true, Bool.not_true, Nat.sub_self]
      rw [h]
      omega

theorem etherSumWords_sum (s : Nat) (m : Mem) (p n : Nat) (hs : s < 4294967296) :
    etherSumWords s m p n = (s + wsum m (n % 65536) p false) % 4294967296 := by
  have h := loop_eq m (n % 65536) p false s hs
  simp only [Bool.false_eq_true, if_false] at h
  simp only [etherSumWords, h]

theorem wsum_le (m : Mem) (hm : IsBytes m) (n p : Nat) (hi : Bool) :
    wsum m n p hi ≤ 65280 * n := by
  induction n generalizing p hi with
  | zero => simp [wsum]
  | succ n ih =>
    have h1 := ih (p + 1) (!hi)
    have h2 := hm p
    simp only [wsum]
    split <;> omega

theorem wsum_congr (m1 m2 : Mem) (n p : Nat) (hi : Bool)
    (h : ∀ i, i < n → m1 (p + i) = m2 (p + i)) : wsum m1 n p hi = wsum m2 n p hi := by
  induction n generalizing p hi with
  | zero => simp [wsum]
  | succ n ih =>
    have h0 := h 0 (by omega)
    have h1 := ih (p + 1) (!hi) (fun i hin => by
      have := h (i + 1) (by omega)
      rw [show p + 1 + i = p + (i + 1) by omega]
      exact this)
    simp only [Nat.add_zero] at h0
    simp only [wsum, h0, h1]

theorem wsum_succ_succ (m : Mem) (n p : Nat) (hi : Bool) :
    wsum m (n + 2) p hi
      = (if hi then m p * 256 + m (p + 1) else m p + m (p + 1) * 256) + wsum m n (p + 2) hi := by
  have e : p + 1 + 1 = p + 2 := by omega
  cases hi <;> simp only [wsum, e, Bool.not_true, Bool.not_false, if_true, Bool.false_eq_true,
    if_false] <;> omega

theorem wsum_add (m : Mem) (k n p : Nat) (hi : Bool) :
    wsum m (2 * k + n) p hi = wsum m (2 * k) p hi + wsum m n (p + 2 * k) hi := by
  induction k generalizing p with
  | zero => simp [wsum]
  | succ k ih =>
    rw [show 2 * (k + 1) + n = (2 * k + n) + 2 by omega, show 2 * (k + 1) = 2 * k + 2 by omega,
      wsum_succ_succ, wsum_succ_succ, ih (p + 2),
      show p + 2 + 2 * k = p + (2 * k + 2) by omega]
    omega

theorem wsum_two (m : Mem) (p : Nat) : wsum m 2 p false = m p + 256 * m (p + 1) := by
  simp [wsum]; omega

/-- Splitting a summed range around a two-byte field at an even offset. -/
theorem wsum_field (m : Mem) (n k p : Nat) (hk : k % 2 = 0) (hn : k + 2 ≤ n) :
    wsum m n p false
      = wsum m k p false + (m (p + k) + 256 * m (p + k + 1))
        + wsum m (n - k - 2) (p + k + 2) false := by
  obtain ⟨j, rfl⟩ : ∃ j, k = 2 * j := ⟨k / 2, by omega⟩
  have e : n = 2 * j + (2 * 1 + (n - 2 * j - 2)) := by omega
  conv_lhs => rw [e]
  rw [wsum_add, wsum_add, wsum_two]
  rw [show p + 2 * j + 2 * 1 = p + 2 * j + 2 by omega]
  omega

theorem wr16_same (m : Mem) (a v i : Nat) (h1 : i ≠ a) (h2 : i ≠ a + 1) : wr16 m a v i = m i := by
  simp [wr16, wr8, h1, h2]

theorem wr16_lo (m : Mem) (a v : Nat) : wr16 m a v a = v % 256 := by
  simp [wr16, wr8]

theorem wr16_hi (m : Mem) (a v : Nat) : wr16 m a v (a + 1) = v / 256 % 256 := by
  simp [wr16, wr8]

/-- Sum over a range whose two-byte field at even offset `k` has just been stored. -/
theorem wsum_wr16 (m : Mem) (n k p c : Nat) (hk : k % 2 = 0) (hn : k + 2 ≤ n) (hc : c < 65536) :
    wsum (wr16 m (p + k) c) n p false
      = wsum m k p false + c + wsum m (n - k - 2) (p + k + 2) false := by
  rw [wsum_field _ n k p hk hn, wr16_lo, wr16_hi]
  rw [wsum_congr (wr16 m (p + k) c) m k p false (fun i hi => wr16_same _ _ _ _ (by omega) (by omega))]
  rw [wsum_congr (wr16 m (p + k) c) m (n - k - 2) (p + k + 2) false
    (fun i hi => wr16_same _ _ _ _ (by omega) (by omega))]
  omega


/-! ## Finalisation -/

theorem xor_ffff (r : Nat) (h : r < 65536) : r ^^^ 0xFFFF = 65535 - r := by
  have h1 := @BitVec.toNat_not 16 (BitVec.ofNat 16 r)
  rw [BitVec.not_def, BitVec.toNat_xor, BitVec.toNat_allOnes, BitVec.toNat_ofNat] at h1
  have h2 : r % 2 ^ 16 = r := Nat.mod_eq_of_lt (by omega)
  rw [h2, Nat.xor_comm] at h1
  simpa using h1

theorem foldStep_eq (s : Nat) : foldStep s = s % 65536 + s / 65536 := rfl

theorem onesFold_foldStep (s : Nat) : onesFold (foldStep s) = onesFold s := by
  rw [foldStep_eq]
  unfold onesFold
  split <;> split <;> omega

theorem foldStep_iterate (s : Nat) :
    ∃ n, foldStep^[n] s = onesFold s ∧ ∀ j, j < n → 65536 ≤ foldStep^[j] s := by
  induction s using Nat.strong_induction_on with
  | _ s ih =>
    by_cases hs : s < 65536
    · refine ⟨0, ?_, fun j hj => absurd hj (Nat.not_lt_zero j)⟩
      simp only [Function.iterate_zero, id_eq]
      unfold onesFold
      split <;> omega
    · have hlt : foldStep s < s := by rw [foldStep_eq]; omega
      obtain ⟨n, h1, h2⟩ := ih (foldStep s) hlt
      refine ⟨n + 1, ?_, ?_⟩
      · rw [Function.iterate_succ_apply, h1, onesFold_foldStep]
      · intro j hj
        cases j with
        | zero => simp only [Function.iterate_zero, id_eq]; omega
        | succ j =>
          rw [Function.iterate_succ_apply]
          exact h2 j (by omega)

/-- C3: for every accumulator value `s` (in particular every 32-bit one), `getEtherChecksum`
returns the 16-bit bitwise complement of `r`, where `r` is reached by repeating the fold
`s ↦ s mod 2^16 + s div 2^16` as long as the value is at least 2^16; `r` is 0 when `s` is 0
and `((s - 1) mod 65535) + 1` otherwise, and it is the value the loop leaves in the
accumulator (so the loop has exited on its own condition). -/
theorem getEtherChecksum_spec (s : Nat) :
    ∃ r n, foldStep^[n] s = r ∧ (∀ j, j < n → 2 ^ 16 ≤ foldStep^[j] s) ∧ r < 2 ^ 16
      ∧ r = (if s = 0 then 0 else (s - 1) % 65535 + 1)
      ∧ (getEtherChecksum s).2 = r
      ∧ (getEtherChecksum s).1 = r ^^^ 0xFFFF
      ∧ (getEtherChecksum s).1 = 65535 - r := by
  obtain ⟨n, h1, h2⟩ := foldStep_iterate s
  refine ⟨onesFold s, n, h1, h2, onesFold_lt _, rfl, ?_, ?_, getEtherChecksum_fst s⟩
  · simp only [getEtherChecksum, foldCarries_eq _ _ (Nat.le_refl _)]
  · rw [xor_ffff _ (onesFold_lt _)]
    exact getEtherChecksum_fst s

/-! ## Checksum self-consistency -/

theorem ofList_isBytes (l : List Nat) (h : ∀ b ∈ l, b < 256) : IsBytes (Mem.ofList l) := by
  intro i
  unfold Mem.ofList
  by_cases hi : i < l.length
  · rw [List.getD_eq_getElem _ _ hi]
    exact h _ (List.getElem_mem hi)
  · rw [List.getD_eq_default _ _ (by omega)]
    omega

/-- A checksum computed from the exact sum `S` validates every sum equal to `S` plus it. -/
theorem getEtherChecksum_closes (S : Nat) :
    (getEtherChecksum (S + (65535 - onesFold S))).1 = 0 := by
  rw [getEtherChecksum_fst, onesFold_add_compl]

/-- C1: checksum self-consistency.  For every byte sequence shorter than 65536 bytes with a
two-byte field at an even offset `k` holding zero, storing in that field (low byte first)
the value `getEtherChecksum` returns after `etherSumWords` has summed the sequence from a
zero accumulator makes the same computation over the updated sequence return 0. -/
theorem checksum_self_consistent (bytes : List Nat) (k : Nat)
    (hb : ∀ b ∈ bytes, b < 256) (hlen : bytes.length < 65536)
    (hk : k % 2 = 0) (hk1 : k + 1 < bytes.length)
    (h0 : bytes.getD k 0 = 0) (h1 : bytes.getD (k + 1) 0 = 0) :
    (getEtherChecksum (etherSumWords 0
        (wr16 (Mem.ofList bytes) k
          (getEtherChecksum (etherSumWords 0 (Mem.ofList bytes) 0 bytes.length)).1)
        0 bytes.length)).1 = 0 := by
  have hm := ofList_isBytes bytes hb
  have hle := wsum_le (Mem.ofList bytes) hm bytes.length 0 false
  have hmod : bytes.length % 65536 = bytes.length := Nat.mod_eq_of_lt hlen
  have hS : etherSumWords 0 (Mem.ofList bytes) 0 bytes.length
      = wsum (Mem.ofList bytes) bytes.length 0 false := by
    rw [etherSumWords_sum _ _ _ _ (by omega), hmod, Nat.zero_add]
    exact Nat.mod_eq_of_lt (by omega)
  have e1 := wsum_field (Mem.ofList bytes) bytes.length k 0 hk (by omega)
  have e2 := wsum_wr16 (Mem.ofList bytes) bytes.length k 0
    (65535 - onesFold (wsum (Mem.ofList bytes) bytes.length 0 false)) hk (by omega) (by omega)
  simp only [Nat.zero_add] at e1 e2
  have z0 : Mem.ofList bytes k = 0 := h0
  have z1 : Mem.ofList bytes (k + 1) = 0 := h1
  rw [z0, z1] at e1
  have hS2 : etherSumWords 0 (wr16 (Mem.ofList bytes) k
      (65535 - onesFold (wsum (Mem.ofList bytes) bytes.length 0 false))) 0 bytes.length
      = wsum (Mem.ofList bytes) bytes.length 0 false
        + (65535 - onesFold (wsum (Mem.ofList bytes) bytes.length 0 false)) := by
    rw [etherSumWords_sum _ _ _ _ (by omega), hmod, Nat.zero_add, e2]
    rw [Nat.mod_eq_of_lt (by omega)]
    omega
  rw [hS, getEtherChecksum_fst (wsum (Mem.ofList bytes) bytes.length 0 false), hS2]
  exact getEtherChecksum_closes _

theorem checksum_self_consistent_witness :
    (∀ b ∈ exampleIpHeader, b < 256) ∧ exampleIpHeader.length < 65536 ∧ 10 % 2 = 0
      ∧ 10 + 1 < exampleIpHeader.length ∧ exampleIpHeader.getD 10 0 = 0
      ∧ exampleIpHeader.getD (10 + 1) 0 = 0
      ∧ (getEtherChecksum (etherSumWords 0
          (wr16 (Mem.ofList exampleIpHeader) 10
            (getEtherChecksum (etherSumWords 0 (Mem.ofList exampleIpHeader) 0
              exampleIpHeader.length)).1)
          0 exampleIpHeader.length)).1 = 0 :=
  ⟨by decide, by decide, by decide, by decide, by decide, by decide,
    checksum_self_consistent exampleIpHeader 10
      (by decide) (by decide) (by decide) (by decide) (by decide) (by decide)⟩

/-! ## Agreement with RFC 1071 -/

theorem wsum_eq_lsum (l : List Nat) (m : Mem) (p : Nat) (hi : Bool)
    (h : ∀ i, i < l.length → m (p + i) = l.getD i 0) : wsum m l.length p hi = lsum l hi := by
  induction l generalizing p hi with
  | nil => simp [wsum, lsum]
  | cons a l ih =>
    have h0 := h 0 (by simp)
    have ht := ih (p + 1) (!hi) (fun i hin => by
      have := h (i + 1) (by simp; omega)
      rw [show p + 1 + i = p + (i + 1) by omega, this]
      simp)
    simp only [Nat.add_zero, List.getD_cons_zero] at h0
    simp only [List.length_cons, wsum, lsum, h0, ht]

theorem wsum_ofList (l : List Nat) (hi : Bool) :
    wsum (Mem.ofList l) l.length 0 hi = lsum l hi :=
  wsum_eq_lsum l _ 0 hi (fun i _ => by simp [Mem.ofList])

theorem wsum_bytesAt (m : Mem) (n p : Nat) (hi : Bool) :
    lsum (bytesAt m p n) hi = wsum m n p hi := by
  have h := wsum_eq_lsum (bytesAt m p n) m p hi (fun i hin => by
    simp only [bytesAt, List.length_map, List.length_range] at hin
    simp [bytesAt, List.getD_eq_getElem?_getD, hin])
  simp only [bytesAt, List.length_map, List.length_range] at h
  exact h.symm

theorem beWords_sum (l : List Nat) : (beWords l).sum = lsum l true := by
  induction l using beWords.induct with
  | case1 => simp [beWords, lsum]
  | case2 a => simp [beWords, lsum]
  | case3 a b rest ih => simp [beWords, lsum, ih]; omega

theorem beWords_lt (l : List Nat) (h : ∀ b ∈ l, b < 256) : ∀ w ∈ beWords l, w < 65536 := by
  induction l using beWords.induct with
  | case1 => simp [beWords]
  | case2 a =>
    have := h a (by simp)
    simp only [beWords, List.mem_singleton, forall_eq]
    omega
  | case3 a b rest ih =>
    have ha := h a (by simp)
    have hb := h b (by simp)
    intro w hw
    simp only [beWords, List.mem_cons] at hw
    rcases hw with rfl | hw
    · omega
    · exact ih (fun x hx => h x (by simp [hx])) w hw

theorem onesAdd_onesFold (A w : Nat) (hw : w < 65536) :
    onesAdd (onesFold A) w = onesFold (A + w) := by
  unfold onesAdd onesFold
  split <;> split <;> split <;> omega

theorem foldl_onesAdd (ws : List Nat) (h : ∀ w ∈ ws, w < 65536) (A : Nat) :
    ws.foldl onesAdd (onesFold A) = onesFold (A + ws.sum) := by
  induction ws generalizing A with
  | nil => simp
  | cons w ws ih =>
    rw [List.foldl_cons, onesAdd_onesFold A w (h w (by simp)),
      ih (fun x hx => h x (by simp [hx])), List.sum_cons, Nat.add_assoc]

theorem rfc1071Checksum_eq (l : List Nat) (h : ∀ b ∈ l, b < 256) :
    rfc1071Checksum l = 65535 - onesFold (lsum l true) := by
  have h0 : onesFold 0 = 0 := by simp [onesFold]
  have := foldl_onesAdd (beWords l) (beWords_lt l h) 0
  rw [h0, Nat.zero_add, beWords_sum] at this
  rw [rfc1071Checksum, this]

theorem lsum_swap (l : List Nat) (hi : Bool) :
    256 * lsum l hi = lsum l (!hi) + 65535 * hsum l hi := by
  induction l generalizing hi with
  | nil => simp [lsum, hsum]
  | cons a l ih =>
    have := ih (!hi)
    cases hi <;> simp [lsum, hsum] at this ⊢ <;> omega

theorem swap_arith (X Y H : Nat) (h1 : 256 * X = Y + 65535 * H) (hY : Y ≠ 0) :
    (65535 - ((X - 1) % 65535 + 1)) % 65536 / 256 + (65535 - ((X - 1) % 65535 + 1)) % 256 * 256
      = 65535 - ((Y - 1) % 65535 + 1) := by
  have hq := Nat.div_add_mod (X - 1) 65535
  have hr := Nat.mod_lt (X - 1) (show 65535 > 0 by omega)
  generalize (X - 1) % 65535 = r0 at *
  generalize (X - 1) / 65535 = q at *
  have hc : 65535 - (r0 + 1) = 65534 - r0 := by omega
  rw [hc]
  have hc0 := Nat.div_add_mod (65534 - r0) 256
  have hc0lt := Nat.mod_lt (65534 - r0) (show 256 > 0 by omega)
  have hm : (65534 - r0) % 65536 = 65534 - r0 := Nat.mod_eq_of_lt (by omega)
  rw [hm]
  generalize (65534 - r0) % 256 = c0 at *
  generalize (65534 - r0) / 256 = c1 at *
  have hY1 : Y + c1 + 256 * c0 + 65535 * (H + c1) = 65535 * (256 * q + 256) := by omega
  have hg := Nat.div_add_mod (Y - 1) 65535
  have hglt := Nat.mod_lt (Y - 1) (show 65535 > 0 by omega)
  generalize (Y - 1) % 65535 = e at *
  generalize (Y - 1) / 65535 = g at *
  omega

/-- Byte-swapping the complement of the folded little-endian sum gives the complement of the
folded big-endian sum. -/
theorem htons_compl_onesFold (l : List Nat) :
    htons (65535 - onesFold (lsum l false)) = 65535 - onesFold (lsum l true) := by
  have h1 := lsum_swap l false
  have h2 := lsum_swap l true
  simp only [Bool.not_false, Bool.not_true] at h1 h2
  rw [htons_eq]
  generalize lsum l false = X at *
  generalize lsum l true = Y at *
  unfold onesFold
  by_cases hX : X = 0
  · have hY : Y = 0 := by omega
    simp [hX, hY]
  · have hY : Y ≠ 0 := by omega
    rw [if_neg hX, if_neg hY]
    exact swap_arith X Y _ h1 hY

/-- C2: RFC 1071 equivalence.  For every byte sequence shorter than 65536 bytes, the value
`getEtherChecksum` returns after `etherSumWords` has summed the sequence from a zero
accumulator, once byte-swapped by `htons`, is the RFC 1071 checksum of the sequence taken as
big-endian 16-bit words (an odd trailing byte being the high byte of a last word). -/
theorem checksum_refines_rfc1071 (bytes : List Nat)
    (hb : ∀ b ∈ bytes, b < 256) (hlen : bytes.length < 65536) :
    htons (getEtherChecksum (etherSumWords 0 (Mem.ofList bytes) 0 bytes.length)).1
      = rfc1071Checksum bytes := by
  have hm := ofList_isBytes bytes hb
  have hle := wsum_le (Mem.ofList bytes) hm bytes.length 0 false
  rw [getEtherChecksum_fst, etherSumWords_sum _ _ _ _ (by omega), Nat.mod_eq_of_lt hlen,
    Nat.zero_add, Nat.mod_eq_of_lt (by omega), wsum_ofList, htons_compl_onesFold,
    rfc1071Checksum_eq bytes hb]

theorem checksum_refines_rfc1071_witness :
    (∀ b ∈ exampleIcmpEcho, b < 256) ∧ exampleIcmpEcho.length < 65536
      ∧ htons (getEtherChecksum (etherSumWords 0 (Mem.ofList exampleIcmpEcho) 0
          exampleIcmpEcho.length)).1 = rfc1071Checksum exampleIcmpEcho :=
  ⟨by decide, by decide, checksum_refines_rfc1071 exampleIcmpEcho (by decide) (by decide)⟩

/-! ## IP header checksum -/

/-- Exact accumulation: when the accumulator `s` is at most `65280 * B`, one more
`etherSumWords` call over bytes adds the weighted sum of its range without wrapping, and the
result is at most `65280 * (B + n)`. -/
theorem acc_sumWords (s : Nat) (m : Mem) (p n B : Nat) (hm : IsBytes m)
    (h : s ≤ 65280 * B) (hB : B + n % 65536 ≤ 65700) :
    etherSumWords s m p n = s + wsum m (n % 65536) p false
      ∧ s + wsum m (n % 65536) p false ≤ 65280 * (B + n % 65536) := by
  have hle := wsum_le m hm (n % 65536) p false
  rw [etherSumWords_sum _ _ _ _ (by omega)]
  exact ⟨Nat.mod_eq_of_lt (by omega), by omega⟩

/-- Exact accumulation of the protocol byte of a pseudo-header. -/
theorem acc_protocol (s x B : Nat) (h : s ≤ 65280 * B) (hB : B + 1 ≤ 65700) :
    (s + ((x &&& 0xff) <<< 8)) % 2 ^ 32 = s + x % 256 * 256
      ∧ s + x % 256 * 256 ≤ 65280 * (B + 1) := by
  simp only [and_ff, shl8, Nat.reducePow]
  have := Nat.mod_lt x (show 256 > 0 by omega)
  exact ⟨Nat.mod_eq_of_lt (by omega), by omega⟩

theorem onesFold_le (s : Nat) : onesFold s ≤ 65535 := by
  have := onesFold_lt s
  omega

theorem htons_eq_zero (c : Nat) (hc : c < 65536) : htons c = 0 ↔ c = 0 := by
  rw [htons_eq, Nat.mod_eq_of_lt hc]
  omega

/-- The RFC 1071 checksum of a memory range is zero exactly when the folded accumulator of
`etherSumWords` over it is `0xFFFF`. -/
theorem rfc1071_zero_iff (m : Mem) (hm : IsBytes m) (n p : Nat) :
    rfc1071Checksum (bytesAt m p n) = 0 ↔ onesFold (wsum m n p false) = 65535 := by
  have hb : ∀ b ∈ bytesAt m p n, b < 256 := by
    intro b hb
    simp only [bytesAt, List.mem_map] at hb
    obtain ⟨i, _, rfl⟩ := hb
    exact hm _
  have hsw := htons_compl_onesFold (bytesAt m p n)
  rw [rfc1071Checksum_eq _ hb]
  rw [wsum_bytesAt, wsum_bytesAt] at *
  have h1 := onesFold_le (wsum m n p false)
  have h2 := onesFold_le (wsum m n p true)
  constructor
  · intro h
    have h3 : 65535 - onesFold (wsum m n p true) = 0 := h
    rw [h3] at hsw
    have := (htons_eq_zero _ (by omega)).1 hsw
    omega
  · intro h
    rw [h] at hsw
    have h0 : htons 0 = 0 := by decide
    simp only [Nat.sub_self, h0] at hsw
    omega

theorem htons_0800 : htons 0x0800 = 8 := by decide

theorem etherIsIp_true_iff (g : Globals) (packet : Mem) (hm : IsBytes packet) :
    (etherIsIp g packet).1 = true ↔ packet 12 = 8 ∧ packet 13 = 0
      ∧ onesFold (wsum packet (packet 14 % 16 * 4) 14 false) = 65535 := by
  have hn : packet 14 % 16 * 4 % 65536 = packet 14 % 16 * 4 := by omega
  have hs : etherSumWords 0 packet 14 (packet 14 % 16 * 4)
      = wsum packet (packet 14 % 16 * 4) 14 false := by
    rw [(acc_sumWords 0 packet 14 _ 0 hm (by omega) (by omega)).1, hn, Nat.zero_add]
  have hf := onesFold_le (wsum packet (packet 14 % 16 * 4) 14 false)
  unfold etherIsIp
  simp only [htons_0800, rd16, and_f]
  by_cases h : packet 12 + 256 * packet 13 = 8
  · have h12 : packet 12 = 8 ∧ packet 13 = 0 := by omega
    simp only [h, beq_self_eq_true, if_true, getEtherChecksum_fst, hs, beq_iff_eq, h12,
      true_and]
    omega
  · have h12 : ¬ (packet 12 = 8 ∧ packet 13 = 0) := by omega
    have hb : (packet 12 + 256 * packet 13 == 8) = false := by simpa using h
    simp only [hb, Bool.false_eq_true, if_false, false_iff, not_and]
    intro a b
    exact absurd ⟨a, b⟩ h12

/-- C5: `etherIsIp` returns true if and only if buffer bytes 12 and 13 are 0x08 and 0x00 and
the RFC 1071 checksum over the first IHL × 4 bytes of the IP header (checksum field included)
is 0; otherwise it returns false. -/
theorem etherIsIp_iff (g : Globals) (packet : Mem) (hm : IsBytes packet) :
    ((etherIsIp g packet).1 = true ↔ packet 12 = 0x08 ∧ packet 13 = 0x00
      ∧ rfc1071Checksum (bytesAt packet 14 (packet 14 % 16 * 4)) = 0)
    ∧ ((etherIsIp g packet).1 = false ↔ ¬ (packet 12 = 0x08 ∧ packet 13 = 0x00
      ∧ rfc1071Checksum (bytesAt packet 14 (packet 14 % 16 * 4)) = 0)) := by
  have h := etherIsIp_true_iff g packet hm
  rw [← rfc1071_zero_iff packet hm] at h
  refine ⟨h, ?_⟩
  rw [← h]
  simp

theorem etherIsIp_iff_witness :
    IsBytes (Mem.ofList examplePing)
      ∧ (((etherIsIp exampleGlobals (Mem.ofList examplePing)).1 = true
          ↔ Mem.ofList examplePing 12 = 0x08 ∧ Mem.ofList examplePing 13 = 0x00
            ∧ rfc1071Checksum (bytesAt (Mem.ofList examplePing) 14
                (Mem.ofList examplePing 14 % 16 * 4)) = 0)
        ∧ ((etherIsIp exampleGlobals (Mem.ofList examplePing)).1 = false
          ↔ ¬ (Mem.ofList examplePing 12 = 0x08 ∧ Mem.ofList examplePing 13 = 0x00
            ∧ rfc1071Checksum (bytesAt (Mem.ofList examplePing) 14
                (Mem.ofList examplePing 14 % 16 * 4)) = 0))) :=
  ⟨ofList_isBytes examplePing (by decide),
    etherIsIp_iff exampleGlobals (Mem.ofList examplePing)
      (ofList_isBytes examplePing (by decide))⟩

/-- The sum `etherCalcIpChecksum` and the responders accumulate over an IP header at offset
`ip`, the checksum field left out. -/
theorem ipHeader_sum (m : Mem) (ip : Nat) (hm : IsBytes m) (hihl : 3 ≤ m ip % 16) :
    etherSumWords (etherSumWords 0 m ip 10) m (ip + 12)
        (((m ip &&& 0xF) * 4 + 65536 - 12) % 65536)
      = wsum m 10 ip false + wsum m (m ip % 16 * 4 - 12) (ip + 12) false := by
  have a1 := acc_sumWords 0 m ip 10 0 hm (by omega) (by omega)
  have hn : ((m ip % 16 * 4 + 65536 - 12) % 65536) % 65536 = m ip % 16 * 4 - 12 := by omega
  rw [a1.1, and_f, (acc_sumWords _ m (ip + 12) _ _ hm a1.2 (by omega)).1, hn]
  simp

theorem etherCalcIpChecksum_packet (g : Globals) (m : Mem) (ip : Nat) (hm : IsBytes m)
    (hihl : 3 ≤ m ip % 16) :
    (etherCalcIpChecksum g m ip).2 = wr16 m (ip + 10)
      (65535 - onesFold (wsum m 10 ip false + wsum m (m ip % 16 * 4 - 12) (ip + 12) false)) := by
  unfold etherCalcIpChecksum
  simp only [getEtherChecksum_fst, ipHeader_sum m ip hm hihl]

/-- A header whose checksum field holds the complement of the folded sum of the other header
bytes folds to `0xFFFF`. -/
theorem ipHeader_valid (m : Mem) (ip : Nat) (n : Nat) (hn : 12 ≤ n) :
    onesFold (wsum (wr16 m (ip + 10)
        (65535 - onesFold (wsum m 10 ip false + wsum m (n - 12) (ip + 12) false))) n ip false)
      = 65535 := by
  have h := wsum_wr16 m n 10 ip
    (65535 - onesFold (wsum m 10 ip false + wsum m (n - 12) (ip + 12) false))
    (by decide) (by omega) (by omega)
  rw [show n - 10 - 2 = n - 12 by omega, show ip + 10 + 2 = ip + 12 by omega] at h
  rw [h, show ∀ a c b : Nat, a + c + b = (a + b) + c by intros; omega]
  exact onesFold_add_compl _

/-- C4: IP header checksum round trip.  For every buffer whose EtherType bytes are 0x08,
0x00 and whose IHL nibble is at least 5 (a nibble is at most 15), `etherIsIp` returns true
on the buffer `etherCalcIpChecksum` has written the header checksum into, whatever the other
header bytes and the previous content of the checksum field are. -/
theorem ip_checksum_round_trip (g g1 : Globals) (packet : Mem) (hm : IsBytes packet)
    (h12 : packet 12 = 0x08) (h13 : packet 13 = 0x00)
    (hlo : 5 ≤ packet 14 % 16) :
    (etherIsIp g1 (etherCalcIpChecksum g packet 14).2).1 = true := by
  rw [etherCalcIpChecksum_packet g packet 14 hm (by omega)]
  have hm1 : IsBytes (wr16 packet (14 + 10)
      (65535 - onesFold (wsum packet 10 14 false
        + wsum packet (packet 14 % 16 * 4 - 12) (14 + 12) false))) := by
    intro i
    have := hm i
    simp only [wr16, wr8]
    split <;> [omega; (split <;> [omega; exact this])]
  rw [etherIsIp_true_iff _ _ hm1]
  refine ⟨by rw [wr16_same _ _ _ _ (by omega) (by omega)]; exact h12,
    by rw [wr16_same _ _ _ _ (by omega) (by omega)]; exact h13, ?_⟩
  rw [wr16_same _ _ _ 14 (by omega) (by omega)]
  exact ipHeader_valid packet 14 (packet 14 % 16 * 4) (by omega)

theorem ip_checksum_round_trip_witness :
    IsBytes (Mem.ofList examplePing) ∧ Mem.ofList examplePing 12 = 0x08
      ∧ Mem.ofList examplePing 13 = 0x00 ∧ 5 ≤ Mem.ofList examplePing 14 % 16
      ∧ (etherIsIp exampleGlobals
          (etherCalcIpChecksum exampleGlobals (Mem.ofList examplePing) 14).2).1 = true :=
  ⟨ofList_isBytes examplePing (by decide), by decide, by decide, by decide,
    ip_checksum_round_trip exampleGlobals exampleGlobals (Mem.ofList examplePing)
      (ofList_isBytes examplePing (by decide)) (by decide) (by decide) (by decide)⟩

/-! ## ARP -/

theorem ipMatchLoop_four (packet : Mem) (addr : Nat → Nat) (base : Nat) (ok : Bool) :
    ipMatchLoop packet addr base 4 0 ok = true
      ↔ ok = true ∧ ∀ i, i < 4 → packet (base + i) = addr i := by
  cases ok
  · simp [ipMatchLoop]
  · simp only [ipMatchLoop, if_true, true_and]
    constructor
    · intro h i hi
      simp only [Nat.zero_add, Nat.add_zero, Bool.if_true_left, Bool.or_eq_true,
        Bool.and_eq_true, beq_iff_eq, Bool.not_eq_true, beq_eq_false_iff_ne, ne_eq,
        ite_eq_left_iff, Bool.not_eq_true, Bool.if_false_right, Bool.decide_eq_true,
        Bool.ite_eq_true_distrib, if_true_left] at h
      have : i = 0 ∨ i = 1 ∨ i = 2 ∨ i = 3 := by omega
      rcases this with rfl | rfl | rfl | rfl
      · simp_all
      · simp_all
      · simp_all
      · simp_all
    · intro h
      have h0 := h 0 (by omega)
      have h1 := h 1 (by omega)
      have h2 := h 2 (by omega)
      have h3 := h 3 (by omega)
      simp only [Nat.add_zero] at h0
      simp [h0, h1, h2, h3]

theorem htons_0806 : htons 0x0806 = 0x0608 := by decide

theorem htons_1 : htons 1 = 0x0100 := by decide

theorem htons_2 : htons 2 = 0x0200 := by decide

theorem arpPredicate_iff (addr : Nat → Nat) (packet : Mem) (hm : IsBytes packet) (op : Nat) :
    ((if ipMatchLoop packet addr (14 + 24) 4 0 (rd16 packet 12 == 0x0608) = true
        then rd16 packet (14 + 6) == op * 256
        else ipMatchLoop packet addr (14 + 24) 4 0 (rd16 packet 12 == 0x0608)) = true)
      ↔ packet 12 = 0x08 ∧ packet 13 = 0x06 ∧ (∀ i, i < 4 → packet (38 + i) = addr i)
        ∧ packet 20 = 0 ∧ packet 21 = op := by
  have b12 := hm 12
  have b20 := hm 20
  have e1 : (rd16 packet 12 == 0x0608) = true ↔ packet 12 = 0x08 ∧ packet 13 = 0x06 := by
    simp only [rd16, beq_iff_eq, Nat.reduceAdd]
    omega
  have e2 : (rd16 packet (14 + 6) == op * 256) = true ↔ packet 20 = 0 ∧ packet 21 = op := by
    simp only [rd16, beq_iff_eq, Nat.reduceAdd]
    omega
  by_cases h : ipMatchLoop packet addr (14 + 24) 4 0 (rd16 packet 12 == 0x0608) = true
  · rw [if_pos h, e2]
    rw [ipMatchLoop_four, e1] at h
    constructor
    · intro h2
      exact ⟨h.1.1, h.1.2, h.2, h2.1, h2.2⟩
    · intro h2
      exact ⟨h2.2.2.2.1, h2.2.2.2.2⟩
  · rw [if_neg h]
    constructor
    · intro h2
      exact absurd h2 h
    · intro h2
      exact absurd ((ipMatchLoop_four _ _ _ _).2 ⟨e1.2 ⟨h2.1, h2.2.1⟩, h2.2.2.1⟩) h

/-- C7: `etherIsArpRequest` returns true if and only if the EtherType bytes are 0x08, 0x06,
the four ARP target-IP bytes (offsets 38..41) equal the local IP address, and the ARP op
field is 1 in network byte order (bytes 0x00, 0x01); `etherIsArpResponse` is the same
predicate with op 2. -/
theorem etherIsArp_iff (g : Globals) (packet : Mem) (hm : IsBytes packet) :
    (etherIsArpRequest g packet = true
      ↔ packet 12 = 0x08 ∧ packet 13 = 0x06 ∧ (∀ i, i < 4 → packet (38 + i) = g.ipAddress i)
        ∧ packet 20 = 0 ∧ packet 21 = 1)
    ∧ (etherIsArpResponse g packet = true
      ↔ packet 12 = 0x08 ∧ packet 13 = 0x06 ∧ (∀ i, i < 4 → packet (38 + i) = g.ipAddress i)
        ∧ packet 20 = 0 ∧ packet 21 = 2) := by
  constructor
  · have h := arpPredicate_iff g.ipAddress packet hm 1
    simpa only [etherIsArpRequest, htons_0806, htons_1] using h
  · have h := arpPredicate_iff g.ipAddress packet hm 2
    simpa only [etherIsArpResponse, htons_0806, htons_2] using h

theorem etherIsArp_iff_witness :
    IsBytes (Mem.ofList exampleArpRequest)
      ∧ ((etherIsArpRequest exampleGlobals (Mem.ofList exampleArpRequest) = true
          ↔ Mem.ofList exampleArpRequest 12 = 0x08 ∧ Mem.ofList exampleArpRequest 13 = 0x06
            ∧ (∀ i, i < 4 → Mem.ofList exampleArpRequest (38 + i) = exampleGlobals.ipAddress i)
            ∧ Mem.ofList exampleArpRequest 20 = 0 ∧ Mem.ofList exampleArpRequest 21 = 1)
        ∧ (etherIsArpResponse exampleGlobals (Mem.ofList exampleArpRequest) = true
          ↔ Mem.ofList exampleArpRequest 12 = 0x08 ∧ Mem.ofList exampleArpRequest 13 = 0x06
            ∧ (∀ i, i < 4 → Mem.ofList exampleArpRequest (38 + i) = exampleGlobals.ipAddress i)
            ∧ Mem.ofList exampleArpRequest 20 = 0 ∧ Mem.ofList exampleArpRequest 21 = 2)) :=
  ⟨ofList_isBytes exampleArpRequest (by decide),
    etherIsArp_iff exampleGlobals (Mem.ofList exampleArpRequest)
      (ofList_isBytes exampleArpRequest (by decide))⟩

theorem range_42 : List.range 42 = [0, 1, 2, 3, 4, 5, 6, 7, 8, 9, 10, 11, 12, 13, 14, 15, 16,
    17, 18, 19, 20, 21, 22, 23, 24, 25, 26, 27, 28, 29, 30, 31, 32, 33, 34, 35, 36, 37, 38, 39,
    40, 41] := by
  decide

theorem etherIsArpRequest_targetIp (g : Globals) (packet : Mem)
    (h : etherIsArpRequest g packet = true) : ∀ i, i < 4 → packet (38 + i) = g.ipAddress i := by
  unfold etherIsArpRequest at h
  by_cases hl : ipMatchLoop packet g.ipAddress (14 + 24) 4 0 (rd16 packet 12 == htons 0x0806)
      = true
  · exact ((ipMatchLoop_four _ _ _ _).1 hl).2
  · simp only [hl, if_false] at h
    simp at h

/-- C6: ARP reply.  For every buffer on which `etherIsArpRequest` returns true,
`etherSendArpResponse` transmits exactly the first 42 bytes of the buffer it has built, and
they are: the request's Ethernet source MAC as Ethernet destination, the local MAC as
Ethernet source, the EtherType and the first six ARP bytes of the request unchanged, the op
bytes 0x00, 0x02, the local MAC and the local IP as ARP sender, and the request's ARP sender
MAC and sender IP as ARP target. -/
theorem arp_reply (g : Globals) (packet : Mem) (h : etherIsArpRequest g packet = true) :
    (etherSendArpResponse g packet).frame.length = 42
    ∧ (etherSendArpResponse g packet).frame
        = bytesAt (etherSendArpResponse g packet).packet 0 42
    ∧ (etherSendArpResponse g packet).frame
        = [packet 6, packet 7, packet 8, packet 9, packet 10, packet 11,
           g.macAddress 0, g.macAddress 1, g.macAddress 2, g.macAddress 3, g.macAddress 4,
           g.macAddress 5,
           packet 12, packet 13,
           packet 14, packet 15, packet 16, packet 17, packet 18, packet 19,
           0, 2,
           g.macAddress 0, g.macAddress 1, g.macAddress 2, g.macAddress 3, g.macAddress 4,
           g.macAddress 5,
           g.ipAddress 0, g.ipAddress 1, g.ipAddress 2, g.ipAddress 3,
           packet 22, packet 23, packet 24, packet 25, packet 26, packet 27,
           packet 28, packet 29, packet 30, packet 31] := by
  have hip := etherIsArpRequest_targetIp g packet h
  have h0 := hip 0 (by omega)
  have h1 := hip 1 (by omega)
  have h2 := hip 2 (by omega)
  have h3 := hip 3 (by omega)
  simp only [Nat.add_zero, Nat.reduceAdd] at h0 h1 h2 h3
  refine ⟨?_, rfl, ?_⟩
  · simp [etherSendArpResponse, etherPutPacket, bytesAt]
  · simp only [etherSendArpResponse, etherPutPacket, bytesAt, Nat.reduceMod, range_42,
      List.map, htons_2]
    simp [arpMacLoop, swapFields, wr16, wr8, h0, h1, h2, h3]

theorem arp_reply_witness :
    etherIsArpRequest exampleGlobals (Mem.ofList exampleArpRequest) = true
    ∧ (etherSendArpResponse exampleGlobals (Mem.ofList exampleArpRequest)).frame
        = [0xaa, 0xbb, 0xcc, 0xdd, 0xee, 1, 2, 3, 4, 5, 6, 123, 8, 6,
           0, 1, 8, 0, 6, 4, 0, 2, 2, 3, 4, 5, 6, 123, 192, 168, 2, 123,
           0xaa, 0xbb, 0xcc, 0xdd, 0xee, 1, 192, 168, 2, 1] :=
  ⟨by decide,
    (arp_reply exampleGlobals (Mem.ofList exampleArpRequest) (by decide)).2.2⟩

/-! ## Buffer updates of the responders -/

theorem swapFields_apply (a b n i0 : Nat) (m : Mem) (hd : a + n ≤ b ∨ b + n ≤ a) (j : Nat) :
    swapFields a b n i0 m j
      = if a + i0 ≤ j ∧ j < a + i0 + n then m (j - a + b)
        else if b + i0 ≤ j ∧ j < b + i0 + n then m (j - b + a)
        else m j := by
  induction n generalizing i0 m with
  | zero =>
    simp only [swapFields]
    rw [if_neg (by omega), if_neg (by omega)]
  | succ n ih =>
    simp only [swapFields]
    rw [ih (i0 + 1) _ (by omega)]
    simp only [wr8]
    by_cases h1 : a + i0 ≤ j ∧ j < a + i0 + (n + 1)
    · rw [if_pos h1]
      by_cases h2 : a + (i0 + 1) ≤ j ∧ j < a + (i0 + 1) + n
      · rw [if_pos h2, if_neg (by omega), if_neg (by omega)]
      · have hj : j = a + i0 := by omega
        subst hj
        rw [if_neg h2, if_neg (by omega), if_neg (by omega)]
        simp only [if_true]
        congr 1
        omega
    · rw [if_neg h1, if_neg (by omega)]
      by_cases h3 : b + i0 ≤ j ∧ j < b + i0 + (n + 1)
      · rw [if_pos h3]
        by_cases h4 : b + (i0 + 1) ≤ j ∧ j < b + (i0 + 1) + n
        · rw [if_pos h4, if_neg (by omega), if_neg (by omega)]
        · have hj : j = b + i0 := by omega
          subst hj
          rw [if_neg h4, if_pos rfl]
          congr 1
          omega
      · rw [if_neg h3, if_neg (by omega), if_neg (by omega), if_neg (by omega)]

theorem swapFields_isBytes (a b n : Nat) (m : Mem) (hm : IsBytes m) (hd : a + n ≤ b ∨ b + n ≤ a) :
    IsBytes (swapFields a b n 0 m) := by
  intro j
  rw [swapFields_apply a b n 0 m hd j]
  split
  · exact hm _
  · split <;> exact hm _

theorem wr8_isBytes (m : Mem) (hm : IsBytes m) (a v : Nat) (hv : v < 256) : IsBytes (wr8 m a v) := by
  intro j
  simp only [wr8]
  split
  · exact hv
  · exact hm j

theorem wr16_isBytes (m : Mem) (hm : IsBytes m) (a v : Nat) : IsBytes (wr16 m a v) :=
  wr8_isBytes _ (wr8_isBytes m hm a _ (Nat.mod_lt _ (by omega))) _ _ (Nat.mod_lt _ (by omega))

/-- A range whose two-byte field at even offset `k` holds the complement of the folded sum
of everything else that is accumulated folds to `0xFFFF`. -/
theorem checksum_field_valid (m : Mem) (p n k extra : Nat) (hk : k % 2 = 0) (hn : k + 2 ≤ n) :
    onesFold (extra + wsum (wr16 m (p + k)
        (65535 - onesFold (extra + wsum m k p false + wsum m (n - k - 2) (p + k + 2) false)))
        n p false) = 65535 := by
  have h := wsum_wr16 m n k p
    (65535 - onesFold (extra + wsum m k p false + wsum m (n - k - 2) (p + k + 2) false))
    hk hn (by omega)
  rw [h, show ∀ e a c b : Nat, e + (a + c + b) = (e + a + b) + c by intros; omega]
  exact onesFold_add_compl _

theorem htons_rd16 (m : Mem) (hm : IsBytes m) (a : Nat) :
    htons (rd16 m a) = m a * 256 + m (a + 1) := by
  have h1 := hm a
  have h2 := hm (a + 1)
  rw [htons_eq, rd16]
  omega

/-! ## ICMP echo reply -/

theorem pingSwapped_isBytes (packet : Mem) (hm : IsBytes packet) : IsBytes (pingSwapped packet) :=
  wr8_isBytes _ (swapFields_isBytes _ _ _ _ (swapFields_isBytes _ _ _ _ hm (by omega))
    (by omega)) _ _ (by omega)

theorem etherSendPingResponse_packet (g : Globals) (packet : Mem) (hm : IsBytes packet) :
    (etherSendPingResponse g packet).packet
      = wr16 (pingSwapped packet) (14 + (packet 14 &&& 0xF) * 4 + 2)
          (65535 - onesFold (0 + wsum (pingSwapped packet) 2 (14 + (packet 14 &&& 0xF) * 4) false
            + wsum (pingSwapped packet)
                ((htons (rd16 (pingSwapped packet) (14 + 2)) + 65536 - 24) % 65536)
                (14 + (packet 14 &&& 0xF) * 4 + 4) false)) := by
  have hs := pingSwapped_isBytes packet hm
  have a1 := acc_sumWords 0 (pingSwapped packet) (14 + (packet 14 &&& 0xF) * 4) 2 0 hs
    (by omega) (by omega)
  have a2 := acc_sumWords _ (pingSwapped packet) (14 + (packet 14 &&& 0xF) * 4 + 4)
    ((htons (rd16 (pingSwapped packet) (14 + 2)) + 65536 - 24) % 65536) _ hs a1.2 (by omega)
  rw [Nat.mod_mod] at a2
  simp only [etherSendPingResponse, getEtherChecksum_fst]
  rw [← pingSwapped, a1.1, a2.1]

theorem pingSwapped_apply (packet : Mem) (j : Nat) :
    pingSwapped packet j
      = if j = 14 + (packet 14 &&& 0xF) * 4 then 0
        else if j < 6 then packet (j + 6)
        else if j < 12 then packet (j - 6)
        else if 26 ≤ j ∧ j < 30 then packet (j + 4)
        else if 30 ≤ j ∧ j < 34 then packet (j - 4)
        else packet j := by
  simp only [pingSwapped, wr8, swapFields_apply 0 6 6 0 _ (Or.inl (by omega)),
    swapFields_apply (14 + 16) (14 + 12) 4 0 _ (Or.inr (by omega))]
  split_ifs <;> first | rfl | omega | (congr 1; omega)

/-- Outside the exchanged address fields and the ICMP type byte the buffer is unchanged. -/
theorem pingSwapped_keep (packet : Mem) (j : Nat) (h1 : j ≠ 14 + (packet 14 &&& 0xF) * 4)
    (h2 : 12 ≤ j) (h3 : j < 26 ∨ 34 ≤ j) : pingSwapped packet j = packet j := by
  rw [pingSwapped_apply]
  split_ifs <;> first | rfl | omega

/-- C8: ICMP echo reply.  For every buffer accepted by `etherIsIp` and `etherIsPingRequest`
whose IP header has no options (IHL = 5) and whose IP total length `L` is at least 28,
`etherSendPingResponse` leaves the frame an IPv4 frame, changes the ICMP type from 8 to 0,
leaves the ICMP code and every byte from the ICMP id on (id, sequence number, payload)
unchanged, exchanges the Ethernet source and destination MACs and the IP source and
destination addresses, and stores an ICMP checksum for which the RFC 1071 checksum of the
`L - 20` bytes from the ICMP type field to the end of the datagram is 0. -/
theorem ping_reply (g : Globals) (packet : Mem) (hm : IsBytes packet)
    (hip : (etherIsIp g packet).1 = true) (hping : etherIsPingRequest packet = true)
    (hihl : packet 14 % 16 = 5) (hL : 28 ≤ packet 16 * 256 + packet 17) :
    ((etherSendPingResponse g packet).packet 12 = 0x08
      ∧ (etherSendPingResponse g packet).packet 13 = 0x00)
    ∧ (packet 34 = 8 ∧ (etherSendPingResponse g packet).packet 34 = 0)
    ∧ (etherSendPingResponse g packet).packet 35 = packet 35
    ∧ (∀ i, 38 ≤ i → (etherSendPingResponse g packet).packet i = packet i)
    ∧ (∀ i, i < 6 → (etherSendPingResponse g packet).packet i = packet (6 + i)
        ∧ (etherSendPingResponse g packet).packet (6 + i) = packet i)
    ∧ (∀ i, i < 4 → (etherSendPingResponse g packet).packet (26 + i) = packet (30 + i)
        ∧ (etherSendPingResponse g packet).packet (30 + i) = packet (26 + i))
    ∧ rfc1071Checksum (bytesAt (etherSendPingResponse g packet).packet 34
        (packet 16 * 256 + packet 17 - 20)) = 0 := by
  have hf : packet 14 &&& 0xF = 5 := by rw [and_f]; exact hihl
  have hs := pingSwapped_isBytes packet hm
  have b16 := hm 16
  have b17 := hm 17
  have hlen : htons (rd16 (pingSwapped packet) (14 + 2)) = packet 16 * 256 + packet 17 := by
    rw [htons_rd16 _ hs, pingSwapped_apply, pingSwapped_apply, hf]
    simp
  have hpk := etherSendPingResponse_packet g packet hm
  rw [hlen, hf] at hpk
  have hsz : (packet 16 * 256 + packet 17 + 65536 - 24) % 65536
      = packet 16 * 256 + packet 17 - 20 - 2 - 2 := by omega
  rw [hsz] at hpk
  simp only [Nat.reduceMul, Nat.reduceAdd] at hpk
  have hrd : ∀ j, j ≠ 36 → j ≠ 37 →
      (etherSendPingResponse g packet).packet j = pingSwapped packet j := by
    intro j h1 h2
    rw [hpk, wr16_same _ _ _ _ h1 (by omega)]
  have hty : etherIsPingRequest packet = true → packet 34 = 8 := by
    simp only [etherIsPingRequest, hf, Nat.reduceMul, Nat.reduceAdd, Bool.and_eq_true,
      beq_iff_eq]
    exact fun h => h.2
  have hip1 := (etherIsIp_true_iff g packet hm).1 hip
  refine ⟨⟨?_, ?_⟩, ⟨hty hping, ?_⟩, ?_, ?_, ?_, ?_, ?_⟩
  · rw [hrd 12 (by omega) (by omega), pingSwapped_apply, hf]
    simpa using hip1.1
  · rw [hrd 13 (by omega) (by omega), pingSwapped_apply, hf]
    simpa using hip1.2.1
  · rw [hrd 34 (by omega) (by omega), pingSwapped_apply, hf]
    simp
  · rw [hrd 35 (by omega) (by omega), pingSwapped_apply, hf]
    simp
  · intro i hi
    rw [hrd i (by omega) (by omega)]
    exact pingSwapped_keep packet i (by rw [hf]; omega) (by omega) (Or.inr (by omega))
  · intro i hi
    rw [hrd i (by omega) (by omega), hrd (6 + i) (by omega) (by omega), pingSwapped_apply,
      pingSwapped_apply, hf]
    constructor <;> split_ifs <;> first | omega | exact congrArg packet (by omega)
  · intro i hi
    rw [hrd (26 + i) (by omega) (by omega), hrd (30 + i) (by omega) (by omega),
      pingSwapped_apply, pingSwapped_apply, hf]
    constructor <;> split_ifs <;> first | omega | exact congrArg packet (by omega)
  · rw [rfc1071_zero_iff _ (by rw [hpk]; exact wr16_isBytes _ hs _ _), hpk]
    have h := checksum_field_valid (pingSwapped packet) 34
      (packet 16 * 256 + packet 17 - 20) 2 0 (by decide) (by omega)
    simp only [Nat.reduceAdd, Nat.zero_add] at h ⊢
    exact h

theorem ping_reply_witness :
    IsBytes (Mem.ofList examplePing)
    ∧ (etherIsIp exampleGlobals (Mem.ofList examplePing)).1 = true
    ∧ etherIsPingRequest (Mem.ofList examplePing) = true
    ∧ Mem.ofList examplePing 14 % 16 = 5
    ∧ 28 ≤ Mem.ofList examplePing 16 * 256 + Mem.ofList examplePing 17
    ∧ rfc1071Checksum (bytesAt
        (etherSendPingResponse exampleGlobals (Mem.ofList examplePing)).packet 34
        (Mem.ofList examplePing 16 * 256 + Mem.ofList examplePing 17 - 20)) = 0 :=
  ⟨ofList_isBytes examplePing (by decide), by decide, by decide, by decide, by decide,
    (ping_reply exampleGlobals (Mem.ofList examplePing)
      (ofList_isBytes examplePing (by decide)) (by decide) (by decide) (by decide)
      (by decide)).2.2.2.2.2.2⟩

/-- The range the ICMP checksum of the echo reply validates over, for every header length:
the `L - 20` bytes from the ICMP type field (offset `14 + IHL × 4`), `L` being the IP total
length.  It ends at the end of the datagram only when IHL = 5. -/
theorem ping_checksum_range (g : Globals) (packet : Mem) (hm : IsBytes packet)
    (hihl : 5 ≤ packet 14 % 16) (hL : 24 ≤ packet 16 * 256 + packet 17) :
    rfc1071Checksum (bytesAt (etherSendPingResponse g packet).packet
      (14 + packet 14 % 16 * 4) (packet 16 * 256 + packet 17 - 20)) = 0 := by
  have hs := pingSwapped_isBytes packet hm
  have b16 := hm 16
  have b17 := hm 17
  have hlen : htons (rd16 (pingSwapped packet) (14 + 2)) = packet 16 * 256 + packet 17 := by
    have h14 : packet 14 &&& 0xF = packet 14 % 16 := and_f _
    rw [htons_rd16 _ hs, pingSwapped_keep packet (14 + 2) (by omega) (by omega) (Or.inl (by omega)),
      pingSwapped_keep packet (14 + 2 + 1) (by omega) (by omega) (Or.inl (by omega))]
  have hpk := etherSendPingResponse_packet g packet hm
  have hsz : (packet 16 * 256 + packet 17 + 65536 - 24) % 65536
      = packet 16 * 256 + packet 17 - 20 - 2 - 2 := by omega
  rw [hlen, hsz, and_f] at hpk
  rw [rfc1071_zero_iff _ (by rw [hpk]; exact wr16_isBytes _ hs _ _), hpk]
  have h := checksum_field_valid (pingSwapped packet) (14 + packet 14 % 16 * 4)
    (packet 16 * 256 + packet 17 - 20) 2 0 (by decide) (by omega)
  rw [show 14 + packet 14 % 16 * 4 + 2 + 2 = 14 + packet 14 % 16 * 4 + 4 by omega] at h
  simp only [Nat.zero_add] at h ⊢
  exact h

/-- C9 (evaluation at the failing input): the echo request `examplePingOptions`, whose IP
header has one option word (IHL = 6) and total length 36, is accepted by `etherIsIp`,
`etherIsIpUnicast` and `etherIsPingRequest` and carries a valid ICMP checksum; in the reply
`etherSendPingResponse` transmits, the RFC 1071 checksum over the ICMP message (the
36 - 24 = 12 bytes from the ICMP type field to the end of the datagram) is 40349, not 0:
the checksum was computed over 36 - 20 = 16 bytes, four of them past the datagram. -/
theorem echo_options_checksum_mismatch :
    IsBytes (Mem.ofList examplePingOptions)
    ∧ (etherIsIp exampleGlobals (Mem.ofList examplePingOptions)).1 = true
    ∧ etherIsIpUnicast exampleGlobals (Mem.ofList examplePingOptions) = true
    ∧ etherIsPingRequest (Mem.ofList examplePingOptions) = true
    ∧ Mem.ofList examplePingOptions 14 % 16 = 6
    ∧ Mem.ofList examplePingOptions 16 * 256 + Mem.ofList examplePingOptions 17 = 36
    ∧ rfc1071Checksum (bytesAt (Mem.ofList examplePingOptions) 38 (36 - 24)) = 0
    ∧ (etherSendPingResponse exampleGlobals (Mem.ofList examplePingOptions)).frame.length = 50
    ∧ rfc1071Checksum (bytesAt
        (etherSendPingResponse exampleGlobals (Mem.ofList examplePingOptions)).packet 38
        (36 - 24)) = 40349
    ∧ rfc1071Checksum
        ((etherSendPingResponse exampleGlobals (Mem.ofList examplePingOptions)).frame.drop 38)
        = 40349
    ∧ rfc1071Checksum (bytesAt
        (etherSendPingResponse exampleGlobals (Mem.ofList examplePingOptions)).packet 38
        (36 - 20)) = 0 :=
  ⟨ofList_isBytes examplePingOptions (by decide), by decide, by decide, by decide, by decide,
    by decide, by decide, by decide, by decide, by decide, by decide⟩

/-! ## UDP -/

theorem etherIsUdp_true_iff (g : Globals) (packet : Mem) (hm : IsBytes packet) :
    (etherIsUdp g packet).1 = true ↔ packet 23 = 17
      ∧ onesFold (wsum packet 8 26 false + 17 * 256
          + wsum packet 2 (14 + packet 14 % 16 * 4 + 4) false
          + wsum packet (packet (14 + packet 14 % 16 * 4 + 4) * 256
              + packet (14 + packet 14 % 16 * 4 + 4 + 1)) (14 + packet 14 % 16 * 4) false)
        = 65535 := by
  have b1 := hm (14 + packet 14 % 16 * 4 + 4)
  have b2 := hm (14 + packet 14 % 16 * 4 + 4 + 1)
  have hlen := htons_rd16 packet hm (14 + packet 14 % 16 * 4 + 4)
  have a1 := acc_sumWords 0 packet (14 + 12) 8 0 hm (by omega) (by omega)
  have a2 := acc_protocol _ (packet (14 + 9)) _ a1.2 (by omega)
  have a3 := acc_sumWords _ packet (14 + packet 14 % 16 * 4 + 4) 2 _ hm a2.2 (by omega)
  have a4 := acc_sumWords _ packet (14 + packet 14 % 16 * 4)
    (htons (rd16 packet (14 + packet 14 % 16 * 4 + 4))) _ hm a3.2 (by omega)
  have hl : (packet (14 + packet 14 % 16 * 4 + 4) * 256
      + packet (14 + packet 14 % 16 * 4 + 4 + 1)) % 65536
      = packet (14 + packet 14 % 16 * 4 + 4) * 256
        + packet (14 + packet 14 % 16 * 4 + 4 + 1) := Nat.mod_eq_of_lt (by omega)
  have hchain : etherSumWords (etherSumWords ((etherSumWords 0 packet (14 + 12) 8
        + ((packet (14 + 9) &&& 0xff) <<< 8)) % 2 ^ 32) packet
        (14 + packet 14 % 16 * 4 + 4) 2) packet (14 + packet 14 % 16 * 4)
        (htons (rd16 packet (14 + packet 14 % 16 * 4 + 4)))
      = wsum packet 8 26 false + packet 23 % 256 * 256
          + wsum packet 2 (14 + packet 14 % 16 * 4 + 4) false
          + wsum packet (packet (14 + packet 14 % 16 * 4 + 4) * 256
              + packet (14 + packet 14 % 16 * 4 + 4 + 1)) (14 + packet 14 % 16 * 4) false := by
    rw [a1.1, a2.1, a3.1, a4.1, hlen, hl]
    simp only [Nat.reduceMod, Nat.zero_add, Nat.reduceAdd]
  have hf := onesFold_le (wsum packet 8 26 false + 17 * 256
          + wsum packet 2 (14 + packet 14 % 16 * 4 + 4) false
          + wsum packet (packet (14 + packet 14 % 16 * 4 + 4) * 256
              + packet (14 + packet 14 % 16 * 4 + 4 + 1)) (14 + packet 14 % 16 * 4) false)
  clear a1 a2 a3 a4 hl hlen
  unfold etherIsUdp
  simp only [and_f]
  by_cases h : packet 23 = 17
  · have hb : (packet (14 + 9) == 0x11) = true := by simpa using h
    rw [if_pos hb]
    simp only [getEtherChecksum_fst, hchain, beq_iff_eq]
    rw [h]
    simp only [Nat.reduceMod, true_and]
    omega
  · have hb : (packet (14 + 9) == 0x11) = false := by simpa using h
    simp only [hb, Bool.false_eq_true, if_false, h, false_and]

theorem copyLoop_apply (udpData : Nat → Nat) (dst n i0 : Nat) (m : Mem) (j : Nat) :
    copyLoop udpData dst n i0 m j
      = if dst + i0 ≤ j ∧ j < dst + i0 + n then udpData (j - dst) else m j := by
  induction n generalizing i0 m with
  | zero =>
    simp only [copyLoop]
    rw [if_neg (by omega)]
  | succ n ih =>
    simp only [copyLoop]
    rw [ih (i0 + 1)]
    simp only [wr8]
    by_cases h1 : dst + i0 ≤ j ∧ j < dst + i0 + (n + 1)
    · rw [if_pos h1]
      by_cases h2 : dst + (i0 + 1) ≤ j ∧ j < dst + (i0 + 1) + n
      · rw [if_pos h2]
      · have hj : j = dst + i0 := by omega
        subst hj
        rw [if_neg h2, if_pos rfl]
        exact congrArg udpData (by omega)
    · rw [if_neg h1, if_neg (by omega), if_neg (by omega)]

theorem copyLoop_isBytes (udpData : Nat → Nat) (hd : IsBytes udpData) (dst n : Nat) (m : Mem)
    (hm : IsBytes m) : IsBytes (copyLoop udpData dst n 0 m) := by
  intro j
  rw [copyLoop_apply]
  split
  · exact hd _
  · exact hm _

theorem swapped_apply (packet : Mem) (j : Nat) :
    swapFields (14 + 16) (14 + 12) 4 0 (swapFields 0 6 6 0 packet) j
      = if j < 6 then packet (j + 6)
        else if j < 12 then packet (j - 6)
        else if 26 ≤ j ∧ j < 30 then packet (j + 4)
        else if 30 ≤ j ∧ j < 34 then packet (j - 4)
        else packet j := by
  simp only [swapFields_apply 0 6 6 0 _ (Or.inl (by omega)),
    swapFields_apply (14 + 16) (14 + 12) 4 0 _ (Or.inr (by omega))]
  split_ifs <;> first | rfl | omega | (congr 1; omega)

theorem htons_small (x : Nat) (hx : x < 65536) :
    htons x % 256 = x / 256 ∧ htons x / 256 % 256 = x % 256 := by
  rw [htons_eq, Nat.mod_eq_of_lt hx]
  have h1 : x / 256 < 256 := by omega
  have h2 : x % 256 < 256 := by omega
  generalize x / 256 = a at *
  generalize x % 256 = b at *
  constructor <;> omega

/-- What `etherSendUdpResponse` leaves in the buffer, by stages: `m4` is the buffer when the
IP header checksum is computed, `m7` the buffer when the UDP checksum is computed. -/
theorem etherSendUdpResponse_packet (g : Globals) (packet : Mem) (udpData : Nat → Nat)
    (udpSize : Nat) (hm : IsBytes packet) (hd : IsBytes udpData) (hihl : 5 ≤ packet 14 % 16)
    (hn : udpSize ≤ 255) :
    ∃ m4 m7 : Mem, IsBytes m4 ∧ IsBytes m7
      ∧ (∀ j, 12 ≤ j → j < 26 → j ≠ 16 → j ≠ 17 → m4 j = packet j)
      ∧ m4 16 * 256 + m4 17 = packet 14 % 16 * 4 + 8 + udpSize
      ∧ (∀ j, j < 14 + packet 14 % 16 * 4 + 4 → m7 j = wr16 m4 (14 + 10)
          (65535 - onesFold (wsum m4 10 14 false
            + wsum m4 (packet 14 % 16 * 4 - 12) (14 + 12) false)) j)
      ∧ m7 (14 + packet 14 % 16 * 4 + 4) * 256 + m7 (14 + packet 14 % 16 * 4 + 4 + 1)
          = 8 + udpSize
      ∧ (∀ i, i < udpSize → m7 (14 + packet 14 % 16 * 4 + 8 + i) = udpData i)
      ∧ (etherSendUdpResponse g packet udpData udpSize).packet
          = wr16 m7 (14 + packet 14 % 16 * 4 + 6)
              (65535 - onesFold (wsum m7 8 26 false + m7 23 % 256 * 256
                + wsum m7 2 (14 + packet 14 % 16 * 4 + 4) false
                + wsum m7 6 (14 + packet 14 % 16 * 4) false
                + wsum m7 udpSize (14 + packet 14 % 16 * 4 + 8) false)) := by
  unfold etherSendUdpResponse
  lift_lets
  extract_lets n ip udp m1 m2 m3 m4 sum0 sum1 sum2 r m5 m6 m7 sum4 tmp16 sum5 sum6 sum7 sum8 r2 m8
  have hn' : n = udpSize := Nat.mod_eq_of_lt (by omega)
  have hudp : udp = 14 + packet 14 % 16 * 4 := by simp only [udp, ip, and_f]
  have hm2 : IsBytes m2 :=
    swapFields_isBytes _ _ _ _ (swapFields_isBytes _ _ _ _ hm (by omega)) (by omega)
  have hm3 : IsBytes m3 := wr16_isBytes _ hm2 _ _
  have hm4 : IsBytes m4 := wr16_isBytes _ hm3 _ _
  have h2 : ∀ j, 12 ≤ j → j < 26 → m2 j = packet j := by
    intro j h1 h2
    simp only [m2, m1, ip]
    rw [swapped_apply]
    split_ifs <;> first | rfl | omega
  have h3 : ∀ j, j < 34 → m3 j = m2 j := by
    intro j hj
    simp only [m3]
    rw [wr16_same _ _ _ _ (by omega) (by omega)]
  have h314 : m3 ip % 16 = packet 14 % 16 := by
    simp only [ip]
    rw [h3 14 (by omega), h2 14 (by omega) (by omega)]
  have h4 : ∀ j, 12 ≤ j → j < 26 → j ≠ 16 → j ≠ 17 → m4 j = packet j := by
    intro j h1 h2' h16 h17
    simp only [m4, ip]
    rw [wr16_same _ _ _ _ (by omega) (by omega), h3 j (by omega), h2 j h1 h2']
  have hX := htons_small (packet 14 % 16 * 4 + 8 + udpSize) (by omega)
  have h416 : m4 16 * 256 + m4 17 = packet 14 % 16 * 4 + 8 + udpSize := by
    have e1 : m4 16 = htons ((m3 ip &&& 15) * 4 + 8 + n) % 256 := by
      simp only [m4, ip]; exact wr16_lo _ _ _
    have e2 : m4 17 = htons ((m3 ip &&& 15) * 4 + 8 + n) / 256 % 256 := by
      simp only [m4, ip]; exact wr16_hi _ _ _
    rw [e1, e2, and_f, h314, hn', hX.1, hX.2]
    omega
  have h414 : m4 ip % 16 = packet 14 % 16 := by
    simp only [ip]
    rw [h4 14 (by omega) (by omega) (by omega) (by omega)]
  have hr : r.1 = 65535 - onesFold (wsum m4 10 14 false
      + wsum m4 (packet 14 % 16 * 4 - 12) (14 + 12) false) := by
    have := ipHeader_sum m4 14 hm4 (by simp only [ip] at h414; omega)
    simp only [ip] at h414
    simp only [r, sum2, sum1, sum0, ip, getEtherChecksum_fst, this, h414]
  have hm5 : IsBytes m5 := wr16_isBytes _ hm4 _ _
  have hm6 : IsBytes m6 := wr16_isBytes _ hm5 _ _
  have hm7 : IsBytes m7 := copyLoop_isBytes _ hd _ _ _ hm6
  have h7 : ∀ j, m7 j = if udp + 8 ≤ j ∧ j < udp + 8 + n then udpData (j - (udp + 8))
      else m6 j := by
    intro j
    simp only [m7]
    rw [copyLoop_apply]
  have hL := htons_small (8 + udpSize) (by omega)
  refine ⟨m4, m7, hm4, hm7, h4, h416, ?_, ?_, ?_, ?_⟩
  · intro j hj
    rw [h7, if_neg (by omega)]
    simp only [m6]
    rw [wr16_same _ _ _ _ (by omega) (by omega)]
    simp only [m5, hr, ip]
  · rw [h7, h7, if_neg (by omega), if_neg (by omega)]
    have e1 : m6 (14 + packet 14 % 16 * 4 + 4) = htons (8 + n) % 256 := by
      simp only [m6, hudp]; exact wr16_lo _ _ _
    have e2 : m6 (14 + packet 14 % 16 * 4 + 4 + 1) = htons (8 + n) / 256 % 256 := by
      simp only [m6, hudp]; exact wr16_hi _ _ _
    rw [e1, e2, hn', hL.1, hL.2]
    omega
  · intro i hi
    rw [h7, if_pos (by omega)]
    exact congrArg udpData (by omega)
  · have a1 := acc_sumWords 0 m7 (ip + 12) 8 0 hm7 (by omega) (by omega)
    have a2 := acc_protocol _ tmp16 _ a1.2 (by omega)
    have a3 := acc_sumWords _ m7 (udp + 4) 2 _ hm7 a2.2 (by omega)
    have a4 := acc_sumWords _ m7 udp 6 _ hm7 a3.2 (by omega)
    have a5 := acc_sumWords _ m7 (udp + 8) n _ hm7 a4.2 (by omega)
    have hr2 : r2.1 = 65535 - onesFold (wsum m7 8 26 false + m7 23 % 256 * 256
                + wsum m7 2 (14 + packet 14 % 16 * 4 + 4) false
                + wsum m7 6 (14 + packet 14 % 16 * 4) false
                + wsum m7 udpSize (14 + packet 14 % 16 * 4 + 8) false) := by
      simp only [r2, sum8, sum7, sum6, sum5, sum4, sum0, getEtherChecksum_fst, a1.1, a2.1, a3.1,
        a4.1, a5.1]
      simp only [tmp16, ip, hudp, hn', Nat.reduceMod, Nat.zero_add, Nat.reduceAdd,
        Nat.mod_eq_of_lt (show udpSize < 65536 by omega)]
    simp only [m8, hr2, hudp]


theorem etherSendUdpResponse_frame (g : Globals) (packet : Mem) (udpData : Nat → Nat)
    (udpSize : Nat) :
    (etherSendUdpResponse g packet udpData udpSize).frame
      = etherPutPacket (etherSendUdpResponse g packet udpData udpSize).packet
          (22 + ((etherSendUdpResponse g packet udpData udpSize).packet 14 &&& 0xF) * 4
            + udpSize % 256) := rfl

/-- C10: UDP response round trip.  For every buffer with EtherType 0x0800, IP protocol 17 and
IHL at least 5 (a nibble is at most 15), and every payload of `udpSize` bytes (0 to 255),
the buffer `etherSendUdpResponse` builds has IP total length IHL × 4 + 8 + `udpSize` and UDP
length 8 + `udpSize` (both in network byte order), carries the payload bytes after the UDP
header, is accepted by `etherIsIp` and by `etherIsUdp`, and its first
14 + IHL × 4 + 8 + `udpSize` bytes are what is transmitted. -/
theorem udp_response_round_trip (g g1 g2 : Globals) (packet : Mem) (udpData : Nat → Nat)
    (udpSize : Nat) (hm : IsBytes packet) (hd : IsBytes udpData)
    (h12 : packet 12 = 0x08) (h13 : packet 13 = 0x00) (hproto : packet 23 = 17)
    (hihl : 5 ≤ packet 14 % 16) (hn : udpSize ≤ 255) :
    (etherSendUdpResponse g packet udpData udpSize).packet 16 * 256
        + (etherSendUdpResponse g packet udpData udpSize).packet 17
      = packet 14 % 16 * 4 + 8 + udpSize
    ∧ (etherSendUdpResponse g packet udpData udpSize).packet (14 + packet 14 % 16 * 4 + 4) * 256
        + (etherSendUdpResponse g packet udpData udpSize).packet (14 + packet 14 % 16 * 4 + 5)
      = 8 + udpSize
    ∧ (∀ i, i < udpSize →
        (etherSendUdpResponse g packet udpData udpSize).packet (14 + packet 14 % 16 * 4 + 8 + i)
          = udpData i)
    ∧ (etherIsIp g1 (etherSendUdpResponse g packet udpData udpSize).packet).1 = true
    ∧ (etherIsUdp g2 (etherSendUdpResponse g packet udpData udpSize).packet).1 = true
    ∧ (etherSendUdpResponse g packet udpData udpSize).frame
        = bytesAt (etherSendUdpResponse g packet udpData udpSize).packet 0
            (14 + packet 14 % 16 * 4 + 8 + udpSize) := by
  obtain ⟨m4, m7, hm4, hm7, h4, h416, h7lo, h7len, h7data, hpk⟩ :=
    etherSendUdpResponse_packet g packet udpData udpSize hm hd hihl hn
  have hfr := etherSendUdpResponse_frame g packet udpData udpSize
  have hm8 : IsBytes (etherSendUdpResponse g packet udpData udpSize).packet := by
    rw [hpk]
    exact wr16_isBytes m7 hm7 _ _
  have h8 : ∀ j, j ≠ 14 + packet 14 % 16 * 4 + 6 → j ≠ 14 + packet 14 % 16 * 4 + 6 + 1 →
      (etherSendUdpResponse g packet udpData udpSize).packet j = m7 j := by
    intro j h1 h2
    rw [hpk, wr16_same _ _ _ _ h1 h2]
  have h8lo : ∀ j, j < 14 + packet 14 % 16 * 4 + 4 → j ≠ 24 → j ≠ 25 →
      (etherSendUdpResponse g packet udpData udpSize).packet j = m4 j := by
    intro j hj h24 h25
    rw [h8 j (by omega) (by omega), h7lo j hj, wr16_same _ _ _ _ (by omega) (by omega)]
  have e12 := h8lo 12 (by omega) (by omega) (by omega)
  have e13 := h8lo 13 (by omega) (by omega) (by omega)
  have e14 := h8lo 14 (by omega) (by omega) (by omega)
  have e16 := h8lo 16 (by omega) (by omega) (by omega)
  have e17 := h8lo 17 (by omega) (by omega) (by omega)
  have e23 := h8lo 23 (by omega) (by omega) (by omega)
  rw [h4 12 (by omega) (by omega) (by omega) (by omega)] at e12
  rw [h4 13 (by omega) (by omega) (by omega) (by omega)] at e13
  rw [h4 14 (by omega) (by omega) (by omega) (by omega)] at e14
  rw [h4 23 (by omega) (by omega) (by omega) (by omega)] at e23
  have e723 : m7 23 = 17 := by
    rw [h7lo 23 (by omega), wr16_same _ _ _ _ (by omega) (by omega),
      h4 23 (by omega) (by omega) (by omega) (by omega), hproto]
  have elen : (etherSendUdpResponse g packet udpData udpSize).packet
        (14 + packet 14 % 16 * 4 + 4) * 256
      + (etherSendUdpResponse g packet udpData udpSize).packet
        (14 + packet 14 % 16 * 4 + 4 + 1) = 8 + udpSize := by
    rw [h8 _ (by omega) (by omega), h8 _ (by omega) (by omega), h7len]
  refine ⟨?_, ?_, ?_, ?_, ?_, ?_⟩
  · rw [e16, e17, h416]
  · exact elen
  · intro i hi
    rw [h8 _ (by omega) (by omega), h7data i hi]
  · rw [etherIsIp_true_iff _ _ hm8, e12, e13, e14]
    refine ⟨h12, h13, ?_⟩
    rw [wsum_congr _ (wr16 m4 (14 + 10) (65535 - onesFold (wsum m4 10 14 false
        + wsum m4 (packet 14 % 16 * 4 - 12) (14 + 12) false))) _ 14 false
      (fun i hi => by rw [h8 _ (by omega) (by omega), h7lo _ (by omega)])]
    exact ipHeader_valid m4 14 (packet 14 % 16 * 4) (by omega)
  · rw [etherIsUdp_true_iff _ _ hm8, e14, e23, elen]
    refine ⟨hproto, ?_⟩
    rw [wsum_congr _ m7 8 26 false (fun i hi => h8 _ (by omega) (by omega)),
      wsum_congr _ m7 2 (14 + packet 14 % 16 * 4 + 4) false
        (fun i hi => h8 _ (by omega) (by omega)), hpk, e723]
    have h := checksum_field_valid m7 (14 + packet 14 % 16 * 4) (8 + udpSize) 6
      (wsum m7 8 26 false + 17 * 256 + wsum m7 2 (14 + packet 14 % 16 * 4 + 4) false)
      (by decide) (by omega)
    rw [show 8 + udpSize - 6 - 2 = udpSize by omega,
      show 14 + packet 14 % 16 * 4 + 6 + 2 = 14 + packet 14 % 16 * 4 + 8 by omega] at h
    simp only [Nat.reduceMod] at h ⊢
    exact h
  · rw [hfr, etherPutPacket, and_f, e14, Nat.mod_eq_of_lt (show udpSize < 256 by omega)]
    congr 1
    omega

theorem udp_response_round_trip_witness :
    IsBytes (Mem.ofList exampleUdpRequest) ∧ IsBytes (Mem.ofList [0x70, 0x6f, 0x6e, 0x67])
    ∧ Mem.ofList exampleUdpRequest 12 = 0x08 ∧ Mem.ofList exampleUdpRequest 13 = 0x00
    ∧ Mem.ofList exampleUdpRequest 23 = 17 ∧ 5 ≤ Mem.ofList exampleUdpRequest 14 % 16
    ∧ 4 ≤ 255
    ∧ (etherIsIp exampleGlobals (etherSendUdpResponse exampleGlobals
        (Mem.ofList exampleUdpRequest) (Mem.ofList [0x70, 0x6f, 0x6e, 0x67]) 4).packet).1 = true
    ∧ (etherIsUdp exampleGlobals (etherSendUdpResponse exampleGlobals
        (Mem.ofList exampleUdpRequest) (Mem.ofList [0x70, 0x6f, 0x6e, 0x67]) 4).packet).1 = true
    ∧ (etherSendUdpResponse exampleGlobals (Mem.ofList exampleUdpRequest)
        (Mem.ofList [0x70, 0x6f, 0x6e, 0x67]) 4).frame
      = bytesAt (etherSendUdpResponse exampleGlobals (Mem.ofList exampleUdpRequest)
          (Mem.ofList [0x70, 0x6f, 0x6e, 0x67]) 4).packet 0
          (14 + Mem.ofList exampleUdpRequest 14 % 16 * 4 + 8 + 4) :=
  ⟨ofList_isBytes exampleUdpRequest (by decide), ofList_isBytes _ (by decide),
    by decide, by decide, by decide, by decide, by decide,
    (udp_response_round_trip exampleGlobals exampleGlobals exampleGlobals
      (Mem.ofList exampleUdpRequest) (Mem.ofList [0x70, 0x6f, 0x6e, 0x67]) 4
      (ofList_isBytes exampleUdpRequest (by decide)) (ofList_isBytes _ (by decide))
      (by decide) (by decide) (by decide) (by decide) (by decide)).2.2.2⟩

/-! ## DHCP message construction -/

theorem broadcast_mac_apply (j : Nat) (h : j < 6) : broadcast_mac j = 255 := by
  unfold broadcast_mac Mem.ofList
  interval_cases j <;> rfl

theorem dhcpEtherLoop_apply (mac : Nat → Nat) (n i0 : Nat) (m : Mem) (hn : i0 + n ≤ 6) (j : Nat) :
    dhcpEtherLoop mac n i0 m j
      = if i0 ≤ j ∧ j < i0 + n then 255
        else if 6 + i0 ≤ j ∧ j < 6 + i0 + n then mac (j - 6)
        else m j := by
  induction n generalizing i0 m with
  | zero =>
    simp only [dhcpEtherLoop]
    rw [if_neg (by omega), if_neg (by omega)]
  | succ n ih =>
    simp only [dhcpEtherLoop]
    rw [ih (i0 + 1) _ (by omega)]
    simp only [wr8, Nat.zero_add]
    split_ifs <;>
      first | rfl | omega | (exact broadcast_mac_apply _ (by omega)) | (apply congrArg mac; omega)

theorem dhcpIpLoop_apply (a b : Nat → Nat) (ip n i0 : Nat) (m : Mem) (hn : i0 + n ≤ 4) (j : Nat) :
    dhcpIpLoop a b ip n i0 m j
      = if ip + 12 + i0 ≤ j ∧ j < ip + 12 + i0 + n then a (j - (ip + 12))
        else if ip + 16 + i0 ≤ j ∧ j < ip + 16 + i0 + n then b (j - (ip + 16))
        else m j := by
  induction n generalizing i0 m with
  | zero =>
    simp only [dhcpIpLoop]
    rw [if_neg (by omega), if_neg (by omega)]
  | succ n ih =>
    simp only [dhcpIpLoop]
    rw [ih (i0 + 1) _ (by omega)]
    simp only [wr8]
    split_ifs <;>
      first | rfl | omega | (apply congrArg a; omega) | (apply congrArg b; omega)

theorem dhcpChaddrLoop_apply (mac : Nat → Nat) (dhcp n i0 : Nat) (m : Mem) (j : Nat) :
    dhcpChaddrLoop mac dhcp n i0 m j
      = if dhcp + 28 + i0 ≤ j ∧ j < dhcp + 28 + i0 + n then
          (if j - (dhcp + 28) < 6 then mac (j - (dhcp + 28)) else 0)
        else m j := by
  induction n generalizing i0 m with
  | zero =>
    simp only [dhcpChaddrLoop]
    rw [if_neg (by omega)]
  | succ n ih =>
    simp only [dhcpChaddrLoop]
    rw [ih (i0 + 1)]
    by_cases h6 : i0 < 6
    · simp only [h6, if_true, wr8]
      split_ifs <;> first | rfl | omega | (apply congrArg mac; omega)
    · simp only [h6, if_false, wr8]
      split_ifs <;> first | rfl | omega

theorem dhcpDataLoop_apply (dhcp n i0 : Nat) (m : Mem) (j : Nat) :
    dhcpDataLoop dhcp n i0 m j
      = if dhcp + 44 + i0 ≤ j ∧ j < dhcp + 44 + i0 + n then 0 else m j := by
  induction n generalizing i0 m with
  | zero =>
    simp only [dhcpDataLoop]
    rw [if_neg (by omega)]
  | succ n ih =>
    simp only [dhcpDataLoop]
    rw [ih (i0 + 1)]
    simp only [wr8]
    split_ifs <;> first | rfl | omega

theorem dhcpDiscoverLoop_apply (dhcp n i0 : Nat) (m : Mem) (hn : i0 + n ≤ 4) (j : Nat) :
    dhcpDiscoverLoop dhcp n i0 m j
      = if dhcp + 12 + i0 ≤ j ∧ j < dhcp + 28 ∧ (j - (dhcp + 12 + i0)) % 4 < n then 0 else m j := by
  induction n generalizing i0 m with
  | zero =>
    simp only [dhcpDiscoverLoop]
    rw [if_neg (by omega)]
  | succ n ih =>
    simp only [dhcpDiscoverLoop]
    rw [ih (i0 + 1) _ (by omega)]
    simp only [wr8]
    split_ifs <;> first | rfl | omega

theorem dhcpRequestLoop_mem (c : Bool) (dhcp n i0 : Nat) (y s : Nat → Nat) (m : Mem) (j : Nat) :
    (dhcpRequestLoop c dhcp n i0 (y, s, m)).2.2 j
      = if (dhcp + 12 + i0 ≤ j ∧ j < dhcp + 12 + i0 + n)
            ∨ (dhcp + 24 + i0 ≤ j ∧ j < dhcp + 24 + i0 + n) then 0 else m j := by
  induction n generalizing i0 m y s with
  | zero =>
    simp only [dhcpRequestLoop]
    rw [if_neg (by omega)]
  | succ n ih =>
    simp only [dhcpRequestLoop]
    rw [ih (i0 + 1)]
    simp only [wr8]
    split_ifs <;> first | rfl | omega

theorem dhcpRequestLoop_yiaddr (dhcp n i0 : Nat) (y s : Nat → Nat) (m : Mem)
    (hn : i0 + n ≤ 4) (k : Nat) :
    (dhcpRequestLoop true dhcp n i0 (y, s, m)).1 k
      = if i0 ≤ k ∧ k < i0 + n then m (dhcp + 16 + k) else y k := by
  induction n generalizing i0 m y s with
  | zero =>
    simp only [dhcpRequestLoop]
    rw [if_neg (by omega)]
  | succ n ih =>
    simp only [dhcpRequestLoop]
    rw [ih (i0 + 1) _ _ _ (by omega)]
    simp only [wr8, if_true]
    split_ifs <;> first | rfl | omega | (apply congrArg m; omega)

theorem dhcpRequestLoop_siaddr (dhcp n i0 : Nat) (y s : Nat → Nat) (m : Mem)
    (hn : i0 + n ≤ 4) (k : Nat) :
    (dhcpRequestLoop true dhcp n i0 (y, s, m)).2.1 k
      = if i0 ≤ k ∧ k < i0 + n then m (dhcp + 20 + k) else s k := by
  induction n generalizing i0 m y s with
  | zero =>
    simp only [dhcpRequestLoop]
    rw [if_neg (by omega)]
  | succ n ih =>
    simp only [dhcpRequestLoop]
    rw [ih (i0 + 1) _ _ _ (by omega)]
    simp only [wr8, if_true]
    split_ifs <;> first | rfl | omega | (apply congrArg m; omega)

theorem dhcpRequestLoop_keep (dhcp n i0 : Nat) (y s : Nat → Nat) (m : Mem) :
    (dhcpRequestLoop false dhcp n i0 (y, s, m)).1 = y
      ∧ (dhcpRequestLoop false dhcp n i0 (y, s, m)).2.1 = s := by
  induction n generalizing i0 m with
  | zero => simp only [dhcpRequestLoop, and_self]
  | succ n ih =>
    simp only [dhcpRequestLoop, Bool.false_eq_true, if_false]
    exact ih _ _

theorem htons_7147 : htons 0x7147 = 0x4771 := by decide
theorem htons_68 : htons 68 = 0x4400 := by decide
theorem htons_67 : htons 67 = 0x4300 := by decide

theorem dhcpEtherLoop_at (mac : Nat → Nat) (m : Mem) (j : Nat) :
    dhcpEtherLoop mac 6 0 m j
      = if j < 6 then 255 else if 6 ≤ j ∧ j < 12 then mac (j - 6) else m j := by
  rw [dhcpEtherLoop_apply _ _ _ _ (by omega)]
  split_ifs <;> first | rfl | omega

theorem dhcpIpLoop_at (a b : Nat → Nat) (m : Mem) (j : Nat) :
    dhcpIpLoop a b 14 4 0 m j
      = if 26 ≤ j ∧ j < 30 then a (j - 26) else if 30 ≤ j ∧ j < 34 then b (j - 30)
        else m j := by
  rw [dhcpIpLoop_apply _ _ _ _ _ _ (by omega)]

theorem dhcpChaddrLoop_at (mac : Nat → Nat) (m : Mem) (j : Nat) :
    dhcpChaddrLoop mac 42 16 0 m j
      = if 70 ≤ j ∧ j < 86 then (if j - 70 < 6 then mac (j - 70) else 0) else m j := by
  rw [dhcpChaddrLoop_apply]

theorem dhcpDataLoop_at (m : Mem) (j : Nat) :
    dhcpDataLoop 42 192 0 m j = if 86 ≤ j ∧ j < 278 then 0 else m j := by
  rw [dhcpDataLoop_apply]

theorem dhcpDiscoverLoop_at (m : Mem) (j : Nat) :
    dhcpDiscoverLoop 42 4 0 m j = if 54 ≤ j ∧ j < 70 then 0 else m j := by
  rw [dhcpDiscoverLoop_apply _ _ _ _ (by omega)]
  split_ifs <;> first | rfl | omega

theorem dhcpRequestLoop_mem_at (c : Bool) (y s : Nat → Nat) (m : Mem) (j : Nat) :
    (dhcpRequestLoop c 42 4 0 (y, s, m)).2.2 j
      = if (54 ≤ j ∧ j < 58) ∨ (66 ≤ j ∧ j < 70) then 0 else m j := by
  rw [dhcpRequestLoop_mem]

theorem dhcpRequestLoop_yiaddr_at (y s : Nat → Nat) (m : Mem) (k : Nat) (hk : k < 4) :
    (dhcpRequestLoop true 42 4 0 (y, s, m)).1 k = m (58 + k) := by
  rw [dhcpRequestLoop_yiaddr _ _ _ _ _ _ (by omega), if_pos (by omega)]

theorem dhcpRequestLoop_siaddr_at (y s : Nat → Nat) (m : Mem) (k : Nat) (hk : k < 4) :
    (dhcpRequestLoop true 42 4 0 (y, s, m)).2.1 k = m (62 + k) := by
  rw [dhcpRequestLoop_siaddr _ _ _ _ _ _ (by omega), if_pos (by omega)]

theorem wr8_apply (m : Mem) (a v j : Nat) : wr8 m a v j = if j = a then v else m j := rfl

theorem wr16_apply (m : Mem) (a v j : Nat) :
    wr16 m a v j = if j = a + 1 then v / 256 % 256 else if j = a then v % 256 else m j := rfl

theorem wr32_apply (m : Mem) (a v j : Nat) :
    wr32 m a v j = if j = a + 3 then v / 16777216 % 256 else if j = a + 2 then v / 65536 % 256
      else if j = a + 1 then v / 256 % 256 else if j = a then v % 256 else m j := rfl

theorem dhcpSwitch_lenOpts (g : Globals) (m : Mem) (dhcp type l : Nat) :
    (dhcpSwitch g m dhcp (type % 256) l).2.2.2.2 = dhcpLenOpts type l := by
  unfold dhcpSwitch dhcpLenOpts
  split_ifs <;> rfl

theorem dhcpLenOpts_le (type l : Nat) : dhcpLenOpts type l ≤ 255 := by
  unfold dhcpLenOpts
  split_ifs <;> omega

theorem htons_8000 : htons 0x8000 = 0x0080 := by decide

theorem dhcpDiscoverStores_apply (m : Mem) (type j : Nat) :
    dhcpDiscoverStores m 42 type j
      = if j = 285 then 255 else if j = 284 then type else if j = 283 then 1
        else if j = 282 then 53 else if j = 53 then 0 else if j = 52 then 128 else m j := by
  unfold dhcpDiscoverStores
  simp only [wr16_apply, wr8_apply, htons_8000, END, DHCPMESSAGE, Nat.reduceAdd, Nat.reduceMod,
    Nat.reduceDiv]

theorem dhcpReleaseStores_apply (m : Mem) (type j : Nat) :
    dhcpReleaseStores m 42 type j
      = if j = 285 then 255 else if j = 284 then type else if j = 283 then 1
        else if j = 282 then 53 else m j := by
  unfold dhcpReleaseStores
  simp only [wr8_apply, END, DHCPMESSAGE, Nat.reduceAdd]

theorem dhcpRequestStores_apply (y s : Nat → Nat) (m : Mem) (type j : Nat) :
    dhcpRequestStores y s m 42 type j
      = if j = 303 then 255 else if j = 302 then 255 else if j = 301 then 6
        else if j = 300 then 3 else if j = 299 then 1 else if j = 298 then 3
        else if j = 297 then 55 else if j = 296 then s 3 else if j = 295 then s 2
        else if j = 294 then s 1 else if j = 293 then s 0 else if j = 292 then 4
        else if j = 291 then 54 else if j = 290 then y 3 else if j = 289 then y 2
        else if j = 288 then y 1 else if j = 287 then y 0 else if j = 286 then 4
        else if j = 285 then 50 else if j = 284 then type else if j = 283 then 1
        else if j = 282 then 53 else m j := by
  unfold dhcpRequestStores
  simp only [wr8_apply, END, DHCPMESSAGE, REQ_IP_MSG, SERVERID, PARAMETER_REQUEST, SN_MASK_CODE,
    GW_CODE, DNS_CODE, Nat.reduceAdd]

theorem dhcpSwitch_discover (g : Globals) (m : Mem) (dhcp l : Nat) :
    dhcpSwitch g m dhcp 1 l
      = (g.yiaddr, g.siaddr, g.si_yi_clear,
          dhcpDiscoverStores (dhcpDiscoverLoop dhcp 4 0 m) dhcp 1, 4) := rfl

theorem dhcpSwitch_request (g : Globals) (m : Mem) (dhcp l : Nat) :
    dhcpSwitch g m dhcp 3 l
      = ((dhcpRequestLoop g.si_yi_clear dhcp 4 0 (g.yiaddr, g.siaddr, m)).1,
          (dhcpRequestLoop g.si_yi_clear dhcp 4 0 (g.yiaddr, g.siaddr, m)).2.1, false,
          dhcpRequestStores (dhcpRequestLoop g.si_yi_clear dhcp 4 0 (g.yiaddr, g.siaddr, m)).1
            (dhcpRequestLoop g.si_yi_clear dhcp 4 0 (g.yiaddr, g.siaddr, m)).2.1
            (dhcpRequestLoop g.si_yi_clear dhcp 4 0 (g.yiaddr, g.siaddr, m)).2.2 dhcp 3, 22) := rfl

theorem dhcpSwitch_release (g : Globals) (m : Mem) (dhcp l : Nat) :
    dhcpSwitch g m dhcp 7 l
      = (g.yiaddr, g.siaddr, g.si_yi_clear, dhcpReleaseStores m dhcp 7, 4) := rfl

theorem dhcpSwitch_other (g : Globals) (m : Mem) (dhcp type l : Nat)
    (h1 : type ≠ 1) (h3 : type ≠ 3) (h7 : type ≠ 7) :
    dhcpSwitch g m dhcp type l = (g.yiaddr, g.siaddr, g.si_yi_clear, m, l % 256) := by
  rw [dhcpSwitch, if_neg (by simpa [DHCPDISCOVER] using h1),
    if_neg (by simpa [DHCPREQUEST] using h3), if_neg (by simpa [DHCPRELEASE] using h7)]

/-- The `switch` of `dhcpSendMessage` stores nothing below the `flags` field. -/
theorem dhcpSwitch_low (g : Globals) (m : Mem) (type l j : Nat) (hj : j < 52) :
    (dhcpSwitch g m 42 type l).2.2.2.1 j = m j := by
  by_cases h1 : type = 1
  · subst h1
    rw [dhcpSwitch_discover]
    show dhcpDiscoverStores _ 42 1 j = m j
    rw [dhcpDiscoverStores_apply, dhcpDiscoverLoop_at]
    simp (disch := omega) only [if_neg]
  by_cases h3 : type = 3
  · subst h3
    rw [dhcpSwitch_request]
    show dhcpRequestStores _ _ _ 42 3 j = m j
    rw [dhcpRequestStores_apply, dhcpRequestLoop_mem_at]
    simp (disch := omega) only [if_neg]
  by_cases h7 : type = 7
  · subst h7
    rw [dhcpSwitch_release]
    show dhcpReleaseStores _ 42 7 j = m j
    rw [dhcpReleaseStores_apply]
    simp (disch := omega) only [if_neg]
  rw [dhcpSwitch_other _ _ _ _ _ h1 h3 h7]

theorem dhcpSized_low (g : Globals) (packet : Mem) (type : Nat) (ipAdd : Nat → Nat) (l j : Nat)
    (hj : j < 52) (h16 : j ≠ 16) (h17 : j ≠ 17) (h38 : j ≠ 38) (h39 : j ≠ 39) :
    dhcpSized g packet type ipAdd l j = dhcpFixed g packet ipAdd j := by
  unfold dhcpSized
  rw [wr16_same _ _ _ _ (by omega) (by omega), wr16_same _ _ _ _ (by omega) (by omega),
    dhcpSwitch_low _ _ _ _ _ hj]

/-- What `dhcpSendMessage` leaves in the buffer and transmits: the buffer `dhcpSized` with
the two checksums stored, `c1` in the IP header and `c2` in the UDP header. -/
theorem dhcpSendMessage_stages (g : Globals) (packet : Mem) (type : Nat) (ipAdd : Nat → Nat)
    (l : Nat) :
    ∃ c1 c2 : Nat,
      (dhcpSendMessage g packet type ipAdd l).packet
        = wr16 (wr16 (dhcpSized g packet type ipAdd l) 24 c1) 40 c2
      ∧ (dhcpSendMessage g packet type ipAdd l).frame
        = bytesAt (dhcpSendMessage g packet type ipAdd l).packet 0 (282 + dhcpLenOpts type l)
      ∧ (IsBytes (dhcpSized g packet type ipAdd l) →
          c1 = 65535 - onesFold (wsum (dhcpSized g packet type ipAdd l) 10 14 false
                + wsum (dhcpSized g packet type ipAdd l) 8 26 false)
          ∧ c2 = 65535 - onesFold (wsum (wr16 (dhcpSized g packet type ipAdd l) 24 c1) 8 26 false
                + 17 * 256
                + wsum (wr16 (dhcpSized g packet type ipAdd l) 24 c1) 2 38 false
                + wsum (wr16 (dhcpSized g packet type ipAdd l) 24 c1) 6 34 false
                + wsum (wr16 (dhcpSized g packet type ipAdd l) 24 c1)
                    (240 + dhcpLenOpts type l) 42 false)) := by
  have hle := dhcpLenOpts_le type l
  have hM14 : dhcpSized g packet type ipAdd l 14 = 69 := by
    rw [dhcpSized_low _ _ _ _ _ _ (by omega) (by omega) (by omega) (by omega) (by omega)]
    simp [dhcpFixed]
  have hM23 : dhcpSized g packet type ipAdd l 23 = 17 := by
    rw [dhcpSized_low _ _ _ _ _ _ (by omega) (by omega) (by omega) (by omega) (by omega)]
    simp [dhcpFixed]
  unfold dhcpSendMessage
  lift_lets
  extract_lets t id m1 m2 ip m3 m4 m5 m6 m7 m8 m9 m10 udp m11 m12 m13 dhcp m14 m15 m16 m17 m18 m19
    m20 m21 m22 m23 sw m24 lenOpts g1 m25 m26 c m27 sum0 sum1 tmp16 sum2 sum3 sum4 sum5 r m28
  have h10 : m10 ip = 69 := by
    simp only [m10, m9, m8, m7, m6, m5, m4, m3, m2, ip,
      dhcpIpLoop_at, wr16_apply, wr8_apply]
    simp
  have hudp : udp = 34 := by simp only [udp, h10, ip]; rfl
  have hdhcp : dhcp = 42 := by simp only [dhcp, hudp]
  have h23 : m23 = dhcpFixed g packet ipAdd := by
    funext j
    simp only [m23, m22, m21, m20, m19, m18, m17, m16, m15, m14, m13, m12, m11, m10, m9, m8, m7,
      m6, m5, m4, m3, m2, m1, id, hdhcp, hudp, ip,
      wr32_apply, wr16_apply, wr8_apply, dhcpDataLoop_at, dhcpChaddrLoop_at, dhcpIpLoop_at,
      dhcpEtherLoop_at, htons_7147, htons_68, htons_67, htons_0800, IPv4_frame, ip_udp,
      Nat.reduceAdd, Nat.reduceMod, Nat.reduceDiv]
    rfl
  have hlen : lenOpts = dhcpLenOpts type l := by
    simp only [lenOpts, sw, t]
    exact dhcpSwitch_lenOpts _ _ _ _ _
  have h26 : m26 = dhcpSized g packet type ipAdd l := by
    simp only [m26, m25, hlen, m24, sw, h23, hdhcp, hudp, ip, t, ipHeaderLength, udpHeaderLength,
      dhcpSize, Nat.reduceAdd]
    rfl
  obtain ⟨c1, h27, hc1⟩ : ∃ c1, m27 = wr16 (dhcpSized g packet type ipAdd l) 24 c1
      ∧ (IsBytes (dhcpSized g packet type ipAdd l) →
          c1 = 65535 - onesFold (wsum (dhcpSized g packet type ipAdd l) 10 14 false
                + wsum (dhcpSized g packet type ipAdd l) 8 26 false)) := by
    refine ⟨(getEtherChecksum (etherSumWords (etherSumWords 0 m26 14 10) m26 (14 + 12)
      (((m26 14 &&& 0xF) * 4 + 65536 - 12) % 65536))).1, ?_, ?_⟩
    · rw [← h26]
      rfl
    · intro hm
      have hs := ipHeader_sum _ 14 hm (by rw [hM14]; decide)
      rw [h26, getEtherChecksum_fst, hs, hM14]
  have h28 : m28 14 = 69 := by
    simp only [m28, h27, hudp]
    rw [wr16_same _ _ _ _ (by omega) (by omega), wr16_same _ _ _ _ (by omega) (by omega), hM14]
  refine ⟨c1, r.1, ?_, ?_, ?_⟩
  · show m28 = _
    simp only [m28, h27, hudp]
  · show etherPutPacket m28 _ = bytesAt m28 0 _
    simp only [etherPutPacket, ip, h28, hlen, dhcpSize]
    congr 1
    simp only [Nat.reduceAdd, show (69 &&& 15) * 4 = 20 by decide]
    omega
  · intro hm
    refine ⟨hc1 hm, ?_⟩
    have hm27 : IsBytes m27 := by
      rw [h27]
      exact wr16_isBytes _ hm _ _
    have e23 : m27 23 = 17 := by
      rw [h27, wr16_same _ _ _ _ (by omega) (by omega), hM23]
    have a1 := acc_sumWords 0 m27 (ip + 12) 8 0 hm27 (by omega) (by omega)
    have a2 := acc_protocol _ tmp16 _ a1.2 (by omega)
    have a3 := acc_sumWords _ m27 (udp + 4) 2 _ hm27 a2.2 (by omega)
    have a4 := acc_sumWords _ m27 udp 6 _ hm27 a3.2 (by omega)
    have a5 := acc_sumWords _ m27 (udp + 8) (dhcpSize + lenOpts) _ hm27 a4.2
      (by simp only [dhcpSize, hlen]; omega)
    have hn : (dhcpSize + lenOpts) % 65536 = 240 + dhcpLenOpts type l := by
      simp only [dhcpSize, hlen]; omega
    simp only [r, sum5, sum4, sum3, sum2, sum1, sum0, getEtherChecksum_fst, a1.1, a2.1, a3.1,
      a4.1, a5.1, hn]
    simp only [tmp16, ip, hudp, e23, Nat.reduceMod, Nat.zero_add, Nat.reduceAdd, h27]

theorem htons_272 : htons 272 = 0x1001 := by decide
theorem htons_252 : htons 252 = 0xFC00 := by decide
theorem htons_290 : htons 290 = 0x2201 := by decide
theorem htons_270 : htons 270 = 0x0E01 := by decide

theorem bytesAt_length (m : Mem) (a n : Nat) : (bytesAt m a n).length = n := by
  simp [bytesAt]

theorem bytesAt_eq (m : Mem) (a : Nat) (L : List Nat)
    (h : ∀ i, i < L.length → m (a + i) = L.getD i 0) : bytesAt m a L.length = L := by
  apply List.ext_getElem
  · simp [bytesAt]
  · intro i h1 h2
    rw [← List.getD_eq_getElem _ 0 h2, ← h i h2]
    simp [bytesAt]

theorem dhcpSized_discover (g : Globals) (packet : Mem) (ipAdd : Nat → Nat) (l j : Nat) :
    dhcpSized g packet DHCPDISCOVER ipAdd l j
      = if j = 39 then 252 else if j = 38 then 0 else if j = 17 then 16 else if j = 16 then 1
        else if j = 285 then 255 else if j = 284 then 1 else if j = 283 then 1
        else if j = 282 then 53 else if j = 53 then 0 else if j = 52 then 128
        else if 54 ≤ j ∧ j < 70 then 0
        else dhcpFixed g packet ipAdd j := by
  have e : dhcpSized g packet DHCPDISCOVER ipAdd l
      = wr16 (wr16 (dhcpDiscoverStores (dhcpDiscoverLoop 42 4 0 (dhcpFixed g packet ipAdd)) 42 1)
          16 (htons 272)) 38 (htons 252) := rfl
  rw [e]
  simp only [wr16_apply, dhcpDiscoverStores_apply, dhcpDiscoverLoop_at, htons_272, htons_252,
    Nat.reduceAdd, Nat.reduceMod, Nat.reduceDiv]

theorem dhcpSendMessage_keeps (g : Globals) (packet : Mem) (type : Nat) (ipAdd : Nat → Nat)
    (l j : Nat) (h : j ≠ 24 ∧ j ≠ 25 ∧ j ≠ 40 ∧ j ≠ 41) :
    (dhcpSendMessage g packet type ipAdd l).packet j = dhcpSized g packet type ipAdd l j := by
  obtain ⟨c1, c2, hP, -, -⟩ := dhcpSendMessage_stages g packet type ipAdd l
  rw [hP, wr16_same _ _ _ _ (by omega) (by omega), wr16_same _ _ _ _ (by omega) (by omega)]

/-- The bytes of the DISCOVER message, the two checksum fields apart. -/
theorem dhcpDiscover_apply (g : Globals) (packet : Mem) (ipAdd : Nat → Nat) (l j : Nat)
    (h : j ≠ 24 ∧ j ≠ 25 ∧ j ≠ 40 ∧ j ≠ 41) :
    (dhcpSendMessage g packet DHCPDISCOVER ipAdd l).packet j
      = if j = 39 then 252 else if j = 38 then 0 else if j = 17 then 16 else if j = 16 then 1
        else if j = 285 then 255 else if j = 284 then 1 else if j = 283 then 1
        else if j = 282 then 53 else if j = 53 then 0 else if j = 52 then 128
        else if 54 ≤ j ∧ j < 70 then 0
        else dhcpFixed g packet ipAdd j := by
  rw [dhcpSendMessage_keeps _ _ _ _ _ _ h, dhcpSized_discover]

set_option maxRecDepth 8000 in
theorem exampleOffer_isBytes : IsBytes (Mem.ofList exampleOffer) :=
  ofList_isBytes exampleOffer (by decide)

/-- C11: DHCP DISCOVER.  For every input buffer, every destination address `ipAdd` and every
transaction id (a 32-bit value), `dhcpSendMessage` with type `DHCPDISCOVER` transmits the
first 286 bytes of the buffer it leaves, and these hold: broadcast destination MAC, local
source MAC, EtherType 0x0800, version/IHL 0x45, IP total length 272 (bytes 1, 16), TTL 64,
protocol 17, the local IP address as source and `ipAdd` as destination, UDP source port 68
and destination port 67, UDP length 252, DHCP op 1, htype 1, hlen 6, hops 0, an xid field
that loads as the transaction id, the flags bytes 0x80 0x00 (broadcast flag 0x8000),
the sixteen bytes of ciaddr, yiaddr, siaddr and giaddr all zero, chaddr made of the local
MAC and ten zero bytes, 192 zero bytes, and at offset 282, up to the end of the frame, the
four option bytes 53, 1, 1, 255. -/
theorem dhcp_discover_frame (g : Globals) (packet : Mem) (ipAdd : Nat → Nat) (l : Nat)
    (hx : g.transaction_id < 4294967296) :
    (dhcpSendMessage g packet DHCPDISCOVER ipAdd l).frame
        = bytesAt (dhcpSendMessage g packet DHCPDISCOVER ipAdd l).packet 0 286
    ∧ (dhcpSendMessage g packet DHCPDISCOVER ipAdd l).frame.length = 286
    ∧ (∀ i, i < 6 → (dhcpSendMessage g packet DHCPDISCOVER ipAdd l).packet i = 0xFF)
    ∧ (∀ i, i < 6 →
        (dhcpSendMessage g packet DHCPDISCOVER ipAdd l).packet (6 + i) = g.macAddress i)
    ∧ (dhcpSendMessage g packet DHCPDISCOVER ipAdd l).packet 12 = 0x08
    ∧ (dhcpSendMessage g packet DHCPDISCOVER ipAdd l).packet 13 = 0x00
    ∧ (dhcpSendMessage g packet DHCPDISCOVER ipAdd l).packet 14 = 0x45
    ∧ (dhcpSendMessage g packet DHCPDISCOVER ipAdd l).packet 16 = 1
    ∧ (dhcpSendMessage g packet DHCPDISCOVER ipAdd l).packet 17 = 16
    ∧ (dhcpSendMessage g packet DHCPDISCOVER ipAdd l).packet 22 = 64
    ∧ (dhcpSendMessage g packet DHCPDISCOVER ipAdd l).packet 23 = 17
    ∧ (∀ i, i < 4 →
        (dhcpSendMessage g packet DHCPDISCOVER ipAdd l).packet (26 + i) = g.ipAddress i)
    ∧ (∀ i, i < 4 → (dhcpSendMessage g packet DHCPDISCOVER ipAdd l).packet (30 + i) = ipAdd i)
    ∧ (dhcpSendMessage g packet DHCPDISCOVER ipAdd l).packet 34 = 0
    ∧ (dhcpSendMessage g packet DHCPDISCOVER ipAdd l).packet 35 = 68
    ∧ (dhcpSendMessage g packet DHCPDISCOVER ipAdd l).packet 36 = 0
    ∧ (dhcpSendMessage g packet DHCPDISCOVER ipAdd l).packet 37 = 67
    ∧ (dhcpSendMessage g packet DHCPDISCOVER ipAdd l).packet 38 = 0
    ∧ (dhcpSendMessage g packet DHCPDISCOVER ipAdd l).packet 39 = 252
    ∧ (dhcpSendMessage g packet DHCPDISCOVER ipAdd l).packet 42 = 1
    ∧ (dhcpSendMessage g packet DHCPDISCOVER ipAdd l).packet 43 = 1
    ∧ (dhcpSendMessage g packet DHCPDISCOVER ipAdd l).packet 44 = 6
    ∧ (dhcpSendMessage g packet DHCPDISCOVER ipAdd l).packet 45 = 0
    ∧ rd32 (dhcpSendMessage g packet DHCPDISCOVER ipAdd l).packet 46 = g.transaction_id
    ∧ (dhcpSendMessage g packet DHCPDISCOVER ipAdd l).packet 52 = 0x80
    ∧ (dhcpSendMessage g packet DHCPDISCOVER ipAdd l).packet 53 = 0x00
    ∧ (∀ i, i < 16 → (dhcpSendMessage g packet DHCPDISCOVER ipAdd l).packet (54 + i) = 0)
    ∧ (∀ i, i < 6 →
        (dhcpSendMessage g packet DHCPDISCOVER ipAdd l).packet (70 + i) = g.macAddress i)
    ∧ (∀ i, i < 10 → (dhcpSendMessage g packet DHCPDISCOVER ipAdd l).packet (76 + i) = 0)
    ∧ (∀ i, i < 192 → (dhcpSendMessage g packet DHCPDISCOVER ipAdd l).packet (86 + i) = 0)
    ∧ bytesAt (dhcpSendMessage g packet DHCPDISCOVER ipAdd l).packet 282 4 = [53, 1, 1, 255] := by
  obtain ⟨c1, c2, -, hF, -⟩ := dhcpSendMessage_stages g packet DHCPDISCOVER ipAdd l
  have hF' : (dhcpSendMessage g packet DHCPDISCOVER ipAdd l).frame
      = bytesAt (dhcpSendMessage g packet DHCPDISCOVER ipAdd l).packet 0 286 := hF
  clear hF
  have hxid : rd32 (dhcpSendMessage g packet DHCPDISCOVER ipAdd l).packet 46
      = g.transaction_id := by
    simp only [rd32, Nat.reduceAdd]
    simp [dhcpDiscover_apply, dhcpFixed]
    omega
  have hopt : bytesAt (dhcpSendMessage g packet DHCPDISCOVER ipAdd l).packet 282 4
      = [53, 1, 1, 255] := by
    apply bytesAt_eq _ 282 [53, 1, 1, 255]
    intro i hi
    rw [dhcpDiscover_apply _ _ _ _ _ (by omega)]
    simp only [List.length_cons, List.length_nil, Nat.reduceAdd] at hi
    interval_cases i <;> rfl
  refine ⟨hF', by rw [hF', bytesAt_length], ?_, ?_, ?_, ?_, ?_, ?_, ?_, ?_, ?_, ?_, ?_, ?_, ?_,
    ?_, ?_, ?_, ?_, ?_, ?_, ?_, ?_, hxid, ?_, ?_, ?_, ?_, ?_, ?_, hopt⟩
  all_goals first
    | simp [dhcpDiscover_apply, dhcpFixed]
    | (intro i hi
       rw [dhcpDiscover_apply _ _ _ _ _ (by omega)]
       simp (disch := omega) only [if_neg, dhcpFixed]
       simp (disch := omega) only [if_pos, Nat.add_sub_cancel_left])

theorem dhcp_discover_frame_witness :
    exampleGlobals.transaction_id < 4294967296
    ∧ (dhcpSendMessage exampleGlobals (Mem.ofList exampleOffer) DHCPDISCOVER
        (Mem.ofList [255, 255, 255, 255]) 0).frame.length = 286
    ∧ bytesAt (dhcpSendMessage exampleGlobals (Mem.ofList exampleOffer) DHCPDISCOVER
        (Mem.ofList [255, 255, 255, 255]) 0).packet 282 4 = [53, 1, 1, 255] :=
  ⟨by decide,
    (dhcp_discover_frame exampleGlobals (Mem.ofList exampleOffer)
      (Mem.ofList [255, 255, 255, 255]) 0 (by decide)).2.1,
    (dhcp_discover_frame exampleGlobals (Mem.ofList exampleOffer)
      (Mem.ofList [255, 255, 255, 255]) 0 (by decide)).2.2.2.2.2.2.2.2.2.2.2.2.2.2.2.2.2.2.2.2.2.2.2.2.2.2.2.2.2.2⟩

theorem dhcpFixed_offer (g : Globals) (packet : Mem) (ipAdd : Nat → Nat) (j : Nat)
    (h1 : 54 ≤ j) (h2 : j < 70) : dhcpFixed g packet ipAdd j = packet j := by
  simp (disch := omega) only [dhcpFixed, if_neg]

theorem dhcpSized_request (g : Globals) (packet : Mem) (ipAdd : Nat → Nat) (l j : Nat)
    (hclear : g.si_yi_clear = true) :
    dhcpSized g packet DHCPREQUEST ipAdd l j
      = if j = 39 then 14 else if j = 38 then 1 else if j = 17 then 34 else if j = 16 then 1
        else if j = 303 then 255 else if j = 302 then 255 else if j = 301 then 6
        else if j = 300 then 3 else if j = 299 then 1 else if j = 298 then 3
        else if j = 297 then 55 else if j = 296 then packet 65 else if j = 295 then packet 64
        else if j = 294 then packet 63 else if j = 293 then packet 62 else if j = 292 then 4
        else if j = 291 then 54 else if j = 290 then packet 61 else if j = 289 then packet 60
        else if j = 288 then packet 59 else if j = 287 then packet 58 else if j = 286 then 4
        else if j = 285 then 50 else if j = 284 then 3 else if j = 283 then 1
        else if j = 282 then 53
        else if (54 ≤ j ∧ j < 58) ∨ (66 ≤ j ∧ j < 70) then 0
        else dhcpFixed g packet ipAdd j := by
  have e : dhcpSized g packet DHCPREQUEST ipAdd l
      = wr16 (wr16 (dhcpRequestStores
          (dhcpRequestLoop g.si_yi_clear 42 4 0 (g.yiaddr, g.siaddr, dhcpFixed g packet ipAdd)).1
          (dhcpRequestLoop g.si_yi_clear 42 4 0 (g.yiaddr, g.siaddr, dhcpFixed g packet ipAdd)).2.1
          (dhcpRequestLoop g.si_yi_clear 42 4 0 (g.yiaddr, g.siaddr, dhcpFixed g packet ipAdd)).2.2
          42 3) 16 (htons 290)) 38 (htons 270) := rfl
  rw [e, hclear]
  simp only [wr16_apply, dhcpRequestStores_apply, dhcpRequestLoop_mem_at,
    dhcpRequestLoop_yiaddr_at _ _ _ 0 (by omega), dhcpRequestLoop_yiaddr_at _ _ _ 1 (by omega),
    dhcpRequestLoop_yiaddr_at _ _ _ 2 (by omega), dhcpRequestLoop_yiaddr_at _ _ _ 3 (by omega),
    dhcpRequestLoop_siaddr_at _ _ _ 0 (by omega), dhcpRequestLoop_siaddr_at _ _ _ 1 (by omega),
    dhcpRequestLoop_siaddr_at _ _ _ 2 (by omega), dhcpRequestLoop_siaddr_at _ _ _ 3 (by omega),
    dhcpFixed_offer _ _ _ _ (show 54 ≤ 58 + 0 by omega) (show 58 + 0 < 70 by omega),
    dhcpFixed_offer _ _ _ _ (show 54 ≤ 58 + 1 by omega) (show 58 + 1 < 70 by omega),
    dhcpFixed_offer _ _ _ _ (show 54 ≤ 58 + 2 by omega) (show 58 + 2 < 70 by omega),
    dhcpFixed_offer _ _ _ _ (show 54 ≤ 58 + 3 by omega) (show 58 + 3 < 70 by omega),
    dhcpFixed_offer _ _ _ _ (show 54 ≤ 62 + 0 by omega) (show 62 + 0 < 70 by omega),
    dhcpFixed_offer _ _ _ _ (show 54 ≤ 62 + 1 by omega) (show 62 + 1 < 70 by omega),
    dhcpFixed_offer _ _ _ _ (show 54 ≤ 62 + 2 by omega) (show 62 + 2 < 70 by omega),
    dhcpFixed_offer _ _ _ _ (show 54 ≤ 62 + 3 by omega) (show 62 + 3 < 70 by omega),
    htons_290, htons_270, Nat.reduceAdd, Nat.reduceMod, Nat.reduceDiv]

/-- C12: DHCP REQUEST echoes the offer.  While `si_yi_clear` holds (its start-up value, which
only the `DHCPREQUEST` case clears: the first REQUEST since start-up), for every buffer,
`dhcpSendMessage` with type `DHCPREQUEST` transmits the first 304 bytes of the buffer it
leaves; the 22 option bytes at offset 282 are 53,1,3, 50,4 and the four bytes the input
buffer holds at offsets 58-61 (the yiaddr field behind a 20-byte IP header), 54,4 and the
four bytes at offsets 62-65 (the siaddr field), 55,3,1,3,6, 255,255; the IP total length is
290 (bytes 1, 34) and the UDP length 270 (bytes 1, 14). -/
theorem dhcp_request_echoes_offer (g : Globals) (packet : Mem) (ipAdd : Nat → Nat) (l : Nat)
    (hclear : g.si_yi_clear = true) :
    (dhcpSendMessage g packet DHCPREQUEST ipAdd l).frame
        = bytesAt (dhcpSendMessage g packet DHCPREQUEST ipAdd l).packet 0 304
    ∧ (dhcpSendMessage g packet DHCPREQUEST ipAdd l).frame.length = 304
    ∧ bytesAt (dhcpSendMessage g packet DHCPREQUEST ipAdd l).packet 282 22
        = [53, 1, 3, 50, 4, packet 58, packet 59, packet 60, packet 61,
           54, 4, packet 62, packet 63, packet 64, packet 65, 55, 3, 1, 3, 6, 255, 255]
    ∧ (dhcpSendMessage g packet DHCPREQUEST ipAdd l).packet 16 = 1
    ∧ (dhcpSendMessage g packet DHCPREQUEST ipAdd l).packet 17 = 34
    ∧ (dhcpSendMessage g packet DHCPREQUEST ipAdd l).packet 38 = 1
    ∧ (dhcpSendMessage g packet DHCPREQUEST ipAdd l).packet 39 = 14 := by
  obtain ⟨c1, c2, -, hF, -⟩ := dhcpSendMessage_stages g packet DHCPREQUEST ipAdd l
  have hF' : (dhcpSendMessage g packet DHCPREQUEST ipAdd l).frame
      = bytesAt (dhcpSendMessage g packet DHCPREQUEST ipAdd l).packet 0 304 := hF
  clear hF
  have key : ∀ j, j ≠ 24 ∧ j ≠ 25 ∧ j ≠ 40 ∧ j ≠ 41 →
      (dhcpSendMessage g packet DHCPREQUEST ipAdd l).packet j
        = dhcpSized g packet DHCPREQUEST ipAdd l j :=
    fun j => dhcpSendMessage_keeps _ _ _ _ _ j
  refine ⟨hF', by rw [hF', bytesAt_length], ?_, ?_, ?_, ?_, ?_⟩
  · apply bytesAt_eq _ 282 [53, 1, 3, 50, 4, packet 58, packet 59, packet 60, packet 61,
           54, 4, packet 62, packet 63, packet 64, packet 65, 55, 3, 1, 3, 6, 255, 255]
    intro i hi
    rw [key _ (by omega), dhcpSized_request _ _ _ _ _ hclear]
    simp only [List.length_cons, List.length_nil, Nat.reduceAdd] at hi
    interval_cases i <;> rfl
  all_goals
    rw [key _ (by omega), dhcpSized_request _ _ _ _ _ hclear]
    rfl

theorem dhcp_request_echoes_offer_witness :
    exampleGlobals.si_yi_clear = true
    ∧ bytesAt (dhcpSendMessage exampleGlobals (Mem.ofList exampleOffer) DHCPREQUEST
        (Mem.ofList [255, 255, 255, 255]) 0).packet 282 22
      = [53, 1, 3, 50, 4, 192, 168, 2, 50, 54, 4, 192, 168, 2, 1, 55, 3, 1, 3, 6, 255, 255] :=
  ⟨rfl, (dhcp_request_echoes_offer exampleGlobals (Mem.ofList exampleOffer)
      (Mem.ofList [255, 255, 255, 255]) 0 rfl).2.2.1⟩

theorem ite_lt_of {c : Prop} [Decidable c] {a b n : Nat} (ha : a < n) (hb : b < n) :
    (if c then a else b) < n := by
  split <;> assumption

theorem dhcpFixed_isBytes (g : Globals) (packet : Mem) (ipAdd : Nat → Nat)
    (hm : IsBytes packet) (hadd : IsBytes ipAdd) (hmac : IsBytes g.macAddress)
    (hip : IsBytes g.ipAddress) : IsBytes (dhcpFixed g packet ipAdd) := by
  intro j
  have h1 := hm j
  have h2 := hadd (j - 30)
  have h3 := hmac (j - 70)
  have h4 := hmac (j - 6)
  have h5 := hip (j - 26)
  unfold dhcpFixed
  repeat (refine ite_lt_of (by first | omega | (split <;> omega)) ?_)
  exact h1

theorem dhcpRequestLoop_isBytes (c : Bool) (dhcp n i0 : Nat) (y s : Nat → Nat) (m : Mem)
    (hy : IsBytes y) (hs : IsBytes s) (hm : IsBytes m) :
    IsBytes (dhcpRequestLoop c dhcp n i0 (y, s, m)).1
      ∧ IsBytes (dhcpRequestLoop c dhcp n i0 (y, s, m)).2.1
      ∧ IsBytes (dhcpRequestLoop c dhcp n i0 (y, s, m)).2.2 := by
  induction n generalizing i0 y s m with
  | zero => exact ⟨hy, hs, hm⟩
  | succ n ih =>
    simp only [dhcpRequestLoop]
    have hm2 : IsBytes (wr8 (wr8 m (dhcp + 24 + i0) 0) (dhcp + 12 + i0) 0) :=
      wr8_isBytes _ (wr8_isBytes _ hm _ _ (by omega)) _ _ (by omega)
    apply ih
    · cases c
      · exact hy
      · exact wr8_isBytes _ hy _ _ (hm2 _)
    · cases c
      · exact hs
      · exact wr8_isBytes _ hs _ _ (hm2 _)
    · exact hm2

theorem dhcpSwitch_isBytes (g : Globals) (m : Mem) (type l : Nat) (hm : IsBytes m)
    (hy : IsBytes g.yiaddr) (hs : IsBytes g.siaddr) :
    IsBytes (dhcpSwitch g m 42 type l).2.2.2.1 := by
  by_cases h1 : type = 1
  · subst h1
    rw [dhcpSwitch_discover]
    intro j
    show dhcpDiscoverStores _ 42 1 j < 256
    have := hm j
    rw [dhcpDiscoverStores_apply, dhcpDiscoverLoop_at]
    repeat (refine ite_lt_of (by omega) ?_)
    exact this
  by_cases h3 : type = 3
  · subst h3
    rw [dhcpSwitch_request]
    obtain ⟨b1, b2, -⟩ := dhcpRequestLoop_isBytes g.si_yi_clear 42 4 0 _ _ _ hy hs hm
    intro j
    show dhcpRequestStores _ _ _ 42 3 j < 256
    have := b1 0
    have := b1 1
    have := b1 2
    have := b1 3
    have := b2 0
    have := b2 1
    have := b2 2
    have := b2 3
    rw [dhcpRequestStores_apply]
    repeat (refine ite_lt_of (by omega) ?_)
    exact hm j
  by_cases h7 : type = 7
  · subst h7
    rw [dhcpSwitch_release]
    intro j
    show dhcpReleaseStores _ 42 7 j < 256
    have := hm j
    rw [dhcpReleaseStores_apply]
    repeat (refine ite_lt_of (by omega) ?_)
    exact this
  rw [dhcpSwitch_other _ _ _ _ _ h1 h3 h7]
  exact hm

theorem dhcpSized_isBytes (g : Globals) (packet : Mem) (type : Nat) (ipAdd : Nat → Nat)
    (l : Nat) (hm : IsBytes packet) (hadd : IsBytes ipAdd) (hmac : IsBytes g.macAddress)
    (hip : IsBytes g.ipAddress) (hy : IsBytes g.yiaddr) (hs : IsBytes g.siaddr) :
    IsBytes (dhcpSized g packet type ipAdd l) :=
  wr16_isBytes _ (wr16_isBytes _
    (dhcpSwitch_isBytes g _ _ l (dhcpFixed_isBytes g packet ipAdd hm hadd hmac hip) hy hs) _ _) _ _

/-- The frame `dhcpSendMessage` builds passes the two receive-side checksum tests, whatever
the message type. -/
theorem dhcpSendMessage_valid (g g1 g2 : Globals) (packet : Mem) (type : Nat)
    (ipAdd : Nat → Nat) (l : Nat) (hm : IsBytes packet) (hadd : IsBytes ipAdd)
    (hmac : IsBytes g.macAddress) (hip : IsBytes g.ipAddress) (hy : IsBytes g.yiaddr)
    (hs : IsBytes g.siaddr) :
    (etherIsIp g1 (dhcpSendMessage g packet type ipAdd l).packet).1 = true
    ∧ (etherIsUdp g2 (dhcpSendMessage g packet type ipAdd l).packet).1 = true
    ∧ (dhcpSendMessage g packet type ipAdd l).packet 38 * 256
        + (dhcpSendMessage g packet type ipAdd l).packet 39 = 8 + 240 + dhcpLenOpts type l := by
  have hM := dhcpSized_isBytes g packet type ipAdd l hm hadd hmac hip hy hs
  have hle := dhcpLenOpts_le type l
  obtain ⟨c1, c2, hP, -, hc⟩ := dhcpSendMessage_stages g packet type ipAdd l
  obtain ⟨hc1, hc2⟩ := hc hM
  have hm27 : IsBytes (wr16 (dhcpSized g packet type ipAdd l) 24 c1) := wr16_isBytes _ hM _ _
  have hmP : IsBytes (dhcpSendMessage g packet type ipAdd l).packet := by
    rw [hP]
    exact wr16_isBytes _ hm27 _ _
  have hlow : ∀ j, j < 52 → j ≠ 16 ∧ j ≠ 17 ∧ j ≠ 38 ∧ j ≠ 39 ∧ j ≠ 24 ∧ j ≠ 25 ∧ j ≠ 40 ∧ j ≠ 41 →
      (dhcpSendMessage g packet type ipAdd l).packet j = dhcpFixed g packet ipAdd j := by
    intro j hj hne
    rw [dhcpSendMessage_keeps _ _ _ _ _ _ (by omega),
      dhcpSized_low _ _ _ _ _ _ hj (by omega) (by omega) (by omega) (by omega)]
  have e12 : (dhcpSendMessage g packet type ipAdd l).packet 12 = 8 := by
    rw [hlow 12 (by omega) (by omega)]; simp [dhcpFixed]
  have e13 : (dhcpSendMessage g packet type ipAdd l).packet 13 = 0 := by
    rw [hlow 13 (by omega) (by omega)]; simp [dhcpFixed]
  have e14 : (dhcpSendMessage g packet type ipAdd l).packet 14 = 69 := by
    rw [hlow 14 (by omega) (by omega)]; simp [dhcpFixed]
  have e23 : (dhcpSendMessage g packet type ipAdd l).packet 23 = 17 := by
    rw [hlow 23 (by omega) (by omega)]; simp [dhcpFixed]
  have hX := htons_small (248 + dhcpLenOpts type l) (by omega)
  have elen : (dhcpSendMessage g packet type ipAdd l).packet 38 * 256
      + (dhcpSendMessage g packet type ipAdd l).packet (38 + 1) = 248 + dhcpLenOpts type l := by
    rw [dhcpSendMessage_keeps _ _ _ _ _ _ (by omega), dhcpSendMessage_keeps _ _ _ _ _ _ (by omega)]
    unfold dhcpSized
    rw [wr16_lo, wr16_hi, hX.1, hX.2]
    omega
  refine ⟨?_, ?_, by rw [elen]⟩
  · rw [etherIsIp_true_iff _ _ hmP, e12, e13, e14]
    refine ⟨rfl, rfl, ?_⟩
    rw [wsum_congr _ (wr16 (dhcpSized g packet type ipAdd l) (14 + 10) c1) _ 14 false
      (fun i hi => by rw [hP, wr16_same _ _ _ _ (by omega) (by omega)]), hc1]
    exact ipHeader_valid _ 14 20 (by omega)
  · rw [etherIsUdp_true_iff _ _ hmP, e14, e23]
    refine ⟨rfl, ?_⟩
    simp only [Nat.reduceMod, Nat.reduceMul, Nat.reduceAdd]
    rw [elen]
    rw [wsum_congr _ (wr16 (dhcpSized g packet type ipAdd l) 24 c1) 8 26 false
        (fun i hi => by rw [hP, wr16_same _ _ _ _ (by omega) (by omega)]),
      wsum_congr _ (wr16 (dhcpSized g packet type ipAdd l) 24 c1) 2 38 false
        (fun i hi => by rw [hP, wr16_same _ _ _ _ (by omega) (by omega)]), hP, hc2]
    have h := checksum_field_valid (wr16 (dhcpSized g packet type ipAdd l) 24 c1) 34
      (248 + dhcpLenOpts type l) 6
      (wsum (wr16 (dhcpSized g packet type ipAdd l) 24 c1) 8 26 false + 17 * 256
        + wsum (wr16 (dhcpSized g packet type ipAdd l) 24 c1) 2 38 false)
      (by decide) (by omega)
    rw [show 248 + dhcpLenOpts type l - 6 - 2 = 240 + dhcpLenOpts type l by omega] at h
    exact h

/-- C13: validity of the DHCP checksums.  For every buffer, destination address and globals
(all byte-valued) and each message type among DISCOVER, REQUEST and RELEASE, the buffer
`dhcpSendMessage` leaves is accepted by `etherIsIp` (EtherType 0x0800 and the IP header sum
finalises to 0) and by `etherIsUdp` (protocol 17 and the pseudo-header UDP sum finalises to
0); its UDP length field is 8 + 240 + the length of the option list (22 for REQUEST, 4 for
the two others), and the frame transmitted is its first 14 + 20 + 8 + 240 + that many
bytes. -/
theorem dhcp_checksums_valid (g g1 g2 : Globals) (packet : Mem) (type : Nat)
    (ipAdd : Nat → Nat) (l : Nat) (hm : IsBytes packet) (hadd : IsBytes ipAdd)
    (hmac : IsBytes g.macAddress) (hip : IsBytes g.ipAddress) (hy : IsBytes g.yiaddr)
    (hs : IsBytes g.siaddr)
    (ht : type = DHCPDISCOVER ∨ type = DHCPREQUEST ∨ type = DHCPRELEASE) :
    (etherIsIp g1 (dhcpSendMessage g packet type ipAdd l).packet).1 = true
    ∧ (etherIsUdp g2 (dhcpSendMessage g packet type ipAdd l).packet).1 = true
    ∧ (dhcpSendMessage g packet type ipAdd l).packet 38 * 256
        + (dhcpSendMessage g packet type ipAdd l).packet 39
      = 8 + 240 + (if type = DHCPREQUEST then 22 else 4)
    ∧ (dhcpSendMessage g packet type ipAdd l).frame
      = bytesAt (dhcpSendMessage g packet type ipAdd l).packet 0
          (14 + 20 + 8 + 240 + (if type = DHCPREQUEST then 22 else 4)) := by
  obtain ⟨h1, h2, h3⟩ := dhcpSendMessage_valid g g1 g2 packet type ipAdd l hm hadd hmac hip hy hs
  obtain ⟨c1, c2, -, hF, -⟩ := dhcpSendMessage_stages g packet type ipAdd l
  have hl : dhcpLenOpts type l = if type = DHCPREQUEST then 22 else 4 := by
    rcases ht with h | h | h <;> subst h <;> rfl
  rw [hl] at h3 hF
  exact ⟨h1, h2, h3, hF⟩

theorem dhcp_checksums_valid_witness :
    IsBytes (Mem.ofList exampleOffer) ∧ IsBytes (Mem.ofList [255, 255, 255, 255])
    ∧ IsBytes exampleGlobals.macAddress ∧ IsBytes exampleGlobals.ipAddress
    ∧ IsBytes exampleGlobals.yiaddr ∧ IsBytes exampleGlobals.siaddr
    ∧ (DHCPREQUEST = DHCPDISCOVER ∨ DHCPREQUEST = DHCPREQUEST ∨ DHCPREQUEST = DHCPRELEASE)
    ∧ (etherIsIp exampleGlobals (dhcpSendMessage exampleGlobals (Mem.ofList exampleOffer)
        DHCPREQUEST (Mem.ofList [255, 255, 255, 255]) 0).packet).1 = true
    ∧ (etherIsUdp exampleGlobals (dhcpSendMessage exampleGlobals (Mem.ofList exampleOffer)
        DHCPREQUEST (Mem.ofList [255, 255, 255, 255]) 0).packet).1 = true :=
  ⟨exampleOffer_isBytes, ofList_isBytes _ (by decide),
    ofList_isBytes _ (by decide), ofList_isBytes _ (by decide), ofList_isBytes _ (by decide),
    ofList_isBytes _ (by decide), Or.inr (Or.inl rfl),
    (dhcp_checksums_valid exampleGlobals exampleGlobals exampleGlobals
      (Mem.ofList exampleOffer) DHCPREQUEST (Mem.ofList [255, 255, 255, 255]) 0
      (exampleOffer_isBytes) (ofList_isBytes _ (by decide))
      (ofList_isBytes _ (by decide)) (ofList_isBytes _ (by decide))
      (ofList_isBytes _ (by decide)) (ofList_isBytes _ (by decide))
      (Or.inr (Or.inl rfl))).1,
    (dhcp_checksums_valid exampleGlobals exampleGlobals exampleGlobals
      (Mem.ofList exampleOffer) DHCPREQUEST (Mem.ofList [255, 255, 255, 255]) 0
      (exampleOffer_isBytes) (ofList_isBytes _ (by decide))
      (ofList_isBytes _ (by decide)) (ofList_isBytes _ (by decide))
      (ofList_isBytes _ (by decide)) (ofList_isBytes _ (by decide))
      (Or.inr (Or.inl rfl))).2.1⟩

/-! ## DHCP reply predicate -/

theorem dhcpSendMessage_xid (g : Globals) (packet : Mem) (type : Nat) (ipAdd : Nat → Nat)
    (l : Nat) :
    (dhcpSendMessage g packet type ipAdd l).packet 46 = g.transaction_id % 256
    ∧ (dhcpSendMessage g packet type ipAdd l).packet 47 = g.transaction_id / 256 % 256
    ∧ (dhcpSendMessage g packet type ipAdd l).packet 48 = g.transaction_id / 65536 % 256
    ∧ (dhcpSendMessage g packet type ipAdd l).packet 49
        = g.transaction_id / 16777216 % 256 := by
  have key : ∀ j, 42 ≤ j → j < 52 →
      (dhcpSendMessage g packet type ipAdd l).packet j = dhcpFixed g packet ipAdd j := by
    intro j h1 h2
    rw [dhcpSendMessage_keeps _ _ _ _ _ _ (by omega),
      dhcpSized_low _ _ _ _ _ _ h2 (by omega) (by omega) (by omega) (by omega)]
  rw [key 46 (by omega) (by omega), key 47 (by omega) (by omega), key 48 (by omega) (by omega),
    key 49 (by omega) (by omega)]
  simp [dhcpFixed]

/-- C14: `etherIsDhcp`.  For every byte-valued buffer and 32-bit transaction id,
`etherIsDhcp` returns true if and only if the UDP source port is 67 (bytes 0, 67 at the UDP
offset 14 + IHL × 4), the UDP destination port is 68 and the four xid bytes (twelve bytes
past the UDP offset) are the four bytes `dhcpSendMessage` stores in the xid field (offsets
46-49) of any message it builds under the same globals; and it returns false whenever the
xid field does not load as the current transaction id. -/
theorem etherIsDhcp_iff (g : Globals) (packet buf : Mem) (type : Nat) (ipAdd : Nat → Nat)
    (l : Nat) (hm : IsBytes packet) (hx : g.transaction_id < 4294967296) :
    (etherIsDhcp g packet = true ↔
      packet (14 + packet 14 % 16 * 4) = 0 ∧ packet (14 + packet 14 % 16 * 4 + 1) = 67
      ∧ packet (14 + packet 14 % 16 * 4 + 2) = 0 ∧ packet (14 + packet 14 % 16 * 4 + 3) = 68
      ∧ ∀ i, i < 4 → packet (14 + packet 14 % 16 * 4 + 12 + i)
          = (dhcpSendMessage g buf type ipAdd l).packet (46 + i))
    ∧ (rd32 packet (14 + packet 14 % 16 * 4 + 12) ≠ g.transaction_id →
        etherIsDhcp g packet = false) := by
  obtain ⟨x0, x1, x2, x3⟩ := dhcpSendMessage_xid g buf type ipAdd l
  have p1 := htons_rd16 packet hm (14 + packet 14 % 16 * 4)
  have p2 := htons_rd16 packet hm (14 + packet 14 % 16 * 4 + 2)
  have b0 := hm (14 + packet 14 % 16 * 4)
  have b1 := hm (14 + packet 14 % 16 * 4 + 1)
  have b2 := hm (14 + packet 14 % 16 * 4 + 2)
  have b3 := hm (14 + packet 14 % 16 * 4 + 3)
  have d0 := hm (14 + packet 14 % 16 * 4 + 12)
  have d1 := hm (14 + packet 14 % 16 * 4 + 13)
  have d2 := hm (14 + packet 14 % 16 * 4 + 14)
  have d3 := hm (14 + packet 14 % 16 * 4 + 15)
  have hr : rd32 packet (14 + packet 14 % 16 * 4 + 12)
      = packet (14 + packet 14 % 16 * 4 + 12) + 256 * packet (14 + packet 14 % 16 * 4 + 13)
        + 65536 * packet (14 + packet 14 % 16 * 4 + 14)
        + 16777216 * packet (14 + packet 14 % 16 * 4 + 15) := rfl
  have hd : etherIsDhcp g packet
      = ((htons (rd16 packet (14 + packet 14 % 16 * 4)) == 67
          && htons (rd16 packet (14 + packet 14 % 16 * 4 + 2)) == 68)
        && rd32 packet (14 + packet 14 % 16 * 4 + 12) == g.transaction_id) := by
    simp only [etherIsDhcp, matchesXid, and_f]
  rw [show 14 + packet 14 % 16 * 4 + 2 + 1 = 14 + packet 14 % 16 * 4 + 3 by omega] at p2
  constructor
  · rw [hd, p1, p2]
    simp only [Bool.and_eq_true, beq_iff_eq]
    constructor
    · rintro ⟨⟨h1, h2⟩, h3⟩
      refine ⟨by omega, by omega, by omega, by omega, ?_⟩
      intro i hi
      rw [hr] at h3
      interval_cases i
      · rw [x0]
        show packet (14 + packet 14 % 16 * 4 + 12) = _
        omega
      · rw [x1]
        show packet (14 + packet 14 % 16 * 4 + 13) = _
        omega
      · rw [x2]
        show packet (14 + packet 14 % 16 * 4 + 14) = _
        omega
      · rw [x3]
        show packet (14 + packet 14 % 16 * 4 + 15) = _
        omega
    · rintro ⟨h1, h2, h3, h4, h5⟩
      have e0 : packet (14 + packet 14 % 16 * 4 + 12) = _ := (h5 0 (by omega)).trans x0
      have e1 : packet (14 + packet 14 % 16 * 4 + 13) = _ := (h5 1 (by omega)).trans x1
      have e2 : packet (14 + packet 14 % 16 * 4 + 14) = _ := (h5 2 (by omega)).trans x2
      have e3 : packet (14 + packet 14 % 16 * 4 + 15) = _ := (h5 3 (by omega)).trans x3
      refine ⟨⟨by omega, by omega⟩, ?_⟩
      rw [hr]
      omega
  · intro hne
    rw [hd]
    have : (rd32 packet (14 + packet 14 % 16 * 4 + 12) == g.transaction_id) = false := by
      simpa using hne
    rw [this, Bool.and_false]

theorem etherIsDhcp_iff_witness :
    IsBytes (Mem.ofList exampleOffer) ∧ (7 : Nat) < 4294967296
    ∧ etherIsDhcp { Globals.init with transaction_id := 7 } (Mem.ofList exampleOffer) = false :=
  ⟨exampleOffer_isBytes, by decide,
    (etherIsDhcp_iff { Globals.init with transaction_id := 7 } (Mem.ofList exampleOffer)
      (Mem.ofList []) DHCPDISCOVER (Mem.ofList [255, 255, 255, 255]) 0
      (exampleOffer_isBytes) (by decide)).2 (by decide)⟩

/-! ## DHCP option parsing -/

theorem set4_eq (arr : Nat → Nat) (a b c d : Nat) (ha : a < 256) (hb : b < 256) (hc : c < 256)
    (hd : d < 256) :
    wr8 (wr8 (wr8 (wr8 arr 0 (a % 256)) 1 (b % 256)) 2 (c % 256)) 3 (d % 256)
      = set4 arr a b c d := by
  funext k
  simp only [wr8_apply, set4, Nat.mod_eq_of_lt ha, Nat.mod_eq_of_lt hb, Nat.mod_eq_of_lt hc,
    Nat.mod_eq_of_lt hd]
  split_ifs <;> first | rfl | omega

theorem lease_bits (a b c d : Nat) (ha : a < 256) (hb : b < 256) (hc : c < 256)
    (hd : d < 256) :
    (a <<< 24 ||| b <<< 16 ||| c <<< 8 ||| d <<< 0) % 2 ^ 32
      = a * 16777216 + b * 65536 + c * 256 + d := by
  have e1 : a <<< 24 ||| b <<< 16 = 2 ^ 24 * a + b <<< 16 := by
    rw [Nat.shiftLeft_eq, Nat.mul_comm a]
    exact (Nat.mul_add_lt_is_or (by rw [Nat.shiftLeft_eq]; omega) a).symm
  have e2 : (2 ^ 24 * a + b <<< 16) ||| c <<< 8 = 2 ^ 24 * a + b <<< 16 + c <<< 8 := by
    rw [Nat.shiftLeft_eq b, show 2 ^ 24 * a + b * 2 ^ 16 = 2 ^ 16 * (256 * a + b) by omega]
    exact (Nat.mul_add_lt_is_or (by rw [Nat.shiftLeft_eq]; omega) _).symm
  have e3 : (2 ^ 24 * a + b <<< 16 + c <<< 8) ||| d <<< 0
      = 2 ^ 24 * a + b <<< 16 + c <<< 8 + d := by
    rw [Nat.shiftLeft_eq b, Nat.shiftLeft_eq c, Nat.shiftLeft_eq d,
      show 2 ^ 24 * a + b * 2 ^ 16 + c * 2 ^ 8 = 2 ^ 8 * (65536 * a + 256 * b + c) by omega]
    simp only [Nat.pow_zero, Nat.mul_one]
    exact (Nat.mul_add_lt_is_or (by omega) _).symm
  rw [e1, e2, e3, Nat.shiftLeft_eq, Nat.shiftLeft_eq]
  omega

theorem dhcpSkip_eq (packet : Mem) (o i n : Nat) (h : packet (o + (i + 1)) = n)
    (hi : i + n + 2 ≤ 255) : dhcpSkip packet o i = i + n + 2 := by
  unfold dhcpSkip
  rw [h]
  omega

theorem encodeOptions_pos (opts : List DhcpOption) : 1 ≤ (encodeOptions opts).length := by
  cases opts with
  | nil => simp [encodeOptions]
  | cons x xs => cases x <;> simp [encodeOptions, DhcpOption.encode]

theorem etherSetIpSubnetMask_eq (g : Globals) (a b c d : Nat) (ha : a < 256) (hb : b < 256)
    (hc : c < 256) (hd : d < 256) :
    etherSetIpSubnetMask g a b c d = { g with ipSubnetMask := set4 g.ipSubnetMask a b c d } := by
  simp only [etherSetIpSubnetMask, set4_eq _ a b c d ha hb hc hd]

theorem etherSetIpGatewayAddress_eq (g : Globals) (a b c d : Nat) (ha : a < 256) (hb : b < 256)
    (hc : c < 256) (hd : d < 256) :
    etherSetIpGatewayAddress g a b c d = { g with ipGwAddress := set4 g.ipGwAddress a b c d } := by
  simp only [etherSetIpGatewayAddress, set4_eq _ a b c d ha hb hc hd]

theorem etherSetIpDnsServer_eq (g : Globals) (a b c d : Nat) (ha : a < 256) (hb : b < 256)
    (hc : c < 256) (hd : d < 256) :
    etherSetIpDnsServer g a b c d = { g with ipDnsServer := set4 g.ipDnsServer a b c d } := by
  simp only [etherSetIpDnsServer, set4_eq _ a b c d ha hb hc hd]

theorem etherSetIpAddress_eq (g : Globals) (a b c d : Nat) (ha : a < 256) (hb : b < 256)
    (hc : c < 256) (hd : d < 256) :
    etherSetIpAddress g a b c d = { g with ipAddress := set4 g.ipAddress a b c d } := by
  simp only [etherSetIpAddress, set4_eq _ a b c d ha hb hc hd]

/-- One iteration of the loop of `dhcpStoreVars` on a recognised option whose flag is still
false: the index moves to the next option and the globals take the effect of the option. -/
theorem dhcpStoreBody_option (packet : Mem) (o : Nat) (s : DhcpWalk) (x : DhcpOption)
    (hm : IsBytes packet) (hf : s.accounted x.code = false)
    (hb : ∀ k, k < x.encode.length → packet (o + (s.i + k)) = x.encode.getD k 0)
    (hi : s.i + x.encode.length ≤ 255) :
    (dhcpStoreBody packet o s).i = s.i + x.encode.length
    ∧ (dhcpStoreBody packet o s).g = x.apply s.g
    ∧ ∀ c, c ≠ x.code → (dhcpStoreBody packet o s).accounted c = s.accounted c := by
  cases x with
  | messageType v =>
    have h0 := hb 0 (by simp [DhcpOption.encode])
    have h1 := hb 1 (by simp [DhcpOption.encode])
    simp only [DhcpOption.encode, List.getD_cons_zero, List.getD_cons_succ, Nat.add_zero] at h0 h1
    simp only [DhcpOption.code, DhcpWalk.accounted, if_true] at hf
    simp only [DhcpOption.encode, List.length_cons, List.length_nil, Nat.reduceAdd] at hi ⊢
    have hs := dhcpSkip_eq packet o s.i 1 h1 (by omega)
    have e : dhcpStoreBody packet o s
        = { s with i := dhcpSkip packet o s.i, msg_accounted := true } := by
      simp [dhcpStoreBody, h0, hf, DHCPMESSAGE]
    rw [e]
    refine ⟨by simp only [hs], rfl, ?_⟩
    intro c hc
    simp only [DhcpOption.code] at hc
    simp only [DhcpWalk.accounted, hc, if_false]
  | serverId a b c d =>
    have h0 := hb 0 (by simp [DhcpOption.encode])
    have h1 := hb 1 (by simp [DhcpOption.encode])
    have h2 := hb 2 (by simp [DhcpOption.encode])
    have h3 := hb 3 (by simp [DhcpOption.encode])
    have h4 := hb 4 (by simp [DhcpOption.encode])
    have h5 := hb 5 (by simp [DhcpOption.encode])
    simp only [DhcpOption.encode, List.getD_cons_zero, List.getD_cons_succ, Nat.add_zero]
      at h0 h1 h2 h3 h4 h5
    have ba := hm (o + (s.i + 2))
    have bb := hm (o + (s.i + 3))
    have bc := hm (o + (s.i + 4))
    have bd := hm (o + (s.i + 5))
    rw [h2] at ba
    rw [h3] at bb
    rw [h4] at bc
    rw [h5] at bd
    simp only [DhcpOption.code, DhcpWalk.accounted, Nat.reduceEqDiff, if_true, if_false] at hf
    simp only [DhcpOption.encode, List.length_cons, List.length_nil, Nat.reduceAdd] at hi ⊢
    have hs := dhcpSkip_eq packet o s.i 4 h1 (by omega)
    have e : dhcpStoreBody packet o s
        = { s with g := s.g, i := dhcpSkip packet o s.i, si_accounted := true } := by
      simp [dhcpStoreBody, h0, h2, h3, h4, h5, hf, DHCPMESSAGE, SERVERID]
    rw [e]
    refine ⟨by simp only [hs], rfl, ?_⟩
    intro c hc
    simp only [DhcpOption.code] at hc
    simp only [DhcpWalk.accounted, hc, if_false]
  | leaseTime a b c d =>
    have h0 := hb 0 (by simp [DhcpOption.encode])
    have h1 := hb 1 (by simp [DhcpOption.encode])
    have h2 := hb 2 (by simp [DhcpOption.encode])
    have h3 := hb 3 (by simp [DhcpOption.encode])
    have h4 := hb 4 (by simp [DhcpOption.encode])
    have h5 := hb 5 (by simp [DhcpOption.encode])
    simp only [DhcpOption.encode, List.getD_cons_zero, List.getD_cons_succ, Nat.add_zero]
      at h0 h1 h2 h3 h4 h5
    have ba := hm (o + (s.i + 2))
    have bb := hm (o + (s.i + 3))
    have bc := hm (o + (s.i + 4))
    have bd := hm (o + (s.i + 5))
    rw [h2] at ba
    rw [h3] at bb
    rw [h4] at bc
    rw [h5] at bd
    simp only [DhcpOption.code, DhcpWalk.accounted, Nat.reduceEqDiff, if_true, if_false] at hf
    simp only [DhcpOption.encode, List.length_cons, List.length_nil, Nat.reduceAdd] at hi ⊢
    have hs := dhcpSkip_eq packet o s.i 4 h1 (by omega)
    have e : dhcpStoreBody packet o s
        = { s with g := { s.g with lease_time := (a <<< 24 ||| b <<< 16 ||| c <<< 8 ||| d <<< 0) % 2 ^ 32 }, i := dhcpSkip packet o s.i, lease_accounted := true } := by
      simp [dhcpStoreBody, h0, h2, h3, h4, h5, hf, DHCPMESSAGE, SERVERID, IP_LEASE_CODE]
    rw [e]
    refine ⟨by simp only [hs], by simp only [DhcpOption.apply, lease_bits a b c d ba bb bc bd], ?_⟩
    intro c hc
    simp only [DhcpOption.code] at hc
    simp only [DhcpWalk.accounted, hc, if_false]
  | subnetMask a b c d =>
    have h0 := hb 0 (by simp [DhcpOption.encode])
    have h1 := hb 1 (by simp [DhcpOption.encode])
    have h2 := hb 2 (by simp [DhcpOption.encode])
    have h3 := hb 3 (by simp [DhcpOption.encode])
    have h4 := hb 4 (by simp [DhcpOption.encode])
    have h5 := hb 5 (by simp [DhcpOption.encode])
    simp only [DhcpOption.encode, List.getD_cons_zero, List.getD_cons_succ, Nat.add_zero]
      at h0 h1 h2 h3 h4 h5
    have ba := hm (o + (s.i + 2))
    have bb := hm (o + (s.i + 3))
    have bc := hm (o + (s.i + 4))
    have bd := hm (o + (s.i + 5))
    rw [h2] at ba
    rw [h3] at bb
    rw [h4] at bc
    rw [h5] at bd
    simp only [DhcpOption.code, DhcpWalk.accounted, Nat.reduceEqDiff, if_true, if_false] at hf
    simp only [DhcpOption.encode, List.length_cons, List.length_nil, Nat.reduceAdd] at hi ⊢
    have hs := dhcpSkip_eq packet o s.i 4 h1 (by omega)
    have e : dhcpStoreBody packet o s
        = { s with g := etherSetIpSubnetMask s.g a b c d, i := dhcpSkip packet o s.i, sn_accounted := true } := by
      simp [dhcpStoreBody, h0, h2, h3, h4, h5, hf, DHCPMESSAGE, SERVERID, IP_LEASE_CODE, SN_MASK_CODE]
    rw [e]
    refine ⟨by simp only [hs], by simp only [DhcpOption.apply, etherSetIpSubnetMask_eq _ a b c d ba bb bc bd], ?_⟩
    intro c hc
    simp only [DhcpOption.code] at hc
    simp only [DhcpWalk.accounted, hc, if_false]
  | router a b c d =>
    have h0 := hb 0 (by simp [DhcpOption.encode])
    have h1 := hb 1 (by simp [DhcpOption.encode])
    have h2 := hb 2 (by simp [DhcpOption.encode])
    have h3 := hb 3 (by simp [DhcpOption.encode])
    have h4 := hb 4 (by simp [DhcpOption.encode])
    have h5 := hb 5 (by simp [DhcpOption.encode])
    simp only [DhcpOption.encode, List.getD_cons_zero, List.getD_cons_succ, Nat.add_zero]
      at h0 h1 h2 h3 h4 h5
    have ba := hm (o + (s.i + 2))
    have bb := hm (o + (s.i + 3))
    have bc := hm (o + (s.i + 4))
    have bd := hm (o + (s.i + 5))
    rw [h2] at ba
    rw [h3] at bb
    rw [h4] at bc
    rw [h5] at bd
    simp only [DhcpOption.code, DhcpWalk.accounted, Nat.reduceEqDiff, if_true, if_false] at hf
    simp only [DhcpOption.encode, List.length_cons, List.length_nil, Nat.reduceAdd] at hi ⊢
    have hs := dhcpSkip_eq packet o s.i 4 h1 (by omega)
    have e : dhcpStoreBody packet o s
        = { s with g := etherSetIpGatewayAddress s.g a b c d, i := dhcpSkip packet o s.i, router_accounted := true } := by
      simp [dhcpStoreBody, h0, h2, h3, h4, h5, hf, DHCPMESSAGE, SERVERID, IP_LEASE_CODE, SN_MASK_CODE, GW_CODE]
    rw [e]
    refine ⟨by simp only [hs], by simp only [DhcpOption.apply, etherSetIpGatewayAddress_eq _ a b c d ba bb bc bd], ?_⟩
    intro c hc
    simp only [DhcpOption.code] at hc
    simp only [DhcpWalk.accounted, hc, if_false]
  | dnsServer a b c d =>
    have h0 := hb 0 (by simp [DhcpOption.encode])
    have h1 := hb 1 (by simp [DhcpOption.encode])
    have h2 := hb 2 (by simp [DhcpOption.encode])
    have h3 := hb 3 (by simp [DhcpOption.encode])
    have h4 := hb 4 (by simp [DhcpOption.encode])
    have h5 := hb 5 (by simp [DhcpOption.encode])
    simp only [DhcpOption.encode, List.getD_cons_zero, List.getD_cons_succ, Nat.add_zero]
      at h0 h1 h2 h3 h4 h5
    have ba := hm (o + (s.i + 2))
    have bb := hm (o + (s.i + 3))
    have bc := hm (o + (s.i + 4))
    have bd := hm (o + (s.i + 5))
    rw [h2] at ba
    rw [h3] at bb
    rw [h4] at bc
    rw [h5] at bd
    simp only [DhcpOption.code, DhcpWalk.accounted, Nat.reduceEqDiff, if_true, if_false] at hf
    simp only [DhcpOption.encode, List.length_cons, List.length_nil, Nat.reduceAdd] at hi ⊢
    have hs := dhcpSkip_eq packet o s.i 4 h1 (by omega)
    have e : dhcpStoreBody packet o s
        = { s with g := etherSetIpDnsServer s.g a b c d, i := dhcpSkip packet o s.i, dns_accounted := true } := by
      simp [dhcpStoreBody, h0, h2, h3, h4, h5, hf, DHCPMESSAGE, SERVERID, IP_LEASE_CODE, SN_MASK_CODE, GW_CODE, DNS_CODE]
    rw [e]
    refine ⟨by simp only [hs], by simp only [DhcpOption.apply, etherSetIpDnsServer_eq _ a b c d ba bb bc bd], ?_⟩
    intro c hc
    simp only [DhcpOption.code] at hc
    simp only [DhcpWalk.accounted, hc, if_false]

theorem encodeOptions_length (opts : List DhcpOption) :
    3 * opts.length + 1 ≤ (encodeOptions opts).length := by
  induction opts with
  | nil => simp [encodeOptions]
  | cons x xs ih =>
    cases x <;> simp only [encodeOptions, DhcpOption.encode, List.length_append,
      List.length_cons, List.length_nil] <;> omega

theorem encode_length_pos (x : DhcpOption) : 3 ≤ x.encode.length := by
  cases x <;> simp [DhcpOption.encode]

/-- The loop of `dhcpStoreVars` over a region that holds a list of distinct recognised
options and END: it ends, and leaves in the globals the effect of the options. -/
theorem dhcpStoreLoop_options (packet : Mem) (o L : Nat) (hm : IsBytes packet) (hL : L ≤ 255)
    (opts : List DhcpOption) :
    ∀ (s : DhcpWalk) (fuel : Nat), (opts.map DhcpOption.code).Nodup →
      (∀ x ∈ opts, s.accounted x.code = false) →
      s.i + (encodeOptions opts).length = L →
      (∀ k, k < (encodeOptions opts).length →
        packet (o + (s.i + k)) = (encodeOptions opts).getD k 0) →
      opts.length + 2 ≤ fuel →
      ∃ s', dhcpStoreLoop packet o L fuel s = some s' ∧ s'.g = applyOptions opts s.g := by
  induction opts with
  | nil =>
    intro s fuel _ _ hi hb hfuel
    obtain ⟨f, rfl⟩ : ∃ f, fuel = f + 2 := ⟨fuel - 2, by simp at hfuel; omega⟩
    simp only [encodeOptions, List.length_cons, List.length_nil, Nat.zero_add] at hi hb
    have h0 := hb 0 (by omega)
    simp only [Nat.add_zero, List.getD_cons_zero] at h0
    have e : dhcpStoreBody packet o s = { s with i := (s.i + 1) % 256 } := by
      simp [dhcpStoreBody, h0, DHCPMESSAGE, SERVERID, IP_LEASE_CODE, SN_MASK_CODE, GW_CODE,
        DNS_CODE]
    refine ⟨{ s with i := (s.i + 1) % 256 }, ?_, rfl⟩
    rw [dhcpStoreLoop, if_pos (by omega), e, dhcpStoreLoop, if_neg]
    show ¬ (s.i + 1) % 256 < L
    omega
  | cons x xs ih =>
    intro s fuel hnd hflag hi hb hfuel
    obtain ⟨f, rfl⟩ : ∃ f, fuel = f + 1 := ⟨fuel - 1, by omega⟩
    rw [List.map_cons, List.nodup_cons] at hnd
    simp only [encodeOptions, List.length_append] at hi hb
    have hx := encode_length_pos x
    have hp := encodeOptions_pos xs
    obtain ⟨e1, e2, e3⟩ := dhcpStoreBody_option packet o s x hm
      (hflag x (List.mem_cons_self _ _))
      (fun k hk => by
        rw [hb k (by omega), List.getD_append _ _ _ _ hk])
      (by omega)
    obtain ⟨s', h1, h2⟩ := ih (dhcpStoreBody packet o s) f hnd.2
      (fun y hy => by
        rw [e3 _ (fun e => hnd.1 (by rw [← e]; exact List.mem_map.2 ⟨y, hy, rfl⟩))]
        exact hflag y (List.mem_cons_of_mem _ hy))
      (by rw [e1]; omega)
      (fun k hk => by
        rw [e1, show s.i + x.encode.length + k = s.i + (x.encode.length + k) by omega,
          hb _ (by omega), List.getD_append_right _ _ _ _ (by omega)]
        congr 1
        omega)
      (by simp only [List.length_cons] at hfuel; omega)
    refine ⟨s', ?_, ?_⟩
    · rw [dhcpStoreLoop, if_pos (by omega)]
      exact h1
    · rw [h2, e2]
      rfl

theorem applyOptions_ipAddress (opts : List DhcpOption) (g : Globals) :
    (applyOptions opts g).ipAddress = g.ipAddress := by
  induction opts generalizing g with
  | nil => rfl
  | cons x xs ih =>
    rw [applyOptions, ih]
    cases x <;> rfl

theorem applyOptions_subnetMask_absent (opts : List DhcpOption) (g : Globals)
    (h : ∀ a b c d, DhcpOption.subnetMask a b c d ∉ opts) :
    (applyOptions opts g).ipSubnetMask = g.ipSubnetMask := by
  induction opts generalizing g with
  | nil => rfl
  | cons x xs ih =>
    have hx : ∀ a b c d, x ≠ DhcpOption.subnetMask a b c d :=
      fun a b c d e => h a b c d (e ▸ List.mem_cons_self _ _)
    rw [applyOptions, ih _ (fun a b c d hm => h a b c d (List.mem_cons_of_mem _ hm))]
    cases x <;> first | rfl | exact absurd rfl (hx _ _ _ _)

theorem applyOptions_subnetMask_mem (opts : List DhcpOption) (g : Globals) (a b c d : Nat)
    (hmem : DhcpOption.subnetMask a b c d ∈ opts) (hnd : (opts.map DhcpOption.code).Nodup) :
    (applyOptions opts g).ipSubnetMask = set4 g.ipSubnetMask a b c d := by
  induction opts generalizing g with
  | nil => cases hmem
  | cons x xs ih =>
    rw [List.map_cons, List.nodup_cons] at hnd
    rcases List.mem_cons.1 hmem with rfl | hin
    · exact applyOptions_subnetMask_absent xs _ (fun a1 b1 c1 d1 hm1 =>
        hnd.1 (List.mem_map.2 ⟨_, hm1, rfl⟩))
    · have hc : x.code ≠ 1 := fun e => hnd.1 (by
        rw [e]
        exact List.mem_map.2 ⟨_, hin, rfl⟩)
      rw [applyOptions, ih _ hin hnd.2]
      cases x <;> first | rfl | exact absurd rfl hc

theorem applyOptions_router_absent (opts : List DhcpOption) (g : Globals)
    (h : ∀ a b c d, DhcpOption.router a b c d ∉ opts) :
    (applyOptions opts g).ipGwAddress = g.ipGwAddress := by
  induction opts generalizing g with
  | nil => rfl
  | cons x xs ih =>
    have hx : ∀ a b c d, x ≠ DhcpOption.router a b c d :=
      fun a b c d e => h a b c d (e ▸ List.mem_cons_self _ _)
    rw [applyOptions, ih _ (fun a b c d hm => h a b c d (List.mem_cons_of_mem _ hm))]
    cases x <;> first | rfl | exact absurd rfl (hx _ _ _ _)

theorem applyOptions_router_mem (opts : List DhcpOption) (g : Globals) (a b c d : Nat)
    (hmem : DhcpOption.router a b c d ∈ opts) (hnd : (opts.map DhcpOption.code).Nodup) :
    (applyOptions opts g).ipGwAddress = set4 g.ipGwAddress a b c d := by
  induction opts generalizing g with
  | nil => cases hmem
  | cons x xs ih =>
    rw [List.map_cons, List.nodup_cons] at hnd
    rcases List.mem_cons.1 hmem with rfl | hin
    · exact applyOptions_router_absent xs _ (fun a1 b1 c1 d1 hm1 =>
        hnd.1 (List.mem_map.2 ⟨_, hm1, rfl⟩))
    · have hc : x.code ≠ 3 := fun e => hnd.1 (by
        rw [e]
        exact List.mem_map.2 ⟨_, hin, rfl⟩)
      rw [applyOptions, ih _ hin hnd.2]
      cases x <;> first | rfl | exact absurd rfl hc

theorem applyOptions_dnsServer_absent (opts : List DhcpOption) (g : Globals)
    (h : ∀ a b c d, DhcpOption.dnsServer a b c d ∉ opts) :
    (applyOptions opts g).ipDnsServer = g.ipDnsServer := by
  induction opts generalizing g with
  | nil => rfl
  | cons x xs ih =>
    have hx : ∀ a b c d, x ≠ DhcpOption.dnsServer a b c d :=
      fun a b c d e => h a b c d (e ▸ List.mem_cons_self _ _)
    rw [applyOptions, ih _ (fun a b c d hm => h a b c d (List.mem_cons_of_mem _ hm))]
    cases x <;> first | rfl | exact absurd rfl (hx _ _ _ _)

theorem applyOptions_dnsServer_mem (opts : List DhcpOption) (g : Globals) (a b c d : Nat)
    (hmem : DhcpOption.dnsServer a b c d ∈ opts) (hnd : (opts.map DhcpOption.code).Nodup) :
    (applyOptions opts g).ipDnsServer = set4 g.ipDnsServer a b c d := by
  induction opts generalizing g with
  | nil => cases hmem
  | cons x xs ih =>
    rw [List.map_cons, List.nodup_cons] at hnd
    rcases List.mem_cons.1 hmem with rfl | hin
    · exact applyOptions_dnsServer_absent xs _ (fun a1 b1 c1 d1 hm1 =>
        hnd.1 (List.mem_map.2 ⟨_, hm1, rfl⟩))
    · have hc : x.code ≠ 6 := fun e => hnd.1 (by
        rw [e]
        exact List.mem_map.2 ⟨_, hin, rfl⟩)
      rw [applyOptions, ih _ hin hnd.2]
      cases x <;> first | rfl | exact absurd rfl hc

theorem applyOptions_leaseTime_absent (opts : List DhcpOption) (g : Globals)
    (h : ∀ a b c d, DhcpOption.leaseTime a b c d ∉ opts) :
    (applyOptions opts g).lease_time = g.lease_time := by
  induction opts generalizing g with
  | nil => rfl
  | cons x xs ih =>
    have hx : ∀ a b c d, x ≠ DhcpOption.leaseTime a b c d :=
      fun a b c d e => h a b c d (e ▸ List.mem_cons_self _ _)
    rw [applyOptions, ih _ (fun a b c d hm => h a b c d (List.mem_cons_of_mem _ hm))]
    cases x <;> first | rfl | exact absurd rfl (hx _ _ _ _)

theorem applyOptions_leaseTime_mem (opts : List DhcpOption) (g : Globals) (a b c d : Nat)
    (hmem : DhcpOption.leaseTime a b c d ∈ opts) (hnd : (opts.map DhcpOption.code).Nodup) :
    (applyOptions opts g).lease_time = a * 16777216 + b * 65536 + c * 256 + d := by
  induction opts generalizing g with
  | nil => cases hmem
  | cons x xs ih =>
    rw [List.map_cons, List.nodup_cons] at hnd
    rcases List.mem_cons.1 hmem with rfl | hin
    · exact applyOptions_leaseTime_absent xs _ (fun a1 b1 c1 d1 hm1 =>
        hnd.1 (List.mem_map.2 ⟨_, hm1, rfl⟩))
    · exact ih _ hin hnd.2

/-- `dhcpStoreVars` on a reply with a 20-byte IP header whose option region is a list of
distinct recognised options and END. -/
theorem dhcpStoreVars_options (g : Globals) (packet : Mem) (opts : List DhcpOption)
    (hm : IsBytes packet) (hihl : packet 14 % 16 = 5)
    (hnd : (opts.map DhcpOption.code).Nodup) (hL : (encodeOptions opts).length < 256)
    (hlen : packet 16 * 256 + packet 17 = 268 + (encodeOptions opts).length)
    (hb : ∀ k, k < (encodeOptions opts).length → packet (282 + k) = (encodeOptions opts).getD k 0) :
    dhcpStoreVars g packet
      = some (applyOptions opts { g with
          ipAddress := set4 g.ipAddress (packet 58) (packet 59) (packet 60) (packet 61) }) := by
  have hh := htons_rd16 packet hm 16
  have hlength : (htons (rd16 packet (14 + 2)) + 512 - ipHeaderLength - udpHeaderLength
      - dhcpSize) % 256 = (encodeOptions opts).length := by
    simp only [Nat.reduceAdd, hh, hlen, ipHeaderLength, udpHeaderLength, dhcpSize]
    omega
  have hn := encodeOptions_length opts
  obtain ⟨s', h1, h2⟩ := dhcpStoreLoop_options packet 282 (encodeOptions opts).length hm
    (by omega) opts
    { i := 0, msg_accounted := false, si_accounted := false, lease_accounted := false,
      sn_accounted := false, router_accounted := false, dns_accounted := false,
      g := etherSetIpAddress g (packet 58) (packet 59) (packet 60) (packet 61) } 1792 hnd
    (fun x _ => by cases x <;> rfl) (by simp) (fun k hk => by simpa using hb k hk) (by omega)
  unfold dhcpStoreVars
  simp only [and_f, hihl, hlength, Nat.reduceMul, Nat.reduceAdd, h1, Option.map_some', h2]
  rw [etherSetIpAddress_eq g _ _ _ _ (hm 58) (hm 59) (hm 60) (hm 61)]

theorem dhcpStoreBody_variant (packet : Mem) (o L : Nat) (s : DhcpWalk) (hi : s.i < L)
    (hL : L ≤ 255) : (dhcpStoreBody packet o s).variant L < s.variant L := by
  unfold dhcpStoreBody
  split_ifs with h1 h2 h3 h4 h5 h6
  · simp only [DhcpWalk.variant, DhcpWalk.unset, h1.2, if_true]
    simp only [Bool.false_eq_true, if_false]
    omega
  · simp only [DhcpWalk.variant, DhcpWalk.unset, h2.2, if_true]
    simp only [Bool.false_eq_true, if_false]
    omega
  · simp only [DhcpWalk.variant, DhcpWalk.unset, h3.2, if_true]
    simp only [Bool.false_eq_true, if_false]
    omega
  · simp only [DhcpWalk.variant, DhcpWalk.unset, h4.2, if_true]
    simp only [Bool.false_eq_true, if_false]
    omega
  · simp only [DhcpWalk.variant, DhcpWalk.unset, h5.2, if_true]
    simp only [Bool.false_eq_true, if_false]
    omega
  · simp only [DhcpWalk.variant, DhcpWalk.unset, h6.2, if_true]
    simp only [Bool.false_eq_true, if_false]
    omega
  · simp only [DhcpWalk.variant, DhcpWalk.unset]
    omega

/-- The loop of `dhcpStoreVars` ends within any bound above its variant. -/
theorem dhcpStoreLoop_total (packet : Mem) (o L : Nat) (hL : L ≤ 255) :
    ∀ (fuel : Nat) (s : DhcpWalk), s.variant L < fuel →
      ∃ s', dhcpStoreLoop packet o L fuel s = some s' := by
  intro fuel
  induction fuel with
  | zero => intro s h; omega
  | succ f ih =>
    intro s h
    rw [dhcpStoreLoop]
    by_cases hi : s.i < L
    · rw [if_pos hi]
      exact ih _ (by have := dhcpStoreBody_variant packet o L s hi hL; omega)
    · rw [if_neg hi]
      exact ⟨s, rfl⟩

theorem DhcpWalk.unset_le (s : DhcpWalk) : s.unset ≤ 6 := by
  unfold DhcpWalk.unset
  split_ifs <;> omega

/-- `dhcpStoreVars` returns on every buffer: its loop ends within the bound of the model. -/
theorem dhcpStoreVars_total (g : Globals) (packet : Mem) :
    ∃ g', dhcpStoreVars g packet = some g' := by
  unfold dhcpStoreVars
  lift_lets
  intro ip udp dhcp g1 length
  have hlt : length ≤ 255 := by
    have := Nat.mod_lt (htons (rd16 packet (ip + 2)) + 512 - ipHeaderLength - udpHeaderLength
      - dhcpSize) (show 256 > 0 by omega)
    simp only [length]
    omega
  obtain ⟨s', h⟩ := dhcpStoreLoop_total packet (dhcp + 240) length hlt 1792
    { i := 0, msg_accounted := false, si_accounted := false, lease_accounted := false,
      sn_accounted := false, router_accounted := false, dns_accounted := false, g := g1 }
    (by simp only [DhcpWalk.variant, DhcpWalk.unset]; simp; omega)
  exact ⟨s'.g, by rw [h]; rfl⟩

/-- A property that every iteration keeps holds when the loop of `dhcpStoreVars` ends. -/
theorem dhcpStoreLoop_invariant (packet : Mem) (o L : Nat) (P : DhcpWalk → Prop)
    (hP : ∀ s, P s → P (dhcpStoreBody packet o s)) :
    ∀ (fuel : Nat) (s s' : DhcpWalk), dhcpStoreLoop packet o L fuel s = some s' → P s → P s' := by
  intro fuel
  induction fuel with
  | zero => intro s s' h; simp [dhcpStoreLoop] at h
  | succ f ih =>
    intro s s' h hs
    rw [dhcpStoreLoop] at h
    by_cases hi : s.i < L
    · rw [if_pos hi] at h
      exact ih _ _ h (hP s hs)
    · rw [if_neg hi] at h
      cases h
      exact hs

theorem dhcpStoreBody_keeps_msg (packet : Mem) (o : Nat) (s : DhcpWalk)
    (h : s.msg_accounted = true) : (dhcpStoreBody packet o s).msg_accounted = true := by
  unfold dhcpStoreBody
  split_ifs <;> first | rfl | exact h

theorem dhcpStoreBody_keeps_si (packet : Mem) (o : Nat) (s : DhcpWalk)
    (h : s.si_accounted = true) : (dhcpStoreBody packet o s).si_accounted = true := by
  unfold dhcpStoreBody
  split_ifs <;> first | rfl | exact h

theorem dhcpStoreBody_keeps_lease (packet : Mem) (o : Nat) (v : Nat) (s : DhcpWalk)
    (h : s.lease_accounted = true ∧ s.g.lease_time = v) :
    (dhcpStoreBody packet o s).lease_accounted = true
      ∧ (dhcpStoreBody packet o s).g.lease_time = v := by
  unfold dhcpStoreBody
  split_ifs with h1 h2 h3 h4 h5 h6
  · exact h
  · exact h
  · rw [h.1] at h3
    exact absurd h3.2 (by decide)
  · exact h
  · exact h
  · exact h
  · exact h

theorem dhcpStoreBody_keeps_sn (packet : Mem) (o : Nat) (v : Nat → Nat) (s : DhcpWalk)
    (h : s.sn_accounted = true ∧ s.g.ipSubnetMask = v) :
    (dhcpStoreBody packet o s).sn_accounted = true
      ∧ (dhcpStoreBody packet o s).g.ipSubnetMask = v := by
  unfold dhcpStoreBody
  split_ifs with h1 h2 h3 h4 h5 h6
  · exact h
  · exact h
  · exact h
  · rw [h.1] at h4
    exact absurd h4.2 (by decide)
  · exact h
  · exact h
  · exact h

theorem dhcpStoreBody_keeps_router (packet : Mem) (o : Nat) (v : Nat → Nat) (s : DhcpWalk)
    (h : s.router_accounted = true ∧ s.g.ipGwAddress = v) :
    (dhcpStoreBody packet o s).router_accounted = true
      ∧ (dhcpStoreBody packet o s).g.ipGwAddress = v := by
  unfold dhcpStoreBody
  split_ifs with h1 h2 h3 h4 h5 h6
  · exact h
  · exact h
  · exact h
  · exact h
  · rw [h.1] at h5
    exact absurd h5.2 (by decide)
  · exact h
  · exact h

theorem dhcpStoreBody_keeps_dns (packet : Mem) (o : Nat) (v : Nat → Nat) (s : DhcpWalk)
    (h : s.dns_accounted = true ∧ s.g.ipDnsServer = v) :
    (dhcpStoreBody packet o s).dns_accounted = true
      ∧ (dhcpStoreBody packet o s).g.ipDnsServer = v := by
  unfold dhcpStoreBody
  split_ifs with h1 h2 h3 h4 h5 h6
  · exact h
  · exact h
  · exact h
  · exact h
  · exact h
  · rw [h.1] at h6
    exact absurd h6.2 (by decide)
  · exact h

/-- C15: DHCP bind.  For every byte-valued reply with a 20-byte IP header whose option
region (IP total length - 268 bytes, fewer than 256) holds a list of options among 53
(length 1), 54, 51, 1, 3 and 6 (length 4), each code at most once, in any order, followed by
END, `dhcpStoreVars` returns and leaves the globals that the reference function
`applyOptions` gives; in them the local IP address is the yiaddr field of the reply (offsets
58-61), the subnet mask, the gateway and the DNS server are the value bytes of options 1, 3
and 6 and the lease time is the big-endian value of option 51, each of these four being
unchanged when its option is absent. -/
theorem dhcp_bind (g : Globals) (packet : Mem) (opts : List DhcpOption)
    (hm : IsBytes packet) (hihl : packet 14 % 16 = 5)
    (hnd : (opts.map DhcpOption.code).Nodup) (hL : (encodeOptions opts).length < 256)
    (hlen : packet 16 * 256 + packet 17 = 268 + (encodeOptions opts).length)
    (hb : ∀ k, k < (encodeOptions opts).length → packet (282 + k) = (encodeOptions opts).getD k 0) :
    ∃ g', dhcpStoreVars g packet = some g'
      ∧ g' = applyOptions opts { g with
          ipAddress := set4 g.ipAddress (packet 58) (packet 59) (packet 60) (packet 61) }
      ∧ g'.ipAddress = set4 g.ipAddress (packet 58) (packet 59) (packet 60) (packet 61)
      ∧ (∀ a b c d, DhcpOption.subnetMask a b c d ∈ opts →
          g'.ipSubnetMask = set4 g.ipSubnetMask a b c d)
      ∧ ((∀ a b c d, DhcpOption.subnetMask a b c d ∉ opts) → g'.ipSubnetMask = g.ipSubnetMask)
      ∧ (∀ a b c d, DhcpOption.router a b c d ∈ opts →
          g'.ipGwAddress = set4 g.ipGwAddress a b c d)
      ∧ ((∀ a b c d, DhcpOption.router a b c d ∉ opts) → g'.ipGwAddress = g.ipGwAddress)
      ∧ (∀ a b c d, DhcpOption.dnsServer a b c d ∈ opts →
          g'.ipDnsServer = set4 g.ipDnsServer a b c d)
      ∧ ((∀ a b c d, DhcpOption.dnsServer a b c d ∉ opts) → g'.ipDnsServer = g.ipDnsServer)
      ∧ (∀ a b c d, DhcpOption.leaseTime a b c d ∈ opts →
          g'.lease_time = a * 16777216 + b * 65536 + c * 256 + d)
      ∧ ((∀ a b c d, DhcpOption.leaseTime a b c d ∉ opts) → g'.lease_time = g.lease_time) := by
  refine ⟨_, dhcpStoreVars_options g packet opts hm hihl hnd hL hlen hb, rfl, ?_, ?_, ?_, ?_,
    ?_, ?_, ?_, ?_, ?_⟩
  · rw [applyOptions_ipAddress]
  · intro a b c d h
    rw [applyOptions_subnetMask_mem _ _ a b c d h hnd]
  · intro h
    rw [applyOptions_subnetMask_absent _ _ h]
  · intro a b c d h
    rw [applyOptions_router_mem _ _ a b c d h hnd]
  · intro h
    rw [applyOptions_router_absent _ _ h]
  · intro a b c d h
    rw [applyOptions_dnsServer_mem _ _ a b c d h hnd]
  · intro h
    rw [applyOptions_dnsServer_absent _ _ h]
  · intro a b c d h
    rw [applyOptions_leaseTime_mem _ _ a b c d h hnd]
  · intro h
    rw [applyOptions_leaseTime_absent _ _ h]

set_option maxRecDepth 8000 in
theorem dhcp_bind_witness :
    IsBytes (Mem.ofList exampleOffer) ∧ Mem.ofList exampleOffer 14 % 16 = 5
    ∧ (exampleOptions.map DhcpOption.code).Nodup ∧ (encodeOptions exampleOptions).length < 256
    ∧ Mem.ofList exampleOffer 16 * 256 + Mem.ofList exampleOffer 17
        = 268 + (encodeOptions exampleOptions).length
    ∧ (∀ k, k < (encodeOptions exampleOptions).length →
        Mem.ofList exampleOffer (282 + k) = (encodeOptions exampleOptions).getD k 0)
    ∧ ∃ g', dhcpStoreVars exampleGlobals (Mem.ofList exampleOffer) = some g'
        ∧ g'.lease_time = 86400 :=
  ⟨exampleOffer_isBytes, by decide, by decide, by decide, by decide, by decide,
    (dhcp_bind exampleGlobals (Mem.ofList exampleOffer) exampleOptions exampleOffer_isBytes
      (by decide) (by decide) (by decide) (by decide) (by decide)).imp
      (fun _ h => ⟨h.1, h.2.2.2.2.2.2.2.2.2.1 0 1 81 128 (by simp [exampleOptions])⟩)⟩

/-- C16: DHCP option idempotence.  In the loop of `dhcpStoreVars` a flag that is set stays
set, and from the moment the flag of a code is set the value stored for that code (lease
time for 51, subnet mask for 1, gateway for 3, DNS server for 6) is the one the loop ends
with, whatever bytes follow; 53 and 54 store no value.  In particular, for every byte-valued
reply with a 20-byte IP header whose option region (of 1 to 255 bytes) starts with the
code 1, a length byte and A0, A1, A2, A3, `dhcpStoreVars` returns with the subnet mask A,
whatever follows: a second option 1, 4, B0, B1, B2, B3 does not overwrite it. -/
theorem dhcp_option_applied_once :
    (∀ (packet : Mem) (o L fuel : Nat) (s s' : DhcpWalk),
      dhcpStoreLoop packet o L fuel s = some s' →
        (s.msg_accounted = true → s'.msg_accounted = true)
        ∧ (s.si_accounted = true → s'.si_accounted = true)
        ∧ (s.lease_accounted = true →
            s'.lease_accounted = true ∧ s'.g.lease_time = s.g.lease_time)
        ∧ (s.sn_accounted = true →
            s'.sn_accounted = true ∧ s'.g.ipSubnetMask = s.g.ipSubnetMask)
        ∧ (s.router_accounted = true →
            s'.router_accounted = true ∧ s'.g.ipGwAddress = s.g.ipGwAddress)
        ∧ (s.dns_accounted = true →
            s'.dns_accounted = true ∧ s'.g.ipDnsServer = s.g.ipDnsServer))
    ∧ (∀ (g : Globals) (packet : Mem) (L : Nat), IsBytes packet → packet 14 % 16 = 5 →
        1 ≤ L → L < 256 → packet 16 * 256 + packet 17 = 268 + L →
        packet 282 = 1 →
        ∃ g', dhcpStoreVars g packet = some g'
          ∧ g'.ipSubnetMask
            = set4 g.ipSubnetMask (packet 284) (packet 285) (packet 286) (packet 287)) := by
  constructor
  · intro packet o L fuel s s' h
    refine ⟨?_, ?_, ?_, ?_, ?_, ?_⟩
    · exact dhcpStoreLoop_invariant packet o L (fun t => t.msg_accounted = true)
        (dhcpStoreBody_keeps_msg packet o) fuel s s' h
    · exact dhcpStoreLoop_invariant packet o L (fun t => t.si_accounted = true)
        (dhcpStoreBody_keeps_si packet o) fuel s s' h
    · intro hf
      exact dhcpStoreLoop_invariant packet o L
        (fun t => t.lease_accounted = true ∧ t.g.lease_time = s.g.lease_time)
        (dhcpStoreBody_keeps_lease packet o _) fuel s s' h ⟨hf, rfl⟩
    · intro hf
      exact dhcpStoreLoop_invariant packet o L
        (fun t => t.sn_accounted = true ∧ t.g.ipSubnetMask = s.g.ipSubnetMask)
        (dhcpStoreBody_keeps_sn packet o _) fuel s s' h ⟨hf, rfl⟩
    · intro hf
      exact dhcpStoreLoop_invariant packet o L
        (fun t => t.router_accounted = true ∧ t.g.ipGwAddress = s.g.ipGwAddress)
        (dhcpStoreBody_keeps_router packet o _) fuel s s' h ⟨hf, rfl⟩
    · intro hf
      exact dhcpStoreLoop_invariant packet o L
        (fun t => t.dns_accounted = true ∧ t.g.ipDnsServer = s.g.ipDnsServer)
        (dhcpStoreBody_keeps_dns packet o _) fuel s s' h ⟨hf, rfl⟩
  · intro g packet L hm hihl h1 hL hlen h282
    have hh := htons_rd16 packet hm 16
    have hlength : (htons (rd16 packet (14 + 2)) + 512 - ipHeaderLength - udpHeaderLength
        - dhcpSize) % 256 = L := by
      simp only [Nat.reduceAdd, hh, hlen, ipHeaderLength, udpHeaderLength, dhcpSize]
      omega
    have e : dhcpStoreBody packet 282
        { i := 0, msg_accounted := false, si_accounted := false, lease_accounted := false,
          sn_accounted := false, router_accounted := false, dns_accounted := false,
          g := etherSetIpAddress g (packet 58) (packet 59) (packet 60) (packet 61) }
        = { i := dhcpSkip packet 282 0, msg_accounted := false, si_accounted := false,
            lease_accounted := false, sn_accounted := true, router_accounted := false,
            dns_accounted := false,
            g := etherSetIpSubnetMask
              (etherSetIpAddress g (packet 58) (packet 59) (packet 60) (packet 61))
              (packet 284) (packet 285) (packet 286) (packet 287) } := by
      simp [dhcpStoreBody, h282, DHCPMESSAGE, SERVERID, IP_LEASE_CODE, SN_MASK_CODE]
    obtain ⟨s', hs'⟩ := dhcpStoreLoop_total packet 282 L (by omega) 1791
      { i := dhcpSkip packet 282 0, msg_accounted := false, si_accounted := false,
        lease_accounted := false, sn_accounted := true, router_accounted := false,
        dns_accounted := false,
        g := etherSetIpSubnetMask
          (etherSetIpAddress g (packet 58) (packet 59) (packet 60) (packet 61))
          (packet 284) (packet 285) (packet 286) (packet 287) }
      (by simp only [DhcpWalk.variant, DhcpWalk.unset]; simp; omega)
    have hk := dhcpStoreLoop_invariant packet 282 L
      (fun t => t.sn_accounted = true ∧ t.g.ipSubnetMask
        = set4 g.ipSubnetMask (packet 284) (packet 285) (packet 286) (packet 287))
      (dhcpStoreBody_keeps_sn packet 282 _) 1791 _ s' hs'
      ⟨rfl, by
        rw [etherSetIpSubnetMask_eq _ _ _ _ _ (hm 284) (hm 285) (hm 286) (hm 287)]
        rfl⟩
    refine ⟨s'.g, ?_, hk.2⟩
    unfold dhcpStoreVars
    simp only [and_f, hihl, hlength, Nat.reduceMul, Nat.reduceAdd]
    rw [dhcpStoreLoop, if_pos (by exact h1), e, hs']
    rfl

set_option maxRecDepth 8000 in
theorem dhcp_option_applied_once_witness :
    ∃ g', dhcpStoreVars exampleGlobals (Mem.ofList exampleRepeatedMask) = some g'
      ∧ g'.ipSubnetMask = set4 exampleGlobals.ipSubnetMask 255 255 254 0 :=
  dhcp_option_applied_once.2 exampleGlobals (Mem.ofList exampleRepeatedMask) 12
    (ofList_isBytes _ (by decide)) (by decide) (by decide) (by decide) (by decide) (by decide)

/-- C17 (divergence): an unrecognised option is not skipped by its declared length.  With the
option region 12, 5, 1, 4, 10, 11, 12, 255 (one option of the unrecognised code 12 with five
value bytes, then END) `dhcpStoreVars` reads the value bytes 1, 4, ... as a subnet-mask option
and stores the mask 10.11.12.255, whereas without the inserted option (region 255) the mask
keeps its value 255.255.255.0. -/
theorem dhcp_unknown_option_not_skipped :
    (dhcpStoreVars exampleGlobals (Mem.ofList exampleUnknownOption)).map
        (fun g => bytesAt g.ipSubnetMask 0 4) = some [10, 11, 12, 255]
    ∧ (dhcpStoreVars exampleGlobals (Mem.ofList (exampleReply [255]))).map
        (fun g => bytesAt g.ipSubnetMask 0 4) = some [255, 255, 255, 0] := by
  decide

/-! ## TCP segments -/

theorem tcpEtherLoop_apply (mac : Nat → Nat) (n i0 : Nat) (m : Mem) (hn : i0 + n ≤ 6) (j : Nat) :
    tcpEtherLoop mac n i0 m j
      = if i0 ≤ j ∧ j < i0 + n then m (j + 6)
        else if 6 + i0 ≤ j ∧ j < 6 + i0 + n then mac (j - 6)
        else m j := by
  induction n generalizing i0 m with
  | zero =>
    simp only [tcpEtherLoop]
    rw [if_neg (by omega), if_neg (by omega)]
  | succ n ih =>
    simp only [tcpEtherLoop]
    rw [ih (i0 + 1) _ (by omega)]
    simp only [wr8_apply, Nat.zero_add]
    split_ifs <;>
      first | rfl | omega | (apply congrArg m; omega) | (apply congrArg mac; omega)

theorem tcpIpLoop_apply (a : Nat → Nat) (ip n i0 : Nat) (m : Mem) (hn : i0 + n ≤ 4) (j : Nat) :
    tcpIpLoop a ip n i0 m j
      = if ip + 16 + i0 ≤ j ∧ j < ip + 16 + i0 + n then m (j - 4)
        else if ip + 12 + i0 ≤ j ∧ j < ip + 12 + i0 + n then a (j - (ip + 12))
        else m j := by
  induction n generalizing i0 m with
  | zero =>
    simp only [tcpIpLoop]
    rw [if_neg (by omega), if_neg (by omega)]
  | succ n ih =>
    simp only [tcpIpLoop]
    rw [ih (i0 + 1) _ (by omega)]
    simp only [wr8_apply]
    split_ifs <;>
      first | rfl | omega | (apply congrArg m; omega) | (apply congrArg a; omega)

theorem tcpEtherLoop_at (mac : Nat → Nat) (m : Mem) (j : Nat) :
    tcpEtherLoop mac 6 0 m j
      = if j < 6 then m (j + 6) else if 6 ≤ j ∧ j < 12 then mac (j - 6) else m j := by
  rw [tcpEtherLoop_apply _ _ _ _ (by omega)]
  split_ifs <;> first | rfl | omega

theorem tcpIpLoop_at (a : Nat → Nat) (m : Mem) (j : Nat) :
    tcpIpLoop a 14 4 0 m j
      = if 30 ≤ j ∧ j < 34 then m (j - 4) else if 26 ≤ j ∧ j < 30 then a (j - 26)
        else m j := by
  rw [tcpIpLoop_apply _ _ _ _ _ (by omega)]

theorem htons_0 : htons 0 = 0 := by decide
theorem htons_23 : htons 23 = 0x1700 := by decide
theorem htons_05b4 : htons 0x05b4 = 0xb405 := by decide
theorem htons_5010 : htons 0x5010 = 0x1050 := by decide
theorem htons_6012 : htons 0x6012 = 0x1260 := by decide

theorem htonl_eq (v : Nat) (hv : v < 4294967296) :
    htonl v = v / 16777216 + v / 65536 % 256 * 256 + v / 256 % 256 * 65536
      + v % 256 * 16777216 := by
  unfold htonl
  simp only [Nat.mod_eq_of_lt hv, shr16, Nat.shiftLeft_eq]
  have h1 : htons (v / 65536) = v / 16777216 + v / 65536 % 256 * 256 := by
    rw [htons_eq]; omega
  have h2 : htons (v % 65536) = v / 256 % 256 + v % 256 * 256 := by
    rw [htons_eq]; omega
  rw [h1, h2, Nat.lor_comm, Nat.mul_comm _ (2 ^ 16),
    ← Nat.mul_add_lt_is_or (by omega) (v / 256 % 256 + v % 256 * 256)]
  omega

theorem wr32_bytes (m : Mem) (a v : Nat) :
    bytesAt (wr32 m a v) a 4 = [v % 256, v / 256 % 256, v / 65536 % 256, v / 16777216 % 256] := by
  rw [show bytesAt (wr32 m a v) a 4
    = [wr32 m a v (a + 0), wr32 m a v (a + 1), wr32 m a v (a + 2), wr32 m a v (a + 3)] from rfl]
  simp [wr32, wr8]

theorem wr32_htonl (m : Mem) (a v : Nat) (hv : v < 4294967296) :
    bytesAt (wr32 m a (htonl v)) a 4 = be32Bytes v := by
  rw [wr32_bytes, htonl_eq v hv, be32Bytes]
  have e3 : v / 16777216 % 256 = v / 16777216 := by omega
  have h3 : v / 16777216 < 256 := by omega
  have h2 : v / 65536 % 256 < 256 := by omega
  have h1 : v / 256 % 256 < 256 := by omega
  have h0 : v % 256 < 256 := by omega
  rw [e3]
  generalize v / 16777216 = b3 at *
  generalize v / 65536 % 256 = b2 at *
  generalize v / 256 % 256 = b1 at *
  generalize v % 256 = b0 at *
  congr 1
  · omega
  congr 1
  · omega
  congr 1
  · omega
  congr 1
  omega

theorem htonl_rd32 (m : Mem) (hm : IsBytes m) (a : Nat) :
    htonl (rd32 m a) = rdBe32 m a := by
  have h0 := hm a
  have h1 := hm (a + 1)
  have h2 := hm (a + 2)
  have h3 := hm (a + 3)
  rw [htonl_eq _ (by unfold rd32; omega)]
  unfold rd32 rdBe32
  omega

/-- What `tcpTransmit` leaves in a buffer whose IP header is 20 bytes long, and what it
transmits: the IP total length, then the two checksums `c1` and `c2`. -/
theorem tcpTransmit_stages (g : Globals) (m : Mem) (lenOpts : Nat) (h14 : m 14 = 69)
    (hl : lenOpts < 65482) :
    ∃ c1 c2 : Nat,
      (tcpTransmit g m 14 34 lenOpts).packet
        = wr16 (wr16 (wr16 m 16 (htons (40 + lenOpts))) 24 c1) 50 c2
      ∧ (tcpTransmit g m 14 34 lenOpts).frame
        = bytesAt (tcpTransmit g m 14 34 lenOpts).packet 0 (54 + lenOpts)
      ∧ (tcpTransmit g m 14 34 lenOpts).g.seq_num = g.seq_num := by
  unfold tcpTransmit
  lift_lets
  extract_lets tcpSize m1 c m2 sum0 sum1 tmp16 sum2 tmp_len sum3 sum4 sum5 r m3
  have h2 : m2 = wr16 m1 (14 + 10) (getEtherChecksum (etherSumWords (etherSumWords 0 m1 14 10)
      m1 (14 + 12) (((m1 14 &&& 0xF) * 4 + 65536 - 12) % 65536))).1 := rfl
  have h1 : m1 = wr16 m 16 (htons (40 + lenOpts)) := by
    simp only [m1, ipHeaderLength, tcpSize, Nat.reduceAdd]
  have e14 : m3 14 = 69 := by
    simp only [m3, h2, h1]
    rw [wr16_same _ _ _ _ (by omega) (by omega), wr16_same _ _ _ _ (by omega) (by omega),
      wr16_same _ _ _ _ (by omega) (by omega), h14]
  refine ⟨(getEtherChecksum (etherSumWords (etherSumWords 0 m1 14 10)
      m1 (14 + 12) (((m1 14 &&& 0xF) * 4 + 65536 - 12) % 65536))).1, r.1, ?_, ?_, ?_⟩
  · show m3 = _
    simp only [m3, h2, h1]
  · show etherPutPacket m3 _ = bytesAt m3 0 _
    simp only [etherPutPacket, e14, tcpSize]
    congr 1
    simp only [show (69 &&& 15) * 4 = 20 by decide]
    omega
  · simp only [c, etherCalcIpChecksum]

theorem tcpSwitch_synack (seq_num : Nat) (m : Mem) (ps dl l : Nat) :
    tcpSwitch seq_num m 34 0x12 ps dl l
      = (wr8 (wr8 (wr8 (wr8 (wr16 (wr32 (wr32 m (34 + 8) (htonl (ps + 1))) (34 + 4)
          (htonl seq_num)) (34 + 12) (htons 0x6012)) (34 + 20 + 0) 2) (34 + 20 + 1) 4)
          (34 + 20 + 2) 0x05) (34 + 20 + 3) 0xb4, (seq_num + 1) % 4294967296, 4) := by
  rw [tcpSwitch, if_neg (by decide), if_neg (by decide), if_neg (by decide), if_pos rfl]

theorem tcpSwitch_ack (seq_num : Nat) (m : Mem) (ps dl l : Nat) :
    tcpSwitch seq_num m 34 0x10 ps dl l
      = (wr16 (wr32 (wr32 m (34 + 8) (htonl (ps + dl))) (34 + 4) (htonl seq_num)) (34 + 12)
          (htons 0x5010), seq_num, 0) := by
  rw [tcpSwitch, if_neg (by decide), if_neg (by decide), if_pos rfl]

/-- The `switch` of `sendTcpMsg` stores nothing below the sequence number field. -/
theorem tcpSwitch_low (seq_num : Nat) (m : Mem) (flag ps dl l j : Nat) (hj : j < 38) :
    (tcpSwitch seq_num m 34 flag ps dl l).1 j = m j := by
  unfold tcpSwitch
  split_ifs
  · simp only [wr16_apply, wr32_apply]
    simp (disch := omega) only [if_neg]
  · simp only [wr16_apply, wr32_apply]
    simp (disch := omega) only [if_neg]
  · simp only [wr16_apply, wr32_apply]
    simp (disch := omega) only [if_neg]
  · simp only [wr16_apply, wr32_apply, wr8_apply]
    simp (disch := omega) only [if_neg]
  · rfl

/-- `sendTcpMsg` with a flag other than `0x18` and no payload, by stages: the fixed fields,
the stores of the `switch`, then `tcpTransmit`. -/
theorem sendTcpMsg_stages (g : Globals) (packet : Mem) (flag : Nat) (payload : List Nat)
    (l : Nat) (hflag : flag % 256 ≠ 0x18) (hm : IsBytes packet) :
    sendTcpMsg g packet flag payload true l
      = some { g := (tcpLast g packet flag l).g, packet := (tcpLast g packet flag l).packet,
               frames := [(tcpLast g packet flag l).frame] } := by
  unfold sendTcpMsg
  lift_lets
  extract_lets f id m1 m2 ip m3 dl0 m4 m5 m6 m7 m8 m9 m10 tcp dl m11 m12 m13 m14 m15 ps
  have h10 : m10 ip = 69 := by
    simp only [m10, m9, m8, m7, m6, m5, m4, ip, wr16_apply, wr8_apply]
    simp
  have htcp : tcp = 34 := by simp only [tcp, h10, ip]; rfl
  have e3 : ∀ j, 14 ≤ j ∧ j < 26 → m3 j = packet j := by
    intro j hj
    simp only [m3, m2, m1, ip, tcpIpLoop_at, wr16_apply, tcpEtherLoop_at]
    simp (disch := omega) only [if_neg]
  have e10 : ∀ j, 34 ≤ j → m10 j = packet j := by
    intro j hj
    simp only [m10, m9, m8, m7, m6, m5, m4, m3, m2, m1, ip, tcpIpLoop_at, wr16_apply, wr8_apply,
      tcpEtherLoop_at]
    simp (disch := omega) only [if_neg]
  have e15 : ∀ j, 38 ≤ j ∧ j < 48 → m15 j = packet j := by
    intro j hj
    simp only [m15, m14, m13, m12, m11, htcp, wr16_apply]
    simp (disch := omega) only [if_neg]
    exact e10 j (by omega)
  have hdl0 : dl0 = (htons (rd16 packet 16) + 65536 - (packet 14 &&& 0xF) * 4) % 65536 := by
    simp only [dl0, rd16, ip, Nat.reduceAdd, e3 16 (by omega), e3 17 (by omega),
      e3 14 (by omega)]
  have hdl : dl = tcpDataLength packet := by
    simp only [dl, hdl0, rd16, htcp, Nat.reduceAdd, e10 46 (by omega), e10 47 (by omega),
      tcpDataLength]
  have hps : ps = rdBe32 packet 38 := by
    rw [← htonl_rd32 packet hm 38]
    simp only [ps, rd32, htcp, Nat.reduceAdd, e15 38 (by omega), e15 39 (by omega),
      e15 40 (by omega), e15 41 (by omega)]
  have hr : rd16 m10 tcp = rd16 packet 34 := by
    simp only [rd16, htcp, Nat.reduceAdd, e10 34 (by omega), e10 35 (by omega)]
  have h15 : m15 = tcpFixed g packet := by
    funext j
    simp only [m15, m14, m13, m12, m11, hr]
    simp only [m10, m9, m8, m7, m6, m5, m4, m3, m2, m1, id, htcp, ip, wr16_apply, wr8_apply,
      tcpIpLoop_at, tcpEtherLoop_at, htons_0, htons_23, htons_05b4, htons_0800, IPv4_frame,
      Nat.reduceAdd, Nat.reduceMod, Nat.reduceDiv, Nat.reduceSub, tcpFixed]
    by_cases h : 30 ≤ j ∧ j < 34
    · simp (disch := omega) only [if_neg]
    · rw [if_neg h, if_neg h]
  intro sw
  have hp : sw = tcpSwitched g packet flag l := by
    simp only [sw, h15, htcp, f, hps, hdl, tcpSwitched]
  rw [if_neg hflag, show tcpPayload payload true (tcp + 20) sw = some sw from rfl]
  simp only [hp, htcp, ip, tcpLast]

theorem bytesAt_congr (m1 m2 : Mem) (a n : Nat) (h : ∀ i, i < n → m1 (a + i) = m2 (a + i)) :
    bytesAt m1 a n = bytesAt m2 a n := by
  unfold bytesAt
  apply List.map_congr_left
  intro i hi
  exact h i (List.mem_range.1 hi)

theorem htonl_mod (v : Nat) : htonl (v % 4294967296) = htonl v := by
  unfold htonl
  simp only [Nat.mod_mod]

theorem htons_44 : htons 44 = 0x2C00 := by decide
theorem htons_40 : htons 40 = 0x2800 := by decide

/-- The buffer `sendTcpMsg` leaves and the frame it transmits, for a flag other than `0x18`
and no payload, in terms of the buffer after the `switch`. -/
theorem sendTcpMsg_result (g : Globals) (packet : Mem) (flag : Nat) (payload : List Nat)
    (l : Nat) (hflag : flag % 256 ≠ 0x18) (hm : IsBytes packet)
    (hl : (tcpSwitched g packet flag l).2.2 < 65482) :
    ∃ r, sendTcpMsg g packet flag payload true l = some r
      ∧ r.frames = [bytesAt r.packet 0 (54 + (tcpSwitched g packet flag l).2.2)]
      ∧ r.g.seq_num = (tcpSwitched g packet flag l).2.1
      ∧ r.packet 16 = htons (40 + (tcpSwitched g packet flag l).2.2) % 256
      ∧ r.packet 17 = htons (40 + (tcpSwitched g packet flag l).2.2) / 256 % 256
      ∧ ∀ j, j ≠ 16 ∧ j ≠ 17 ∧ j ≠ 24 ∧ j ≠ 25 ∧ j ≠ 50 ∧ j ≠ 51 →
          r.packet j = (tcpSwitched g packet flag l).1 j := by
  have h14 : (tcpSwitched g packet flag l).1 14 = 69 := by
    unfold tcpSwitched
    rw [tcpSwitch_low _ _ _ _ _ _ _ (by omega)]
    simp [tcpFixed]
  obtain ⟨c1, c2, hP, hF, hG⟩ := tcpTransmit_stages
    { g with seq_num := (tcpSwitched g packet flag l).2.1 } (tcpSwitched g packet flag l).1
    (tcpSwitched g packet flag l).2.2 h14 hl
  refine ⟨_, sendTcpMsg_stages g packet flag payload l hflag hm, ?_, ?_, ?_, ?_, ?_⟩
  · show [(tcpLast g packet flag l).frame] = [bytesAt (tcpLast g packet flag l).packet 0 _]
    unfold tcpLast
    rw [hF]
  · show (tcpLast g packet flag l).g.seq_num = _
    unfold tcpLast
    rw [hG]
  · show (tcpLast g packet flag l).packet 16 = _
    unfold tcpLast
    rw [hP, wr16_same _ _ _ _ (by omega) (by omega), wr16_same _ _ _ _ (by omega) (by omega),
      wr16_lo]
  · show (tcpLast g packet flag l).packet 17 = _
    unfold tcpLast
    rw [hP, wr16_same _ _ _ _ (by omega) (by omega), wr16_same _ _ _ _ (by omega) (by omega),
      wr16_hi]
  · intro j hj
    show (tcpLast g packet flag l).packet j = _
    unfold tcpLast
    rw [hP, wr16_same _ _ _ _ (by omega) (by omega), wr16_same _ _ _ _ (by omega) (by omega),
      wr16_same _ _ _ _ (by omega) (by omega)]

theorem tcpSwitched_synack (g : Globals) (packet : Mem) (l : Nat) :
    tcpSwitched g packet 0x12 l
      = (wr8 (wr8 (wr8 (wr8 (wr16 (wr32 (wr32 (tcpFixed g packet) 42
          (htonl (rdBe32 packet 38 + 1))) 38 (htonl g.seq_num)) 46 (htons 0x6012)) 54 2) 55 4)
          56 0x05) 57 0xb4, (g.seq_num + 1) % 4294967296, 4) := by
  unfold tcpSwitched
  rw [show 0x12 % 256 = 0x12 from rfl, tcpSwitch_synack]

theorem tcpSwitched_ack (g : Globals) (packet : Mem) (l : Nat) :
    tcpSwitched g packet 0x10 l
      = (wr16 (wr32 (wr32 (tcpFixed g packet) 42
          (htonl (rdBe32 packet 38 + tcpDataLength packet))) 38 (htonl g.seq_num)) 46
          (htons 0x5010), g.seq_num, 0) := by
  unfold tcpSwitched
  rw [show 0x10 % 256 = 0x10 from rfl, tcpSwitch_ack]

/-- C19: TCP SYN|ACK.  For every byte-valued buffer holding a received segment and every
32-bit local sequence counter, `sendTcpMsg` with flag `0x12` and no payload returns and
transmits one frame, the first 58 bytes of the buffer, in which the IP total length (offsets
16-17) is 44, the TCP source port (34-35) is 23, the destination port (36-37) is the source
port of the received segment, the sequence number (38-41) is the counter before the call,
the acknowledgment number (42-45) is p + 1 modulo 2^32 for the sequence number p received at
38-41 (the place of the field behind a 20-byte IP header), the data offset and flags (46-47)
are 6 and `0x12`, and the option bytes (54-57) are 2, 4, 5, `0xB4`; the counter is
incremented by 1 modulo 2^32. -/
theorem tcp_syn_ack (g : Globals) (packet : Mem) (payload : List Nat) (l : Nat)
    (hm : IsBytes packet) (hs : g.seq_num < 4294967296) :
    ∃ r, sendTcpMsg g packet 0x12 payload true l = some r
      ∧ r.frames = [bytesAt r.packet 0 58]
      ∧ r.packet 16 = 0 ∧ r.packet 17 = 44
      ∧ r.packet 34 = 0 ∧ r.packet 35 = 23
      ∧ r.packet 36 = packet 34 ∧ r.packet 37 = packet 35
      ∧ bytesAt r.packet 38 4 = be32Bytes g.seq_num
      ∧ bytesAt r.packet 42 4 = be32Bytes ((rdBe32 packet 38 + 1) % 4294967296)
      ∧ r.packet 46 = 0x60 ∧ r.packet 47 = 0x12
      ∧ bytesAt r.packet 54 4 = [0x02, 0x04, 0x05, 0xB4]
      ∧ r.g.seq_num = (g.seq_num + 1) % 4294967296 := by
  obtain ⟨r, h1, h2, h3, h4, h5, h6⟩ := sendTcpMsg_result g packet 0x12 payload l (by decide) hm
    (by rw [tcpSwitched_synack]; show 4 < 65482; omega)
  rw [tcpSwitched_synack] at h2 h3 h4 h5 h6
  dsimp only at h2 h3 h4 h5 h6
  have b34 := hm 34
  have b35 := hm 35
  refine ⟨r, h1, h2, ?_, ?_, ?_, ?_, ?_, ?_, ?_, ?_, ?_, ?_, ?_, h3⟩
  · rw [h4]; rfl
  · rw [h5]; rfl
  · rw [h6 34 (by omega)]
    simp [wr8_apply, wr16_apply, wr32_apply, tcpFixed]
  · rw [h6 35 (by omega)]
    simp [wr8_apply, wr16_apply, wr32_apply, tcpFixed]
  · rw [h6 36 (by omega)]
    simp [wr8_apply, wr16_apply, wr32_apply, tcpFixed, rd16]
    omega
  · rw [h6 37 (by omega)]
    simp [wr8_apply, wr16_apply, wr32_apply, tcpFixed, rd16]
    omega
  · rw [← wr32_htonl (wr32 (tcpFixed g packet) 42 (htonl (rdBe32 packet 38 + 1))) 38 _ hs]
    apply bytesAt_congr
    intro i hi
    rw [h6 _ (by omega)]
    simp only [wr8_apply, wr16_apply]
    simp (disch := omega) only [if_neg]
  · rw [← wr32_htonl (tcpFixed g packet) 42 _ (Nat.mod_lt _ (by omega)), htonl_mod]
    apply bytesAt_congr
    intro i hi
    rw [h6 _ (by omega)]
    simp only [wr8_apply, wr16_apply]
    simp (disch := omega) only [if_neg]
    rw [wr32_apply (wr32 _ _ _)]
    simp (disch := omega) only [if_neg]
  · rw [h6 46 (by omega)]
    simp [wr8_apply, wr16_apply, htons_6012]
  · rw [h6 47 (by omega)]
    simp [wr8_apply, wr16_apply, htons_6012]
  · apply bytesAt_eq _ 54 [0x02, 0x04, 0x05, 0xB4]
    intro i hi
    rw [h6 _ (by omega)]
    simp only [List.length_cons, List.length_nil, Nat.reduceAdd] at hi
    interval_cases i <;> simp [wr8_apply]

theorem tcpDataLength_eq (packet : Mem) (hm : IsBytes packet) (hihl : packet 14 % 16 = 5) :
    tcpDataLength packet
      = (packet 16 * 256 + packet 17 + 65536 - 20 - 4 * (packet 46 / 16)) % 65536 := by
  have b16 := hm 16
  have b17 := hm 17
  have b46 := hm 46
  have b47 := hm 47
  unfold tcpDataLength
  rw [htons_rd16 _ hm, htons_rd16 _ hm, and_f, hihl, Nat.shiftRight_eq_div_pow]
  have hd : (packet 46 * 256 + packet (46 + 1)) / 2 ^ 12 = packet 46 / 16 := by
    show (packet 46 * 256 + packet 47) / 4096 = packet 46 / 16
    omega
  rw [hd]
  show ((packet 16 * 256 + packet 17 + 65536 - 5 * 4) % 65536 + 65536 - packet 46 / 16 * 4)
    % 65536 = _
  omega

/-- C20 (evaluation at a short segment): `exampleShortSegment` has a 20-byte IP header, IP
total length L = 40, data offset d = 6 and sequence number p = 0x01020304.  The acknowledgment
number `sendTcpMsg` stores for flag `0x10` is p + 65532, the bytes 1, 3, 3, 0: `data_length`
is a `uint16_t` and 40 - 20 - 24 wraps to 65532.  The value (p + (L - 20 - 4 × d)) mod 2^32 is
p - 4, the bytes 1, 2, 3, 0. -/
theorem tcp_ack_short_segment :
    Mem.ofList exampleShortSegment 14 % 16 = 5
    ∧ Mem.ofList exampleShortSegment 16 * 256 + Mem.ofList exampleShortSegment 17 = 40
    ∧ Mem.ofList exampleShortSegment 46 / 16 = 6
    ∧ rdBe32 (Mem.ofList exampleShortSegment) 38 = 0x01020304
    ∧ (sendTcpMsg exampleGlobals (Mem.ofList exampleShortSegment) 0x10 [] true 0).map
        (fun r => bytesAt r.packet 42 4) = some (be32Bytes (0x01020304 + 65532))
    ∧ be32Bytes (0x01020304 + 65532)
        ≠ be32Bytes (((0x01020304 : Int) + (40 - 20 - 4 * 6)) % 4294967296).toNat := by
  decide

/-- C20: TCP ACK.  For every byte-valued buffer holding a received segment with a 20-byte
IP header, IP total length L (offsets 16-17), data offset d (high half of offset 46) and
sequence number p (38-41), and every 32-bit local sequence counter, `sendTcpMsg` with flag
`0x10` and no payload returns and transmits one frame, the first 54 bytes of the buffer, with
IP total length 40 (no TCP payload), data offset 5 and flags `0x10`, sequence number equal to
the counter, which is unchanged, and acknowledgment number (p + n) mod 2^32 where
n = (L - 20 - 4 × d) mod 2^16; n is L - 20 - 4 × d whenever 20 + 4 × d ≤ L. -/
theorem tcp_ack (g : Globals) (packet : Mem) (payload : List Nat) (l : Nat)
    (hm : IsBytes packet) (hs : g.seq_num < 4294967296) (hihl : packet 14 % 16 = 5) :
    ∃ r, sendTcpMsg g packet 0x10 payload true l = some r
      ∧ r.frames = [bytesAt r.packet 0 54]
      ∧ r.packet 16 = 0 ∧ r.packet 17 = 40
      ∧ r.packet 46 = 0x50 ∧ r.packet 47 = 0x10
      ∧ bytesAt r.packet 38 4 = be32Bytes g.seq_num
      ∧ r.g.seq_num = g.seq_num
      ∧ bytesAt r.packet 42 4 = be32Bytes ((rdBe32 packet 38
          + (packet 16 * 256 + packet 17 + 65536 - 20 - 4 * (packet 46 / 16)) % 65536)
          % 4294967296)
      ∧ (20 + 4 * (packet 46 / 16) ≤ packet 16 * 256 + packet 17 →
          bytesAt r.packet 42 4 = be32Bytes ((rdBe32 packet 38
            + (packet 16 * 256 + packet 17 - 20 - 4 * (packet 46 / 16))) % 4294967296)) := by
  obtain ⟨r, h1, h2, h3, h4, h5, h6⟩ := sendTcpMsg_result g packet 0x10 payload l (by decide) hm
    (by rw [tcpSwitched_ack]; show 0 < 65482; omega)
  rw [tcpSwitched_ack] at h2 h3 h4 h5 h6
  dsimp only at h2 h3 h4 h5 h6
  have hack : bytesAt r.packet 42 4 = be32Bytes ((rdBe32 packet 38
      + (packet 16 * 256 + packet 17 + 65536 - 20 - 4 * (packet 46 / 16)) % 65536)
      % 4294967296) := by
    rw [← tcpDataLength_eq packet hm hihl,
      ← wr32_htonl (tcpFixed g packet) 42 _ (Nat.mod_lt _ (by omega)), htonl_mod]
    apply bytesAt_congr
    intro i hi
    rw [h6 _ (by omega)]
    simp only [wr16_apply]
    simp (disch := omega) only [if_neg]
    rw [wr32_apply (wr32 _ _ _)]
    simp (disch := omega) only [if_neg]
  refine ⟨r, h1, h2, ?_, ?_, ?_, ?_, ?_, h3, hack, ?_⟩
  · rw [h4]; rfl
  · rw [h5]; rfl
  · rw [h6 46 (by omega)]
    simp [wr16_apply, htons_5010]
  · rw [h6 47 (by omega)]
    simp [wr16_apply, htons_5010]
  · rw [← wr32_htonl (wr32 (tcpFixed g packet) 42
      (htonl (rdBe32 packet 38 + tcpDataLength packet))) 38 _ hs]
    apply bytesAt_congr
    intro i hi
    rw [h6 _ (by omega)]
    simp only [wr16_apply]
    simp (disch := omega) only [if_neg]
  · intro hle
    rw [hack]
    have b16 := hm 16
    have b17 := hm 17
    have e : (packet 16 * 256 + packet 17 + 65536 - 20 - 4 * (packet 46 / 16)) % 65536
        = packet 16 * 256 + packet 17 - 20 - 4 * (packet 46 / 16) := by omega
    rw [e]

set_option maxRecDepth 8000 in
theorem tcp_syn_ack_witness :
    ∃ r, sendTcpMsg exampleGlobals (Mem.ofList exampleSyn) 0x12 [] true 0 = some r
      ∧ r.frames = [bytesAt r.packet 0 58]
      ∧ r.packet 16 = 0 ∧ r.packet 17 = 44
      ∧ r.packet 34 = 0 ∧ r.packet 35 = 23
      ∧ r.packet 36 = Mem.ofList exampleSyn 34 ∧ r.packet 37 = Mem.ofList exampleSyn 35
      ∧ bytesAt r.packet 38 4 = be32Bytes exampleGlobals.seq_num
      ∧ bytesAt r.packet 42 4
          = be32Bytes ((rdBe32 (Mem.ofList exampleSyn) 38 + 1) % 4294967296)
      ∧ r.packet 46 = 0x60 ∧ r.packet 47 = 0x12
      ∧ bytesAt r.packet 54 4 = [0x02, 0x04, 0x05, 0xB4]
      ∧ r.g.seq_num = (exampleGlobals.seq_num + 1) % 4294967296 :=
  tcp_syn_ack exampleGlobals (Mem.ofList exampleSyn) [] 0 (ofList_isBytes _ (by decide))
    (by decide)

set_option maxRecDepth 8000 in
theorem tcp_ack_witness :
    ∃ r, sendTcpMsg exampleGlobals (Mem.ofList exampleData) 0x10 [] true 0 = some r
      ∧ r.frames = [bytesAt r.packet 0 54]
      ∧ r.packet 16 = 0 ∧ r.packet 17 = 40
      ∧ r.packet 46 = 0x50 ∧ r.packet 47 = 0x10
      ∧ bytesAt r.packet 38 4 = be32Bytes exampleGlobals.seq_num
      ∧ r.g.seq_num = exampleGlobals.seq_num
      ∧ bytesAt r.packet 42 4 = be32Bytes ((rdBe32 (Mem.ofList exampleData) 38
          + (Mem.ofList exampleData 16 * 256 + Mem.ofList exampleData 17 + 65536 - 20
              - 4 * (Mem.ofList exampleData 46 / 16)) % 65536) % 4294967296)
      ∧ (20 + 4 * (Mem.ofList exampleData 46 / 16)
            ≤ Mem.ofList exampleData 16 * 256 + Mem.ofList exampleData 17 →
          bytesAt r.packet 42 4 = be32Bytes ((rdBe32 (Mem.ofList exampleData) 38
            + (Mem.ofList exampleData 16 * 256 + Mem.ofList exampleData 17 - 20
                - 4 * (Mem.ofList exampleData 46 / 16))) % 4294967296)) :=
  tcp_ack exampleGlobals (Mem.ofList exampleData) [] 0 (ofList_isBytes _ (by decide))
    (by decide) (by decide)

/-! ## Packet processing and the network configuration -/

theorem sameConfig_refl (g : Globals) : sameConfig g g :=
  ⟨rfl, rfl, rfl, rfl, rfl, rfl, rfl, rfl, rfl, rfl⟩

theorem sameConfig_trans {g1 g2 g3 : Globals} (h1 : sameConfig g1 g2) (h2 : sameConfig g2 g3) :
    sameConfig g1 g3 := by
  unfold sameConfig at *
  obtain ⟨a1, a2, a3, a4, a5, a6, a7, a8, a9, a10⟩ := h1
  obtain ⟨b1, b2, b3, b4, b5, b6, b7, b8, b9, b10⟩ := h2
  exact ⟨b1.trans a1, b2.trans a2, b3.trans a3, b4.trans a4, b5.trans a5, b6.trans a6,
    b7.trans a7, b8.trans a8, b9.trans a9, b10.trans a10⟩

theorem sameConfig_sum (g : Globals) (s : Nat) : sameConfig g { g with sum := s } :=
  ⟨rfl, rfl, rfl, rfl, rfl, rfl, rfl, rfl, rfl, rfl⟩

theorem sameConfig_seq_num (g : Globals) (s : Nat) : sameConfig g { g with seq_num := s } :=
  ⟨rfl, rfl, rfl, rfl, rfl, rfl, rfl, rfl, rfl, rfl⟩

theorem sameConfig_telnet_command (g : Globals) (t : Nat → Nat) :
    sameConfig g { g with telnet_command := t } :=
  ⟨rfl, rfl, rfl, rfl, rfl, rfl, rfl, rfl, rfl, rfl⟩

theorem sameConfig_tcp_flags (g : Globals) (p f : Nat) :
    sameConfig g { g with port_num := p, tcp_flags := f } :=
  ⟨rfl, rfl, rfl, rfl, rfl, rfl, rfl, rfl, rfl, rfl⟩

theorem etherSendArpResponse_g (g : Globals) (packet : Mem) :
    (etherSendArpResponse g packet).g = g := rfl

theorem etherSendPingResponse_g (g : Globals) (packet : Mem) :
    ∃ s, (etherSendPingResponse g packet).g = { g with sum := s } := by
  unfold etherSendPingResponse
  exact ⟨_, rfl⟩

theorem etherIsTcp_g (g : Globals) (packet : Mem) :
    ∃ p f, (etherIsTcp g packet).2 = { g with port_num := p, tcp_flags := f } := by
  unfold etherIsTcp
  exact ⟨_, _, rfl⟩

theorem tcpTransmit_g (g : Globals) (m : Mem) (ip tcp lenOpts : Nat) :
    ∃ s, (tcpTransmit g m ip tcp lenOpts).g = { g with sum := s } := by
  unfold tcpTransmit etherCalcIpChecksum
  exact ⟨_, rfl⟩

theorem etherIsIp_g (g : Globals) (packet : Mem) :
    (etherIsIp g packet).2 = g ∨ ∃ s, (etherIsIp g packet).2 = { g with sum := s } := by
  unfold etherIsIp
  by_cases h : (rd16 packet 12 == htons 0x0800) = true
  · right
    exact ⟨_, by rw [if_pos h]⟩
  · left
    rw [if_neg h]

theorem etherSendArpResponse_sameConfig (g : Globals) (packet : Mem) :
    sameConfig g (etherSendArpResponse g packet).g := by
  rw [etherSendArpResponse_g]
  exact sameConfig_refl g

theorem etherIsIp_sameConfig (g : Globals) (packet : Mem) :
    sameConfig g (etherIsIp g packet).2 := by
  rcases etherIsIp_g g packet with h | ⟨s, h⟩
  · rw [h]
    exact sameConfig_refl g
  · rw [h]
    exact sameConfig_sum g s

theorem etherSendPingResponse_sameConfig (g : Globals) (packet : Mem) :
    sameConfig g (etherSendPingResponse g packet).g := by
  obtain ⟨s, h⟩ := etherSendPingResponse_g g packet
  rw [h]
  exact sameConfig_sum g s

theorem etherIsTcp_sameConfig (g : Globals) (packet : Mem) :
    sameConfig g (etherIsTcp g packet).2 := by
  obtain ⟨p, f, h⟩ := etherIsTcp_g g packet
  rw [h]
  exact sameConfig_tcp_flags g p f

theorem tcpTransmit_sameConfig (g : Globals) (m : Mem) (ip tcp lenOpts : Nat) :
    sameConfig g (tcpTransmit g m ip tcp lenOpts).g := by
  obtain ⟨s, h⟩ := tcpTransmit_g g m ip tcp lenOpts
  rw [h]
  exact sameConfig_sum g s

theorem tcpPushAck_sameConfig (g : Globals) (m : Mem) (ip tcp packet_seq data_length : Nat)
    (r : TcpSent) (h : tcpPushAck g m ip tcp packet_seq data_length = some r) :
    sameConfig g r.g := by
  unfold tcpPushAck at h
  lift_lets at h
  extract_lets m1 m2 m3 lenOpts t1 m4 m5 m6 at h
  have h1 : sameConfig g t1.g := tcpTransmit_sameConfig g m3 ip tcp lenOpts
  split at h
  · exact absurd h (Option.noConfusion)
  · rename_i s hs
    have h3 := Option.some.inj h
    rw [← h3]
    exact sameConfig_trans (sameConfig_trans h1
      (sameConfig_telnet_command t1.g (wr8 s.telnet_command data_length 0)))
      (tcpTransmit_sameConfig _ s.packet ip tcp data_length)
theorem sendTcpMsg_sameConfig (g : Globals) (packet : Mem) (flag : Nat) (payload : List Nat)
    (pe : Bool) (l : Nat) (r : TcpSent) (h : sendTcpMsg g packet flag payload pe l = some r) :
    sameConfig g r.g := by
  unfold sendTcpMsg at h
  lift_lets at h
  extract_lets flag1 initial_id m1 m2 ip m3 data_length m4 m5 m6 m7 m8 m9 m10 tcp data_length1
    m11 m12 m13 m14 m15 packet_seq sw at h
  split at h
  · exact tcpPushAck_sameConfig g m15 ip tcp packet_seq data_length1 r h
  · cases hp : tcpPayload payload pe (tcp + 20) sw with
    | none =>
      rw [hp] at h
      exact absurd h Option.noConfusion
    | some p =>
      rw [hp] at h
      have h3 := Option.some.inj h
      rw [← h3]
      exact sameConfig_trans (sameConfig_seq_num g p.2.1)
        (tcpTransmit_sameConfig _ p.1 ip tcp p.2.2)
theorem tcpSwitch_fin (seq_num : Nat) (m : Mem) (ps dl l : Nat) :
    tcpSwitch seq_num m 34 0x01 ps dl l
      = (wr16 (wr32 (wr32 m (34 + 8) (htonl (ps + 1))) (34 + 4) (htonl seq_num)) (34 + 12)
          (htons 0x5010), seq_num, 0) := by
  rw [tcpSwitch, if_pos rfl]

theorem tcpSwitched_fin (g : Globals) (packet : Mem) (l : Nat) :
    tcpSwitched g packet 0x01 l
      = (wr16 (wr32 (wr32 (tcpFixed g packet) 42
          (htonl (rdBe32 packet 38 + 1))) 38 (htonl g.seq_num)) 46
          (htons 0x5010), g.seq_num, 0) := by
  unfold tcpSwitched
  rw [show 0x01 % 256 = 0x01 from rfl, tcpSwitch_fin]

/-- C21 (evaluation at a segment with four data bytes): `exampleData` has a 20-byte IP
header, IP total length 44 and data offset 5, hence n = 4 data bytes, and sequence number
p = 0x01020304.  The acknowledgment number `sendTcpMsg` stores for flag `0x01` is p + 1, the
bytes 1, 2, 3, 5, not p + n, the bytes 1, 2, 3, 8. -/
theorem tcp_fin_acks_one :
    Mem.ofList exampleData 14 % 16 = 5
    ∧ Mem.ofList exampleData 16 * 256 + Mem.ofList exampleData 17 = 44
    ∧ Mem.ofList exampleData 46 / 16 = 5
    ∧ tcpDataLength (Mem.ofList exampleData) = 4
    ∧ rdBe32 (Mem.ofList exampleData) 38 = 0x01020304
    ∧ (sendTcpMsg exampleGlobals (Mem.ofList exampleData) 0x01 [] true 0).map
        (fun r => bytesAt r.packet 42 4) = some [1, 2, 3, 5]
    ∧ be32Bytes ((0x01020304 + 4) % 4294967296) = [1, 2, 3, 8] := by
  decide

/-- C21: TCP FIN.  For every byte-valued buffer holding a received segment with sequence
number p (offsets 38-41, the place of the field behind a 20-byte IP header) and every 32-bit
local sequence counter, `sendTcpMsg` with flag `0x01` and no payload returns and transmits
one frame, the first 54 bytes of the buffer, with IP total length 40 (no TCP payload), data
offset 5, sequence number equal to the counter, which is unchanged, and acknowledgment
number (p + 1) mod 2^32, whatever the received data length. -/
theorem tcp_fin (g : Globals) (packet : Mem) (payload : List Nat) (l : Nat)
    (hm : IsBytes packet) (hs : g.seq_num < 4294967296) :
    ∃ r, sendTcpMsg g packet 0x01 payload true l = some r
      ∧ r.frames = [bytesAt r.packet 0 54]
      ∧ r.packet 16 = 0 ∧ r.packet 17 = 40
      ∧ r.packet 46 = 0x50
      ∧ bytesAt r.packet 38 4 = be32Bytes g.seq_num
      ∧ r.g.seq_num = g.seq_num
      ∧ bytesAt r.packet 42 4 = be32Bytes ((rdBe32 packet 38 + 1) % 4294967296) := by
  obtain ⟨r, h1, h2, h3, h4, h5, h6⟩ := sendTcpMsg_result g packet 0x01 payload l (by decide) hm
    (by rw [tcpSwitched_fin]; show 0 < 65482; omega)
  rw [tcpSwitched_fin] at h2 h3 h4 h5 h6
  dsimp only at h2 h3 h4 h5 h6
  refine ⟨r, h1, h2, ?_, ?_, ?_, ?_, h3, ?_⟩
  · rw [h4]; rfl
  · rw [h5]; rfl
  · rw [h6 46 (by omega)]
    simp [wr16_apply, htons_5010]
  · rw [← wr32_htonl (wr32 (tcpFixed g packet) 42 (htonl (rdBe32 packet 38 + 1))) 38 _ hs]
    apply bytesAt_congr
    intro i hi
    rw [h6 _ (by omega)]
    simp only [wr16_apply]
    simp (disch := omega) only [if_neg]
  · rw [← wr32_htonl (tcpFixed g packet) 42 _ (Nat.mod_lt _ (by omega)), htonl_mod]
    apply bytesAt_congr
    intro i hi
    rw [h6 _ (by omega)]
    simp only [wr16_apply]
    simp (disch := omega) only [if_neg]
    rw [wr32_apply (wr32 _ _ _)]
    simp (disch := omega) only [if_neg]

set_option maxRecDepth 8000 in
theorem tcp_fin_witness :
    ∃ r, sendTcpMsg exampleGlobals (Mem.ofList exampleData) 0x01 [] true 0 = some r
      ∧ r.frames = [bytesAt r.packet 0 54]
      ∧ r.packet 16 = 0 ∧ r.packet 17 = 40
      ∧ r.packet 46 = 0x50
      ∧ bytesAt r.packet 38 4 = be32Bytes exampleGlobals.seq_num
      ∧ r.g.seq_num = exampleGlobals.seq_num
      ∧ bytesAt r.packet 42 4
          = be32Bytes ((rdBe32 (Mem.ofList exampleData) 38 + 1) % 4294967296) :=
  tcp_fin exampleGlobals (Mem.ofList exampleData) [] 0 (ofList_isBytes _ (by decide))
    (by decide)

/-- C27: `etherIsTcp`.  For every byte-valued buffer, `etherIsTcp` returns true if and only
if the IP protocol byte (offset 23) is 6 and the TCP destination port, the two bytes at
offset 14 + IHL × 4 + 2 read in network byte order, is 23. -/
theorem etherIsTcp_iff (g : Globals) (packet : Mem) (hm : IsBytes packet) :
    (etherIsTcp g packet).1 = true ↔
      packet 23 = 6
      ∧ packet (14 + packet 14 % 16 * 4 + 2) * 256 + packet (14 + packet 14 % 16 * 4 + 3) = 23 := by
  have h := htons_rd16 packet hm (14 + packet 14 % 16 * 4 + 2)
  rw [show 14 + packet 14 % 16 * 4 + 2 + 1 = 14 + packet 14 % 16 * 4 + 3 by omega] at h
  unfold etherIsTcp
  simp only [and_f, h, Bool.and_eq_true, beq_iff_eq]

theorem etherIsTcp_iff_witness :
    IsBytes (Mem.ofList exampleSyn)
    ∧ ((etherIsTcp exampleGlobals (Mem.ofList exampleSyn)).1 = true ↔
      Mem.ofList exampleSyn 23 = 6
      ∧ Mem.ofList exampleSyn (14 + Mem.ofList exampleSyn 14 % 16 * 4 + 2) * 256
          + Mem.ofList exampleSyn (14 + Mem.ofList exampleSyn 14 % 16 * 4 + 3) = 23) :=
  ⟨ofList_isBytes _ (by decide),
    etherIsTcp_iff exampleGlobals (Mem.ofList exampleSyn) (ofList_isBytes _ (by decide))⟩

/-! ## ARP request and gratuitous ARP -/

/-- C28: ARP request construction.  For every buffer, globals and target address array
`ip`, `etherSendArpRequest` transmits the first 42 bytes of the buffer, and they are: the
broadcast destination MAC, the local MAC as Ethernet source, the EtherType bytes 0x08, 0x06,
hardware type 0, 1, protocol type 8, 0, hardware size 6, protocol size 4, op 0, 1, the local
MAC and the local IP as ARP sender, six bytes 0xFF as ARP target hardware address, and the
four bytes of `ip` as ARP target IP. -/
theorem arp_request_frame (g : Globals) (packet : Mem) (ip : Nat → Nat) :
    (etherSendArpRequest g packet ip).frame.length = 42
    ∧ (etherSendArpRequest g packet ip).frame
        = bytesAt (etherSendArpRequest g packet ip).packet 0 42
    ∧ (etherSendArpRequest g packet ip).frame
        = [0xFF, 0xFF, 0xFF, 0xFF, 0xFF, 0xFF,
           g.macAddress 0, g.macAddress 1, g.macAddress 2, g.macAddress 3, g.macAddress 4,
           g.macAddress 5,
           0x08, 0x06,
           0, 1, 8, 0, 6, 4, 0, 1,
           g.macAddress 0, g.macAddress 1, g.macAddress 2, g.macAddress 3, g.macAddress 4,
           g.macAddress 5,
           g.ipAddress 0, g.ipAddress 1, g.ipAddress 2, g.ipAddress 3,
           0xFF, 0xFF, 0xFF, 0xFF, 0xFF, 0xFF,
           ip 0, ip 1, ip 2, ip 3] := by
  refine ⟨?_, rfl, ?_⟩
  · simp [etherSendArpRequest, etherPutPacket, bytesAt]
  · simp only [etherSendArpRequest, etherPutPacket, bytesAt, Nat.reduceMod, range_42,
      List.map, htons_1, htons_0800]
    simp [arpRequestEtherLoop, arpRequestMacLoop, arpRequestIpLoop, wr16, wr8]

/-- C29 (evaluation at an address other than the local one): with the local IP address
192.168.2.123 and the argument 10.0.0.1, the ARP sender IP (offsets 28-31) and the ARP target
IP (offsets 38-41) of the frame `etherSendGratuitousArpResponse` transmits are both
10.0.0.1, not the local address. -/
theorem gratuitous_arp_uses_argument :
    bytesAt exampleGlobals.ipAddress 0 4 = [192, 168, 2, 123]
    ∧ ((etherSendGratuitousArpResponse exampleGlobals (Mem.ofList exampleArpRequest)
        (Mem.ofList [10, 0, 0, 1])).frame.drop 28).take 4 = [10, 0, 0, 1]
    ∧ (etherSendGratuitousArpResponse exampleGlobals (Mem.ofList exampleArpRequest)
        (Mem.ofList [10, 0, 0, 1])).frame.drop 38 = [10, 0, 0, 1] := by
  decide

/-- C29: gratuitous ARP.  For every buffer, globals and address array `ip`,
`etherSendGratuitousArpResponse` transmits the first 42 bytes of the buffer, and they are:
the broadcast destination MAC, the local MAC as Ethernet source, the EtherType bytes 0x08,
0x06, hardware type 0, 1, protocol type 8, 0, sizes 6 and 4, op 0, 2, the local MAC as ARP
sender MAC, the four bytes of the argument `ip` as ARP sender IP, six bytes 0xFF as ARP
target hardware address, and the four bytes of `ip` again as ARP target IP.  Sender and
target IP are the local address when the caller passes the local address. -/
theorem gratuitous_arp_frame (g : Globals) (packet : Mem) (ip : Nat → Nat) :
    (etherSendGratuitousArpResponse g packet ip).frame.length = 42
    ∧ (etherSendGratuitousArpResponse g packet ip).frame
        = bytesAt (etherSendGratuitousArpResponse g packet ip).packet 0 42
    ∧ (etherSendGratuitousArpResponse g packet ip).frame
        = [0xFF, 0xFF, 0xFF, 0xFF, 0xFF, 0xFF,
           g.macAddress 0, g.macAddress 1, g.macAddress 2, g.macAddress 3, g.macAddress 4,
           g.macAddress 5,
           0x08, 0x06,
           0, 1, 8, 0, 6, 4, 0, 2,
           g.macAddress 0, g.macAddress 1, g.macAddress 2, g.macAddress 3, g.macAddress 4,
           g.macAddress 5,
           ip 0, ip 1, ip 2, ip 3,
           0xFF, 0xFF, 0xFF, 0xFF, 0xFF, 0xFF,
           ip 0, ip 1, ip 2, ip 3]
    ∧ ((etherSendGratuitousArpResponse g packet g.ipAddress).frame.drop 28).take 4
        = bytesAt g.ipAddress 0 4
    ∧ (etherSendGratuitousArpResponse g packet g.ipAddress).frame.drop 38
        = bytesAt g.ipAddress 0 4 := by
  have key : ∀ a : Nat → Nat, (etherSendGratuitousArpResponse g packet a).frame
        = [0xFF, 0xFF, 0xFF, 0xFF, 0xFF, 0xFF,
           g.macAddress 0, g.macAddress 1, g.macAddress 2, g.macAddress 3, g.macAddress 4,
           g.macAddress 5,
           0x08, 0x06,
           0, 1, 8, 0, 6, 4, 0, 2,
           g.macAddress 0, g.macAddress 1, g.macAddress 2, g.macAddress 3, g.macAddress 4,
           g.macAddress 5,
           a 0, a 1, a 2, a 3,
           0xFF, 0xFF, 0xFF, 0xFF, 0xFF, 0xFF,
           a 0, a 1, a 2, a 3] := by
    intro a
    simp only [etherSendGratuitousArpResponse, etherPutPacket, bytesAt, Nat.reduceMod, range_42,
      List.map, htons_1, htons_2, htons_0800]
    simp [gratuitousIpLoop, gratuitousMacLoop, wr16, wr8]
  refine ⟨?_, rfl, key ip, ?_, ?_⟩
  · simp [etherSendGratuitousArpResponse, etherPutPacket, bytesAt]
  · rw [key g.ipAddress]
    simp [bytesAt, List.range_succ]
  · rw [key g.ipAddress]
    simp [bytesAt, List.range_succ]

/-! ## DHCP fields by message type -/

/-- The `switch` of `dhcpSendMessage` stores nothing from `chaddr` to the magic cookie. -/
theorem dhcpSwitch_mid (g : Globals) (m : Mem) (type l j : Nat) (h1 : 70 ≤ j) (h2 : j < 282) :
    (dhcpSwitch g m 42 type l).2.2.2.1 j = m j := by
  by_cases h1 : type = 1
  · subst h1
    rw [dhcpSwitch_discover]
    show dhcpDiscoverStores _ 42 1 j = m j
    rw [dhcpDiscoverStores_apply, dhcpDiscoverLoop_at]
    simp (disch := omega) only [if_neg]
  by_cases h3 : type = 3
  · subst h3
    rw [dhcpSwitch_request]
    show dhcpRequestStores _ _ _ 42 3 j = m j
    rw [dhcpRequestStores_apply, dhcpRequestLoop_mem_at]
    simp (disch := omega) only [if_neg]
  by_cases h7 : type = 7
  · subst h7
    rw [dhcpSwitch_release]
    show dhcpReleaseStores _ 42 7 j = m j
    rw [dhcpReleaseStores_apply]
    simp (disch := omega) only [if_neg]
  rw [dhcpSwitch_other _ _ _ _ _ h1 h3 h7]

/-- The bytes of the message that do not depend on the message type. -/
theorem dhcpSendMessage_common (g : Globals) (packet : Mem) (type : Nat) (ipAdd : Nat → Nat)
    (l j : Nat)
    (hj : j < 16 ∨ (18 ≤ j ∧ j < 24) ∨ (26 ≤ j ∧ j < 38) ∨ (42 ≤ j ∧ j < 52)
      ∨ (70 ≤ j ∧ j < 282)) :
    (dhcpSendMessage g packet type ipAdd l).packet j = dhcpFixed g packet ipAdd j := by
  rw [dhcpSendMessage_keeps _ _ _ _ _ _ (by omega)]
  by_cases h : j < 52
  · exact dhcpSized_low _ _ _ _ _ _ h (by omega) (by omega) (by omega) (by omega)
  · unfold dhcpSized
    rw [wr16_same _ _ _ _ (by omega) (by omega), wr16_same _ _ _ _ (by omega) (by omega),
      dhcpSwitch_mid _ _ _ _ _ (by omega) (by omega)]

theorem dhcpFixed_addresses (g : Globals) (packet : Mem) (ipAdd : Nat → Nat) (j : Nat)
    (h1 : 54 ≤ j) (h2 : j < 70) : dhcpFixed g packet ipAdd j = packet j := by
  unfold dhcpFixed
  simp (disch := omega) only [if_neg]

theorem dhcpFixed_flags (g : Globals) (packet : Mem) (ipAdd : Nat → Nat) :
    dhcpFixed g packet ipAdd 52 = 0 ∧ dhcpFixed g packet ipAdd 53 = 0 := by
  constructor <;> simp [dhcpFixed]

/-- The flags and the four address fields of a REQUEST. -/
theorem dhcpRequest_fields (g : Globals) (packet : Mem) (ipAdd : Nat → Nat) (l j : Nat)
    (h1 : 52 ≤ j) (h2 : j < 70) :
    (dhcpSendMessage g packet DHCPREQUEST ipAdd l).packet j
      = if (54 ≤ j ∧ j < 58) ∨ (66 ≤ j ∧ j < 70) then 0 else dhcpFixed g packet ipAdd j := by
  rw [dhcpSendMessage_keeps _ _ _ _ _ _ (by omega)]
  have e : dhcpSized g packet DHCPREQUEST ipAdd l
      = wr16 (wr16 (dhcpRequestStores
          (dhcpRequestLoop g.si_yi_clear 42 4 0 (g.yiaddr, g.siaddr, dhcpFixed g packet ipAdd)).1
          (dhcpRequestLoop g.si_yi_clear 42 4 0 (g.yiaddr, g.siaddr, dhcpFixed g packet ipAdd)).2.1
          (dhcpRequestLoop g.si_yi_clear 42 4 0 (g.yiaddr, g.siaddr, dhcpFixed g packet ipAdd)).2.2
          42 3) 16 (htons 290)) 38 (htons 270) := rfl
  rw [e, wr16_same _ _ _ _ (by omega) (by omega), wr16_same _ _ _ _ (by omega) (by omega),
    dhcpRequestStores_apply]
  simp (disch := omega) only [if_neg]
  rw [dhcpRequestLoop_mem_at]

/-- The flags and the four address fields of a RELEASE. -/
theorem dhcpRelease_fields (g : Globals) (packet : Mem) (ipAdd : Nat → Nat) (l j : Nat)
    (h1 : 52 ≤ j) (h2 : j < 70) :
    (dhcpSendMessage g packet DHCPRELEASE ipAdd l).packet j = dhcpFixed g packet ipAdd j := by
  rw [dhcpSendMessage_keeps _ _ _ _ _ _ (by omega)]
  have e : dhcpSized g packet DHCPRELEASE ipAdd l
      = wr16 (wr16 (dhcpReleaseStores (dhcpFixed g packet ipAdd) 42 7)
          16 (htons 272)) 38 (htons 252) := rfl
  rw [e, wr16_same _ _ _ _ (by omega) (by omega), wr16_same _ _ _ _ (by omega) (by omega),
    dhcpReleaseStores_apply]
  simp (disch := omega) only [if_neg]

/-- C30 (evaluation on the buffer `exampleOffer`): the DISCOVER, REQUEST and RELEASE
messages `dhcpSendMessage` builds over the same buffer, globals and destination differ in
fixed fields (all within the 286 or 304 bytes transmitted): the flags bytes (offsets 52-53) are 0x80, 0x00 in the DISCOVER and 0, 0 in the
two others, and the yiaddr field (58-61) is 0.0.0.0 in the DISCOVER and the 192.168.2.50 of
the buffer in the two others. -/
theorem dhcp_fixed_fields_differ :
    bytesAt (dhcpSendMessage exampleGlobals (Mem.ofList exampleOffer) DHCPDISCOVER
        (Mem.ofList [255, 255, 255, 255]) 0).packet 52 2 = [0x80, 0]
    ∧ bytesAt (dhcpSendMessage exampleGlobals (Mem.ofList exampleOffer) DHCPREQUEST
        (Mem.ofList [255, 255, 255, 255]) 0).packet 52 2 = [0, 0]
    ∧ bytesAt (dhcpSendMessage exampleGlobals (Mem.ofList exampleOffer) DHCPRELEASE
        (Mem.ofList [255, 255, 255, 255]) 0).packet 52 2 = [0, 0]
    ∧ bytesAt (dhcpSendMessage exampleGlobals (Mem.ofList exampleOffer) DHCPDISCOVER
        (Mem.ofList [255, 255, 255, 255]) 0).packet 58 4 = [0, 0, 0, 0]
    ∧ bytesAt (dhcpSendMessage exampleGlobals (Mem.ofList exampleOffer) DHCPREQUEST
        (Mem.ofList [255, 255, 255, 255]) 0).packet 58 4 = [192, 168, 2, 50]
    ∧ bytesAt (dhcpSendMessage exampleGlobals (Mem.ofList exampleOffer) DHCPRELEASE
        (Mem.ofList [255, 255, 255, 255]) 0).packet 58 4 = [192, 168, 2, 50] := by
  have two : ∀ (P : Mem) (a b : Nat), P 52 = a → P 53 = b → bytesAt P 52 2 = [a, b] := by
    intro P a b h1 h2
    simp [bytesAt, List.range_succ, h1, h2]
  have four : ∀ (P : Mem) (a b c d : Nat), P 58 = a → P 59 = b → P 60 = c → P 61 = d →
      bytesAt P 58 4 = [a, b, c, d] := by
    intro P a b c d h1 h2 h3 h4
    simp [bytesAt, List.range_succ, h1, h2, h3, h4]
  have hD : ∀ j, 52 ≤ j → j < 70 →
      (dhcpSendMessage exampleGlobals (Mem.ofList exampleOffer) DHCPDISCOVER
        (Mem.ofList [255, 255, 255, 255]) 0).packet j
        = if j = 53 then 0 else if j = 52 then 128 else 0 := by
    intro j h1 h2
    rw [dhcpDiscover_apply _ _ _ _ _ (by omega)]
    simp (disch := omega) only [if_neg]
    split_ifs <;> first | rfl | omega
  have hR : ∀ j, 52 ≤ j → j < 70 →
      (dhcpSendMessage exampleGlobals (Mem.ofList exampleOffer) DHCPREQUEST
        (Mem.ofList [255, 255, 255, 255]) 0).packet j
        = if (54 ≤ j ∧ j < 58) ∨ (66 ≤ j ∧ j < 70) then 0
          else dhcpFixed exampleGlobals (Mem.ofList exampleOffer)
            (Mem.ofList [255, 255, 255, 255]) j :=
    fun j h1 h2 => dhcpRequest_fields _ _ _ _ j h1 h2
  have hL : ∀ j, 52 ≤ j → j < 70 →
      (dhcpSendMessage exampleGlobals (Mem.ofList exampleOffer) DHCPRELEASE
        (Mem.ofList [255, 255, 255, 255]) 0).packet j
        = dhcpFixed exampleGlobals (Mem.ofList exampleOffer)
            (Mem.ofList [255, 255, 255, 255]) j :=
    fun j h1 h2 => dhcpRelease_fields _ _ _ _ j h1 h2
  have hf := dhcpFixed_flags exampleGlobals (Mem.ofList exampleOffer)
    (Mem.ofList [255, 255, 255, 255])
  have ha : ∀ j, 54 ≤ j → j < 70 → dhcpFixed exampleGlobals (Mem.ofList exampleOffer)
      (Mem.ofList [255, 255, 255, 255]) j = Mem.ofList exampleOffer j :=
    fun j h1 h2 => dhcpFixed_addresses _ _ _ j h1 h2
  refine ⟨two _ _ _ ?_ ?_, two _ _ _ ?_ ?_, two _ _ _ ?_ ?_, four _ _ _ _ _ ?_ ?_ ?_ ?_,
    four _ _ _ _ _ ?_ ?_ ?_ ?_, four _ _ _ _ _ ?_ ?_ ?_ ?_⟩
  · rw [hD 52 (by omega) (by omega)]; rfl
  · rw [hD 53 (by omega) (by omega)]; rfl
  · rw [hR 52 (by omega) (by omega), if_neg (by omega)]; exact hf.1
  · rw [hR 53 (by omega) (by omega), if_neg (by omega)]; exact hf.2
  · rw [hL 52 (by omega) (by omega)]; exact hf.1
  · rw [hL 53 (by omega) (by omega)]; exact hf.2
  · rw [hD 58 (by omega) (by omega)]; rfl
  · rw [hD 59 (by omega) (by omega)]; rfl
  · rw [hD 60 (by omega) (by omega)]; rfl
  · rw [hD 61 (by omega) (by omega)]; rfl
  · rw [hR 58 (by omega) (by omega), if_neg (by omega), ha 58 (by omega) (by omega)]; decide
  · rw [hR 59 (by omega) (by omega), if_neg (by omega), ha 59 (by omega) (by omega)]; decide
  · rw [hR 60 (by omega) (by omega), if_neg (by omega), ha 60 (by omega) (by omega)]; decide
  · rw [hR 61 (by omega) (by omega), if_neg (by omega), ha 61 (by omega) (by omega)]; decide
  · rw [hL 58 (by omega) (by omega), ha 58 (by omega) (by omega)]; decide
  · rw [hL 59 (by omega) (by omega), ha 59 (by omega) (by omega)]; decide
  · rw [hL 60 (by omega) (by omega), ha 60 (by omega) (by omega)]; decide
  · rw [hL 61 (by omega) (by omega), ha 61 (by omega) (by omega)]; decide

/-- C30: type-independent bytes of a DHCP message.  For the same buffer, globals and
destination address and any two message types, `dhcpSendMessage` leaves identical bytes in
the Ethernet header and the first two IP header bytes (offsets 0-15), the IP header from the
id to the protocol (18-23), the IP addresses and the UDP ports (26-37), the fields op, htype,
hlen, hops, xid and secs (42-51), and chaddr, the 192-byte area and the magic cookie
(70-281).  The flags (52-53) and the four address fields (54-69) depend on the type: a
DISCOVER stores the flags 0x80, 0x00 and zero addresses; a REQUEST has zero flags, zero
ciaddr and giaddr, and the yiaddr and siaddr bytes of the input buffer; a RELEASE has zero
flags and the four address fields of the input buffer. -/
theorem dhcp_fixed_fields_by_type (g : Globals) (packet : Mem) (ipAdd : Nat → Nat)
    (l1 l2 : Nat) :
    (∀ t1 t2 j, j < 16 ∨ (18 ≤ j ∧ j < 24) ∨ (26 ≤ j ∧ j < 38) ∨ (42 ≤ j ∧ j < 52)
        ∨ (70 ≤ j ∧ j < 282) →
      (dhcpSendMessage g packet t1 ipAdd l1).packet j
        = (dhcpSendMessage g packet t2 ipAdd l2).packet j)
    ∧ (dhcpSendMessage g packet DHCPDISCOVER ipAdd l1).packet 52 = 0x80
    ∧ (dhcpSendMessage g packet DHCPDISCOVER ipAdd l1).packet 53 = 0
    ∧ (∀ j, 54 ≤ j ∧ j < 70 → (dhcpSendMessage g packet DHCPDISCOVER ipAdd l1).packet j = 0)
    ∧ (dhcpSendMessage g packet DHCPREQUEST ipAdd l1).packet 52 = 0
    ∧ (dhcpSendMessage g packet DHCPREQUEST ipAdd l1).packet 53 = 0
    ∧ (∀ j, (54 ≤ j ∧ j < 58) ∨ (66 ≤ j ∧ j < 70) →
        (dhcpSendMessage g packet DHCPREQUEST ipAdd l1).packet j = 0)
    ∧ (∀ j, 58 ≤ j ∧ j < 66 →
        (dhcpSendMessage g packet DHCPREQUEST ipAdd l1).packet j = packet j)
    ∧ (dhcpSendMessage g packet DHCPRELEASE ipAdd l1).packet 52 = 0
    ∧ (dhcpSendMessage g packet DHCPRELEASE ipAdd l1).packet 53 = 0
    ∧ (∀ j, 54 ≤ j ∧ j < 70 →
        (dhcpSendMessage g packet DHCPRELEASE ipAdd l1).packet j = packet j) := by
  have hf := dhcpFixed_flags g packet ipAdd
  have hD : ∀ j, 52 ≤ j → j < 70 →
      (dhcpSendMessage g packet DHCPDISCOVER ipAdd l1).packet j
        = if j = 53 then 0 else if j = 52 then 128 else 0 := by
    intro j h1 h2
    rw [dhcpDiscover_apply _ _ _ _ _ (by omega)]
    simp (disch := omega) only [if_neg]
    split_ifs <;> first | rfl | omega
  refine ⟨?_, ?_, ?_, ?_, ?_, ?_, ?_, ?_, ?_, ?_, ?_⟩
  · intro t1 t2 j hj
    rw [dhcpSendMessage_common _ _ _ _ _ _ hj, dhcpSendMessage_common _ _ _ _ _ _ hj]
  · rw [hD 52 (by omega) (by omega)]; rfl
  · rw [hD 53 (by omega) (by omega)]; rfl
  · intro j hj
    rw [hD j (by omega) (by omega), if_neg (by omega), if_neg (by omega)]
  · rw [dhcpRequest_fields _ _ _ _ _ (by omega) (by omega), if_neg (by omega)]; exact hf.1
  · rw [dhcpRequest_fields _ _ _ _ _ (by omega) (by omega), if_neg (by omega)]; exact hf.2
  · intro j hj
    rw [dhcpRequest_fields _ _ _ _ _ (by omega) (by omega), if_pos hj]
  · intro j hj
    rw [dhcpRequest_fields _ _ _ _ _ (by omega) (by omega), if_neg (by omega),
      dhcpFixed_addresses _ _ _ _ (by omega) (by omega)]
  · rw [dhcpRelease_fields _ _ _ _ _ (by omega) (by omega)]; exact hf.1
  · rw [dhcpRelease_fields _ _ _ _ _ (by omega) (by omega)]; exact hf.2
  · intro j hj
    rw [dhcpRelease_fields _ _ _ _ _ (by omega) (by omega),
      dhcpFixed_addresses _ _ _ _ (by omega) (by omega)]

theorem dhcp_fixed_fields_by_type_witness :
    (46 < 16 ∨ (18 ≤ 46 ∧ 46 < 24) ∨ (26 ≤ 46 ∧ 46 < 38) ∨ (42 ≤ 46 ∧ 46 < 52)
        ∨ (70 ≤ 46 ∧ 46 < 282))
    ∧ (dhcpSendMessage exampleGlobals (Mem.ofList exampleOffer) DHCPDISCOVER
        (Mem.ofList [255, 255, 255, 255]) 0).packet 46
      = (dhcpSendMessage exampleGlobals (Mem.ofList exampleOffer) DHCPREQUEST
        (Mem.ofList [255, 255, 255, 255]) 0).packet 46
    ∧ (58 ≤ 58 ∧ 58 < 66)
    ∧ (dhcpSendMessage exampleGlobals (Mem.ofList exampleOffer) DHCPREQUEST
        (Mem.ofList [255, 255, 255, 255]) 0).packet 58 = Mem.ofList exampleOffer 58 :=
  ⟨by decide,
    (dhcp_fixed_fields_by_type exampleGlobals (Mem.ofList exampleOffer)
      (Mem.ofList [255, 255, 255, 255]) 0 0).1 DHCPDISCOVER DHCPREQUEST 46 (by decide),
    by decide,
    (dhcp_fixed_fields_by_type exampleGlobals (Mem.ofList exampleOffer)
      (Mem.ofList [255, 255, 255, 255]) 0 0).2.2.2.2.2.2.2.1 58 (by decide)⟩

/-! ## Checksums of the TCP frames -/

theorem rfc1071_list_zero_iff (l : List Nat) (h : ∀ b ∈ l, b < 256) :
    rfc1071Checksum l = 0 ↔ onesFold (lsum l false) = 65535 := by
  have h1 := rfc1071_zero_iff (Mem.ofList l) (ofList_isBytes l h) l.length 0
  rw [bytesAt_eq (Mem.ofList l) 0 l (fun i _ => by simp [Mem.ofList]), wsum_ofList] at h1
  exact h1

theorem lsum_append_even (a b : List Nat) (hi : Bool) (h : a.length % 2 = 0) :
    lsum (a ++ b) hi = lsum a hi + lsum b hi := by
  induction a using beWords.induct generalizing hi with
  | case1 => simp [lsum]
  | case2 x => simp at h
  | case3 x y rest ih =>
    have hl : rest.length % 2 = 0 := by
      simp only [List.length_cons] at h
      omega
    have := ih hi hl
    have e : lsum (x :: y :: rest ++ b) hi
        = (if hi = true then x * 256 else x) + ((if (!hi) = true then y * 256 else y)
          + lsum (rest ++ b) hi) := by
      simp only [List.cons_append, lsum, Bool.not_not, List.append_eq]
    have e2 : lsum (x :: y :: rest) hi
        = (if hi = true then x * 256 else x) + ((if (!hi) = true then y * 256 else y)
          + lsum rest hi) := by
      simp only [lsum, Bool.not_not]
    rw [e, e2, this]
    omega

theorem bytesAt_drop (m : Mem) (n k : Nat) : (bytesAt m 0 n).drop k = bytesAt m k (n - k) := by
  apply List.ext_getElem
  · simp [bytesAt]
  · intro i h1 h2
    simp [bytesAt]

theorem bytesAt_take (m : Mem) (p n k : Nat) (h : k ≤ n) :
    (bytesAt m p n).take k = bytesAt m p k := by
  apply List.ext_getElem
  · simp [bytesAt, h]
  · intro i h1 h2
    simp [bytesAt]

theorem bytesAt_lt (m : Mem) (hm : IsBytes m) (p n : Nat) : ∀ b ∈ bytesAt m p n, b < 256 := by
  intro b hb
  simp only [bytesAt, List.mem_map] at hb
  obtain ⟨i, _, rfl⟩ := hb
  exact hm _

theorem ofList_bytesAt (m : Mem) (n j : Nat) (h : j < n) : Mem.ofList (bytesAt m 0 n) j = m j := by
  simp [Mem.ofList, bytesAt, h]

theorem zero_isBytes : IsBytes (fun _ => 0) := fun _ => Nat.zero_lt_succ 255

/-- The two checksums `tcpTransmit` stores, as exact sums over the buffer. -/
theorem tcpTransmit_sums (g : Globals) (m : Mem) (lenOpts : Nat) (hm : IsBytes m)
    (h14 : m 14 = 69) (hl : lenOpts ≤ 1000) :
    (tcpTransmit g m 14 34 lenOpts).packet
      = wr16 (wr16 (wr16 m 16 (htons (40 + lenOpts))) 24
          (65535 - onesFold (wsum (wr16 m 16 (htons (40 + lenOpts))) 10 14 false
            + wsum (wr16 m 16 (htons (40 + lenOpts))) 8 26 false))) 50
          (65535 - onesFold
            (wsum (wr16 (wr16 m 16 (htons (40 + lenOpts))) 24
                (65535 - onesFold (wsum (wr16 m 16 (htons (40 + lenOpts))) 10 14 false
                  + wsum (wr16 m 16 (htons (40 + lenOpts))) 8 26 false))) 8 26 false
              + m 23 % 256 * 256 + ((lenOpts + 20) / 256 + 256 * ((lenOpts + 20) % 256))
              + wsum (wr16 (wr16 m 16 (htons (40 + lenOpts))) 24
                (65535 - onesFold (wsum (wr16 m 16 (htons (40 + lenOpts))) 10 14 false
                  + wsum (wr16 m 16 (htons (40 + lenOpts))) 8 26 false))) 18 34 false
              + wsum (wr16 (wr16 m 16 (htons (40 + lenOpts))) 24
                (65535 - onesFold (wsum (wr16 m 16 (htons (40 + lenOpts))) 10 14 false
                  + wsum (wr16 m 16 (htons (40 + lenOpts))) 8 26 false))) lenOpts 54 false)) := by
  have hm1 : IsBytes (wr16 m 16 (htons (40 + lenOpts))) := wr16_isBytes _ hm _ _
  have e14 : wr16 m 16 (htons (40 + lenOpts)) 14 = 69 := by
    rw [wr16_same _ _ _ _ (by omega) (by omega), h14]
  have hc := etherCalcIpChecksum_packet g (wr16 m 16 (htons (40 + lenOpts))) 14 hm1
    (by rw [e14]; decide)
  rw [e14, show 69 % 16 * 4 - 12 = 8 from rfl, show 14 + 10 = 24 from rfl,
    show 14 + 12 = 26 from rfl] at hc
  generalize hC1 : 65535 - onesFold (wsum (wr16 m 16 (htons (40 + lenOpts))) 10 14 false
            + wsum (wr16 m 16 (htons (40 + lenOpts))) 8 26 false) = C1 at hc ⊢
  have hm2 : IsBytes (wr16 (wr16 m 16 (htons (40 + lenOpts))) 24 C1) := wr16_isBytes _ hm1 _ _
  have e23 : wr16 (wr16 m 16 (htons (40 + lenOpts))) 24 C1 23 = m 23 := by
    rw [wr16_same _ _ _ _ (by omega) (by omega), wr16_same _ _ _ _ (by omega) (by omega)]
  have hX := htons_small (lenOpts + 20) (by omega)
  have hz : IsBytes (wr16 (fun _ => 0) 0 (htons (lenOpts + 20))) := wr16_isBytes _ zero_isBytes _ _
  have a1 := acc_sumWords 0 (wr16 (wr16 m 16 (htons (40 + lenOpts))) 24 C1) 26 8 0 hm2
    (by omega) (by omega)
  have a2 := acc_protocol _ (wr16 (wr16 m 16 (htons (40 + lenOpts))) 24 C1 23) _ a1.2 (by omega)
  have a3 := acc_sumWords _ (wr16 (fun _ => 0) 0 (htons (lenOpts + 20))) 0 2 _ hz a2.2 (by omega)
  have a4 := acc_sumWords _ (wr16 (wr16 m 16 (htons (40 + lenOpts))) 24 C1) 34 18 _ hm2 a3.2
    (by omega)
  have a5 := acc_sumWords _ (wr16 (wr16 m 16 (htons (40 + lenOpts))) 24 C1) 54 lenOpts _ hm2 a4.2
    (by omega)
  have hw : wsum (wr16 (fun _ => 0) 0 (htons (lenOpts + 20))) (2 % 65536) 0 false
      = (lenOpts + 20) / 256 + 256 * ((lenOpts + 20) % 256) := by
    rw [show 2 % 65536 = 2 from rfl, wsum_two, wr16_lo, wr16_hi, hX.1, hX.2]
  have hlm : lenOpts % 65536 = lenOpts := Nat.mod_eq_of_lt (by omega)
  unfold tcpTransmit
  lift_lets
  extract_lets tcpSize m1 c m2 sum0 sum1 tmp16 sum2 tmp_len sum3 sum4 sum5 r m3
  have h1 : m1 = wr16 m 16 (htons (40 + lenOpts)) := by
    simp only [m1, ipHeaderLength, tcpSize, Nat.reduceAdd]
  have h2 : m2 = wr16 (wr16 m 16 (htons (40 + lenOpts))) 24 C1 := by
    simp only [m2, c, h1]
    exact hc
  have hs5 : sum5 = wsum (wr16 (wr16 m 16 (htons (40 + lenOpts))) 24 C1) 8 26 false
      + m 23 % 256 * 256 + ((lenOpts + 20) / 256 + 256 * ((lenOpts + 20) % 256))
      + wsum (wr16 (wr16 m 16 (htons (40 + lenOpts))) 24 C1) 18 34 false
      + wsum (wr16 (wr16 m 16 (htons (40 + lenOpts))) 24 C1) lenOpts 54 false := by
    simp only [sum5, sum4, sum3, sum2, sum1, sum0, tmp16, tmp_len, tcpSize, h2, Nat.reduceAdd]
    rw [a1.1, a2.1, a3.1, a4.1, a5.1, hw, e23, hlm]
    simp
  show wr16 m2 (34 + 16) r.1 = _
  simp only [r, getEtherChecksum_fst, hs5, h2]

/-- A frame `tcpTransmit` sends from a byte-valued buffer holding an IPv4 header of 20 bytes
with protocol 6 and a TCP header whose checksum and urgent-pointer fields are zero: the IP
header passes `etherIsIp` and the RFC 1071 checksum over pseudo-header and segment is 0. -/
theorem tcpTransmit_valid (g g0 : Globals) (m : Mem) (lenOpts : Nat) (hm : IsBytes m)
    (h12 : m 12 = 8) (h13 : m 13 = 0) (h14 : m 14 = 69) (h23 : m 23 = 6)
    (h50 : m 50 = 0) (h51 : m 51 = 0) (h52 : m 52 = 0) (h53 : m 53 = 0)
    (hl : lenOpts ≤ 1000) :
    (tcpTransmit g m 14 34 lenOpts).frame
        = bytesAt (tcpTransmit g m 14 34 lenOpts).packet 0 (54 + lenOpts)
    ∧ IsBytes (tcpTransmit g m 14 34 lenOpts).packet
    ∧ (etherIsIp g0 (Mem.ofList (tcpTransmit g m 14 34 lenOpts).frame)).1 = true
    ∧ rfc1071Checksum (tcpChecksumInput (tcpTransmit g m 14 34 lenOpts).frame) = 0 := by
  obtain ⟨c1, c2, -, hF, -⟩ := tcpTransmit_stages g m lenOpts h14 (by omega)
  have hP := tcpTransmit_sums g m lenOpts hm h14 hl
  have hm1 : IsBytes (wr16 m 16 (htons (40 + lenOpts))) := wr16_isBytes _ hm _ _
  have hip := ipHeader_valid (wr16 m 16 (htons (40 + lenOpts))) 14 20 (by omega)
  rw [show 14 + 10 = 24 from rfl, show 20 - 12 = 8 from rfl, show 14 + 12 = 26 from rfl] at hip
  generalize hC1 : 65535 - onesFold (wsum (wr16 m 16 (htons (40 + lenOpts))) 10 14 false
            + wsum (wr16 m 16 (htons (40 + lenOpts))) 8 26 false) = C1 at hP hip
  generalize hM2 : wr16 (wr16 m 16 (htons (40 + lenOpts))) 24 C1 = M2 at hP hip
  have hm2 : IsBytes M2 := by
    rw [← hM2]
    exact wr16_isBytes _ hm1 _ _
  have keep : ∀ j, j ≠ 16 → j ≠ 17 → j ≠ 24 → j ≠ 25 → M2 j = m j := by
    intro j a b c d
    rw [← hM2, wr16_same _ _ _ _ (by omega) (by omega), wr16_same _ _ _ _ (by omega) (by omega)]
  have f18 : wsum M2 18 34 false = wsum M2 16 34 false := by
    rw [wsum_field M2 18 16 34 (by decide) (by omega), show 34 + 16 = 50 from rfl,
      keep 50 (by omega) (by omega) (by omega) (by omega),
      keep 51 (by omega) (by omega) (by omega) (by omega), h50, h51]
    simp [wsum]
  have fopt : wsum M2 (20 + lenOpts - 16 - 2) (34 + 16 + 2) false = wsum M2 lenOpts 54 false := by
    rw [show 20 + lenOpts - 16 - 2 = 2 * 1 + lenOpts by omega, wsum_add, wsum_two,
      show 34 + 16 + 2 = 52 from rfl,
      keep 52 (by omega) (by omega) (by omega) (by omega),
      keep 53 (by omega) (by omega) (by omega) (by omega), h52, h53]
    simp
  have hv := checksum_field_valid M2 34 (20 + lenOpts) 16
    (wsum M2 8 26 false + m 23 % 256 * 256 + ((lenOpts + 20) / 256 + 256 * ((lenOpts + 20) % 256)))
    (by decide) (by omega)
  rw [fopt, ← f18, show 34 + 16 = 50 from rfl] at hv
  rw [← hP] at hv
  have hmP : IsBytes (tcpTransmit g m 14 34 lenOpts).packet := by
    rw [hP]
    exact wr16_isBytes _ hm2 _ _
  have low : ∀ j, j ≠ 50 → j ≠ 51 → (tcpTransmit g m 14 34 lenOpts).packet j = M2 j := by
    intro j a b
    rw [hP, wr16_same _ _ _ _ (by omega) (by omega)]
  have hfb : ∀ b ∈ (tcpTransmit g m 14 34 lenOpts).frame, b < 256 := by
    rw [hF]
    exact bytesAt_lt _ hmP _ _
  have hmf : IsBytes (Mem.ofList (tcpTransmit g m 14 34 lenOpts).frame) := ofList_isBytes _ hfb
  have ofl : ∀ j, j < 54 + lenOpts → Mem.ofList (tcpTransmit g m 14 34 lenOpts).frame j
      = (tcpTransmit g m 14 34 lenOpts).packet j := by
    intro j hj
    rw [hF]
    exact ofList_bytesAt _ _ _ hj
  refine ⟨hF, hmP, ?_, ?_⟩
  · rw [etherIsIp_true_iff _ _ hmf, ofl 12 (by omega), ofl 13 (by omega), ofl 14 (by omega),
      low 12 (by omega) (by omega), low 13 (by omega) (by omega), low 14 (by omega) (by omega),
      keep 12 (by omega) (by omega) (by omega) (by omega),
      keep 13 (by omega) (by omega) (by omega) (by omega),
      keep 14 (by omega) (by omega) (by omega) (by omega), h12, h13, h14]
    refine ⟨rfl, rfl, ?_⟩
    rw [show 69 % 16 * 4 = 20 from rfl,
      wsum_congr (Mem.ofList (tcpTransmit g m 14 34 lenOpts).frame) M2 20 14 false
        (fun i hi => by rw [ofl _ (by omega), low _ (by omega) (by omega)])]
    exact hip
  · rw [rfc1071_list_zero_iff]
    · have e1 : tcpChecksumInput (tcpTransmit g m 14 34 lenOpts).frame
          = (bytesAt (tcpTransmit g m 14 34 lenOpts).packet 26 8
              ++ [0, 6, (20 + lenOpts) / 256, (20 + lenOpts) % 256])
            ++ bytesAt (tcpTransmit g m 14 34 lenOpts).packet 34 (20 + lenOpts) := by
        unfold tcpChecksumInput
        rw [hF, bytesAt_drop, bytesAt_drop, bytesAt_take _ _ _ _ (by omega), bytesAt_length,
          show 54 + lenOpts - 34 = 20 + lenOpts by omega]
      rw [e1, lsum_append_even _ _ _ (by simp [bytesAt]),
        lsum_append_even _ _ _ (by simp [bytesAt]), wsum_bytesAt, wsum_bytesAt,
        wsum_congr (tcpTransmit g m 14 34 lenOpts).packet M2 8 26 false
          (fun i hi => low _ (by omega) (by omega))]
      have e2 : lsum [0, 6, (20 + lenOpts) / 256, (20 + lenOpts) % 256] false
          = m 23 % 256 * 256 + ((lenOpts + 20) / 256 + 256 * ((lenOpts + 20) % 256)) := by
        rw [h23, show lenOpts + 20 = 20 + lenOpts by omega]
        simp only [lsum, Bool.not_false, Bool.not_true, if_true, Bool.false_eq_true, if_false]
        omega
      rw [e2, ← Nat.add_assoc]
      exact hv
    · intro b hb
      unfold tcpChecksumInput at hb
      simp only [List.mem_append, List.mem_cons, List.mem_singleton, List.not_mem_nil,
        or_false] at hb
      have hL : (tcpTransmit g m 14 34 lenOpts).frame.length = 54 + lenOpts := by
        rw [hF, bytesAt_length]
      rcases hb with (h | h | h | h | h) | h
      · exact hfb b (List.mem_of_mem_drop (List.mem_of_mem_take h))
      · omega
      · omega
      · rw [h, hL]; omega
      · rw [h]; omega
      · exact hfb b (List.mem_of_mem_drop h)

theorem wr32_isBytes (m : Mem) (hm : IsBytes m) (a v : Nat) : IsBytes (wr32 m a v) := by
  unfold wr32
  exact wr8_isBytes _ (wr8_isBytes _ (wr8_isBytes _ (wr8_isBytes m hm _ _
    (Nat.mod_lt _ (by omega))) _ _ (Nat.mod_lt _ (by omega))) _ _ (Nat.mod_lt _ (by omega)))
    _ _ (Nat.mod_lt _ (by omega))

theorem tcpFixed_isBytes (g : Globals) (packet : Mem) (hm : IsBytes packet)
    (hmac : IsBytes g.macAddress) (hip : IsBytes g.ipAddress) : IsBytes (tcpFixed g packet) := by
  intro j
  have h1 := hm j
  have h2 := hm (j - 4)
  have h3 := hm (j + 6)
  have h4 := hmac (j - 6)
  have h5 := hip (j - 26)
  unfold tcpFixed
  repeat (refine ite_lt_of (by omega) ?_)
  exact h1

theorem tcpFixed_fields (g : Globals) (packet : Mem) :
    tcpFixed g packet 12 = 8 ∧ tcpFixed g packet 13 = 0 ∧ tcpFixed g packet 14 = 69
    ∧ tcpFixed g packet 23 = 6 ∧ tcpFixed g packet 50 = 0 ∧ tcpFixed g packet 51 = 0
    ∧ tcpFixed g packet 52 = 0 ∧ tcpFixed g packet 53 = 0 := by
  refine ⟨?_, ?_, ?_, ?_, ?_, ?_, ?_, ?_⟩ <;> simp [tcpFixed]

/-- The bytes of the input buffer from offset 54 on are those of the fixed buffer. -/
theorem tcpFixed_data (g : Globals) (packet : Mem) (j : Nat) (hj : 54 ≤ j) :
    tcpFixed g packet j = packet j := by
  unfold tcpFixed
  simp (disch := omega) only [if_neg]

theorem tcpSwitch_syn (seq_num : Nat) (m : Mem) (ps dl l : Nat) :
    tcpSwitch seq_num m 34 0x02 ps dl l
      = (wr16 (wr32 (wr32 m (34 + 8) (htonl 0)) (34 + 4) (htonl seq_num)) (34 + 12)
          (htons 0x5010), (seq_num + 1) % 4294967296, 0) := by
  rw [tcpSwitch, if_neg (by decide), if_pos rfl]

/-- The `switch` of `sendTcpMsg` stores nothing below the sequence number field nor in the
window, checksum and urgent-pointer fields. -/
theorem tcpSwitch_keep (seq_num : Nat) (m : Mem) (flag ps dl l j : Nat)
    (hj : j < 38 ∨ (48 ≤ j ∧ j < 54)) :
    (tcpSwitch seq_num m 34 flag ps dl l).1 j = m j := by
  unfold tcpSwitch
  split_ifs
  · simp only [wr16_apply, wr32_apply]
    simp (disch := omega) only [if_neg]
  · simp only [wr16_apply, wr32_apply]
    simp (disch := omega) only [if_neg]
  · simp only [wr16_apply, wr32_apply]
    simp (disch := omega) only [if_neg]
  · simp only [wr16_apply, wr32_apply, wr8_apply]
    simp (disch := omega) only [if_neg]
  · rfl

theorem tcpSwitch_isBytes (seq_num : Nat) (m : Mem) (flag ps dl l : Nat) (hm : IsBytes m) :
    IsBytes (tcpSwitch seq_num m 34 flag ps dl l).1 := by
  unfold tcpSwitch
  split_ifs
  · exact wr16_isBytes _ (wr32_isBytes _ (wr32_isBytes _ hm _ _) _ _) _ _
  · exact wr16_isBytes _ (wr32_isBytes _ (wr32_isBytes _ hm _ _) _ _) _ _
  · exact wr16_isBytes _ (wr32_isBytes _ (wr32_isBytes _ hm _ _) _ _) _ _
  · exact wr8_isBytes _ (wr8_isBytes _ (wr8_isBytes _ (wr8_isBytes _
      (wr16_isBytes _ (wr32_isBytes _ (wr32_isBytes _ hm _ _) _ _) _ _) _ _ (by omega)) _ _
      (by omega)) _ _ (by omega)) _ _ (by omega)
  · exact hm

theorem tcpSwitch_lenOpts (seq_num : Nat) (m : Mem) (flag ps dl l : Nat)
    (hflag : flag = 0x01 ∨ flag = 0x02 ∨ flag = 0x10 ∨ flag = 0x12) :
    (tcpSwitch seq_num m 34 flag ps dl l).2.2 = if flag = 0x12 then 4 else 0 := by
  rcases hflag with h | h | h | h <;> subst h
  · rw [tcpSwitch_fin]; rfl
  · rw [tcpSwitch_syn]; rfl
  · rw [tcpSwitch_ack]; rfl
  · rw [tcpSwitch_synack]; rfl

/-- The frame of `sendTcpMsg` for the flags `0x01`, `0x02`, `0x10` and `0x12` without payload
carries valid checksums. -/
theorem sendTcpMsg_valid (g g0 : Globals) (packet : Mem) (flag : Nat) (payload : List Nat)
    (l : Nat) (hm : IsBytes packet) (hmac : IsBytes g.macAddress) (hip : IsBytes g.ipAddress)
    (hflag : flag = 0x01 ∨ flag = 0x02 ∨ flag = 0x10 ∨ flag = 0x12) :
    ∃ r f, sendTcpMsg g packet flag payload true l = some r
      ∧ r.frames = [f]
      ∧ f = bytesAt r.packet 0 (54 + (if flag = 0x12 then 4 else 0))
      ∧ (etherIsIp g0 (Mem.ofList f)).1 = true
      ∧ rfc1071Checksum (tcpChecksumInput f) = 0 := by
  have hf : flag % 256 = flag := by rcases hflag with h | h | h | h <;> subst h <;> rfl
  have h18 : flag % 256 ≠ 0x18 := by rcases hflag with h | h | h | h <;> subst h <;> decide
  have hS := sendTcpMsg_stages g packet flag payload l h18 hm
  have hF := tcpFixed_fields g packet
  have hB := tcpFixed_isBytes g packet hm hmac hip
  have hl : (tcpSwitched g packet flag l).2.2 = if flag = 0x12 then 4 else 0 := by
    unfold tcpSwitched
    rw [hf]
    exact tcpSwitch_lenOpts _ _ _ _ _ _ hflag
  have hk : ∀ j, j < 38 ∨ (48 ≤ j ∧ j < 54) →
      (tcpSwitched g packet flag l).1 j = tcpFixed g packet j := by
    intro j hj
    unfold tcpSwitched
    exact tcpSwitch_keep _ _ _ _ _ _ _ hj
  have hv := tcpTransmit_valid { g with seq_num := (tcpSwitched g packet flag l).2.1 } g0
    (tcpSwitched g packet flag l).1 (tcpSwitched g packet flag l).2.2
    (by unfold tcpSwitched; exact tcpSwitch_isBytes _ _ _ _ _ _ hB)
    (by rw [hk 12 (by omega)]; exact hF.1)
    (by rw [hk 13 (by omega)]; exact hF.2.1)
    (by rw [hk 14 (by omega)]; exact hF.2.2.1)
    (by rw [hk 23 (by omega)]; exact hF.2.2.2.1)
    (by rw [hk 50 (by omega)]; exact hF.2.2.2.2.1)
    (by rw [hk 51 (by omega)]; exact hF.2.2.2.2.2.1)
    (by rw [hk 52 (by omega)]; exact hF.2.2.2.2.2.2.1)
    (by rw [hk 53 (by omega)]; exact hF.2.2.2.2.2.2.2)
    (by rw [hl]; split <;> omega)
  have hv2 : (tcpLast g packet flag l).frame
        = bytesAt (tcpLast g packet flag l).packet 0 (54 + (tcpSwitched g packet flag l).2.2)
      ∧ IsBytes (tcpLast g packet flag l).packet
      ∧ (etherIsIp g0 (Mem.ofList (tcpLast g packet flag l).frame)).1 = true
      ∧ rfc1071Checksum (tcpChecksumInput (tcpLast g packet flag l).frame) = 0 := by
    unfold tcpLast
    exact hv
  exact ⟨{ g := (tcpLast g packet flag l).g, packet := (tcpLast g packet flag l).packet,
           frames := [(tcpLast g packet flag l).frame] }, (tcpLast g packet flag l).frame,
    hS, rfl, hl ▸ hv2.1, hv2.2.2.1, hv2.2.2.2⟩

/-- `sendTcpMsg` with flag `0x18`, by stages: the fixed fields, then the `0x18` case. -/
theorem sendTcpMsg_push (g : Globals) (packet : Mem) (flag : Nat) (payload : List Nat)
    (pe : Bool) (l : Nat) (hflag : flag % 256 = 0x18) (hm : IsBytes packet) :
    sendTcpMsg g packet flag payload pe l
      = tcpPushAck g (tcpFixed g packet) 14 34 (rdBe32 packet 38) (tcpDataLength packet) := by
  unfold sendTcpMsg
  lift_lets
  extract_lets f id m1 m2 ip m3 dl0 m4 m5 m6 m7 m8 m9 m10 tcp dl m11 m12 m13 m14 m15 ps
  have h10 : m10 ip = 69 := by
    simp only [m10, m9, m8, m7, m6, m5, m4, ip, wr16_apply, wr8_apply]
    simp
  have htcp : tcp = 34 := by simp only [tcp, h10, ip]; rfl
  have e3 : ∀ j, 14 ≤ j ∧ j < 26 → m3 j = packet j := by
    intro j hj
    simp only [m3, m2, m1, ip, tcpIpLoop_at, wr16_apply, tcpEtherLoop_at]
    simp (disch := omega) only [if_neg]
  have e10 : ∀ j, 34 ≤ j → m10 j = packet j := by
    intro j hj
    simp only [m10, m9, m8, m7, m6, m5, m4, m3, m2, m1, ip, tcpIpLoop_at, wr16_apply, wr8_apply,
      tcpEtherLoop_at]
    simp (disch := omega) only [if_neg]
  have e15 : ∀ j, 38 ≤ j ∧ j < 48 → m15 j = packet j := by
    intro j hj
    simp only [m15, m14, m13, m12, m11, htcp, wr16_apply]
    simp (disch := omega) only [if_neg]
    exact e10 j (by omega)
  have hdl0 : dl0 = (htons (rd16 packet 16) + 65536 - (packet 14 &&& 0xF) * 4) % 65536 := by
    simp only [dl0, rd16, ip, Nat.reduceAdd, e3 16 (by omega), e3 17 (by omega),
      e3 14 (by omega)]
  have hdl : dl = tcpDataLength packet := by
    simp only [dl, hdl0, rd16, htcp, Nat.reduceAdd, e10 46 (by omega), e10 47 (by omega),
      tcpDataLength]
  have hps : ps = rdBe32 packet 38 := by
    rw [← htonl_rd32 packet hm 38]
    simp only [ps, rd32, htcp, Nat.reduceAdd, e15 38 (by omega), e15 39 (by omega),
      e15 40 (by omega), e15 41 (by omega)]
  have hr : rd16 m10 tcp = rd16 packet 34 := by
    simp only [rd16, htcp, Nat.reduceAdd, e10 34 (by omega), e10 35 (by omega)]
  have h15 : m15 = tcpFixed g packet := by
    funext j
    simp only [m15, m14, m13, m12, m11, hr]
    simp only [m10, m9, m8, m7, m6, m5, m4, m3, m2, m1, id, htcp, ip, wr16_apply, wr8_apply,
      tcpIpLoop_at, tcpEtherLoop_at, htons_0, htons_23, htons_05b4, htons_0800, IPv4_frame,
      Nat.reduceAdd, Nat.reduceMod, Nat.reduceDiv, Nat.reduceSub, tcpFixed]
    by_cases h : 30 ≤ j ∧ j < 34
    · simp (disch := omega) only [if_neg]
    · rw [if_neg h, if_neg h]
  intro sw
  rw [if_pos hflag, h15, htcp, hps, hdl]

/-- The `0x18` case in terms of its two frames and the scan between them. -/
theorem tcpPushAck_eq (g : Globals) (packet : Mem) :
    tcpPushAck g (tcpFixed g packet) 14 34 (rdBe32 packet 38) (tcpDataLength packet)
      = match telnetScanLoop 54 (tcpDataLength packet) 196608 (telnetStart g packet) with
        | none => none
        | some s => some { g := (tcpPushSecond g packet s).g,
                           packet := (tcpPushSecond g packet s).packet,
                           frames := [(tcpPushFirst g packet).frame,
                             (tcpPushSecond g packet s).frame] } := rfl

theorem ite_wr8 (b : Bool) (m : Mem) (c v1 v2 : Nat) (h1 : v1 < 256) (h2 : v2 < 256) :
    (if b = true then wr8 m c v1 else wr8 m c v2) = m
      ∨ ∃ v, v < 256 ∧ (if b = true then wr8 m c v1 else wr8 m c v2) = wr8 m c v := by
  cases b
  · exact Or.inr ⟨v2, h2, rfl⟩
  · exact Or.inr ⟨v1, h1, rfl⟩

/-- The inner `switch` of the scan stores at most one byte, at the command byte. -/
theorem telnetSwitch_cases (m : Mem) (c opt : Nat) :
    telnetSwitch m c opt = m ∨ ∃ v, v < 256 ∧ telnetSwitch m c opt = wr8 m c v := by
  by_cases h1 : opt = 0x03
  · rw [telnetSwitch, if_pos h1]
    exact ite_wr8 _ _ _ _ _ (by decide) (by decide)
  by_cases h2 : opt = 0x05
  · rw [telnetSwitch, if_neg h1, if_pos h2]
    exact ite_wr8 _ _ _ _ _ (by decide) (by decide)
  by_cases h3 : opt = 0x18
  · rw [telnetSwitch, if_neg h1, if_neg h2, if_pos h3]
    exact ite_wr8 _ _ _ _ _ (by decide) (by decide)
  by_cases h4 : opt = 0x1f
  · rw [telnetSwitch, if_neg h1, if_neg h2, if_neg h3, if_pos h4]
    exact ite_wr8 _ _ _ _ _ (by decide) (by decide)
  by_cases h5 : opt = 0x20
  · rw [telnetSwitch, if_neg h1, if_neg h2, if_neg h3, if_neg h4, if_pos h5]
    exact ite_wr8 _ _ _ _ _ (by decide) (by decide)
  by_cases h6 : opt = 0x21
  · rw [telnetSwitch, if_neg h1, if_neg h2, if_neg h3, if_neg h4, if_neg h5, if_pos h6]
    exact ite_wr8 _ _ _ _ _ (by decide) (by decide)
  by_cases h7 : opt = 0x22
  · rw [telnetSwitch, if_neg h1, if_neg h2, if_neg h3, if_neg h4, if_neg h5, if_neg h6, if_pos h7]
    exact ite_wr8 _ _ _ _ _ (by decide) (by decide)
  by_cases h8 : opt = 0x25
  · rw [telnetSwitch, if_neg h1, if_neg h2, if_neg h3, if_neg h4, if_neg h5, if_neg h6, if_neg h7,
      if_pos h8]
    exact ite_wr8 _ _ _ _ _ (by decide) (by decide)
  by_cases h9 : opt = 0x27
  · rw [telnetSwitch, if_neg h1, if_neg h2, if_neg h3, if_neg h4, if_neg h5, if_neg h6, if_neg h7,
      if_neg h8, if_pos h9]
    exact ite_wr8 _ _ _ _ _ (by decide) (by decide)
  rw [telnetSwitch, if_neg h1, if_neg h2, if_neg h3, if_neg h4, if_neg h5, if_neg h6, if_neg h7,
    if_neg h8, if_neg h9]
  exact Or.inl rfl

theorem telnetSwitch_other (m : Mem) (c opt j : Nat) (h : j ≠ c) :
    telnetSwitch m c opt j = m j := by
  rcases telnetSwitch_cases m c opt with e | ⟨v, -, e⟩
  · rw [e]
  · rw [e, wr8_apply, if_neg h]

theorem telnetSwitch_isBytes (m : Mem) (c opt : Nat) (hm : IsBytes m) :
    IsBytes (telnetSwitch m c opt) := by
  rcases telnetSwitch_cases m c opt with e | ⟨v, hv, e⟩
  · rw [e]
    exact hm
  · rw [e]
    exact wr8_isBytes _ hm _ _ hv

theorem will_wont_iff (command : Nat) (h : command < 256) :
    will_wont command = true ↔ command = 0xFB ∨ command = 0xFC := by
  unfold will_wont
  rw [Nat.mod_eq_of_lt h]
  simp

/-- The store of the inner `switch` for the six option codes answered by DONT or WONT. -/
theorem telnetSwitch_six (m : Mem) (c opt : Nat) (hc : m c < 256)
    (h : opt = 0x03 ∨ opt = 0x05 ∨ opt = 0x18 ∨ opt = 0x1F ∨ opt = 0x20 ∨ opt = 0x21) :
    telnetSwitch m c opt c = if m c = 0xFB ∨ m c = 0xFC then 0xFE else 0xFC := by
  have hw := will_wont_iff (m c) hc
  by_cases hh : m c = 0xFB ∨ m c = 0xFC
  · have hw1 : will_wont (m c) = true := hw.2 hh
    rw [if_pos hh]
    rcases h with h | h | h | h | h | h <;> subst h <;> simp [telnetSwitch, hw1, wr8_apply]
  · have hw1 : will_wont (m c) = false := by
      cases hb : will_wont (m c)
      · rfl
      · exact absurd (hw.1 hb) hh
    rw [if_neg hh]
    rcases h with h | h | h | h | h | h <;> subst h <;> simp [telnetSwitch, hw1, wr8_apply]

/-- The store of the inner `switch` for the linemode option. -/
theorem telnetSwitch_linemode (m : Mem) (c : Nat) (hc : m c < 256) :
    telnetSwitch m c 0x22 c = if m c = 0xFB ∨ m c = 0xFC then 0xFD else 0xFB := by
  have hw := will_wont_iff (m c) hc
  by_cases hh : m c = 0xFB ∨ m c = 0xFC
  · have hw1 : will_wont (m c) = true := hw.2 hh
    rw [if_pos hh]
    simp [telnetSwitch, hw1, wr8_apply]
  · have hw1 : will_wont (m c) = false := by
      cases hb : will_wont (m c)
      · rfl
      · exact absurd (hw.1 hb) hh
    rw [if_neg hh]
    simp [telnetSwitch, hw1, wr8_apply]

/-- An iteration of the scan stores at most at the command byte after the current index. -/
theorem telnetScanBody_packet (o : Nat) (s : TelnetScan) (j : Nat) (h : j ≠ o + (s.i + 1)) :
    (telnetScanBody o s).packet j = s.packet j := by
  unfold telnetScanBody
  split_ifs
  · rfl
  · exact telnetSwitch_other _ _ _ _ h
  · rfl

theorem telnetScanBody_isBytes (o : Nat) (s : TelnetScan) (hm : IsBytes s.packet) :
    IsBytes (telnetScanBody o s).packet := by
  unfold telnetScanBody
  split_ifs
  · exact hm
  · exact telnetSwitch_isBytes _ _ _ hm
  · exact hm

/-- The scan leaves the buffer up to the start of the data region as it is, and byte-valued
if it was. -/
theorem telnetScanLoop_keeps (o dl : Nat) (fuel : Nat) (s s' : TelnetScan)
    (h : telnetScanLoop o dl fuel s = some s') :
    (∀ j, j ≤ o → s'.packet j = s.packet j) ∧ (IsBytes s.packet → IsBytes s'.packet) := by
  induction fuel generalizing s with
  | zero => exact absurd h Option.noConfusion
  | succ n ih =>
    rw [telnetScanLoop] at h
    by_cases hi : s.i < dl
    · rw [if_pos hi] at h
      obtain ⟨h1, h2⟩ := ih _ h
      refine ⟨fun j hj => ?_, fun hb => h2 (telnetScanBody_isBytes o s hb)⟩
      rw [h1 j hj, telnetScanBody_packet o s j (by omega)]
    · rw [if_neg hi] at h
      rw [← Option.some.inj h]
      exact ⟨fun _ _ => rfl, fun hb => hb⟩

theorem htons_5018 : htons 0x5018 = 0x1850 := by decide

/-- The buffer from which the first frame of the `0x18` case is sent. -/
theorem tcpPushFirst_buffer (g : Globals) (packet : Mem) (hm : IsBytes packet)
    (hmac : IsBytes g.macAddress) (hip : IsBytes g.ipAddress) :
    IsBytes (wr16 (wr32 (wr32 (tcpFixed g packet) 42
        (htonl (rdBe32 packet 38 + tcpDataLength packet))) 38 (htonl g.seq_num)) 46
        (htons 0x5010))
    ∧ ∀ j, j < 38 ∨ 48 ≤ j →
        wr16 (wr32 (wr32 (tcpFixed g packet) 42
          (htonl (rdBe32 packet 38 + tcpDataLength packet))) 38 (htonl g.seq_num)) 46
          (htons 0x5010) j = tcpFixed g packet j := by
  refine ⟨wr16_isBytes _ (wr32_isBytes _ (wr32_isBytes _
    (tcpFixed_isBytes g packet hm hmac hip) _ _) _ _) _ _, ?_⟩
  intro j hj
  simp only [wr16_apply, wr32_apply]
  simp (disch := omega) only [if_neg]

/-- The first frame of the `0x18` case carries valid checksums, and the buffer it leaves
holds the fixed fields outside the length and checksum fields. -/
theorem tcpPushFirst_valid (g g0 : Globals) (packet : Mem) (hm : IsBytes packet)
    (hmac : IsBytes g.macAddress) (hip : IsBytes g.ipAddress) :
    (tcpPushFirst g packet).frame = bytesAt (tcpPushFirst g packet).packet 0 54
    ∧ IsBytes (tcpPushFirst g packet).packet
    ∧ (etherIsIp g0 (Mem.ofList (tcpPushFirst g packet).frame)).1 = true
    ∧ rfc1071Checksum (tcpChecksumInput (tcpPushFirst g packet).frame) = 0
    ∧ ∀ j, (j < 38 ∨ 48 ≤ j) ∧ j ≠ 16 ∧ j ≠ 17 ∧ j ≠ 24 ∧ j ≠ 25 ∧ j ≠ 50 ∧ j ≠ 51 →
        (tcpPushFirst g packet).packet j = tcpFixed g packet j := by
  obtain ⟨hb, hk⟩ := tcpPushFirst_buffer g packet hm hmac hip
  have hF := tcpFixed_fields g packet
  have hv := tcpTransmit_valid g g0 _ 0 hb
    (by rw [hk 12 (by omega)]; exact hF.1)
    (by rw [hk 13 (by omega)]; exact hF.2.1)
    (by rw [hk 14 (by omega)]; exact hF.2.2.1)
    (by rw [hk 23 (by omega)]; exact hF.2.2.2.1)
    (by rw [hk 50 (by omega)]; exact hF.2.2.2.2.1)
    (by rw [hk 51 (by omega)]; exact hF.2.2.2.2.2.1)
    (by rw [hk 52 (by omega)]; exact hF.2.2.2.2.2.2.1)
    (by rw [hk 53 (by omega)]; exact hF.2.2.2.2.2.2.2)
    (by omega)
  obtain ⟨c1, c2, hP, -, -⟩ := tcpTransmit_stages g _ 0
    (show wr16 (wr32 (wr32 (tcpFixed g packet) 42
      (htonl (rdBe32 packet 38 + tcpDataLength packet))) 38 (htonl g.seq_num)) 46
      (htons 0x5010) 14 = 69 by rw [hk 14 (by omega)]; exact hF.2.2.1) (by omega)
  refine ⟨hv.1, hv.2.1, hv.2.2.1, hv.2.2.2, ?_⟩
  intro j hj
  show (tcpTransmit g _ 14 34 0).packet j = _
  rw [hP, wr16_same _ _ _ _ (by omega) (by omega), wr16_same _ _ _ _ (by omega) (by omega),
    wr16_same _ _ _ _ (by omega) (by omega), hk j hj.1]

/-- The buffer in which the scan starts. -/
theorem telnetStart_packet (g : Globals) (packet : Mem) (hm : IsBytes packet)
    (hmac : IsBytes g.macAddress) (hip : IsBytes g.ipAddress) :
    IsBytes (telnetStart g packet).packet
    ∧ (telnetStart g packet).packet 12 = 8 ∧ (telnetStart g packet).packet 13 = 0
    ∧ (telnetStart g packet).packet 14 = 69 ∧ (telnetStart g packet).packet 23 = 6
    ∧ (telnetStart g packet).packet 50 = 0 ∧ (telnetStart g packet).packet 51 = 0
    ∧ (telnetStart g packet).packet 52 = 0 ∧ (telnetStart g packet).packet 53 = 0
    ∧ ∀ j, 54 ≤ j → (telnetStart g packet).packet j = packet j := by
  obtain ⟨-, hb, -, -, hk⟩ := tcpPushFirst_valid g g packet hm hmac hip
  have hF := tcpFixed_fields g packet
  have e : ∀ j, j ≠ 24 → j ≠ 25 → j ≠ 46 → j ≠ 47 → j ≠ 50 → j ≠ 51 →
      (telnetStart g packet).packet j = (tcpPushFirst g packet).packet j := by
    intro j a b c d e f
    show wr16 (wr16 (wr16 (tcpPushFirst g packet).packet 24 0) 46 (htons 0x5018)) 50 0 j = _
    rw [wr16_same _ _ _ _ (by omega) (by omega), wr16_same _ _ _ _ (by omega) (by omega),
      wr16_same _ _ _ _ (by omega) (by omega)]
  refine ⟨wr16_isBytes _ (wr16_isBytes _ (wr16_isBytes _ hb _ _) _ _) _ _, ?_, ?_, ?_, ?_, ?_, ?_,
    ?_, ?_, ?_⟩
  · rw [e 12 (by omega) (by omega) (by omega) (by omega) (by omega) (by omega),
      hk 12 (by omega)]; exact hF.1
  · rw [e 13 (by omega) (by omega) (by omega) (by omega) (by omega) (by omega),
      hk 13 (by omega)]; exact hF.2.1
  · rw [e 14 (by omega) (by omega) (by omega) (by omega) (by omega) (by omega),
      hk 14 (by omega)]; exact hF.2.2.1
  · rw [e 23 (by omega) (by omega) (by omega) (by omega) (by omega) (by omega),
      hk 23 (by omega)]; exact hF.2.2.2.1
  · show wr16 (wr16 (wr16 (tcpPushFirst g packet).packet 24 0) 46 (htons 0x5018)) 50 0 50 = 0
    rw [wr16_lo]
  · show wr16 (wr16 (wr16 (tcpPushFirst g packet).packet 24 0) 46 (htons 0x5018)) 50 0 (50 + 1)
      = 0
    rw [wr16_hi]
  · rw [e 52 (by omega) (by omega) (by omega) (by omega) (by omega) (by omega),
      hk 52 (by omega)]; exact hF.2.2.2.2.2.2.1
  · rw [e 53 (by omega) (by omega) (by omega) (by omega) (by omega) (by omega),
      hk 53 (by omega)]; exact hF.2.2.2.2.2.2.2
  · intro j hj
    rw [e j (by omega) (by omega) (by omega) (by omega) (by omega) (by omega),
      hk j (by omega), tcpFixed_data g packet j hj]

/-- `sendTcpMsg` with flag `0x18` returns exactly when the scan ends, and then with the two
frames `tcpPushFirst` and `tcpPushSecond`. -/
theorem sendTcpMsg_push_some (g : Globals) (packet : Mem) (payload : List Nat) (pe : Bool)
    (l : Nat) (r : TcpSent) (hm : IsBytes packet)
    (h : sendTcpMsg g packet 0x18 payload pe l = some r) :
    ∃ s, telnetScanLoop 54 (tcpDataLength packet) 196608 (telnetStart g packet) = some s
      ∧ r.g = (tcpPushSecond g packet s).g ∧ r.packet = (tcpPushSecond g packet s).packet
      ∧ r.frames = [(tcpPushFirst g packet).frame, (tcpPushSecond g packet s).frame] := by
  rw [sendTcpMsg_push g packet 0x18 payload pe l rfl hm, tcpPushAck_eq] at h
  cases hs : telnetScanLoop 54 (tcpDataLength packet) 196608 (telnetStart g packet) with
  | none =>
    rw [hs] at h
    exact absurd h Option.noConfusion
  | some s =>
    rw [hs] at h
    have h2 := Option.some.inj h
    refine ⟨s, rfl, ?_, ?_, ?_⟩
    · rw [← h2]
    · rw [← h2]
    · rw [← h2]

/-- Both frames of the `0x18` case carry valid checksums when the data region is at most
1000 bytes long and the scan ends. -/
theorem sendTcpMsg_push_valid (g g0 : Globals) (packet : Mem) (payload : List Nat) (pe : Bool)
    (l : Nat) (r : TcpSent) (hm : IsBytes packet) (hmac : IsBytes g.macAddress)
    (hip : IsBytes g.ipAddress) (hdl : tcpDataLength packet ≤ 1000)
    (h : sendTcpMsg g packet 0x18 payload pe l = some r) :
    ∃ f1 f2, r.frames = [f1, f2]
      ∧ f1.length = 54 ∧ f2 = bytesAt r.packet 0 (54 + tcpDataLength packet)
      ∧ (etherIsIp g0 (Mem.ofList f1)).1 = true ∧ rfc1071Checksum (tcpChecksumInput f1) = 0
      ∧ (etherIsIp g0 (Mem.ofList f2)).1 = true ∧ rfc1071Checksum (tcpChecksumInput f2) = 0 := by
  obtain ⟨s, hs, -, hp, hf⟩ := sendTcpMsg_push_some g packet payload pe l r hm h
  obtain ⟨v1, -, v3, v4, -⟩ := tcpPushFirst_valid g g0 packet hm hmac hip
  obtain ⟨b, e12, e13, e14, e23, e50, e51, e52, e53, -⟩ := telnetStart_packet g packet hm hmac hip
  obtain ⟨k1, k2⟩ := telnetScanLoop_keeps 54 _ _ _ _ hs
  have hv := tcpTransmit_valid { (tcpPushFirst g packet).g with
      telnet_command := wr8 s.telnet_command (tcpDataLength packet) 0 } g0 s.packet
    (tcpDataLength packet) (k2 b)
    (by rw [k1 12 (by omega)]; exact e12) (by rw [k1 13 (by omega)]; exact e13)
    (by rw [k1 14 (by omega)]; exact e14) (by rw [k1 23 (by omega)]; exact e23)
    (by rw [k1 50 (by omega)]; exact e50) (by rw [k1 51 (by omega)]; exact e51)
    (by rw [k1 52 (by omega)]; exact e52) (by rw [k1 53 (by omega)]; exact e53) hdl
  have hv2 : (tcpPushSecond g packet s).frame
        = bytesAt (tcpPushSecond g packet s).packet 0 (54 + tcpDataLength packet)
      ∧ IsBytes (tcpPushSecond g packet s).packet
      ∧ (etherIsIp g0 (Mem.ofList (tcpPushSecond g packet s).frame)).1 = true
      ∧ rfc1071Checksum (tcpChecksumInput (tcpPushSecond g packet s).frame) = 0 := by
    unfold tcpPushSecond
    exact hv
  refine ⟨(tcpPushFirst g packet).frame, (tcpPushSecond g packet s).frame, hf, ?_, ?_, v3, v4,
    hv2.2.2.1, hv2.2.2.2⟩
  · rw [v1, bytesAt_length]
  · rw [hp]
    exact hv2.1

/-- C22: checksums of the frames `sendTcpMsg` transmits.  For every byte-valued buffer and
byte-valued local MAC and IP address: for each flag among `0x01`, `0x02`, `0x10` and `0x12`
with no payload, `sendTcpMsg` returns and transmits one frame (54 bytes, 58 for `0x12`); for
flag `0x18`, whenever the received data region is shorter than 80 bytes and the call returns
(the scan ends), it transmits two frames, of 54 bytes and of 54 bytes plus the data length.
Each of these frames is accepted by `etherIsIp` (EtherType 0x0800 and the IP header sum
finalises to 0), and its RFC 1071 checksum over `tcpChecksumInput`, the pseudo-header (source
IP, destination IP, zero, protocol 6, TCP length) followed by the TCP header and everything
after it, is 0. -/
theorem tcp_checksums_valid (g g0 : Globals) (packet : Mem) (payload : List Nat) (pe : Bool)
    (l : Nat) (hm : IsBytes packet) (hmac : IsBytes g.macAddress)
    (hip : IsBytes g.ipAddress) :
    (∀ flag, flag = 0x01 ∨ flag = 0x02 ∨ flag = 0x10 ∨ flag = 0x12 →
      ∃ r f, sendTcpMsg g packet flag payload true l = some r
        ∧ r.frames = [f] ∧ f.length = 54 + (if flag = 0x12 then 4 else 0)
        ∧ (etherIsIp g0 (Mem.ofList f)).1 = true
        ∧ rfc1071Checksum (tcpChecksumInput f) = 0)
    ∧ (∀ r, tcpDataLength packet < 80 → sendTcpMsg g packet 0x18 payload pe l = some r →
      ∃ f1 f2, r.frames = [f1, f2]
        ∧ f1.length = 54 ∧ f2.length = 54 + tcpDataLength packet
        ∧ (etherIsIp g0 (Mem.ofList f1)).1 = true
        ∧ rfc1071Checksum (tcpChecksumInput f1) = 0
        ∧ (etherIsIp g0 (Mem.ofList f2)).1 = true
        ∧ rfc1071Checksum (tcpChecksumInput f2) = 0) := by
  constructor
  · intro flag hflag
    obtain ⟨r, f, h1, h2, h3, h4, h5⟩ := sendTcpMsg_valid g g0 packet flag payload l hm hmac hip
      hflag
    refine ⟨r, f, h1, h2, ?_, h4, h5⟩
    rw [h3, bytesAt_length]
  · intro r hdl h
    obtain ⟨f1, f2, h1, h2, h3, h4, h5, h6, h7⟩ := sendTcpMsg_push_valid g g0 packet payload pe l
      r hm hmac hip (by omega) h
    refine ⟨f1, f2, h1, h2, ?_, h4, h5, h6, h7⟩
    rw [h3, bytesAt_length]

set_option maxRecDepth 8000 in
theorem tcp_checksums_valid_witness :
    IsBytes (Mem.ofList exampleData) ∧ IsBytes exampleGlobals.macAddress
    ∧ IsBytes exampleGlobals.ipAddress
    ∧ (∃ r f, sendTcpMsg exampleGlobals (Mem.ofList exampleData) 0x12 [] true 0 = some r
        ∧ r.frames = [f] ∧ f.length = 54 + (if 0x12 = 0x12 then 4 else 0)
        ∧ (etherIsIp exampleGlobals (Mem.ofList f)).1 = true
        ∧ rfc1071Checksum (tcpChecksumInput f) = 0)
    ∧ tcpDataLength (Mem.ofList exampleData) < 80
    ∧ (∃ r, sendTcpMsg exampleGlobals (Mem.ofList exampleData) 0x18 [] true 0 = some r
        ∧ ∃ f1 f2, r.frames = [f1, f2]
        ∧ f1.length = 54 ∧ f2.length = 54 + tcpDataLength (Mem.ofList exampleData)
        ∧ (etherIsIp exampleGlobals (Mem.ofList f1)).1 = true
        ∧ rfc1071Checksum (tcpChecksumInput f1) = 0
        ∧ (etherIsIp exampleGlobals (Mem.ofList f2)).1 = true
        ∧ rfc1071Checksum (tcpChecksumInput f2) = 0) :=
  ⟨ofList_isBytes _ (by decide), ofList_isBytes _ (by decide), ofList_isBytes _ (by decide),
    (tcp_checksums_valid exampleGlobals exampleGlobals (Mem.ofList exampleData) [] true 0
      (ofList_isBytes _ (by decide)) (ofList_isBytes _ (by decide))
      (ofList_isBytes _ (by decide))).1 0x12 (by decide),
    by decide,
    (Option.isSome_iff_exists.1 (by decide : (sendTcpMsg exampleGlobals (Mem.ofList exampleData)
      0x18 [] true 0).isSome = true)).elim
      (fun r hr => ⟨r, hr, (tcp_checksums_valid exampleGlobals exampleGlobals (Mem.ofList exampleData)
        [] true 0 (ofList_isBytes _ (by decide)) (ofList_isBytes _ (by decide))
        (ofList_isBytes _ (by decide))).2 r (by decide) hr⟩)⟩

/-! ## Telnet negotiation -/

/-- Without wrap-around of the `uint8_t` index (at most 253 data bytes), an iteration of the
scan does not move the index back, and moves it by at most 3. -/
theorem telnetScanBody_index (o dl : Nat) (s : TelnetScan) (hi : s.i < dl) (hdl : dl ≤ 253) :
    s.i ≤ (telnetScanBody o s).i ∧ (telnetScanBody o s).i ≤ s.i + 3 := by
  unfold telnetScanBody
  split_ifs
  · exact ⟨Nat.le_refl _, by omega⟩
  · show s.i ≤ (s.i + 3) % 256 ∧ (s.i + 3) % 256 ≤ s.i + 3
    omega
  · show s.i ≤ (s.i + 1) % 256 ∧ (s.i + 1) % 256 ≤ s.i + 3
    omega

/-- An iteration stores nothing at or after the index it moves to. -/
theorem telnetScanBody_ahead (o dl : Nat) (s : TelnetScan) (hi : s.i < dl) (hdl : dl ≤ 253)
    (j : Nat) (hj : o + (telnetScanBody o s).i ≤ j) : (telnetScanBody o s).packet j = s.packet j := by
  by_cases h1 : s.packet (o + s.i) = 0xFF
  · by_cases h2 : s.packet (o + (s.i + 1)) = 0xFA
    · rw [telnetScanBody, if_pos h1, if_pos h2]
    · have e : (telnetScanBody o s).i = (s.i + 3) % 256 := by
        rw [telnetScanBody, if_pos h1, if_neg h2]
      rw [e] at hj
      exact telnetScanBody_packet o s j (by omega)
  · rw [telnetScanBody, if_neg h1]

/-- Without wrap-around, the scan stores nothing at or before the current index. -/
theorem telnetScanLoop_frozen (o dl : Nat) (hdl : dl ≤ 253) (fuel : Nat) (s s' : TelnetScan)
    (h : telnetScanLoop o dl fuel s = some s') :
    ∀ j, j ≤ o + s.i → s'.packet j = s.packet j := by
  induction fuel generalizing s with
  | zero => exact absurd h Option.noConfusion
  | succ n ih =>
    rw [telnetScanLoop] at h
    by_cases hi : s.i < dl
    · rw [if_pos hi] at h
      have hx := telnetScanBody_index o dl s hi hdl
      intro j hj
      rw [ih _ h j (by omega), telnetScanBody_packet o s j (by omega)]
    · rw [if_neg hi] at h
      rw [← Option.some.inj h]
      exact fun _ _ => rfl

/-- The states the scan passes through: the index has not moved back, the buffer from the
index on is as at the start, and the scan ends from them as it ends from the start. -/
theorem telnetScanStates_spec (o dl : Nat) (hdl : dl ≤ 253) (fuel : Nat) (t s : TelnetScan)
    (hs : s ∈ telnetScanStates o dl fuel t) :
    t.i ≤ s.i ∧ s.i < dl ∧ (∀ j, o + s.i ≤ j → s.packet j = t.packet j)
      ∧ ∀ s', telnetScanLoop o dl fuel t = some s' →
          ∃ fuel', telnetScanLoop o dl fuel' s = some s' := by
  induction fuel generalizing t with
  | zero =>
    rw [telnetScanStates] at hs
    exact absurd hs (List.not_mem_nil _)
  | succ n ih =>
    rw [telnetScanStates] at hs
    by_cases hi : t.i < dl
    · rw [if_pos hi] at hs
      rcases List.mem_cons.1 hs with e | hmem
      · rw [e]
        exact ⟨Nat.le_refl _, hi, fun _ _ => rfl, fun s' h' => ⟨n + 1, h'⟩⟩
      · obtain ⟨a, b, c, d⟩ := ih _ hmem
        have hx := telnetScanBody_index o dl t hi hdl
        refine ⟨by omega, b, ?_, ?_⟩
        · intro j hj
          rw [c j hj, telnetScanBody_ahead o dl t hi hdl j (by omega)]
        · intro s' h'
          rw [telnetScanLoop, if_pos hi] at h'
          exact d s' h'
    · rw [if_neg hi] at hs
      exact absurd hs (List.not_mem_nil _)

/-- What the scan leaves of an IAC triple at the current index: the IAC byte, the store of
the inner `switch` at the command byte, and the option byte. -/
theorem telnetScanLoop_triple (o dl : Nat) (hdl : dl ≤ 253) (fuel : Nat) (s s' : TelnetScan)
    (hi : s.i < dl) (h1 : s.packet (o + s.i) = 0xFF) (h2 : s.packet (o + (s.i + 1)) ≠ 0xFA)
    (h : telnetScanLoop o dl fuel s = some s') :
    s'.packet (o + s.i) = 0xFF
    ∧ s'.packet (o + (s.i + 1))
        = telnetSwitch s.packet (o + (s.i + 1)) (s.packet (o + (s.i + 2))) (o + (s.i + 1))
    ∧ s'.packet (o + (s.i + 2)) = s.packet (o + (s.i + 2)) := by
  cases fuel with
  | zero => exact absurd h Option.noConfusion
  | succ n =>
    rw [telnetScanLoop, if_pos hi] at h
    have e : telnetScanBody o s
        = { s with
            packet := telnetSwitch s.packet (o + (s.i + 1)) (s.packet (o + (s.i + 2)))
            i := (s.i + 3) % 256 } := by
      rw [telnetScanBody, if_pos h1, if_neg h2]
    rw [e] at h
    have hf := telnetScanLoop_frozen o dl hdl n _ s' h
    have hi3 : (s.i + 3) % 256 = s.i + 3 := Nat.mod_eq_of_lt (by omega)
    refine ⟨?_, ?_, ?_⟩
    · rw [hf _ (by show o + s.i ≤ o + (s.i + 3) % 256; omega)]
      show telnetSwitch s.packet (o + (s.i + 1)) (s.packet (o + (s.i + 2))) (o + s.i) = 255
      rw [telnetSwitch_other _ _ _ _ (by omega), h1]
    · rw [hf _ (by show o + (s.i + 1) ≤ o + (s.i + 3) % 256; omega)]
    · rw [hf _ (by show o + (s.i + 2) ≤ o + (s.i + 3) % 256; omega)]
      show telnetSwitch s.packet (o + (s.i + 1)) (s.packet (o + (s.i + 2))) (o + (s.i + 2)) = _
      rw [telnetSwitch_other _ _ _ _ (by omega)]

/-- The buffer in which the scan starts holds the received data region, behind a 20-byte IP
header. -/
theorem telnetStart_data (g : Globals) (packet : Mem) :
    (telnetStart g packet).packet 14 = 69
    ∧ ∀ j, 54 ≤ j → (telnetStart g packet).packet j = packet j := by
  have hF := tcpFixed_fields g packet
  have hk : ∀ j, j < 38 ∨ 48 ≤ j →
      wr16 (wr32 (wr32 (tcpFixed g packet) 42
        (htonl (rdBe32 packet 38 + tcpDataLength packet))) 38 (htonl g.seq_num)) 46
        (htons 0x5010) j = tcpFixed g packet j := by
    intro j hj
    simp only [wr16_apply, wr32_apply]
    simp (disch := omega) only [if_neg]
  obtain ⟨c1, c2, hP, -, -⟩ := tcpTransmit_stages g _ 0
    (show wr16 (wr32 (wr32 (tcpFixed g packet) 42
      (htonl (rdBe32 packet 38 + tcpDataLength packet))) 38 (htonl g.seq_num)) 46
      (htons 0x5010) 14 = 69 by rw [hk 14 (by omega)]; exact hF.2.2.1) (by omega)
  have e : ∀ j, (j < 38 ∨ 48 ≤ j) ∧ j ≠ 16 ∧ j ≠ 17 ∧ j ≠ 24 ∧ j ≠ 25 ∧ j ≠ 50 ∧ j ≠ 51 →
      (telnetStart g packet).packet j = tcpFixed g packet j := by
    intro j hj
    show wr16 (wr16 (wr16 (tcpTransmit g _ 14 34 0).packet 24 0) 46 (htons 0x5018)) 50 0 j = _
    rw [hP, wr16_same _ _ _ _ (by omega) (by omega), wr16_same _ _ _ _ (by omega) (by omega),
      wr16_same _ _ _ _ (by omega) (by omega), wr16_same _ _ _ _ (by omega) (by omega),
      wr16_same _ _ _ _ (by omega) (by omega), wr16_same _ _ _ _ (by omega) (by omega),
      hk j hj.1]
  refine ⟨?_, ?_⟩
  · rw [e 14 (by omega)]
    exact hF.2.2.1
  · intro j hj
    rw [e j (by omega), tcpFixed_data g packet j hj]

/-- What `sendTcpMsg` with flag `0x18` returns when the scan ends in the state `s`: the
buffer of `s` outside the length and checksum fields, the two frames, the command buffer of
`s` with a NUL stored at index `data_length`, and the flag `command_pending` as it was. -/
theorem sendTcpMsg_push_result (g : Globals) (packet : Mem) (payload : List Nat) (pe : Bool)
    (l : Nat) (r : TcpSent) (hm : IsBytes packet) (hdl : tcpDataLength packet < 65482)
    (h : sendTcpMsg g packet 0x18 payload pe l = some r) :
    ∃ s, telnetScanLoop 54 (tcpDataLength packet) 196608 (telnetStart g packet) = some s
      ∧ (∀ j, 54 ≤ j → r.packet j = s.packet j)
      ∧ r.frames = [(tcpPushFirst g packet).frame,
          bytesAt r.packet 0 (54 + tcpDataLength packet)]
      ∧ r.g.telnet_command = wr8 s.telnet_command (tcpDataLength packet) 0
      ∧ r.g.command_pending = g.command_pending := by
  obtain ⟨s, hs, hg, hp, hf⟩ := sendTcpMsg_push_some g packet payload pe l r hm h
  obtain ⟨k1, -⟩ := telnetScanLoop_keeps 54 _ _ _ _ hs
  have h14 : s.packet 14 = 69 := by
    rw [k1 14 (by omega)]
    exact (telnetStart_data g packet).1
  obtain ⟨c1, c2, hP, hF, -⟩ := tcpTransmit_stages
    { (tcpPushFirst g packet).g with
      telnet_command := wr8 s.telnet_command (tcpDataLength packet) 0 }
    s.packet (tcpDataLength packet) h14 hdl
  obtain ⟨x, hx⟩ := tcpTransmit_g
    { (tcpPushFirst g packet).g with
      telnet_command := wr8 s.telnet_command (tcpDataLength packet) 0 }
    s.packet 14 34 (tcpDataLength packet)
  obtain ⟨y, hy⟩ := tcpTransmit_g g
    (wr16 (wr32 (wr32 (tcpFixed g packet) 42 (htonl (rdBe32 packet 38 + tcpDataLength packet)))
      38 (htonl g.seq_num)) 46 (htons 0x5010)) 14 34 0
  have hP2 : (tcpPushSecond g packet s).packet
      = wr16 (wr16 (wr16 s.packet 16 (htons (40 + tcpDataLength packet))) 24 c1) 50 c2 := hP
  have hF2 : (tcpPushSecond g packet s).frame
      = bytesAt (tcpPushSecond g packet s).packet 0 (54 + tcpDataLength packet) := hF
  have hx2 : (tcpPushSecond g packet s).g
      = { ({ (tcpPushFirst g packet).g with
            telnet_command := wr8 s.telnet_command (tcpDataLength packet) 0 } : Globals) with
          sum := x } := hx
  have hy2 : (tcpPushFirst g packet).g = { g with sum := y } := hy
  refine ⟨s, hs, ?_, ?_, ?_, ?_⟩
  · intro j hj
    rw [hp, hP2, wr16_same _ _ _ _ (by omega) (by omega), wr16_same _ _ _ _ (by omega) (by omega),
      wr16_same _ _ _ _ (by omega) (by omega)]
  · rw [hf, hF2, hp]
  · rw [hg, hx2]
  · rw [hg, hx2, hy2]

/-- What the reply to a PSH|ACK segment of at most 253 data bytes holds in place of an IAC
triple the scan reaches at index `i`: the IAC byte, the store of the inner `switch`, and the
option byte. -/
theorem telnet_reply_triple (g : Globals) (packet : Mem) (payload : List Nat) (pe : Bool)
    (l : Nat) (r : TcpSent) (hm : IsBytes packet) (hdl : tcpDataLength packet ≤ 253)
    (h : sendTcpMsg g packet 0x18 payload pe l = some r) (i : Nat)
    (hi : i ∈ telnetReached g packet) (h1 : packet (54 + i) = 0xFF)
    (h2 : packet (54 + i + 1) ≠ 0xFA) :
    i < tcpDataLength packet
    ∧ r.packet (54 + i) = 0xFF ∧ r.packet (54 + i + 2) = packet (54 + i + 2)
    ∧ ∃ m : Mem, m (54 + i + 1) = packet (54 + i + 1)
        ∧ r.packet (54 + i + 1) = telnetSwitch m (54 + i + 1) (packet (54 + i + 2)) (54 + i + 1) := by
  obtain ⟨s', hs', hp, -, -, -⟩ := sendTcpMsg_push_result g packet payload pe l r hm (by omega) h
  obtain ⟨s, hmem, rfl⟩ := List.mem_map.1 hi
  obtain ⟨-, hlt, hahead, hend⟩ := telnetScanStates_spec 54 _ hdl _ _ _ hmem
  obtain ⟨fuel', hloop⟩ := hend s' hs'
  have hd := (telnetStart_data g packet).2
  have e0 : s.packet (54 + s.i) = packet (54 + s.i) := by
    rw [hahead _ (by omega), hd _ (by omega)]
  have e1 : s.packet (54 + (s.i + 1)) = packet (54 + s.i + 1) := by
    rw [hahead _ (by omega), hd _ (by omega)]
    rfl
  have e2 : s.packet (54 + (s.i + 2)) = packet (54 + s.i + 2) := by
    rw [hahead _ (by omega), hd _ (by omega)]
    rfl
  obtain ⟨t0, t1, t2⟩ := telnetScanLoop_triple 54 _ hdl fuel' s s' hlt (by rw [e0]; exact h1)
    (by rw [e1]; exact h2) hloop
  refine ⟨hlt, ?_, ?_, s.packet, e1, ?_⟩
  · rw [hp _ (by omega)]
    exact t0
  · rw [hp _ (by omega), ← e2]
    exact t2
  · rw [hp _ (by omega), ← e2]
    exact t1

/-- C23: telnet negotiation table.  For every byte-valued buffer holding a received PSH|ACK
segment with at most 253 data bytes (so that the `uint8_t` index of the scan does not wrap)
on which `sendTcpMsg` with flag `0x18` returns, the second frame transmitted is the first
54 + data length bytes of the buffer, and for every index `i` at which the scan enters its
loop body and finds an IAC byte (0xFF at offset 54 + i of the received buffer), a command
byte `cmd` other than 0xFA and an option byte among 0x03, 0x05, 0x18, 0x1F, 0x20 and 0x21,
the buffer returned keeps the IAC byte and the option byte and holds as command byte DONT
(0xFE) when `cmd` is WILL (0xFB) or WONT (0xFC), and WONT (0xFC) otherwise. -/
theorem telnet_negotiation (g : Globals) (packet : Mem) (payload : List Nat) (pe : Bool)
    (l : Nat) (r : TcpSent) (hm : IsBytes packet) (hdl : tcpDataLength packet ≤ 253)
    (h : sendTcpMsg g packet 0x18 payload pe l = some r) :
    r.frames.drop 1 = [bytesAt r.packet 0 (54 + tcpDataLength packet)]
    ∧ ∀ i, i ∈ telnetReached g packet → packet (54 + i) = 0xFF → packet (54 + i + 1) ≠ 0xFA →
        (packet (54 + i + 2) = 0x03 ∨ packet (54 + i + 2) = 0x05 ∨ packet (54 + i + 2) = 0x18
          ∨ packet (54 + i + 2) = 0x1F ∨ packet (54 + i + 2) = 0x20
          ∨ packet (54 + i + 2) = 0x21) →
        i < tcpDataLength packet
        ∧ r.packet (54 + i) = 0xFF
        ∧ r.packet (54 + i + 1)
            = (if packet (54 + i + 1) = 0xFB ∨ packet (54 + i + 1) = 0xFC then 0xFE else 0xFC)
        ∧ r.packet (54 + i + 2) = packet (54 + i + 2) := by
  obtain ⟨s', -, -, hf, -, -⟩ := sendTcpMsg_push_result g packet payload pe l r hm (by omega) h
  refine ⟨by rw [hf]; rfl, ?_⟩
  intro i hi h1 h2 hopt
  obtain ⟨a, b, c, m, e, d⟩ := telnet_reply_triple g packet payload pe l r hm hdl h i hi h1 h2
  refine ⟨a, b, ?_, c⟩
  rw [d, telnetSwitch_six m _ _ (by rw [e]; exact hm _) hopt, e]

/-- C24 (evaluation at a DO linemode request): the data region of `exampleNegotiation`
holds at index 3 the triple IAC (0xFF), DO (0xFD), linemode (0x22); the reply of `sendTcpMsg`
holds there IAC, WILL (0xFB), linemode: the command byte for a command other than WILL and
WONT is WILL, not WONT (0xFC). -/
theorem telnet_linemode_do :
    bytesAt (Mem.ofList exampleNegotiation) 57 3 = [0xFF, 0xFD, 0x22]
    ∧ 3 ∈ telnetReached exampleGlobals (Mem.ofList exampleNegotiation)
    ∧ (sendTcpMsg exampleGlobals (Mem.ofList exampleNegotiation) 0x18 [] true 0).map
        (fun r => bytesAt r.packet 57 3) = some [0xFF, 0xFB, 0x22] := by
  decide

/-- C24: telnet linemode asymmetry.  For every byte-valued buffer holding a received
PSH|ACK segment with at most 253 data bytes on which `sendTcpMsg` with flag `0x18` returns,
and every index `i` at which the scan enters its loop body and finds an IAC byte, a command
byte `cmd` other than 0xFA and the option byte 0x22, the buffer returned keeps the IAC byte
and the option byte and holds as command byte DO (0xFD) when `cmd` is WILL (0xFB) or WONT
(0xFC), and WILL (0xFB) otherwise. -/
theorem telnet_linemode (g : Globals) (packet : Mem) (payload : List Nat) (pe : Bool)
    (l : Nat) (r : TcpSent) (hm : IsBytes packet) (hdl : tcpDataLength packet ≤ 253)
    (h : sendTcpMsg g packet 0x18 payload pe l = some r) :
    r.frames.drop 1 = [bytesAt r.packet 0 (54 + tcpDataLength packet)]
    ∧ ∀ i, i ∈ telnetReached g packet → packet (54 + i) = 0xFF → packet (54 + i + 1) ≠ 0xFA →
        packet (54 + i + 2) = 0x22 →
        i < tcpDataLength packet
        ∧ r.packet (54 + i) = 0xFF
        ∧ r.packet (54 + i + 1)
            = (if packet (54 + i + 1) = 0xFB ∨ packet (54 + i + 1) = 0xFC then 0xFD else 0xFB)
        ∧ r.packet (54 + i + 2) = 0x22 := by
  obtain ⟨s', -, -, hf, -, -⟩ := sendTcpMsg_push_result g packet payload pe l r hm (by omega) h
  refine ⟨by rw [hf]; rfl, ?_⟩
  intro i hi h1 h2 hopt
  obtain ⟨a, b, c, m, e, d⟩ := telnet_reply_triple g packet payload pe l r hm hdl h i hi h1 h2
  refine ⟨a, b, ?_, by rw [c, hopt]⟩
  rw [d, hopt, telnetSwitch_linemode m _ (by rw [e]; exact hm _), e]

set_option maxRecDepth 8000 in
theorem telnet_negotiation_witness :
    IsBytes (Mem.ofList exampleNegotiation)
    ∧ tcpDataLength (Mem.ofList exampleNegotiation) ≤ 253
    ∧ 0 ∈ telnetReached exampleGlobals (Mem.ofList exampleNegotiation)
    ∧ bytesAt (Mem.ofList exampleNegotiation) 54 3 = [0xFF, 0xFB, 0x03]
    ∧ ∃ r, sendTcpMsg exampleGlobals (Mem.ofList exampleNegotiation) 0x18 [] true 0 = some r
        ∧ 0 < tcpDataLength (Mem.ofList exampleNegotiation)
        ∧ r.packet (54 + 0) = 0xFF
        ∧ r.packet (54 + 0 + 1)
            = (if Mem.ofList exampleNegotiation (54 + 0 + 1) = 0xFB
                ∨ Mem.ofList exampleNegotiation (54 + 0 + 1) = 0xFC then 0xFE else 0xFC)
        ∧ r.packet (54 + 0 + 2) = Mem.ofList exampleNegotiation (54 + 0 + 2) :=
  ⟨ofList_isBytes _ (by decide), by decide, by decide, by decide,
    (Option.isSome_iff_exists.1 (by decide : (sendTcpMsg exampleGlobals
      (Mem.ofList exampleNegotiation) 0x18 [] true 0).isSome = true)).elim
      (fun r hr => ⟨r, hr, (telnet_negotiation exampleGlobals (Mem.ofList exampleNegotiation)
        [] true 0 r (ofList_isBytes _ (by decide)) (by decide) hr).2 0 (by decide) (by decide)
        (by decide) (Or.inl (by decide))⟩)⟩

set_option maxRecDepth 8000 in
theorem telnet_linemode_witness :
    IsBytes (Mem.ofList exampleNegotiation)
    ∧ tcpDataLength (Mem.ofList exampleNegotiation) ≤ 253
    ∧ 3 ∈ telnetReached exampleGlobals (Mem.ofList exampleNegotiation)
    ∧ bytesAt (Mem.ofList exampleNegotiation) 57 3 = [0xFF, 0xFD, 0x22]
    ∧ ∃ r, sendTcpMsg exampleGlobals (Mem.ofList exampleNegotiation) 0x18 [] true 0 = some r
        ∧ 3 < tcpDataLength (Mem.ofList exampleNegotiation)
        ∧ r.packet (54 + 3) = 0xFF
        ∧ r.packet (54 + 3 + 1)
            = (if Mem.ofList exampleNegotiation (54 + 3 + 1) = 0xFB
                ∨ Mem.ofList exampleNegotiation (54 + 3 + 1) = 0xFC then 0xFD else 0xFB)
        ∧ r.packet (54 + 3 + 2) = 0x22 :=
  ⟨ofList_isBytes _ (by decide), by decide, by decide, by decide,
    (Option.isSome_iff_exists.1 (by decide : (sendTcpMsg exampleGlobals
      (Mem.ofList exampleNegotiation) 0x18 [] true 0).isSome = true)).elim
      (fun r hr => ⟨r, hr, (telnet_linemode exampleGlobals (Mem.ofList exampleNegotiation)
        [] true 0 r (ofList_isBytes _ (by decide)) (by decide) hr).2 3 (by decide) (by decide)
        (by decide) (by decide)⟩)⟩

/-! ## Telnet command buffer -/

/-- The globals `sendTcpMsg` with flag `0x18` leaves when the scan ends in the state `s`: the
command buffer of `s` with a NUL stored at index `data_length`, and the flag
`command_pending` as it was. -/
theorem sendTcpMsg_push_globals (g : Globals) (packet : Mem) (payload : List Nat) (pe : Bool)
    (l : Nat) (r : TcpSent) (hm : IsBytes packet)
    (h : sendTcpMsg g packet 0x18 payload pe l = some r) :
    ∃ s, telnetScanLoop 54 (tcpDataLength packet) 196608 (telnetStart g packet) = some s
      ∧ r.g.telnet_command = wr8 s.telnet_command (tcpDataLength packet) 0
      ∧ r.g.command_pending = g.command_pending := by
  obtain ⟨s, hs, hg, -, -⟩ := sendTcpMsg_push_some g packet payload pe l r hm h
  obtain ⟨x, hx⟩ := tcpTransmit_g
    { (tcpPushFirst g packet).g with
      telnet_command := wr8 s.telnet_command (tcpDataLength packet) 0 }
    s.packet 14 34 (tcpDataLength packet)
  obtain ⟨y, hy⟩ := tcpTransmit_g g
    (wr16 (wr32 (wr32 (tcpFixed g packet) 42 (htonl (rdBe32 packet 38 + tcpDataLength packet)))
      38 (htonl g.seq_num)) 46 (htons 0x5010)) 14 34 0
  have hx2 : (tcpPushSecond g packet s).g
      = { ({ (tcpPushFirst g packet).g with
            telnet_command := wr8 s.telnet_command (tcpDataLength packet) 0 } : Globals) with
          sum := x } := hx
  have hy2 : (tcpPushFirst g packet).g = { g with sum := y } := hy
  refine ⟨s, hs, ?_, ?_⟩
  · rw [hg, hx2]
  · rw [hg, hx2, hy2]

/-- The scan stores into `telnet_command` at no index above `data_length`. -/
theorem telnetScanLoop_command (o dl : Nat) (fuel : Nat) (s s1 : TelnetScan)
    (h : telnetScanLoop o dl fuel s = some s1) (j : Nat) (hj : dl < j) :
    s1.telnet_command j = s.telnet_command j := by
  induction fuel generalizing s with
  | zero => exact absurd h Option.noConfusion
  | succ n ih =>
    rw [telnetScanLoop] at h
    by_cases hi : s.i < dl
    · rw [if_pos hi] at h
      rw [ih _ h]
      unfold telnetScanBody
      split_ifs
      · rfl
      · rfl
      · show wr8 s.telnet_command ((s.i + 1) % 256) _ j = _
        rw [wr8_apply, if_neg (by omega)]
    · rw [if_neg hi] at h
      rw [← Option.some.inj h]

/-- With a flag other than `0x18`, `sendTcpMsg` leaves `telnet_command` as it is. -/
theorem sendTcpMsg_command (g : Globals) (packet : Mem) (flag : Nat) (payload : List Nat)
    (pe : Bool) (l : Nat) (r : TcpSent) (hflag : flag % 256 ≠ 0x18)
    (h : sendTcpMsg g packet flag payload pe l = some r) :
    r.g.telnet_command = g.telnet_command := by
  unfold sendTcpMsg at h
  lift_lets at h
  extract_lets flag1 initial_id m1 m2 ip m3 data_length m4 m5 m6 m7 m8 m9 m10 tcp data_length1
    m11 m12 m13 m14 m15 packet_seq sw at h
  rw [if_neg hflag] at h
  cases hp : tcpPayload payload pe (tcp + 20) sw with
  | none =>
    rw [hp] at h
    exact absurd h Option.noConfusion
  | some p =>
    rw [hp] at h
    have h3 := Option.some.inj h
    obtain ⟨x, hx⟩ := tcpTransmit_g { g with seq_num := p.2.1 } p.1 ip tcp p.2.2
    rw [← h3]
    show (tcpTransmit { g with seq_num := p.2.1 } p.1 ip tcp p.2.2).g.telnet_command = _
    rw [hx]

/-- The stores of `sendTcpMsg` into `telnet_command` stay inside the 80 bytes of the array
for the flags `0x01`, `0x02`, `0x10` and `0x12` (no store) and, when the data region has
fewer than 80 bytes, for the flag `0x18`. -/
theorem sendTcpMsg_inside (g : Globals) (packet : Mem) (flag : Nat) (payload : List Nat)
    (pe : Bool) (l : Nat) (r : TcpSent) (hm : IsBytes packet)
    (hflag : flag = 0x01 ∨ flag = 0x02 ∨ flag = 0x10 ∨ flag = 0x12
      ∨ (flag = 0x18 ∧ tcpDataLength packet < 80))
    (h : sendTcpMsg g packet flag payload pe l = some r) (j : Nat) (hj : 80 ≤ j) :
    r.g.telnet_command j = g.telnet_command j := by
  rcases hflag with hf | hf | hf | hf | ⟨hf, hdl⟩
  · rw [sendTcpMsg_command g packet flag payload pe l r (by rw [hf]; decide) h]
  · rw [sendTcpMsg_command g packet flag payload pe l r (by rw [hf]; decide) h]
  · rw [sendTcpMsg_command g packet flag payload pe l r (by rw [hf]; decide) h]
  · rw [sendTcpMsg_command g packet flag payload pe l r (by rw [hf]; decide) h]
  · rw [hf] at h
    obtain ⟨s, hs, ht, -⟩ := sendTcpMsg_push_globals g packet payload pe l r hm h
    obtain ⟨y, hy⟩ := tcpTransmit_g g
      (wr16 (wr32 (wr32 (tcpFixed g packet) 42 (htonl (rdBe32 packet 38 + tcpDataLength packet)))
        38 (htonl g.seq_num)) 46 (htons 0x5010)) 14 34 0
    have hy2 : (tcpPushFirst g packet).g = { g with sum := y } := hy
    rw [ht, wr8_apply, if_neg (by omega),
      telnetScanLoop_command 54 _ _ _ _ hs j (by omega)]
    show (tcpPushFirst g packet).g.telnet_command j = _
    rw [hy2]

/-- C25 (divergence): the pending-command flag is not set.  For every byte-valued buffer
whose data region has fewer than 80 bytes and on which `sendTcpMsg` with flag `0x18`
returns, whatever the data region holds: no cell of `telnet_command` at index 80 or above is
changed (every store is inside the array), and `telnet_command_recv()` returns after the
call what it returned before it: false from start-up on, `command_pending` being
initialised to false and assigned by no other function than `clear_command_recv`. -/
theorem telnet_command_not_flagged (g : Globals) (packet : Mem) (payload : List Nat)
    (pe : Bool) (l : Nat) (r : TcpSent) (hm : IsBytes packet)
    (hdl : tcpDataLength packet < 80)
    (h : sendTcpMsg g packet 0x18 payload pe l = some r) :
    (∀ j, 80 ≤ j → r.g.telnet_command j = g.telnet_command j)
    ∧ telnet_command_recv r.g = telnet_command_recv g
    ∧ telnet_command_recv (clear_command_recv r.g) = false := by
  obtain ⟨s, -, -, hc⟩ := sendTcpMsg_push_globals g packet payload pe l r hm h
  exact ⟨sendTcpMsg_inside g packet 0x18 payload pe l r hm
    (Or.inr (Or.inr (Or.inr (Or.inr ⟨rfl, hdl⟩)))) h, hc, rfl⟩

set_option maxRecDepth 8000 in
theorem telnet_command_not_flagged_witness :
    IsBytes (Mem.ofList exampleData)
    ∧ bytesAt (Mem.ofList exampleData) 54 4 = [0x68, 0x69, 13, 10]
    ∧ tcpDataLength (Mem.ofList exampleData) = 4
    ∧ telnet_command_recv exampleGlobals = false
    ∧ (sendTcpMsg exampleGlobals (Mem.ofList exampleData) 0x18 [] true 0).map
        (fun r => bytesAt r.g.telnet_command 0 5) = some [0, 0x68, 0x69, 13, 0]
    ∧ ∃ r, sendTcpMsg exampleGlobals (Mem.ofList exampleData) 0x18 [] true 0 = some r
        ∧ telnet_command_recv r.g = telnet_command_recv exampleGlobals
        ∧ telnet_command_recv (clear_command_recv r.g) = false :=
  ⟨ofList_isBytes _ (by decide), by decide, by decide, by decide, by decide,
    (Option.isSome_iff_exists.1 (by decide : (sendTcpMsg exampleGlobals
      (Mem.ofList exampleData) 0x18 [] true 0).isSome = true)).elim
      (fun r hr => ⟨r, hr, (telnet_command_not_flagged exampleGlobals (Mem.ofList exampleData)
        [] true 0 r (ofList_isBytes _ (by decide)) (by decide) hr).2⟩)⟩

/-- C26 (divergence): the terminating NUL is stored at index `data_length`, which no test
keeps below 80.  For every byte-valued buffer on which `sendTcpMsg` with flag `0x18`
returns, the cell of `telnet_command` at index `data_length` (IP total length minus the two
header lengths) holds 0 after the call; with 80 data bytes or more that index is past the
80-byte array. -/
theorem telnet_command_nul_index (g : Globals) (packet : Mem) (payload : List Nat)
    (pe : Bool) (l : Nat) (r : TcpSent) (hm : IsBytes packet)
    (h : sendTcpMsg g packet 0x18 payload pe l = some r) :
    r.g.telnet_command (tcpDataLength packet) = 0 := by
  obtain ⟨s, -, ht, -⟩ := sendTcpMsg_push_globals g packet payload pe l r hm h
  rw [ht, wr8_apply, if_pos rfl]

set_option maxRecDepth 8000 in
theorem telnet_command_nul_index_witness :
    IsBytes (Mem.ofList exampleLongData)
    ∧ tcpDataLength (Mem.ofList exampleLongData) = 80
    ∧ ({ exampleGlobals with telnet_command := fun _ => 1 } : Globals).telnet_command 80 = 1
    ∧ ∃ r, sendTcpMsg { exampleGlobals with telnet_command := fun _ => 1 }
          (Mem.ofList exampleLongData) 0x18 [] true 0 = some r
        ∧ r.g.telnet_command (tcpDataLength (Mem.ofList exampleLongData)) = 0 :=
  ⟨ofList_isBytes _ (by decide), by decide, rfl,
    (Option.isSome_iff_exists.1 (by decide : (sendTcpMsg
      { exampleGlobals with telnet_command := fun _ => 1 }
      (Mem.ofList exampleLongData) 0x18 [] true 0).isSome = true)).elim
      (fun r hr => ⟨r, hr, telnet_command_nul_index
        { exampleGlobals with telnet_command := fun _ => 1 } (Mem.ofList exampleLongData)
        [] true 0 r (ofList_isBytes _ (by decide)) hr⟩)⟩

/-! ## Handlers, predicates and the network configuration -/

theorem networkConfig_of_sameConfig {g1 g2 : Globals} (h : sameConfig g1 g2) :
    networkConfig g2 = networkConfig g1 := by
  unfold sameConfig at h
  obtain ⟨a1, a2, a3, a4, a5, a6, -⟩ := h
  unfold networkConfig
  rw [a1, a2, a3, a4, a5, a6]

theorem etherSendUdpResponse_g (g : Globals) (packet : Mem) (udpData : Nat → Nat) (n : Nat) :
    ∃ s, (etherSendUdpResponse g packet udpData n).g = { g with sum := s } := by
  unfold etherSendUdpResponse
  exact ⟨_, rfl⟩

theorem etherSendArpRequest_g (g : Globals) (packet : Mem) (ip : Nat → Nat) :
    (etherSendArpRequest g packet ip).g = g := by
  unfold etherSendArpRequest
  rfl

theorem etherSendGratuitousArpResponse_g (g : Globals) (packet : Mem) (ip : Nat → Nat) :
    (etherSendGratuitousArpResponse g packet ip).g = g := by
  unfold etherSendGratuitousArpResponse
  rfl

/-- C31: no packet handler outside the DHCP client writes the network configuration.  For
every buffer and all arguments, the globals left by `etherSendArpResponse`,
`etherSendArpRequest`, `etherSendGratuitousArpResponse`, `etherSendPingResponse` and
`etherSendUdpResponse` hold the hardware address, IP address, subnet mask, gateway, DNS
server and lease time they held before the call.  So do the globals left by every call of
`sendTcpMsg` that returns, on a byte-valued buffer, with one of the flags `0x01`, `0x02`,
`0x10`, `0x12` (any payload and value of `payload_empty`) or with the flag `0x18` and a data
region of fewer than 80 bytes; such a call changes no cell of `telnet_command` at index 80
or above, that is, it stores nothing outside the 80 bytes of that array. -/
theorem handlers_keep_network_config (g : Globals) (packet : Mem) (ip udpData : Nat → Nat)
    (udpSize flag : Nat) (payload : List Nat) (payload_empty : Bool) (l : Nat) :
    networkConfig (etherSendArpResponse g packet).g = networkConfig g
    ∧ networkConfig (etherSendArpRequest g packet ip).g = networkConfig g
    ∧ networkConfig (etherSendGratuitousArpResponse g packet ip).g = networkConfig g
    ∧ networkConfig (etherSendPingResponse g packet).g = networkConfig g
    ∧ networkConfig (etherSendUdpResponse g packet udpData udpSize).g = networkConfig g
    ∧ (IsBytes packet →
        (flag = 0x01 ∨ flag = 0x02 ∨ flag = 0x10 ∨ flag = 0x12
          ∨ (flag = 0x18 ∧ tcpDataLength packet < 80)) →
        ∀ r, sendTcpMsg g packet flag payload payload_empty l = some r →
          networkConfig r.g = networkConfig g
          ∧ ∀ j, 80 ≤ j → r.g.telnet_command j = g.telnet_command j) := by
  refine ⟨networkConfig_of_sameConfig (etherSendArpResponse_sameConfig g packet), ?_, ?_,
    networkConfig_of_sameConfig (etherSendPingResponse_sameConfig g packet), ?_,
    fun hm hflag r h => ⟨networkConfig_of_sameConfig
      (sendTcpMsg_sameConfig g packet flag payload payload_empty l r h),
      sendTcpMsg_inside g packet flag payload payload_empty l r hm hflag h⟩⟩
  · rw [etherSendArpRequest_g]
  · rw [etherSendGratuitousArpResponse_g]
  · obtain ⟨s, hs⟩ := etherSendUdpResponse_g g packet udpData udpSize
    rw [hs]
    rfl

set_option maxRecDepth 8000 in
theorem handlers_keep_network_config_witness :
    IsBytes (Mem.ofList exampleData)
    ∧ tcpDataLength (Mem.ofList exampleData) < 80
    ∧ networkConfig (etherSendPingResponse exampleGlobals (Mem.ofList exampleData)).g
        = networkConfig exampleGlobals
    ∧ ∃ r, sendTcpMsg exampleGlobals (Mem.ofList exampleData) 0x18 [] true 0 = some r
        ∧ networkConfig r.g = networkConfig exampleGlobals
        ∧ ∀ j, 80 ≤ j → r.g.telnet_command j = exampleGlobals.telnet_command j :=
  ⟨ofList_isBytes _ (by decide), by decide,
    (handlers_keep_network_config exampleGlobals (Mem.ofList exampleData)
      (Mem.ofList [192, 168, 2, 1]) (Mem.ofList [1, 2]) 2 0x18 [] true 0).2.2.2.1,
    (Option.isSome_iff_exists.1 (by decide : (sendTcpMsg exampleGlobals (Mem.ofList exampleData)
      0x18 [] true 0).isSome = true)).elim
      (fun r hr => ⟨r, hr,
        (handlers_keep_network_config exampleGlobals (Mem.ofList exampleData)
          (Mem.ofList [192, 168, 2, 1]) (Mem.ofList [1, 2]) 2 0x18 [] true 0).2.2.2.2.2
          (ofList_isBytes _ (by decide)) (Or.inr (Or.inr (Or.inr (Or.inr ⟨rfl, by decide⟩))))
          r hr⟩)⟩

theorem etherIsUdp_g (g : Globals) (packet : Mem) :
    (etherIsUdp g packet).2 = g ∨ ∃ s, (etherIsUdp g packet).2 = { g with sum := s } := by
  unfold etherIsUdp
  by_cases h : (packet (14 + 9) == 0x11) = true
  · right
    exact ⟨_, by rw [if_pos h]⟩
  · left
    rw [if_neg h]

theorem networkConfig_sum (g : Globals) (s : Nat) :
    networkConfig { g with sum := s } = networkConfig g := rfl

/-- C32: the classification predicates do not write the network configuration.  The models
of `etherIsIp`, `etherIsIpUnicast`, `etherIsPingRequest`, `etherIsArpRequest`,
`etherIsArpResponse`, `etherIsUdp`, `etherIsDhcp` and `etherIsTcp` take the buffer as an
argument and return no buffer, the source functions containing no store through `packet`;
`etherIsIpUnicast`, `etherIsPingRequest`, `etherIsArpRequest`, `etherIsArpResponse` and
`etherIsDhcp` return a boolean only, as they store into no global either.  For every buffer
and every state of the globals, the globals after `etherIsIp` and after `etherIsUdp` are
those before the call or differ from them in the accumulator `sum` only, the globals after
`etherIsTcp` differ from those before the call in `port_num` and `tcp_flags` only, and so
all three leave the hardware address, IP address, subnet mask, gateway, DNS server and
lease time as they were. -/
theorem predicates_keep_network_config (g : Globals) (packet : Mem) :
    ((etherIsIp g packet).2 = g ∨ ∃ s, (etherIsIp g packet).2 = { g with sum := s })
    ∧ ((etherIsUdp g packet).2 = g ∨ ∃ s, (etherIsUdp g packet).2 = { g with sum := s })
    ∧ (∃ p f, (etherIsTcp g packet).2 = { g with port_num := p, tcp_flags := f })
    ∧ networkConfig (etherIsIp g packet).2 = networkConfig g
    ∧ networkConfig (etherIsUdp g packet).2 = networkConfig g
    ∧ networkConfig (etherIsTcp g packet).2 = networkConfig g := by
  refine ⟨etherIsIp_g g packet, etherIsUdp_g g packet, etherIsTcp_g g packet,
    networkConfig_of_sameConfig (etherIsIp_sameConfig g packet), ?_,
    networkConfig_of_sameConfig (etherIsTcp_sameConfig g packet)⟩
  rcases etherIsUdp_g g packet with h | ⟨s, h⟩
  · rw [h]
  · rw [h, networkConfig_sum]

/-! ## Fresh accumulator -/

theorem etherIsIp_fresh (g : Globals) (s : Nat) (packet : Mem) :
    (etherIsIp { g with sum := s } packet).1 = (etherIsIp g packet).1 := by
  unfold etherIsIp
  dsimp only
  split <;> rfl

theorem etherIsUdp_fresh (g : Globals) (s : Nat) (packet : Mem) :
    (etherIsUdp { g with sum := s } packet).1 = (etherIsUdp g packet).1 := by
  unfold etherIsUdp
  dsimp only
  split <;> rfl

theorem etherCalcIpChecksum_fresh (g : Globals) (s : Nat) (m : Mem) (ip : Nat) :
    (etherCalcIpChecksum { g with sum := s } m ip).2 = (etherCalcIpChecksum g m ip).2 := by
  unfold etherCalcIpChecksum
  rfl

theorem etherSendPingResponse_fresh (g : Globals) (s : Nat) (packet : Mem) :
    (etherSendPingResponse { g with sum := s } packet).packet
        = (etherSendPingResponse g packet).packet
    ∧ (etherSendPingResponse { g with sum := s } packet).frame
        = (etherSendPingResponse g packet).frame := by
  unfold etherSendPingResponse
  exact ⟨rfl, rfl⟩

theorem etherSendUdpResponse_fresh (g : Globals) (s : Nat) (packet : Mem) (d : Nat → Nat)
    (n : Nat) :
    (etherSendUdpResponse { g with sum := s } packet d n).packet
        = (etherSendUdpResponse g packet d n).packet
    ∧ (etherSendUdpResponse { g with sum := s } packet d n).frame
        = (etherSendUdpResponse g packet d n).frame := by
  unfold etherSendUdpResponse
  exact ⟨rfl, rfl⟩
theorem dhcpSwitch_fresh (g : Globals) (s : Nat) (m : Mem) (dhcp type l : Nat) :
    dhcpSwitch { g with sum := s } m dhcp type l = dhcpSwitch g m dhcp type l := by
  unfold dhcpSwitch
  rfl

theorem dhcpSendMessage_fresh (g : Globals) (s : Nat) (packet : Mem) (type : Nat)
    (ipAdd : Nat → Nat) (l : Nat) :
    (dhcpSendMessage { g with sum := s } packet type ipAdd l).packet
        = (dhcpSendMessage g packet type ipAdd l).packet
    ∧ (dhcpSendMessage { g with sum := s } packet type ipAdd l).frame
        = (dhcpSendMessage g packet type ipAdd l).frame := by
  unfold dhcpSendMessage
  simp only [dhcpSwitch_fresh]
  exact ⟨rfl, rfl⟩

set_option maxRecDepth 8000 in
/-- The `strlen` of `src/str.c` on three memories: an empty string followed by zero bytes
(length 1, the byte at index 0 is not tested first), the string `hi`, and 256 bytes without
a zero byte (the loop does not end). -/
theorem strlen_examples :
    strlen (fun i => ([] : List Nat).getD i 0) = some 1
    ∧ strlen (fun i => [0x68, 0x69, 0].getD i 0) = some 2
    ∧ strlen (fun _ => 0x61) = none := by
  decide

theorem tcpTransmit_fresh (g : Globals) (s : Nat) (m : Mem) (ip tcp l : Nat) :
    tcpTransmit { g with sum := s } m ip tcp l = tcpTransmit g m ip tcp l := by
  unfold tcpTransmit etherCalcIpChecksum
  rfl

theorem tcpPushAck_fresh (g : Globals) (s : Nat) (m : Mem) (ip tcp ps dl : Nat) :
    tcpPushAck { g with sum := s } m ip tcp ps dl = tcpPushAck g m ip tcp ps dl := by
  unfold tcpPushAck
  simp only [tcpTransmit_fresh]

theorem sendTcpMsg_fresh (g : Globals) (s : Nat) (packet : Mem) (flag : Nat)
    (payload : List Nat) (pe : Bool) (l : Nat) :
    sendTcpMsg { g with sum := s } packet flag payload pe l
      = sendTcpMsg g packet flag payload pe l := by
  unfold sendTcpMsg
  dsimp only
  split
  · exact tcpPushAck_fresh g s _ _ _ _ _
  · split
    · rfl
    · unfold tcpTransmit etherCalcIpChecksum
      rfl
/-- C33: fresh accumulator.  For every configuration `g`, every buffer and all arguments,
and any two values `s1`, `s2` of the global accumulator `sum` at the call: `etherIsIp` and
`etherIsUdp` return the same boolean; `etherCalcIpChecksum` leaves the same buffer;
`etherSendPingResponse`, `etherSendUdpResponse` and `dhcpSendMessage` leave the same buffer
and transmit the same frame; and `sendTcpMsg`, on a byte-valued buffer, with one of the
flags `0x01`, `0x02`, `0x10`, `0x12` (any payload and value of `payload_empty`) or with the
flag `0x18` and a data region of fewer than 80 bytes (no store outside `telnet_command`),
has the same result altogether (whether it returns, the globals and the buffer it leaves,
the frames it transmits). -/
theorem checksum_fresh_accumulator (g : Globals) (s1 s2 : Nat) (packet : Mem)
    (ip udpSize type flag l : Nat) (udpData ipAdd : Nat → Nat) (payload : List Nat)
    (payload_empty : Bool) :
    (etherIsIp { g with sum := s1 } packet).1 = (etherIsIp { g with sum := s2 } packet).1
    ∧ (etherIsUdp { g with sum := s1 } packet).1 = (etherIsUdp { g with sum := s2 } packet).1
    ∧ (etherCalcIpChecksum { g with sum := s1 } packet ip).2
        = (etherCalcIpChecksum { g with sum := s2 } packet ip).2
    ∧ (etherSendPingResponse { g with sum := s1 } packet).packet
        = (etherSendPingResponse { g with sum := s2 } packet).packet
    ∧ (etherSendPingResponse { g with sum := s1 } packet).frame
        = (etherSendPingResponse { g with sum := s2 } packet).frame
    ∧ (etherSendUdpResponse { g with sum := s1 } packet udpData udpSize).packet
        = (etherSendUdpResponse { g with sum := s2 } packet udpData udpSize).packet
    ∧ (etherSendUdpResponse { g with sum := s1 } packet udpData udpSize).frame
        = (etherSendUdpResponse { g with sum := s2 } packet udpData udpSize).frame
    ∧ (dhcpSendMessage { g with sum := s1 } packet type ipAdd l).packet
        = (dhcpSendMessage { g with sum := s2 } packet type ipAdd l).packet
    ∧ (dhcpSendMessage { g with sum := s1 } packet type ipAdd l).frame
        = (dhcpSendMessage { g with sum := s2 } packet type ipAdd l).frame
    ∧ (IsBytes packet →
        (flag = 0x01 ∨ flag = 0x02 ∨ flag = 0x10 ∨ flag = 0x12
          ∨ (flag = 0x18 ∧ tcpDataLength packet < 80)) →
        sendTcpMsg { g with sum := s1 } packet flag payload payload_empty l
          = sendTcpMsg { g with sum := s2 } packet flag payload payload_empty l) := by
  exact ⟨(etherIsIp_fresh g s1 packet).trans (etherIsIp_fresh g s2 packet).symm,
    (etherIsUdp_fresh g s1 packet).trans (etherIsUdp_fresh g s2 packet).symm,
    (etherCalcIpChecksum_fresh g s1 packet ip).trans (etherCalcIpChecksum_fresh g s2 packet ip).symm,
    (etherSendPingResponse_fresh g s1 packet).1.trans (etherSendPingResponse_fresh g s2 packet).1.symm,
    (etherSendPingResponse_fresh g s1 packet).2.trans (etherSendPingResponse_fresh g s2 packet).2.symm,
    (etherSendUdpResponse_fresh g s1 packet udpData udpSize).1.trans
      (etherSendUdpResponse_fresh g s2 packet udpData udpSize).1.symm,
    (etherSendUdpResponse_fresh g s1 packet udpData udpSize).2.trans
      (etherSendUdpResponse_fresh g s2 packet udpData udpSize).2.symm,
    (dhcpSendMessage_fresh g s1 packet type ipAdd l).1.trans
      (dhcpSendMessage_fresh g s2 packet type ipAdd l).1.symm,
    (dhcpSendMessage_fresh g s1 packet type ipAdd l).2.trans
      (dhcpSendMessage_fresh g s2 packet type ipAdd l).2.symm,
    fun _ _ => (sendTcpMsg_fresh g s1 packet flag payload payload_empty l).trans
      (sendTcpMsg_fresh g s2 packet flag payload payload_empty l).symm⟩

set_option maxRecDepth 8000 in
theorem checksum_fresh_accumulator_witness :
    IsBytes (Mem.ofList exampleData)
    ∧ tcpDataLength (Mem.ofList exampleData) < 80
    ∧ (etherIsIp { exampleGlobals with sum := 0 } (Mem.ofList exampleData)).1
        = (etherIsIp { exampleGlobals with sum := 0xFFFF } (Mem.ofList exampleData)).1
    ∧ sendTcpMsg { exampleGlobals with sum := 0 } (Mem.ofList exampleData) 0x18
          [0x68, 0x69, 0] false 0
        = sendTcpMsg { exampleGlobals with sum := 0xFFFF } (Mem.ofList exampleData) 0x18
          [0x68, 0x69, 0] false 0
    ∧ sendTcpMsg { exampleGlobals with sum := 0 } (Mem.ofList exampleData) 0x10
          [0x68, 0x69, 0] false 0
        = sendTcpMsg { exampleGlobals with sum := 0xFFFF } (Mem.ofList exampleData) 0x10
          [0x68, 0x69, 0] false 0 :=
  ⟨ofList_isBytes _ (by decide), by decide,
    (checksum_fresh_accumulator exampleGlobals 0 0xFFFF (Mem.ofList exampleData) 14 2 1 0x18 0
      (Mem.ofList [1, 2]) (Mem.ofList [255, 255, 255, 255]) [0x68, 0x69, 0] false).1,
    (checksum_fresh_accumulator exampleGlobals 0 0xFFFF (Mem.ofList exampleData) 14 2 1 0x18 0
      (Mem.ofList [1, 2]) (Mem.ofList [255, 255, 255, 255]) [0x68, 0x69, 0] false).2.2.2.2.2.2.2.2.2
      (ofList_isBytes _ (by decide)) (Or.inr (Or.inr (Or.inr (Or.inr ⟨rfl, by decide⟩)))),
    (checksum_fresh_accumulator exampleGlobals 0 0xFFFF (Mem.ofList exampleData) 14 2 1 0x10 0
      (Mem.ofList [1, 2]) (Mem.ofList [255, 255, 255, 255]) [0x68, 0x69, 0] false).2.2.2.2.2.2.2.2.2
      (ofList_isBytes _ (by decide)) (Or.inr (Or.inr (Or.inl rfl)))⟩

/-! ## Flag byte of the transmitted segment -/

theorem lastFlagByte_single (m : Mem) (n : Nat) (h : 47 < n) :
    lastFlagByte [bytesAt m 0 n] = some (m 47) := by
  show some ((bytesAt m 0 n).getD 47 0) = some (m 47)
  rw [show (bytesAt m 0 n).getD 47 0 = Mem.ofList (bytesAt m 0 n) 47 from rfl,
    ofList_bytesAt m n 47 h]

theorem lastFlagByte_pair (f : List Nat) (m : Mem) (n : Nat) (h : 47 < n) :
    lastFlagByte [f, bytesAt m 0 n] = some (m 47) := by
  show some ((bytesAt m 0 n).getD 47 0) = some (m 47)
  rw [show (bytesAt m 0 n).getD 47 0 = Mem.ofList (bytesAt m 0 n) 47 from rfl,
    ofList_bytesAt m n 47 h]

/-- The flags word the `switch` of `sendTcpMsg` stores for the flags `0x01`, `0x02` and
`0x10` is that of a bare ACK, without options. -/
theorem tcpSwitched_plain (g : Globals) (packet : Mem) (f l : Nat)
    (hf : f = 0x01 ∨ f = 0x02 ∨ f = 0x10) :
    (tcpSwitched g packet f l).1 47 = 0x10 ∧ (tcpSwitched g packet f l).2.2 = 0 := by
  rcases hf with h | h | h
  · rw [h, tcpSwitched_fin]
    exact ⟨by simp [wr16_apply, htons_5010], rfl⟩
  · rw [h]
    unfold tcpSwitched
    rw [show 0x02 % 256 = 0x02 from rfl, tcpSwitch_syn]
    exact ⟨by simp [wr16_apply, htons_5010], rfl⟩
  · rw [h, tcpSwitched_ack]
    exact ⟨by simp [wr16_apply, htons_5010], rfl⟩

/-- C34: the control-flag byte of the last frame `sendTcpMsg` transmits, for each of the five
flag values its `switch` handles.  For every byte-valued buffer holding a received segment
behind a 20-byte IP header and a call without payload: with the requested flag `0x01`,
`0x02` or `0x10` the function returns and the flag byte of the frame it transmits is `0x10`
(a bare ACK: the cases `0x01` and `0x02` store the flags word of the case `0x10`); with
`0x12` it returns and the flag byte is `0x12`; with `0x18`, when the computed data length is
below 65482 and the call returns, the flag byte of the second, last frame is `0x18`.  So
the byte equals the requested flag for `0x10`, `0x12` and `0x18`, and not for `0x01` and
`0x02`. -/
theorem tcp_flag_byte (g : Globals) (packet : Mem) (payload : List Nat) (l : Nat)
    (hm : IsBytes packet) :
    (∀ f, f = 0x01 ∨ f = 0x02 ∨ f = 0x10 →
      ∃ r, sendTcpMsg g packet f payload true l = some r ∧ lastFlagByte r.frames = some 0x10)
    ∧ (∃ r, sendTcpMsg g packet 0x12 payload true l = some r
        ∧ lastFlagByte r.frames = some 0x12)
    ∧ ∀ pe r, tcpDataLength packet < 65482 →
        sendTcpMsg g packet 0x18 payload pe l = some r → lastFlagByte r.frames = some 0x18 := by
  refine ⟨?_, ?_, ?_⟩
  · intro f hf
    obtain ⟨h47, hl⟩ := tcpSwitched_plain g packet f l hf
    obtain ⟨r, h1, h2, -, -, -, h6⟩ := sendTcpMsg_result g packet f payload l
      (by rcases hf with h | h | h <;> rw [h] <;> decide) hm (by rw [hl]; omega)
    refine ⟨r, h1, ?_⟩
    rw [h2, lastFlagByte_single _ _ (by omega), h6 47 (by omega), h47]
  · obtain ⟨r, h1, h2, -, -, -, h6⟩ := sendTcpMsg_result g packet 0x12 payload l (by decide) hm
      (by rw [tcpSwitched_synack]; show 4 < 65482; omega)
    refine ⟨r, h1, ?_⟩
    rw [h2, lastFlagByte_single _ _ (by omega), h6 47 (by omega), tcpSwitched_synack]
    simp [wr16_apply, wr8_apply, htons_6012]
  · intro pe r hdl h
    obtain ⟨s, hs, -, hp, -⟩ := sendTcpMsg_push_some g packet payload pe l r hm h
    obtain ⟨s2, -, -, hf2, -⟩ := sendTcpMsg_push_result g packet payload pe l r hm hdl h
    obtain ⟨k1, -⟩ := telnetScanLoop_keeps 54 _ _ _ _ hs
    have h14 : s.packet 14 = 69 := by
      rw [k1 14 (by omega)]
      exact (telnetStart_data g packet).1
    obtain ⟨c1, c2, hP, -, -⟩ := tcpTransmit_stages
      { (tcpPushFirst g packet).g with
        telnet_command := wr8 s.telnet_command (tcpDataLength packet) 0 }
      s.packet (tcpDataLength packet) h14 hdl
    have hP2 : (tcpPushSecond g packet s).packet
        = wr16 (wr16 (wr16 s.packet 16 (htons (40 + tcpDataLength packet))) 24 c1) 50 c2 := hP
    have h47 : r.packet 47 = 0x18 := by
      rw [hp, hP2, wr16_same _ _ _ _ (by omega) (by omega),
        wr16_same _ _ _ _ (by omega) (by omega), wr16_same _ _ _ _ (by omega) (by omega),
        k1 47 (by omega)]
      show wr16 (wr16 (wr16 (tcpPushFirst g packet).packet 24 0) 46 (htons 0x5018)) 50 0 47 = _
      simp [wr16_apply, htons_5018]
    rw [hf2, lastFlagByte_pair _ _ _ (by omega), h47]

set_option maxRecDepth 8000 in
theorem tcp_flag_byte_witness :
    IsBytes (Mem.ofList exampleData)
    ∧ (∃ r, sendTcpMsg exampleGlobals (Mem.ofList exampleData) 0x01 [] true 0 = some r
        ∧ lastFlagByte r.frames = some 0x10)
    ∧ (∃ r, sendTcpMsg exampleGlobals (Mem.ofList exampleData) 0x02 [] true 0 = some r
        ∧ lastFlagByte r.frames = some 0x10)
    ∧ (∃ r, sendTcpMsg exampleGlobals (Mem.ofList exampleData) 0x12 [] true 0 = some r
        ∧ lastFlagByte r.frames = some 0x12) :=
  ⟨ofList_isBytes _ (by decide),
    (tcp_flag_byte exampleGlobals (Mem.ofList exampleData) [] 0
      (ofList_isBytes _ (by decide))).1 0x01 (Or.inl rfl),
    (tcp_flag_byte exampleGlobals (Mem.ofList exampleData) [] 0
      (ofList_isBytes _ (by decide))).1 0x02 (Or.inr (Or.inl rfl)),
    (tcp_flag_byte exampleGlobals (Mem.ofList exampleData) [] 0
      (ofList_isBytes _ (by decide))).2.1⟩

/-! ## Termination of the telnet scan -/

/-- An IAC byte followed by 0xFA at the current index: the iteration changes nothing, so the
scan has not ended within any bound. -/
theorem telnetScanLoop_stuck (o dl : Nat) (s : TelnetScan) (hi : s.i < dl)
    (h1 : s.packet (o + s.i) = 0xFF) (h2 : s.packet (o + (s.i + 1)) = 0xFA) (fuel : Nat) :
    telnetScanLoop o dl fuel s = none := by
  induction fuel with
  | zero => rfl
  | succ n ih =>
    rw [telnetScanLoop, if_pos hi, telnetScanBody, if_pos h1, if_pos h2]
    exact ih

/-- Without wrap-around of the index (at most 253 data bytes) and with no IAC byte followed
by 0xFA in the data region, the scan ends within `dl - i + 1` tests of its condition. -/
theorem telnetScanLoop_ends (o dl : Nat) (p : Mem) (hdl : dl ≤ 253)
    (hp : ∀ i, i < dl → p (o + i) = 0xFF → p (o + (i + 1)) ≠ 0xFA) :
    ∀ (fuel : Nat) (s : TelnetScan), dl - s.i < fuel →
      (∀ j, o + s.i ≤ j → s.packet j = p j) → ∃ s1, telnetScanLoop o dl fuel s = some s1 := by
  intro fuel
  induction fuel with
  | zero => intro s h; omega
  | succ n ih =>
    intro s hf hs
    rw [telnetScanLoop]
    by_cases hi : s.i < dl
    · rw [if_pos hi]
      have ha := telnetScanBody_ahead o dl s hi hdl
      have hx : s.i < (telnetScanBody o s).i := by
        by_cases h1 : s.packet (o + s.i) = 0xFF
        · have h2 : s.packet (o + (s.i + 1)) ≠ 0xFA := by
            rw [hs _ (by omega)]
            exact hp s.i hi (by rw [← hs _ (Nat.le_refl _)]; exact h1)
          rw [telnetScanBody, if_pos h1, if_neg h2]
          show s.i < (s.i + 3) % 256
          omega
        · rw [telnetScanBody, if_neg h1]
          show s.i < (s.i + 1) % 256
          omega
      exact ih _ (by omega) (fun j hj => by rw [ha j hj, hs j (by omega)])
    · rw [if_neg hi]
      exact ⟨s, rfl⟩

/-- C35: when the telnet scan of `sendTcpMsg` ends.  For every byte-valued buffer holding a
received segment behind a 20-byte IP header: if the data region is not empty and starts with
IAC (0xFF) followed by the sub-negotiation byte 0xFA, the loop of the scan has not ended
within any number of iterations (its body leaves the index where it is), and `sendTcpMsg`
with flag `0x18` does not return: the first frame has been transmitted, the second never is.
If the data region has at most 253 bytes and holds no IAC byte followed by 0xFA, the call
returns and has transmitted two frames. -/
theorem telnet_scan_termination (g : Globals) (packet : Mem) (payload : List Nat) (pe : Bool)
    (l : Nat) (hm : IsBytes packet) :
    (0 < tcpDataLength packet → packet 54 = 0xFF → packet 55 = 0xFA →
      (∀ fuel, telnetScanLoop 54 (tcpDataLength packet) fuel (telnetStart g packet) = none)
      ∧ telnetScanBody 54 (telnetStart g packet) = telnetStart g packet
      ∧ sendTcpMsg g packet 0x18 payload pe l = none)
    ∧ (tcpDataLength packet ≤ 253 →
        (∀ i, i < tcpDataLength packet → packet (54 + i) = 0xFF → packet (54 + (i + 1)) ≠ 0xFA) →
        ∃ r, sendTcpMsg g packet 0x18 payload pe l = some r ∧ r.frames.length = 2) := by
  have hd := (telnetStart_data g packet).2
  refine ⟨fun hdl h1 h2 => ?_, fun hdl hp => ?_⟩
  · have e1 : (telnetStart g packet).packet (54 + (telnetStart g packet).i) = 0xFF := by
      rw [show (telnetStart g packet).i = 0 from rfl, hd _ (by omega)]
      exact h1
    have e2 : (telnetStart g packet).packet (54 + ((telnetStart g packet).i + 1)) = 0xFA := by
      rw [show (telnetStart g packet).i = 0 from rfl, hd _ (by omega)]
      exact h2
    have hs := telnetScanLoop_stuck 54 (tcpDataLength packet) (telnetStart g packet) hdl e1 e2
    refine ⟨hs, ?_, ?_⟩
    · rw [telnetScanBody, if_pos e1, if_pos e2]
    · rw [sendTcpMsg_push g packet 0x18 payload pe l rfl hm, tcpPushAck_eq, hs 196608]
  · obtain ⟨s1, hs1⟩ := telnetScanLoop_ends 54 (tcpDataLength packet) packet hdl hp 196608
      (telnetStart g packet) (by omega) (fun j hj => hd j (by omega))
    rw [sendTcpMsg_push g packet 0x18 payload pe l rfl hm, tcpPushAck_eq, hs1]
    exact ⟨_, rfl, rfl⟩

set_option maxRecDepth 8000 in
theorem telnet_scan_termination_witness :
    IsBytes (Mem.ofList exampleSubnegotiation)
    ∧ tcpDataLength (Mem.ofList exampleSubnegotiation) = 9
    ∧ bytesAt (Mem.ofList exampleSubnegotiation) 54 2 = [0xFF, 0xFA]
    ∧ (∀ fuel, telnetScanLoop 54 (tcpDataLength (Mem.ofList exampleSubnegotiation)) fuel
        (telnetStart exampleGlobals (Mem.ofList exampleSubnegotiation)) = none)
    ∧ sendTcpMsg exampleGlobals (Mem.ofList exampleSubnegotiation) 0x18 [] true 0 = none
    ∧ tcpDataLength (Mem.ofList exampleNegotiation) = 8
    ∧ ∃ r, sendTcpMsg exampleGlobals (Mem.ofList exampleNegotiation) 0x18 [] true 0 = some r
        ∧ r.frames.length = 2 :=
  ⟨ofList_isBytes _ (by decide), by decide, by decide,
    ((telnet_scan_termination exampleGlobals (Mem.ofList exampleSubnegotiation) [] true 0
      (ofList_isBytes _ (by decide))).1 (by decide) (by decide) (by decide)).1,
    ((telnet_scan_termination exampleGlobals (Mem.ofList exampleSubnegotiation) [] true 0
      (ofList_isBytes _ (by decide))).1 (by decide) (by decide) (by decide)).2.2,
    by decide,
    (telnet_scan_termination exampleGlobals (Mem.ofList exampleNegotiation) [] true 0
      (ofList_isBytes _ (by decide))).2 (by decide) (by decide)⟩

/-! ## DHCP magic cookie -/

/-- C36: the DHCP magic cookie on the wire.  The store of the 32-bit value 0x63538263 at any
offset of the little-endian host puts the bytes 0x63, 0x82, 0x53, 0x63 there in that order,
and for every buffer, every message type (any value of the `type` argument), every
destination address and every configuration, the buffer `dhcpSendMessage` leaves and the
frame it transmits hold 0x63, 0x82, 0x53, 0x63 at the offsets 278 to 281 (DHCP offsets 236
to 239 behind the 14-byte Ethernet, 20-byte IP and 8-byte UDP headers). -/
theorem dhcp_magic_cookie (g : Globals) (packet : Mem) (type : Nat) (ipAdd : Nat → Nat)
    (l a : Nat) :
    bytesAt (wr32 packet a 0x63538263) a 4 = [0x63, 0x82, 0x53, 0x63]
    ∧ bytesAt (dhcpSendMessage g packet type ipAdd l).packet 278 4 = [0x63, 0x82, 0x53, 0x63]
    ∧ ((dhcpSendMessage g packet type ipAdd l).frame.drop 278).take 4
        = [0x63, 0x82, 0x53, 0x63] := by
  have hb : bytesAt (dhcpSendMessage g packet type ipAdd l).packet 278 4
      = [0x63, 0x82, 0x53, 0x63] := by
    have e : ∀ j, 278 ≤ j → j < 282 →
        (dhcpSendMessage g packet type ipAdd l).packet j = dhcpFixed g packet ipAdd j :=
      fun j h1 h2 => dhcpSendMessage_common g packet type ipAdd l j (by omega)
    show [_, _, _, _] = _
    simp only [List.range, List.range.loop, List.map]
    rw [e (278 + 0) (by omega) (by omega), e (278 + 1) (by omega) (by omega),
      e (278 + 2) (by omega) (by omega), e (278 + 3) (by omega) (by omega)]
    rfl
  refine ⟨?_, hb, ?_⟩
  · simp [bytesAt, List.range, List.range.loop, wr32_apply]
  · obtain ⟨c1, c2, -, hF, -⟩ := dhcpSendMessage_stages g packet type ipAdd l
    rw [hF, bytesAt_drop, bytesAt_take _ _ _ _ (by omega), hb]

/-! ## Termination and reads of the option walk -/

/-- C37: `dhcpStoreVars` terminates on every buffer.  For every buffer content (hence every
IHL, every IP total length and every option length) and every state of the globals, the
option walk ends: the model, whose loop is bounded by 1792 = 7 × 256 iterations, returns a
result.  More generally the loop ends from every state `s` (any index, any values of the six
`*_accounted` flags) for every 8-bit `length`, within `256 × u + (length - i) + 1` tests of
its condition, `u` being the number of flags still false: each iteration either advances the
8-bit index by one without wrapping or sets one of the six flags, which are never cleared. -/
theorem dhcpStoreVars_terminates (g : Globals) (packet : Mem) (o length : Nat) (s : DhcpWalk) :
    (∃ g1, dhcpStoreVars g packet = some g1)
    ∧ ∃ s1, dhcpStoreLoop packet o (length % 256)
        (256 * s.unset + (length % 256 - s.i) + 1) s = some s1 :=
  ⟨dhcpStoreVars_total g packet,
    dhcpStoreLoop_total packet o (length % 256) (by omega) _ s
      (by unfold DhcpWalk.variant; omega)⟩

/-- An iteration of the loop of `dhcpStoreVars` at an index below 255 depends on the six
option bytes from the index on only. -/
theorem dhcpStoreBody_congr (p q : Mem) (o : Nat) (s : DhcpWalk)
    (h : ∀ k, k ≤ 5 → p (o + (s.i + k)) = q (o + (s.i + k))) :
    dhcpStoreBody p o s = dhcpStoreBody q o s := by
  have h0 : p (o + s.i) = q (o + s.i) := h 0 (by omega)
  have h1 := h 1 (by omega)
  have h2 := h 2 (by omega)
  have h3 := h 3 (by omega)
  have h4 := h 4 (by omega)
  have h5 := h 5 (by omega)
  unfold dhcpStoreBody dhcpSkip
  rw [h0, h1, h2, h3, h4, h5]

theorem dhcpStoreLoop_congr (p q : Mem) (o L : Nat) (hL : L ≤ 255)
    (h : ∀ j, o ≤ j → j ≤ o + 259 → p j = q j) (fuel : Nat) (s : DhcpWalk) :
    dhcpStoreLoop p o L fuel s = dhcpStoreLoop q o L fuel s := by
  induction fuel generalizing s with
  | zero => rfl
  | succ n ih =>
    rw [dhcpStoreLoop, dhcpStoreLoop]
    by_cases hi : s.i < L
    · rw [if_pos hi, if_pos hi,
        dhcpStoreBody_congr p q o s (fun k hk => h _ (by omega) (by omega))]
      exact ih _
    · rw [if_neg hi, if_neg hi]

/-- C38: `dhcpStoreVars` reads no byte outside the 1522-byte receive buffer.  For every
state of the globals and any two buffer contents that agree at every index up to
14 + 4 × IHL + 8 + 240 + 260 (IHL being the low nibble of the byte at offset 14, any IP total
length and any option lengths), `dhcpStoreVars` has the same result: what it does is
determined by the bytes at these indices, whatever lies beyond them.  The bound is at most
582 and so below 1522. -/
theorem dhcpStoreVars_reads_bounded (g : Globals) (p q : Mem)
    (h : ∀ j, j ≤ 14 + 4 * (p 14 % 16) + 8 + 240 + 260 → p j = q j) :
    dhcpStoreVars g p = dhcpStoreVars g q
    ∧ 14 + 4 * (p 14 % 16) + 8 + 240 + 260 ≤ 582
    ∧ 14 + 4 * (p 14 % 16) + 8 + 240 + 260 < 1522 := by
  have h14 : p 14 = q 14 := h 14 (by omega)
  refine ⟨?_, by omega, by omega⟩
  unfold dhcpStoreVars
  simp only [and_f, rd16]
  rw [← h14, ← h 16 (by omega), ← h 17 (by omega),
    ← h (14 + p 14 % 16 * 4 + 8 + 16 + 0) (by omega),
    ← h (14 + p 14 % 16 * 4 + 8 + 16 + 1) (by omega),
    ← h (14 + p 14 % 16 * 4 + 8 + 16 + 2) (by omega),
    ← h (14 + p 14 % 16 * 4 + 8 + 16 + 3) (by omega)]
  rw [dhcpStoreLoop_congr p q (14 + p 14 % 16 * 4 + 8 + 240) _
    (by
      have := Nat.mod_lt (htons (p (14 + 2) + 256 * p (14 + 2 + 1)) + 512 - ipHeaderLength
        - udpHeaderLength - dhcpSize) (show 256 > 0 by omega)
      omega)
    (fun j h1 h2 => h j (by omega))]

set_option maxRecDepth 8000 in
theorem dhcpStoreVars_reads_bounded_witness :
    (∀ j, j ≤ 14 + 4 * (Mem.ofList exampleOffer 14 % 16) + 8 + 240 + 260 →
      Mem.ofList exampleOffer j
        = (fun i => if i < 600 then Mem.ofList exampleOffer i else 255) j)
    ∧ Mem.ofList exampleOffer 1000 = 0
    ∧ dhcpStoreVars exampleGlobals (Mem.ofList exampleOffer)
        = dhcpStoreVars exampleGlobals
            (fun i => if i < 600 then Mem.ofList exampleOffer i else 255) :=
  ⟨fun j hj => (if_pos (Nat.lt_of_le_of_lt hj (by decide))).symm, by decide,
    (dhcpStoreVars_reads_bounded exampleGlobals (Mem.ofList exampleOffer)
      (fun i => if i < 600 then Mem.ofList exampleOffer i else 255)
      (fun j hj => (if_pos (Nat.lt_of_le_of_lt hj (by decide))).symm)).1⟩

/-! ## IP header of the echo reply -/

theorem wsum_four (m : Mem) (p : Nat) :
    wsum m 4 p false = m p + 256 * m (p + 1) + (m (p + 2) + 256 * m (p + 3)) := by
  rw [show (4 : Nat) = 2 * 1 + 2 from rfl, wsum_add, wsum_two, wsum_two]

theorem bytesAt_shift (m1 m2 : Mem) (a b n : Nat) (h : ∀ i, i < n → m1 (a + i) = m2 (b + i)) :
    bytesAt m1 a n = bytesAt m2 b n := by
  unfold bytesAt
  apply List.map_congr_left
  intro i hi
  exact h i (List.mem_range.1 hi)

/-- The buffer `etherSendPingResponse` leaves, below the ICMP header of a datagram whose IP
header has at least five words. -/
theorem etherSendPingResponse_header (g : Globals) (packet : Mem) (hm : IsBytes packet)
    (j : Nat) (h1 : 12 ≤ j) (h2 : j < 14 + packet 14 % 16 * 4) :
    (etherSendPingResponse g packet).packet j
      = if 26 ≤ j ∧ j < 30 then packet (j + 4)
        else if 30 ≤ j ∧ j < 34 then packet (j - 4) else packet j := by
  rw [etherSendPingResponse_packet g packet hm, and_f,
    wr16_same _ _ _ _ (by omega) (by omega), pingSwapped_apply, and_f,
    if_neg (by omega), if_neg (by omega), if_neg (by omega)]

theorem etherSendPingResponse_isBytes (g : Globals) (packet : Mem) (hm : IsBytes packet) :
    IsBytes (etherSendPingResponse g packet).packet := by
  rw [etherSendPingResponse_packet g packet hm]
  exact wr16_isBytes _ (pingSwapped_isBytes packet hm) _ _

/-- C40: the echo reply keeps a valid IP header without recomputing its checksum.  For every
buffer of bytes whose IHL is at least 5 (5 to 15) and that `etherIsIp` accepts, `etherIsIp`
accepts the buffer `etherSendPingResponse` leaves (whatever the accumulator then holds); in
that buffer the IP source and destination addresses are those of the input exchanged, and the
version/IHL byte, the IP total length and the IP header checksum field are those of the
input. -/
theorem ping_reply_keeps_ip_header (g g0 : Globals) (packet : Mem) (hm : IsBytes packet)
    (h5 : 5 ≤ packet 14 % 16) (hip : (etherIsIp g packet).1 = true) :
    (etherIsIp g0 (etherSendPingResponse g packet).packet).1 = true
    ∧ bytesAt (etherSendPingResponse g packet).packet 26 4 = bytesAt packet 30 4
    ∧ bytesAt (etherSendPingResponse g packet).packet 30 4 = bytesAt packet 26 4
    ∧ (etherSendPingResponse g packet).packet 14 = packet 14
    ∧ bytesAt (etherSendPingResponse g packet).packet 16 2 = bytesAt packet 16 2
    ∧ bytesAt (etherSendPingResponse g packet).packet 24 2 = bytesAt packet 24 2 := by
  have e := etherSendPingResponse_header g packet hm
  have hb := etherSendPingResponse_isBytes g packet hm
  have e14 : (etherSendPingResponse g packet).packet 14 = packet 14 := by
    rw [e 14 (by omega) (by omega), if_neg (by omega), if_neg (by omega)]
  refine ⟨?_, ?_, ?_, e14, ?_, ?_⟩
  · rw [etherIsIp_true_iff g packet hm] at hip
    rw [etherIsIp_true_iff g0 _ hb, e14]
    obtain ⟨k, hk⟩ : ∃ k, packet 14 % 16 * 4 = 2 * 6 + (2 * 2 + (2 * 2 + k)) :=
      ⟨packet 14 % 16 * 4 - 20, by omega⟩
    refine ⟨?_, ?_, ?_⟩
    · rw [e 12 (by omega) (by omega), if_neg (by omega), if_neg (by omega)]
      exact hip.1
    · rw [e 13 (by omega) (by omega), if_neg (by omega), if_neg (by omega)]
      exact hip.2.1
    · have hw : wsum (etherSendPingResponse g packet).packet (packet 14 % 16 * 4) 14 false
          = wsum packet (packet 14 % 16 * 4) 14 false := by
        rw [hk, wsum_add, wsum_add, wsum_add, wsum_add, wsum_add, wsum_add]
        rw [wsum_congr (etherSendPingResponse g packet).packet packet (2 * 6) 14 false
          (fun i hi => by
            rw [e (14 + i) (by omega) (by omega), if_neg (by omega), if_neg (by omega)])]
        rw [wsum_congr (etherSendPingResponse g packet).packet packet k
          (14 + 2 * 6 + 2 * 2 + 2 * 2) false
          (fun i hi => by
            rw [e _ (by omega) (by omega), if_neg (by omega), if_neg (by omega)])]
        rw [show 2 * 2 = 4 from rfl, wsum_four, wsum_four, wsum_four, wsum_four]
        rw [e (14 + 2 * 6) (by omega) (by omega), e (14 + 2 * 6 + 1) (by omega) (by omega),
          e (14 + 2 * 6 + 2) (by omega) (by omega), e (14 + 2 * 6 + 3) (by omega) (by omega),
          e (14 + 2 * 6 + 4) (by omega) (by omega), e (14 + 2 * 6 + 4 + 1) (by omega) (by omega),
          e (14 + 2 * 6 + 4 + 2) (by omega) (by omega),
          e (14 + 2 * 6 + 4 + 3) (by omega) (by omega)]
        simp only [show 14 + 2 * 6 = 26 from rfl]
        norm_num
        omega
      rw [hw]
      exact hip.2.2
  · exact bytesAt_shift _ _ 26 30 4 (fun i hi => by
      rw [e (26 + i) (by omega) (by omega), if_pos (by omega)]
      congr 1
      omega)
  · exact bytesAt_shift _ _ 30 26 4 (fun i hi => by
      rw [e (30 + i) (by omega) (by omega), if_neg (by omega), if_pos (by omega)]
      congr 1
      omega)
  · exact bytesAt_congr _ _ _ _ (fun i hi => by
      rw [e (16 + i) (by omega) (by omega), if_neg (by omega), if_neg (by omega)])
  · exact bytesAt_congr _ _ _ _ (fun i hi => by
      rw [e (24 + i) (by omega) (by omega), if_neg (by omega), if_neg (by omega)])

set_option maxRecDepth 8000 in
theorem ping_reply_keeps_ip_header_witness :
    IsBytes (Mem.ofList examplePingOptions)
    ∧ Mem.ofList examplePingOptions 14 % 16 = 6
    ∧ (etherIsIp exampleGlobals (Mem.ofList examplePingOptions)).1 = true
    ∧ (etherIsIp exampleGlobals
        (etherSendPingResponse exampleGlobals (Mem.ofList examplePingOptions)).packet).1 = true
    ∧ bytesAt (etherSendPingResponse exampleGlobals (Mem.ofList examplePingOptions)).packet 24 10
        = [242, 10, 192, 168, 2, 123, 192, 168, 2, 1] :=
  ⟨ofList_isBytes _ (by decide), by decide, by decide,
    (ping_reply_keeps_ip_header exampleGlobals exampleGlobals (Mem.ofList examplePingOptions)
      (ofList_isBytes _ (by decide)) (by decide) (by decide)).1,
    by decide⟩

/-! ## Capture of the offered addresses -/

/-- The globals `dhcpSendMessage` leaves: those of the call with `yiaddr`, `siaddr` and
`si_yi_clear` as the `switch` leaves them, and another accumulator. -/
theorem dhcpSendMessage_g (g : Globals) (packet : Mem) (type : Nat) (ipAdd : Nat → Nat)
    (l : Nat) :
    ∃ s, (dhcpSendMessage g packet type ipAdd l).g
      = { g with
          yiaddr := (dhcpSwitch g (dhcpFixed g packet ipAdd) 42 (type % 256) l).1
          siaddr := (dhcpSwitch g (dhcpFixed g packet ipAdd) 42 (type % 256) l).2.1
          si_yi_clear := (dhcpSwitch g (dhcpFixed g packet ipAdd) 42 (type % 256) l).2.2.1
          sum := s } := by
  unfold dhcpSendMessage
  lift_lets
  extract_lets t id m1 m2 ip m3 m4 m5 m6 m7 m8 m9 m10 udp m11 m12 m13 dhcp m14 m15 m16 m17 m18 m19
    m20 m21 m22 m23 sw m24 lenOpts g1 m25 m26 c m27 sum0 sum1 tmp16 sum2 sum3 sum4 sum5 r m28
  have h10 : m10 ip = 69 := by
    simp only [m10, m9, m8, m7, m6, m5, m4, m3, m2, ip,
      dhcpIpLoop_at, wr16_apply, wr8_apply]
    simp
  have hudp : udp = 34 := by simp only [udp, h10, ip]; rfl
  have hdhcp : dhcp = 42 := by simp only [dhcp, hudp]
  have h23 : m23 = dhcpFixed g packet ipAdd := by
    funext j
    simp only [m23, m22, m21, m20, m19, m18, m17, m16, m15, m14, m13, m12, m11, m10, m9, m8, m7,
      m6, m5, m4, m3, m2, m1, id, hdhcp, hudp, ip,
      wr32_apply, wr16_apply, wr8_apply, dhcpDataLoop_at, dhcpChaddrLoop_at, dhcpIpLoop_at,
      dhcpEtherLoop_at, htons_7147, htons_68, htons_67, htons_0800, IPv4_frame, ip_udp,
      Nat.reduceAdd, Nat.reduceMod, Nat.reduceDiv]
    rfl
  have hsw : sw = dhcpSwitch g (dhcpFixed g packet ipAdd) 42 (type % 256) l := by
    simp only [sw, h23, hdhcp, t]
  refine ⟨r.2, ?_⟩
  rw [← hsw]
  show ({ (etherCalcIpChecksum g1 m26 ip).1 with sum := r.2 } : Globals) = _
  unfold etherCalcIpChecksum
  simp only [g1]
theorem getSiaddrLoop_apply (siaddr : Nat → Nat) (n i : Nat) (t : Nat → Nat) (j : Nat) :
    getSiaddrLoop siaddr n i t j = if i ≤ j ∧ j < i + n then siaddr j else t j := by
  induction n generalizing i t with
  | zero =>
    rw [getSiaddrLoop, if_neg (by omega)]
  | succ n ih =>
    rw [getSiaddrLoop, ih, wr8_apply]
    by_cases h1 : i + 1 ≤ j ∧ j < i + 1 + n
    · rw [if_pos h1, if_pos (by omega)]
    · rw [if_neg h1]
      by_cases h2 : j = i
      · rw [if_pos h2, if_pos (by omega), h2]
      · rw [if_neg h2, if_neg (by omega)]

theorem get_siaddr_bytes (g : Globals) (t : Nat → Nat) :
    bytesAt (get_siaddr g t) 0 4 = bytesAt g.siaddr 0 4 :=
  bytesAt_congr _ _ _ _ (fun i hi => by
    unfold get_siaddr
    rw [getSiaddrLoop_apply, if_pos (by omega)])

/-- Once `si_yi_clear` is false, the `switch` of `dhcpSendMessage` leaves `yiaddr`, `siaddr`
and `si_yi_clear` as they are, whatever the message type. -/
theorem dhcpSwitch_captured (g : Globals) (m : Mem) (dhcp type l : Nat)
    (h : g.si_yi_clear = false) :
    (dhcpSwitch g m dhcp type l).1 = g.yiaddr ∧ (dhcpSwitch g m dhcp type l).2.1 = g.siaddr
    ∧ (dhcpSwitch g m dhcp type l).2.2.1 = false := by
  by_cases h1 : type = 1
  · rw [h1, dhcpSwitch_discover]
    exact ⟨rfl, rfl, h⟩
  by_cases h3 : type = 3
  · rw [h3, dhcpSwitch_request, h]
    exact ⟨(dhcpRequestLoop_keep dhcp 4 0 g.yiaddr g.siaddr m).1,
      (dhcpRequestLoop_keep dhcp 4 0 g.yiaddr g.siaddr m).2, rfl⟩
  by_cases h7 : type = 7
  · rw [h7, dhcpSwitch_release]
    exact ⟨rfl, rfl, h⟩
  rw [dhcpSwitch_other _ _ _ _ _ h1 h3 h7]
  exact ⟨rfl, rfl, h⟩

theorem dhcpSendMessage_captured (g : Globals) (packet : Mem) (type : Nat) (ipAdd : Nat → Nat)
    (l : Nat) (h : g.si_yi_clear = false) :
    (dhcpSendMessage g packet type ipAdd l).g.yiaddr = g.yiaddr
    ∧ (dhcpSendMessage g packet type ipAdd l).g.siaddr = g.siaddr
    ∧ (dhcpSendMessage g packet type ipAdd l).g.si_yi_clear = false := by
  obtain ⟨s, hs⟩ := dhcpSendMessage_g g packet type ipAdd l
  obtain ⟨k1, k2, k3⟩ := dhcpSwitch_captured g (dhcpFixed g packet ipAdd) 42 (type % 256) l h
  generalize (dhcpSendMessage g packet type ipAdd l).g = G at hs
  generalize dhcpSwitch g (dhcpFixed g packet ipAdd) 42 (type % 256) l = S at hs k1 k2 k3
  subst hs
  exact ⟨k1, k2, k3⟩
theorem dhcpSendAll_captured (calls : List (Mem × Nat × (Nat → Nat) × Nat)) (g : Globals)
    (h : g.si_yi_clear = false) :
    (dhcpSendAll g calls).yiaddr = g.yiaddr ∧ (dhcpSendAll g calls).siaddr = g.siaddr
    ∧ (dhcpSendAll g calls).si_yi_clear = false := by
  induction calls generalizing g with
  | nil => exact ⟨rfl, rfl, h⟩
  | cons c cs ih =>
    obtain ⟨a1, a2, a3⟩ := dhcpSendMessage_captured g c.1 c.2.1 c.2.2.1 c.2.2.2 h
    obtain ⟨b1, b2, b3⟩ := ih (dhcpSendMessage g c.1 c.2.1 c.2.2.1 c.2.2.2).g a3
    unfold dhcpSendAll at b1 b2 b3 ⊢
    rw [List.foldl_cons]
    exact ⟨b1.trans a1, b2.trans a2, b3⟩
/-- The first `DHCPREQUEST`, sent while `si_yi_clear` holds, captures the `yiaddr` and
`siaddr` fields of its buffer and clears `si_yi_clear`. -/
theorem dhcpRequest_captures (g : Globals) (packet : Mem) (ipAdd : Nat → Nat) (l : Nat)
    (h : g.si_yi_clear = true) :
    (dhcpSendMessage g packet DHCPREQUEST ipAdd l).g.si_yi_clear = false
    ∧ bytesAt (dhcpSendMessage g packet DHCPREQUEST ipAdd l).g.yiaddr 0 4 = bytesAt packet 58 4
    ∧ bytesAt (dhcpSendMessage g packet DHCPREQUEST ipAdd l).g.siaddr 0 4
        = bytesAt packet 62 4 := by
  obtain ⟨s, hs⟩ := dhcpSendMessage_g g packet DHCPREQUEST ipAdd l
  rw [hs, show DHCPREQUEST % 256 = 3 from rfl, dhcpSwitch_request, h]
  refine ⟨rfl, bytesAt_shift _ _ 0 58 4 (fun i hi => ?_), bytesAt_shift _ _ 0 62 4 (fun i hi => ?_)⟩
  · show (dhcpRequestLoop true 42 4 0 (g.yiaddr, g.siaddr, dhcpFixed g packet ipAdd)).1 (0 + i) = _
    rw [dhcpRequestLoop_yiaddr_at _ _ _ _ (by omega),
      dhcpFixed_offer _ _ _ _ (by omega) (by omega), Nat.zero_add]
  · show (dhcpRequestLoop true 42 4 0 (g.yiaddr, g.siaddr, dhcpFixed g packet ipAdd)).2.1 (0 + i)
      = _
    rw [dhcpRequestLoop_siaddr_at _ _ _ _ (by omega),
      dhcpFixed_offer _ _ _ _ (by omega) (by omega), Nat.zero_add]

/-- The options 50 and 54 of a `DHCPREQUEST` sent when `si_yi_clear` is false hold the
globals `yiaddr` and `siaddr`. -/
theorem dhcpRequest_options (g : Globals) (packet : Mem) (ipAdd : Nat → Nat) (l : Nat)
    (h : g.si_yi_clear = false) :
    bytesAt (dhcpSendMessage g packet DHCPREQUEST ipAdd l).packet 285 12
      = [50, 4, g.yiaddr 0, g.yiaddr 1, g.yiaddr 2, g.yiaddr 3,
         54, 4, g.siaddr 0, g.siaddr 1, g.siaddr 2, g.siaddr 3] := by
  have e : dhcpSized g packet DHCPREQUEST ipAdd l
      = wr16 (wr16 (dhcpRequestStores
          (dhcpRequestLoop g.si_yi_clear 42 4 0 (g.yiaddr, g.siaddr, dhcpFixed g packet ipAdd)).1
          (dhcpRequestLoop g.si_yi_clear 42 4 0 (g.yiaddr, g.siaddr, dhcpFixed g packet ipAdd)).2.1
          (dhcpRequestLoop g.si_yi_clear 42 4 0 (g.yiaddr, g.siaddr, dhcpFixed g packet ipAdd)).2.2
          42 3) 16 (htons 290)) 38 (htons 270) := rfl
  have k : ∀ j, 285 ≤ j → j < 297 →
      (dhcpSendMessage g packet DHCPREQUEST ipAdd l).packet j
        = dhcpRequestStores g.yiaddr g.siaddr
            (dhcpRequestLoop false 42 4 0 (g.yiaddr, g.siaddr, dhcpFixed g packet ipAdd)).2.2
            42 3 j := by
    intro j h1 h2
    rw [dhcpSendMessage_keeps _ _ _ _ _ _ (by omega), e, h,
      wr16_same _ _ _ _ (by omega) (by omega), wr16_same _ _ _ _ (by omega) (by omega),
      (dhcpRequestLoop_keep 42 4 0 g.yiaddr g.siaddr (dhcpFixed g packet ipAdd)).1,
      (dhcpRequestLoop_keep 42 4 0 g.yiaddr g.siaddr (dhcpFixed g packet ipAdd)).2]
  show [_, _, _, _, _, _, _, _, _, _, _, _] = _
  simp only [List.range, List.range.loop, List.map]
  rw [k (285 + 0) (by omega) (by omega), k (285 + 1) (by omega) (by omega),
    k (285 + 2) (by omega) (by omega), k (285 + 3) (by omega) (by omega),
    k (285 + 4) (by omega) (by omega), k (285 + 5) (by omega) (by omega),
    k (285 + 6) (by omega) (by omega), k (285 + 7) (by omega) (by omega),
    k (285 + 8) (by omega) (by omega), k (285 + 9) (by omega) (by omega),
    k (285 + 10) (by omega) (by omega), k (285 + 11) (by omega) (by omega)]
  simp only [dhcpRequestStores_apply, Nat.reduceAdd]
  simp
/-- C39: the offered addresses are captured only once.  Let a first `dhcpSendMessage` call
of type `DHCPREQUEST` be made while `si_yi_clear` holds (its start-up value), on the buffer
`p1`.  It clears `si_yi_clear`.  Then, after any sequence `calls` of further
`dhcpSendMessage` calls (of any type, on any buffers), a `DHCPREQUEST` call on any buffer
`p2` leaves at offsets 285 to 296 the options 50 and 54 with the `yiaddr` bytes (offsets 58
to 61) and `siaddr` bytes (offsets 62 to 65) that `p1` held at the first call, whatever `p2`
holds in these fields, and `get_siaddr`, before and after that later call, gives the
`siaddr` bytes of `p1`. -/
theorem dhcp_offer_captured_once (g : Globals) (p1 p2 : Mem) (a1 a2 : Nat → Nat) (l1 l2 : Nat)
    (calls : List (Mem × Nat × (Nat → Nat) × Nat)) (temp_ip : Nat → Nat)
    (hclear : g.si_yi_clear = true) :
    (dhcpSendMessage g p1 DHCPREQUEST a1 l1).g.si_yi_clear = false
    ∧ bytesAt (dhcpSendMessage (dhcpSendAll (dhcpSendMessage g p1 DHCPREQUEST a1 l1).g calls)
        p2 DHCPREQUEST a2 l2).packet 285 12
        = [50, 4] ++ bytesAt p1 58 4 ++ [54, 4] ++ bytesAt p1 62 4
    ∧ bytesAt (get_siaddr (dhcpSendAll (dhcpSendMessage g p1 DHCPREQUEST a1 l1).g calls)
        temp_ip) 0 4 = bytesAt p1 62 4
    ∧ bytesAt (get_siaddr (dhcpSendMessage
        (dhcpSendAll (dhcpSendMessage g p1 DHCPREQUEST a1 l1).g calls)
        p2 DHCPREQUEST a2 l2).g temp_ip) 0 4 = bytesAt p1 62 4 := by
  obtain ⟨c1, c2, c3⟩ := dhcpRequest_captures g p1 a1 l1 hclear
  obtain ⟨d1, d2, d3⟩ := dhcpSendAll_captured calls (dhcpSendMessage g p1 DHCPREQUEST a1 l1).g c1
  obtain ⟨e1, e2, e3⟩ := dhcpSendMessage_captured
    (dhcpSendAll (dhcpSendMessage g p1 DHCPREQUEST a1 l1).g calls) p2 DHCPREQUEST a2 l2 d3
  have hy : ∀ k, k < 4 → (dhcpSendMessage g p1 DHCPREQUEST a1 l1).g.yiaddr k = p1 (58 + k) := by
    intro k hk
    have := congrArg (fun L => L.getD k 0) c2
    simpa [bytesAt, hk] using this
  have hs : ∀ k, k < 4 → (dhcpSendMessage g p1 DHCPREQUEST a1 l1).g.siaddr k = p1 (62 + k) := by
    intro k hk
    have := congrArg (fun L => L.getD k 0) c3
    simpa [bytesAt, hk] using this
  refine ⟨c1, ?_, ?_, ?_⟩
  · rw [dhcpRequest_options _ p2 a2 l2 d3, d1, d2, hy 0 (by omega), hy 1 (by omega),
      hy 2 (by omega), hy 3 (by omega), hs 0 (by omega), hs 1 (by omega), hs 2 (by omega),
      hs 3 (by omega)]
    rfl
  · rw [get_siaddr_bytes, d2, c3]
  · rw [get_siaddr_bytes, e2, d2, c3]

set_option maxRecDepth 8000 in
theorem dhcp_offer_captured_once_witness :
    exampleGlobals.si_yi_clear = true
    ∧ bytesAt (Mem.ofList (exampleOffer.set 61 77)) 58 8 = [192, 168, 2, 77, 192, 168, 2, 1]
    ∧ bytesAt (dhcpSendMessage (dhcpSendAll (dhcpSendMessage exampleGlobals
        (Mem.ofList exampleOffer) DHCPREQUEST (Mem.ofList [255, 255, 255, 255]) 0).g
          [(Mem.ofList exampleOffer, DHCPRELEASE, Mem.ofList [192, 168, 2, 1], 0)])
        (Mem.ofList (exampleOffer.set 61 77)) DHCPREQUEST
        (Mem.ofList [255, 255, 255, 255]) 0).packet 285 12
        = [50, 4, 192, 168, 2, 50, 54, 4, 192, 168, 2, 1]
    ∧ bytesAt (get_siaddr (dhcpSendMessage (dhcpSendAll (dhcpSendMessage exampleGlobals
        (Mem.ofList exampleOffer) DHCPREQUEST (Mem.ofList [255, 255, 255, 255]) 0).g
          [(Mem.ofList exampleOffer, DHCPRELEASE, Mem.ofList [192, 168, 2, 1], 0)])
        (Mem.ofList (exampleOffer.set 61 77)) DHCPREQUEST
        (Mem.ofList [255, 255, 255, 255]) 0).g (fun _ => 0)) 0 4 = [192, 168, 2, 1] :=
  ⟨rfl, by decide,
    (dhcp_offer_captured_once exampleGlobals (Mem.ofList exampleOffer)
      (Mem.ofList (exampleOffer.set 61 77)) (Mem.ofList [255, 255, 255, 255])
      (Mem.ofList [255, 255, 255, 255]) 0 0
      [(Mem.ofList exampleOffer, DHCPRELEASE, Mem.ofList [192, 168, 2, 1], 0)] (fun _ => 0)
      rfl).2.1.trans (by decide),
    (dhcp_offer_captured_once exampleGlobals (Mem.ofList exampleOffer)
      (Mem.ofList (exampleOffer.set 61 77)) (Mem.ofList [255, 255, 255, 255])
      (Mem.ofList [255, 255, 255, 255]) 0 0
      [(Mem.ofList exampleOffer, DHCPRELEASE, Mem.ofList [192, 168, 2, 1], 0)] (fun _ => 0)
      rfl).2.2.2.trans (by decide)⟩

end Eth0
